import Mathlib

/-!
# Draw-transform and render-surface walk of `cc/layer_tree_host_common.cc`

A shallow embedding of `LayerTreeHostCommon::calculateDrawTransforms` and of the
helpers it is built from, followed by theorems about them.

Conventions of the embedding

* `float` and `double` values are idealised as rational numbers (`ℚ`): every
  arithmetic step is exact. The theorems follow the products and quotients of
  the code step by step. Where the code mixes `float` and `double` (it
  subtracts the scroll delta in `float` and adds it back in `double`, it takes
  the reciprocal of the sublayer scale in `float`), an identity between two
  different computations holds over `ℚ` and holds of the code up to rounding
  only; such identities are lemmas here and are not stated of the code.
* A layer pointer is the position of the layer in the tree (`LayerId`): the list
  of child indices leading to it, innermost index first, `[]` for the root.
* The mutable members of the layers, the render surfaces they own and the
  render-surface layer list are threaded through the walk as a `State`.
* The platform geometry types and `MathUtil` are declared outside
  `layer_tree_host_common.cc`; the rectangle and matrix algebra is modelled
  from the specification, the remaining helpers are parameters of the walk
  (`MathUtil`).
-/

namespace cc

/-! ## Platform geometry -/

/-- Integer size (`IntSize`). -/
structure IntSize where
  width : Int
  height : Int
deriving DecidableEq

/-- Modelled from the spec: `IntSize::isEmpty`, declared outside src/. A size
with a non-positive dimension is empty. -/
def IntSize.isEmpty (s : IntSize) : Bool :=
  decide (s.width ≤ 0) || decide (s.height ≤ 0)

/-- Integer point (`IntPoint`). -/
structure IntPoint where
  x : Int
  y : Int
deriving DecidableEq

/-- Floating-point point (`FloatPoint`), coordinates idealised as rationals. -/
structure FloatPoint where
  x : ℚ
  y : ℚ
deriving DecidableEq

/-- Floating-point size (`FloatSize`), used for scroll deltas. -/
structure FloatSize where
  width : ℚ
  height : ℚ
deriving DecidableEq

/-- Modelled from the spec: `FloatSize::isZero`, declared outside src/. -/
def FloatSize.isZero (s : FloatSize) : Bool :=
  decide (s.width = 0) && decide (s.height = 0)

/-- Integer rectangle (`IntRect`): origin and size. -/
structure IntRect where
  x : Int
  y : Int
  width : Int
  height : Int
deriving DecidableEq

namespace IntRect

/-- The default-constructed rectangle `IntRect()`. -/
def zero : IntRect := ⟨0, 0, 0, 0⟩

/-- The rectangle `IntRect(IntPoint(), size)`. -/
def ofSize (s : IntSize) : IntRect := ⟨0, 0, s.width, s.height⟩

def maxX (r : IntRect) : Int := r.x + r.width

def maxY (r : IntRect) : Int := r.y + r.height

/-- Modelled from the spec: `IntRect::isEmpty`, declared outside src/. -/
def isEmpty (r : IntRect) : Bool :=
  decide (r.width ≤ 0) || decide (r.height ≤ 0)

/-- Modelled from the spec: `IntRect::contains(const IntRect&)`, declared
outside src/: a comparison of the four edges. -/
def contains (r other : IntRect) : Bool :=
  decide (r.x ≤ other.x) && decide (other.maxX ≤ r.maxX) &&
    decide (r.y ≤ other.y) && decide (other.maxY ≤ r.maxY)

/-- Modelled from the spec: `IntRect::intersect`, declared outside src/. The
common part of two rectangles, the zero rectangle when they do not overlap. -/
def intersect (r other : IntRect) : IntRect :=
  let l := max r.x other.x
  let t := max r.y other.y
  let rt := min r.maxX other.maxX
  let b := min r.maxY other.maxY
  if l ≥ rt ∨ t ≥ b then zero else ⟨l, t, rt - l, b - t⟩

/-- Modelled from the spec: `IntRect::unite`, declared outside src/. The
bounding box of two rectangles; an empty operand is ignored. -/
def unite (r other : IntRect) : IntRect :=
  if other.isEmpty then r
  else if r.isEmpty then other
  else
    let l := min r.x other.x
    let t := min r.y other.y
    let rt := max r.maxX other.maxX
    let b := max r.maxY other.maxY
    ⟨l, t, rt - l, b - t⟩

def setWidth (r : IntRect) (w : Int) : IntRect := { r with width := w }

def setHeight (r : IntRect) (h : Int) : IntRect := { r with height := h }

end IntRect

/-- Floating-point rectangle (`FloatRect`), coordinates idealised as rationals. -/
structure FloatRect where
  x : ℚ
  y : ℚ
  width : ℚ
  height : ℚ
deriving DecidableEq

namespace FloatRect

/-- The conversion `FloatRect(const IntRect&)`. -/
def ofIntRect (r : IntRect) : FloatRect := ⟨r.x, r.y, r.width, r.height⟩

/-- The rectangle `FloatRect(FloatPoint(), size)`. -/
def ofSize (s : IntSize) : FloatRect := ⟨0, 0, s.width, s.height⟩

def maxX (r : FloatRect) : ℚ := r.x + r.width

def maxY (r : FloatRect) : ℚ := r.y + r.height

/-- Modelled from the spec: `FloatRect::contains(const FloatPoint&)`, declared
outside src/: the left and top edges are inside, the right and bottom are not. -/
def contains (r : FloatRect) (p : FloatPoint) : Bool :=
  decide (r.x ≤ p.x) && decide (p.x < r.maxX) && decide (r.y ≤ p.y) && decide (p.y < r.maxY)

end FloatRect

/-- Modelled from the spec: `enclosingIntRect`, declared outside src/. The
smallest integer rectangle that covers a floating-point rectangle. -/
def enclosingIntRect (r : FloatRect) : IntRect :=
  let l := Int.floor r.x
  let t := Int.floor r.y
  ⟨l, t, Int.ceil r.maxX - l, Int.ceil r.maxY - t⟩

/-! ## Transformation matrices -/

/-- The matrix `WebTransformationMatrix`, a 4×4 matrix whose sixteen entries are
named as its accessors are (`m41`, `m42`, `m43` hold the translation). -/
@[ext]
structure WebTransformationMatrix where
  m11 : ℚ
  m12 : ℚ
  m13 : ℚ
  m14 : ℚ
  m21 : ℚ
  m22 : ℚ
  m23 : ℚ
  m24 : ℚ
  m31 : ℚ
  m32 : ℚ
  m33 : ℚ
  m34 : ℚ
  m41 : ℚ
  m42 : ℚ
  m43 : ℚ
  m44 : ℚ
deriving DecidableEq

/-- The default-constructed matrix: the identity. -/
def WebTransformationMatrix.identity : WebTransformationMatrix where
  m11 := 1
  m12 := 0
  m13 := 0
  m14 := 0
  m21 := 0
  m22 := 1
  m23 := 0
  m24 := 0
  m31 := 0
  m32 := 0
  m33 := 1
  m34 := 0
  m41 := 0
  m42 := 0
  m43 := 0
  m44 := 1

/-- Modelled from the spec: `WebTransformationMatrix::multiply`, declared
outside src/. The product `a · b` in matrix-times-vector order: `b` is applied
to a point first, then `a`. -/
def WebTransformationMatrix.multiply (a b : WebTransformationMatrix) : WebTransformationMatrix where
  m11 := b.m11 * a.m11 + b.m12 * a.m21 + b.m13 * a.m31 + b.m14 * a.m41
  m12 := b.m11 * a.m12 + b.m12 * a.m22 + b.m13 * a.m32 + b.m14 * a.m42
  m13 := b.m11 * a.m13 + b.m12 * a.m23 + b.m13 * a.m33 + b.m14 * a.m43
  m14 := b.m11 * a.m14 + b.m12 * a.m24 + b.m13 * a.m34 + b.m14 * a.m44
  m21 := b.m21 * a.m11 + b.m22 * a.m21 + b.m23 * a.m31 + b.m24 * a.m41
  m22 := b.m21 * a.m12 + b.m22 * a.m22 + b.m23 * a.m32 + b.m24 * a.m42
  m23 := b.m21 * a.m13 + b.m22 * a.m23 + b.m23 * a.m33 + b.m24 * a.m43
  m24 := b.m21 * a.m14 + b.m22 * a.m24 + b.m23 * a.m34 + b.m24 * a.m44
  m31 := b.m31 * a.m11 + b.m32 * a.m21 + b.m33 * a.m31 + b.m34 * a.m41
  m32 := b.m31 * a.m12 + b.m32 * a.m22 + b.m33 * a.m32 + b.m34 * a.m42
  m33 := b.m31 * a.m13 + b.m32 * a.m23 + b.m33 * a.m33 + b.m34 * a.m43
  m34 := b.m31 * a.m14 + b.m32 * a.m24 + b.m33 * a.m34 + b.m34 * a.m44
  m41 := b.m41 * a.m11 + b.m42 * a.m21 + b.m43 * a.m31 + b.m44 * a.m41
  m42 := b.m41 * a.m12 + b.m42 * a.m22 + b.m43 * a.m32 + b.m44 * a.m42
  m43 := b.m41 * a.m13 + b.m42 * a.m23 + b.m43 * a.m33 + b.m44 * a.m43
  m44 := b.m41 * a.m14 + b.m42 * a.m24 + b.m43 * a.m34 + b.m44 * a.m44

/-- The translation matrix `Tr(tx, ty, tz)`. -/
def WebTransformationMatrix.translation (tx ty tz : ℚ) : WebTransformationMatrix :=
  { WebTransformationMatrix.identity with m41 := tx, m42 := ty, m43 := tz }

/-- The scale matrix `Scale(sx, sy)`. -/
def WebTransformationMatrix.scaling (sx sy : ℚ) : WebTransformationMatrix :=
  { WebTransformationMatrix.identity with m11 := sx, m22 := sy }

/-- Determinant of a 3×3 block, given row by row. -/
def det3 (a b c d e f g h i : ℚ) : ℚ :=
  a * (e * i - f * h) - b * (d * i - f * g) + c * (d * h - e * g)

/-- The matrix of signed 3×3 minors. -/
def WebTransformationMatrix.cofactor (a : WebTransformationMatrix) : WebTransformationMatrix where
  m11 := det3 a.m22 a.m23 a.m24 a.m32 a.m33 a.m34 a.m42 a.m43 a.m44
  m12 := -det3 a.m21 a.m23 a.m24 a.m31 a.m33 a.m34 a.m41 a.m43 a.m44
  m13 := det3 a.m21 a.m22 a.m24 a.m31 a.m32 a.m34 a.m41 a.m42 a.m44
  m14 := -det3 a.m21 a.m22 a.m23 a.m31 a.m32 a.m33 a.m41 a.m42 a.m43
  m21 := -det3 a.m12 a.m13 a.m14 a.m32 a.m33 a.m34 a.m42 a.m43 a.m44
  m22 := det3 a.m11 a.m13 a.m14 a.m31 a.m33 a.m34 a.m41 a.m43 a.m44
  m23 := -det3 a.m11 a.m12 a.m14 a.m31 a.m32 a.m34 a.m41 a.m42 a.m44
  m24 := det3 a.m11 a.m12 a.m13 a.m31 a.m32 a.m33 a.m41 a.m42 a.m43
  m31 := det3 a.m12 a.m13 a.m14 a.m22 a.m23 a.m24 a.m42 a.m43 a.m44
  m32 := -det3 a.m11 a.m13 a.m14 a.m21 a.m23 a.m24 a.m41 a.m43 a.m44
  m33 := det3 a.m11 a.m12 a.m14 a.m21 a.m22 a.m24 a.m41 a.m42 a.m44
  m34 := -det3 a.m11 a.m12 a.m13 a.m21 a.m22 a.m23 a.m41 a.m42 a.m43
  m41 := -det3 a.m12 a.m13 a.m14 a.m22 a.m23 a.m24 a.m32 a.m33 a.m34
  m42 := det3 a.m11 a.m13 a.m14 a.m21 a.m23 a.m24 a.m31 a.m33 a.m34
  m43 := -det3 a.m11 a.m12 a.m14 a.m21 a.m22 a.m24 a.m31 a.m32 a.m34
  m44 := det3 a.m11 a.m12 a.m13 a.m21 a.m22 a.m23 a.m31 a.m32 a.m33

/-- The determinant, expanded along the first row. -/
def WebTransformationMatrix.determinant (a : WebTransformationMatrix) : ℚ :=
  a.m11 * a.cofactor.m11 + a.m12 * a.cofactor.m12 + a.m13 * a.cofactor.m13 +
    a.m14 * a.cofactor.m14

/-- The transposed cofactor matrix divided by `d`. -/
def WebTransformationMatrix.adjugateOver (a : WebTransformationMatrix) (d : ℚ) :
    WebTransformationMatrix where
  m11 := a.cofactor.m11 / d
  m12 := a.cofactor.m21 / d
  m13 := a.cofactor.m31 / d
  m14 := a.cofactor.m41 / d
  m21 := a.cofactor.m12 / d
  m22 := a.cofactor.m22 / d
  m23 := a.cofactor.m32 / d
  m24 := a.cofactor.m42 / d
  m31 := a.cofactor.m13 / d
  m32 := a.cofactor.m23 / d
  m33 := a.cofactor.m33 / d
  m34 := a.cofactor.m43 / d
  m41 := a.cofactor.m14 / d
  m42 := a.cofactor.m24 / d
  m43 := a.cofactor.m34 / d
  m44 := a.cofactor.m44 / d

namespace WebTransformationMatrix

/-- Modelled from the spec: `WebTransformationMatrix::isInvertible`, declared
outside src/. -/
def isInvertible (a : WebTransformationMatrix) : Bool := decide (a.determinant ≠ 0)

/-- Modelled from the spec: `WebTransformationMatrix::inverse`, declared outside
src/. The inverse matrix; the identity when the matrix has none. -/
def inverse (a : WebTransformationMatrix) : WebTransformationMatrix :=
  if a.determinant = 0 then identity else a.adjugateOver a.determinant

/-- Modelled from the spec: `WebTransformationMatrix::isIdentity`, declared
outside src/. -/
def isIdentity (a : WebTransformationMatrix) : Bool := decide (a = identity)

/-- Modelled from the spec: `WebTransformationMatrix::translate`, declared
outside src/: `a · Tr(tx, ty)`. -/
def translate (a : WebTransformationMatrix) (tx ty : ℚ) : WebTransformationMatrix :=
  a.multiply (translation tx ty 0)

/-- Modelled from the spec: `WebTransformationMatrix::translate3d`, declared
outside src/: `a · Tr(tx, ty, tz)`. -/
def translate3d (a : WebTransformationMatrix) (tx ty tz : ℚ) : WebTransformationMatrix :=
  a.multiply (translation tx ty tz)

/-- Modelled from the spec: `WebTransformationMatrix::scaleNonUniform`,
declared outside src/: `a · Scale(sx, sy)`. -/
def scaleNonUniform (a : WebTransformationMatrix) (sx sy : ℚ) : WebTransformationMatrix :=
  a.multiply (scaling sx sy)

/-- Modelled from the spec: `WebTransformationMatrix::scale`, declared outside
src/: a uniform scale in x and y. -/
def scale (a : WebTransformationMatrix) (s : ℚ) : WebTransformationMatrix :=
  a.scaleNonUniform s s

end WebTransformationMatrix

end cc

namespace cc

/-! ## Layers, render surfaces and the state of the walk -/

/-- The two instantiations of the walk: the main-thread tree of `Layer` and the
committed tree of `LayerImpl`. -/
inductive TreeKind where
  | layer
  | layerImpl
deriving DecidableEq

/-- A layer pointer: the position of the layer in the tree, innermost child
index first; the root is `[]`. -/
abbrev LayerId := List Nat

/-- The members of a replica layer that the walk reads. -/
structure ReplicaLayer where
  position : FloatPoint
  anchorPoint : FloatPoint
  transform : WebTransformationMatrix
  hasMaskLayer : Bool

/-- The members of a layer that the walk reads and does not write. The filter
lists are kept as the three queries the walk makes of them. -/
structure LayerAttrs where
  bounds : IntSize
  contentBounds : IntSize
  position : FloatPoint
  anchorPoint : FloatPoint
  anchorPointZ : ℚ
  transform : WebTransformationMatrix
  sublayerTransform : WebTransformationMatrix
  implTransform : WebTransformationMatrix
  scrollDelta : FloatSize
  opacity : ℚ
  opacityIsAnimating : Bool
  transformIsAnimating : Bool
  doubleSided : Bool
  masksToBounds : Bool
  preserves3D : Bool
  useParentBackfaceVisibility : Bool
  forceRenderSurface : Bool
  drawsContent : Bool
  hasMaskLayer : Bool
  replicaLayer : Option ReplicaLayer
  filtersIsEmpty : Bool
  backgroundFiltersIsEmpty : Bool
  hasFilter : Bool
  hasFilterThatMovesPixels : Bool
  isContainerForFixedPositionLayers : Bool
  fixedToContainerLayer : Bool
  hasContributingDelegatedRenderPasses : Bool
  automaticallyComputeRasterScale : Bool
  boundsContainPageScale : Bool

/-- A layer with its children (`LayerType*` and `layer->children()`). -/
inductive LayerType where
  | mk (attrs : LayerAttrs) (children : List LayerType)

def LayerType.attrs : LayerType → LayerAttrs
  | .mk a _ => a

def LayerType.children : LayerType → List LayerType
  | .mk _ cs => cs

mutual
/-- Modelled from the spec: `descendantDrawsContent`, declared outside src/:
some layer strictly below this one draws content. -/
def LayerType.descendantDrawsContent : LayerType → Bool
  | .mk _ cs => anyDrawsContent cs
/-- Some layer of the list, or below one, draws content. -/
def anyDrawsContent : List LayerType → Bool
  | [] => false
  | c :: cs => (c.attrs.drawsContent || c.descendantDrawsContent) || anyDrawsContent cs
end

/-- The members of a render surface. A surface that is referred to is referred
to by the layer that owns it. -/
structure RenderSurface where
  drawTransform : WebTransformationMatrix
  screenSpaceTransform : WebTransformationMatrix
  replicaDrawTransform : WebTransformationMatrix
  replicaScreenSpaceTransform : WebTransformationMatrix
  contentRect : IntRect
  clipRect : IntRect
  drawOpacity : ℚ
  drawOpacityIsAnimating : Bool
  targetSurfaceTransformsAreAnimating : Bool
  screenSpaceTransformsAreAnimating : Bool
  nearestAncestorThatMovesPixels : Option LayerId
  layerList : List LayerId
  contributingDelegatedRenderPassLayerList : List LayerId

/-- Modelled from the spec: the surface that `createRenderSurface` constructs,
declared outside src/: nothing drawn into it yet. -/
def RenderSurface.fresh : RenderSurface where
  drawTransform := WebTransformationMatrix.identity
  screenSpaceTransform := WebTransformationMatrix.identity
  replicaDrawTransform := WebTransformationMatrix.identity
  replicaScreenSpaceTransform := WebTransformationMatrix.identity
  contentRect := IntRect.zero
  clipRect := IntRect.zero
  drawOpacity := 1
  drawOpacityIsAnimating := false
  targetSurfaceTransformsAreAnimating := false
  screenSpaceTransformsAreAnimating := false
  nearestAncestorThatMovesPixels := none
  layerList := []
  contributingDelegatedRenderPassLayerList := []

/-- Modelled from the spec: `RenderSurface::clearLayerLists`, declared outside
src/. -/
def RenderSurface.clearLayerLists (rs : RenderSurface) : RenderSurface :=
  { rs with layerList := [], contributingDelegatedRenderPassLayerList := [] }

/-- The members of a layer that the walk writes, with the values that the walk
stores on the layer's mask and on its replica's mask. -/
structure LayerState where
  drawTransform : WebTransformationMatrix
  screenSpaceTransform : WebTransformationMatrix
  drawOpacity : ℚ
  drawOpacityIsAnimating : Bool
  drawTransformIsAnimating : Bool
  screenSpaceTransformIsAnimating : Bool
  visibleContentRect : IntRect
  drawableContentRect : IntRect
  renderTarget : Option LayerId
  renderSurface : Option RenderSurface
  rasterScale : ℚ
  contentsScale : ℚ
  maskContentsScale : ℚ
  maskRenderTarget : Option LayerId
  maskVisibleContentRect : IntRect
  replicaMaskContentsScale : ℚ
  replicaMaskRenderTarget : Option LayerId
  replicaMaskVisibleContentRect : IntRect

/-- A layer on which no walk has run yet. -/
def LayerState.initial : LayerState where
  drawTransform := WebTransformationMatrix.identity
  screenSpaceTransform := WebTransformationMatrix.identity
  drawOpacity := 0
  drawOpacityIsAnimating := false
  drawTransformIsAnimating := false
  screenSpaceTransformIsAnimating := false
  visibleContentRect := IntRect.zero
  drawableContentRect := IntRect.zero
  renderTarget := none
  renderSurface := none
  rasterScale := 1
  contentsScale := 1
  maskContentsScale := 1
  maskRenderTarget := none
  maskVisibleContentRect := IntRect.zero
  replicaMaskContentsScale := 1
  replicaMaskRenderTarget := none
  replicaMaskVisibleContentRect := IntRect.zero

/-- What the walk reads and writes besides its arguments: the mutable members
of every layer and the render-surface layer list. -/
structure State where
  layers : LayerId → LayerState
  renderSurfaceLayerList : List LayerId

namespace State

/-- A tree on which no walk has run yet, with an empty render-surface layer
list. -/
def initial : State := ⟨fun _ => LayerState.initial, []⟩

/-- Apply `f` to the members of one layer. -/
def modify (s : State) (id : LayerId) (f : LayerState → LayerState) : State :=
  { s with layers := Function.update s.layers id (f (s.layers id)) }

/-- Apply `f` to the render surface of one layer; nothing happens when the
layer owns none (the source would dereference a null pointer). -/
def modifySurface (s : State) (id : LayerId) (f : RenderSurface → RenderSurface) : State :=
  s.modify id fun l => { l with renderSurface := l.renderSurface.map f }

/-- The surface `layer->renderSurface()`. -/
def surface (s : State) (id : LayerId) : Option RenderSurface :=
  (s.layers id).renderSurface

/-- Modelled from the spec: `createRenderSurface`, declared outside src/. The
layer gets a new surface and becomes its own render target. -/
def createRenderSurface (s : State) (id : LayerId) : State :=
  s.modify id fun l => { l with renderSurface := some RenderSurface.fresh, renderTarget := some id }

/-- Modelled from the spec: `clearRenderSurface`, declared outside src/. The
surface of the layer is destroyed. -/
def clearRenderSurface (s : State) (id : LayerId) : State :=
  s.modify id fun l => { l with renderSurface := none }

/-- The vector `layerList()` of the surface owned by `owner`; empty when there
is no such surface. -/
def layerListOf (s : State) (owner : LayerId) : List LayerId :=
  match s.surface owner with
  | some rs => rs.layerList
  | none => []

/-- The call `push_back(layer)` on the layer list of the surface owned by
`owner`. -/
def pushLayer (s : State) (owner layer : LayerId) : State :=
  s.modifySurface owner fun rs => { rs with layerList := rs.layerList ++ [layer] }

/-- The call `renderSurfaceLayerList.push_back(layer)`. -/
def pushSurfaceLayer (s : State) (layer : LayerId) : State :=
  { s with renderSurfaceLayerList := s.renderSurfaceLayerList ++ [layer] }

end State

/-- The helpers of the walk that are declared outside
`layer_tree_host_common.cc` and that the specification does not pin down:
`MathUtil`, the back-face test of a matrix, the drawable content rect of a
surface and the layer sorter. They are parameters of the walk. -/
structure Collaborators where
  /-- The overload `MathUtil::mapClippedRect(transform, FloatRect)`. -/
  mapClippedRect : WebTransformationMatrix → FloatRect → FloatRect
  /-- The helper `MathUtil::projectClippedRect`. -/
  projectClippedRect : WebTransformationMatrix → FloatRect → FloatRect
  /-- The helper `MathUtil::projectPoint`: the projected point and whether it was clipped. -/
  projectPoint : WebTransformationMatrix → FloatPoint → FloatPoint × Bool
  /-- The helper `MathUtil::flattenTransformTo2d`. -/
  flattenTransformTo2d : WebTransformationMatrix → WebTransformationMatrix
  /-- The helper `MathUtil::computeTransform2dScaleComponents`. -/
  computeTransform2dScaleComponents : WebTransformationMatrix → FloatPoint
  /-- The method `WebTransformationMatrix::isBackFaceVisible`. -/
  isBackFaceVisible : WebTransformationMatrix → Bool
  /-- The method `drawableContentRect()` of a render surface, given its owning layer. -/
  surfaceDrawableContentRect : RenderSurface → LayerAttrs → FloatRect
  /-- The call `sortLayers(first, end, layerSorter)` on a range of layers: the
  sorter reorders the range in place. -/
  sortLayers : State → (range : List LayerId) → { sorted : List LayerId // sorted.Perm range }

/-- Modelled from the spec: the overload `MathUtil::mapClippedRect(transform,
IntRect)`, declared outside src/: the enclosing integer rect of the mapped
rect. -/
def Collaborators.mapClippedIntRect (c : Collaborators) (transform : WebTransformationMatrix)
    (r : IntRect) : IntRect :=
  enclosingIntRect (c.mapClippedRect transform (FloatRect.ofIntRect r))

/-- The arguments of `calculateDrawTransforms` that every visit receives
unchanged, with the collaborators. -/
structure Config where
  ext : Collaborators
  kind : TreeKind
  maxTextureSize : Int
  deviceScaleFactor : ℚ
  pageScaleFactor : ℚ

/-- The arguments of `calculateDrawTransformsInternal` that change from one
visit to the next. `layerList` is the layer whose surface owns the vector passed
as `layerList`. -/
structure WalkArgs where
  parentMatrix : WebTransformationMatrix
  fullHierarchyMatrix : WebTransformationMatrix
  currentScrollCompensationMatrix : WebTransformationMatrix
  clipRectFromAncestor : IntRect
  ancestorClipsSubtree : Bool
  nearestAncestorThatMovesPixels : Option LayerId
  layerList : LayerId

/-! ## The helpers of `layer_tree_host_common.cc` -/

/-- The function `LayerTreeHostCommon::calculateVisibleRect`. -/
def calculateVisibleRect (c : Collaborators) (targetSurfaceRect layerBoundRect : IntRect)
    (transform : WebTransformationMatrix) : IntRect :=
  let layerInSurfaceSpace := c.mapClippedIntRect transform layerBoundRect
  if targetSurfaceRect.contains layerInSurfaceSpace then layerBoundRect
  else
    let minimalSurfaceRect := targetSurfaceRect.intersect layerInSurfaceSpace
    let surfaceToLayer := transform.inverse
    let layerRect :=
      enclosingIntRect (c.projectClippedRect surfaceToLayer (FloatRect.ofIntRect minimalSurfaceRect))
    layerRect.intersect layerBoundRect

/-- The function `layerIsInExisting3DRenderingContext`; `parent` is
`layer->parent()`. -/
def layerIsInExisting3DRenderingContext (parent : Option LayerAttrs) : Bool :=
  match parent with
  | some p => p.preserves3D
  | none => false

/-- The function `layerIsRootOfNewRenderingContext`. -/
def layerIsRootOfNewRenderingContext (parent : Option LayerAttrs) (layer : LayerAttrs) : Bool :=
  match parent with
  | some p => !p.preserves3D && layer.preserves3D
  | none => layer.preserves3D

/-- The function `isLayerBackFaceVisible`; `drawTransform` is
`layer->drawTransform()`. -/
def isLayerBackFaceVisible (c : Collaborators) (parent : Option LayerAttrs) (layer : LayerAttrs)
    (drawTransform : WebTransformationMatrix) : Bool :=
  if layerIsInExisting3DRenderingContext parent then c.isBackFaceVisible drawTransform
  else c.isBackFaceVisible layer.transform

/-- The function `isSurfaceBackFaceVisible`. -/
def isSurfaceBackFaceVisible (c : Collaborators) (parent : Option LayerAttrs) (layer : LayerAttrs)
    (drawTransform : WebTransformationMatrix) : Bool :=
  if layerIsInExisting3DRenderingContext parent then c.isBackFaceVisible drawTransform
  else if layerIsRootOfNewRenderingContext parent layer then c.isBackFaceVisible layer.transform
  else false

/-- The function `layerClipsSubtree`. -/
def layerClipsSubtree (layer : LayerAttrs) : Bool :=
  layer.masksToBounds || layer.hasMaskLayer

/-- The function `calculateVisibleContentRect`. The clip rect of the render
target's surface is taken as empty when the layer has no render target or the
target owns no surface (the source dereferences both without a test). -/
def calculateVisibleContentRect (c : Collaborators) (layer : LayerAttrs) (id : LayerId)
    (s : State) : IntRect :=
  let l := s.layers id
  if !layer.drawsContent || layer.contentBounds.isEmpty || l.drawableContentRect.isEmpty then
    IntRect.zero
  else
    let targetSurface := l.renderTarget.bind s.surface
    let clipRect := (targetSurface.map (·.clipRect)).getD IntRect.zero
    let surfaceDrawTransform :=
      (targetSurface.map (·.drawTransform)).getD WebTransformationMatrix.identity
    let targetSurfaceClipRect :=
      if clipRect.isEmpty then l.drawableContentRect
      else
        (enclosingIntRect (c.projectClippedRect surfaceDrawTransform.inverse
          (FloatRect.ofIntRect clipRect))).intersect l.drawableContentRect
    if targetSurfaceClipRect.isEmpty then IntRect.zero
    else calculateVisibleRect c targetSurfaceClipRect (IntRect.ofSize layer.contentBounds)
      l.drawTransform

/-- The function `isScaleOrTranslation`. -/
def isScaleOrTranslation (m : WebTransformationMatrix) : Bool :=
  decide (m.m12 = 0) && decide (m.m13 = 0) && decide (m.m14 = 0)
    && decide (m.m21 = 0) && decide (m.m23 = 0) && decide (m.m24 = 0)
    && decide (m.m31 = 0) && decide (m.m32 = 0) && decide (m.m43 = 0)
    && decide (m.m44 ≠ 0)

/-- The two overloads of `transformToParentIsKnown`. -/
def transformToParentIsKnown (kind : TreeKind) (layer : LayerAttrs) : Bool :=
  match kind with
  | .layerImpl => true
  | .layer => !layer.transformIsAnimating

/-- The two overloads of `transformToScreenIsKnown`; `l` holds the mutable
members of the layer. -/
def transformToScreenIsKnown (kind : TreeKind) (l : LayerState) : Bool :=
  match kind with
  | .layerImpl => true
  | .layer => !l.screenSpaceTransformIsAnimating

/-- The function `layerShouldBeSkipped`. `anc` lists the attributes of the
ancestors of the layer, the parent first. A layer that uses its parent's
back-face visibility and has no parent is tested itself (the source asserts
that the parent exists). -/
def layerShouldBeSkipped (cfg : Config) (anc : List LayerAttrs) (id : LayerId)
    (layer : LayerAttrs) (s : State) : Bool :=
  if !layer.drawsContent || layer.bounds.isEmpty then true
  else
    let useParent := layer.useParentBackfaceVisibility && anc.head?.isSome
    let backfaceTestLayer := if useParent then anc.head?.getD layer else layer
    let testId := if useParent then id.tail else id
    let testParent := if useParent then anc.tail.head? else anc.head?
    if !backfaceTestLayer.doubleSided
        && transformToScreenIsKnown cfg.kind (s.layers testId)
        && isLayerBackFaceVisible cfg.ext testParent backfaceTestLayer
            (s.layers testId).drawTransform then
      true
    else false

/-- The two overloads of `subtreeShouldBeSkipped`. -/
def subtreeShouldBeSkipped (kind : TreeKind) (layer : LayerAttrs) : Bool :=
  match kind with
  | .layerImpl => decide (layer.opacity = 0)
  | .layer => decide (layer.opacity = 0) && !layer.opacityIsAnimating

/-- The function `subtreeShouldRenderToSeparateSurface`; `parent` is
`layer->parent()` and `descendantDrawsContent` the cached value of
`layer->descendantDrawsContent()`. -/
def subtreeShouldRenderToSeparateSurface (parent : Option LayerAttrs) (layer : LayerAttrs)
    (descendantDrawsContent : Bool) (axisAlignedWithRespectToParent : Bool) : Bool :=
  if parent.isNone then false
  else if layer.forceRenderSurface then true
  else if layer.hasMaskLayer then true
  else if layer.replicaLayer.isSome then true
  else if !layer.filtersIsEmpty || !layer.backgroundFiltersIsEmpty || layer.hasFilter then true
  else if layerIsInExisting3DRenderingContext parent && !layer.preserves3D
      && descendantDrawsContent then true
  else if layerClipsSubtree layer && !axisAlignedWithRespectToParent
      && descendantDrawsContent then true
  else if decide (layer.opacity ≠ 1) && !layer.preserves3D && descendantDrawsContent then true
  else false

/-- The function `computeScrollCompensationForThisLayer`. -/
def computeScrollCompensationForThisLayer (scrollingLayer : LayerAttrs)
    (parentMatrix : WebTransformationMatrix) : WebTransformationMatrix :=
  let partialLayerOriginTransform := parentMatrix.multiply scrollingLayer.implTransform
  let scrollCompensationForThisLayer :=
    partialLayerOriginTransform.translate scrollingLayer.scrollDelta.width
      scrollingLayer.scrollDelta.height
  scrollCompensationForThisLayer.multiply partialLayerOriginTransform.inverse

/-- The two overloads of `computeScrollCompensationMatrixForChildren`;
`renderSurface` is `layer->renderSurface()`. -/
def computeScrollCompensationMatrixForChildren (kind : TreeKind) (layer : LayerAttrs)
    (renderSurface : Option RenderSurface) (parentMatrix : WebTransformationMatrix)
    (currentScrollCompensationMatrix : WebTransformationMatrix) : WebTransformationMatrix :=
  match kind with
  | .layer => WebTransformationMatrix.identity
  | .layerImpl =>
    if !layer.isContainerForFixedPositionLayers && layer.scrollDelta.isZero
        && renderSurface.isNone then
      currentScrollCompensationMatrix
    else
      let start :=
        if !layer.isContainerForFixedPositionLayers then currentScrollCompensationMatrix
        else WebTransformationMatrix.identity
      let accumulated :=
        if !layer.scrollDelta.isZero then
          start.multiply (computeScrollCompensationForThisLayer layer parentMatrix)
        else start
      match renderSurface with
      | some rs =>
        if !accumulated.isIdentity then
          (rs.drawTransform.inverse.multiply accumulated).multiply rs.drawTransform
        else accumulated
      | none => accumulated

/-- The two overloads of `updateLayerContentsScale`: nothing on the committed
tree. -/
def updateLayerContentsScale (cfg : Config) (layer : LayerAttrs) (id : LayerId)
    (combinedTransform : WebTransformationMatrix) (s : State) : State :=
  match cfg.kind with
  | .layerImpl => s
  | .layer =>
    let stored := (s.layers id).rasterScale
    let computed :=
      let transformScale := cfg.ext.computeTransform2dScaleComponents combinedTransform
      let combinedScale := max transformScale.x transformScale.y
      let r := combinedScale / cfg.deviceScaleFactor
      if !layer.boundsContainPageScale then r / cfg.pageScaleFactor else r
    let setsRasterScale := decide (stored = 0) && layer.automaticallyComputeRasterScale
    let rasterScale :=
      if stored = 0 then (if layer.automaticallyComputeRasterScale then computed else 1)
      else stored
    let contentsScale :=
      if !layer.boundsContainPageScale then rasterScale * cfg.deviceScaleFactor * cfg.pageScaleFactor
      else rasterScale * cfg.deviceScaleFactor
    s.modify id fun l =>
      { l with
        rasterScale := if setsRasterScale then rasterScale else l.rasterScale
        contentsScale := contentsScale
        maskContentsScale := if layer.hasMaskLayer then contentsScale else l.maskContentsScale
        replicaMaskContentsScale :=
          if (layer.replicaLayer.map (·.hasMaskLayer)).getD false then contentsScale
          else l.replicaMaskContentsScale }

/-- The function `setupRootLayerAndSurfaceForRecursion`. -/
def setupRootLayerAndSurfaceForRecursion (rootLayer : LayerId) (deviceViewportSize : IntSize)
    (s : State) : State :=
  let s1 := if (s.surface rootLayer).isNone then s.createRenderSurface rootLayer else s
  let s2 := s1.modifySurface rootLayer fun rs =>
    { rs with contentRect := IntRect.ofSize deviceViewportSize }
  let s3 := s2.modifySurface rootLayer RenderSurface.clearLayerLists
  s3.pushSurfaceLayer rootLayer

/-! ## The recursive walk -/

/-- The local variables of one visit that are still live after the part of
`calculateDrawTransformsInternal` that precedes the loop over the children.
`descendants` is the layer whose surface owns the vector `descendants`. -/
structure Locals where
  rectInTargetSpace : IntRect
  subtreeShouldBeClipped : Bool
  clipRectForSubtree : IntRect
  sublayerMatrix : WebTransformationMatrix
  nextHierarchyMatrix : WebTransformationMatrix
  nextScrollCompensationMatrix : WebTransformationMatrix
  nearestAncestorThatMovesPixels : Option LayerId
  renderSurfaceSublayerScale : FloatPoint
  descendants : LayerId
  sortingStartIndex : Nat

/-- How the part of a visit that precedes the loop over the children ends: with
one of the two early returns, or at the loop. -/
inductive Entered where
  | exit (s : State)
  | proceed (loc : Locals) (s : State)

/-- The value of the local `drawOpacity` (with `drawOpacityIsAnimating`) of a
visit; `parentState` holds the mutable members of `layer->parent()`. -/
def accumulatedDrawOpacity (parent : Option LayerAttrs) (parentState : LayerState)
    (layer : LayerAttrs) : ℚ × Bool :=
  match parent with
  | some p =>
    if p.preserves3D then
      (layer.opacity * parentState.drawOpacity,
        layer.opacityIsAnimating || parentState.drawOpacityIsAnimating)
    else (layer.opacity, layer.opacityIsAnimating)
  | none => (layer.opacity, layer.opacityIsAnimating)

/-- The value of the local `layerLocalTransform` of a visit. The difference
`layer->position() - layer->scrollDelta()` and the anchor offsets, `float`
arithmetic in the source, are exact here. -/
def layerLocalTransform (layer : LayerAttrs) : WebTransformationMatrix :=
  let bounds := layer.bounds
  let anchorPoint := layer.anchorPoint
  let position : FloatPoint :=
    ⟨layer.position.x - layer.scrollDelta.width, layer.position.y - layer.scrollDelta.height⟩
  ((WebTransformationMatrix.identity.translate3d
      (position.x + anchorPoint.x * bounds.width) (position.y + anchorPoint.y * bounds.height)
      layer.anchorPointZ).multiply layer.transform).translate3d
    (-anchorPoint.x * bounds.width) (-anchorPoint.y * bounds.height) (-layer.anchorPointZ)

/-- The value of the local `combinedTransform` of a visit once the impl
transform and the scroll compensation are applied. -/
def combinedTransformOf (layer : LayerAttrs) (args : WalkArgs) : WebTransformationMatrix :=
  let combined := layer.implTransform.multiply (args.parentMatrix.multiply (layerLocalTransform layer))
  if layer.fixedToContainerLayer then args.currentScrollCompensationMatrix.multiply combined
  else combined

/-- The matrix `m` followed by the scale from content space to layer space,
when neither the bounds nor the content bounds are empty. -/
def scaleLayerToContent (layer : LayerAttrs) (m : WebTransformationMatrix) :
    WebTransformationMatrix :=
  if !layer.contentBounds.isEmpty && !layer.bounds.isEmpty then
    m.scaleNonUniform ((layer.bounds.width : ℚ) / layer.contentBounds.width)
      ((layer.bounds.height : ℚ) / layer.contentBounds.height)
  else m

/-- The matrix `m` followed by the scale from layer space to content space,
when neither the bounds nor the content bounds are empty. -/
def scaleContentToLayer (layer : LayerAttrs) (m : WebTransformationMatrix) :
    WebTransformationMatrix :=
  if !layer.contentBounds.isEmpty && !layer.bounds.isEmpty then
    m.scaleNonUniform ((layer.contentBounds.width : ℚ) / layer.bounds.width)
      ((layer.contentBounds.height : ℚ) / layer.bounds.height)
  else m

/-- The value of the test `subtreeShouldRenderToSeparateSurface(layer,
isScaleOrTranslation(combinedTransform))` of a visit. -/
def rendersToSeparateSurface (anc : List LayerAttrs) (layer : LayerAttrs)
    (descendantDrawsContent : Bool) (args : WalkArgs) : Bool :=
  subtreeShouldRenderToSeparateSurface anc.head? layer descendantDrawsContent
    (isScaleOrTranslation (combinedTransformOf layer args))

/-- The value of the back-face test that makes a visit return before it
creates the render surface. -/
def surfaceIsCulled (cfg : Config) (anc : List LayerAttrs) (layer : LayerAttrs)
    (args : WalkArgs) : Bool :=
  !layer.doubleSided && transformToParentIsKnown cfg.kind layer
    && isSurfaceBackFaceVisible cfg.ext anc.head? layer (combinedTransformOf layer args)

/-- The statements of a visit between the test of `subtreeShouldBeSkipped` and
the choice of a branch that write to the layer: the contents scale and the
screen-space transform. -/
def beginLayer (cfg : Config) (id : LayerId) (layer : LayerAttrs) (args : WalkArgs)
    (s : State) : State :=
  let s := updateLayerContentsScale cfg layer id
    (args.parentMatrix.multiply (layerLocalTransform layer)) s
  let drawTransform := scaleLayerToContent layer (combinedTransformOf layer args)
  let layerScreenSpaceTransform :=
    (if !layer.preserves3D then cfg.ext.flattenTransformTo2d args.fullHierarchyMatrix
      else args.fullHierarchyMatrix).multiply drawTransform
  s.modify id fun l => { l with screenSpaceTransform := layerScreenSpaceTransform }

/-- The values of the locals `animatingTransformToTarget` and
`animatingTransformToScreen` of a visit; `parentState` holds the mutable
members of `layer->parent()`. -/
def animatingTransforms (parent : Option LayerAttrs) (parentState : LayerState)
    (layer : LayerAttrs) : Bool × Bool :=
  (layer.transformIsAnimating || (parent.isSome && parentState.drawTransformIsAnimating),
    layer.transformIsAnimating || (parent.isSome && parentState.screenSpaceTransformIsAnimating))

/-- What the two branches of a visit leave behind: the state and the locals
that they assign. -/
structure Branch where
  state : State
  nextHierarchyMatrix : WebTransformationMatrix
  sublayerMatrix : WebTransformationMatrix
  nearestAncestorThatMovesPixels : Option LayerId
  subtreeShouldBeClipped : Bool
  clipRectForSubtree : IntRect

/-- The branch of a visit that gives the layer a render surface, from the
creation of the surface to `renderSurfaceLayerList.push_back(layer)`.
`drawTransform` is the local of that name and `opacity`, `animating` are the
pairs `(drawOpacity, drawOpacityIsAnimating)` and `(animatingTransformToTarget,
animatingTransformToScreen)`. The quotient `1 / renderSurfaceSublayerScale`, a
`float` division in the source, is exact here. -/
def enterSurface (layer : LayerAttrs) (id : LayerId) (args : WalkArgs)
    (drawTransform : WebTransformationMatrix) (renderSurfaceSublayerScale : FloatPoint)
    (opacity : ℚ × Bool) (animating : Bool × Bool) (s : State) : Branch :=
  let s := if (s.surface id).isNone then s.createRenderSurface id else s
  let s := s.modifySurface id RenderSurface.clearLayerLists
  let surfaceDrawTransform :=
    (scaleContentToLayer layer drawTransform).scaleNonUniform
      (1 / renderSurfaceSublayerScale.x) (1 / renderSurfaceSublayerScale.y)
  let s := s.modifySurface id fun rs => { rs with drawTransform := surfaceDrawTransform }
  let layerDrawTransform :=
    scaleLayerToContent layer
      (WebTransformationMatrix.identity.scaleNonUniform renderSurfaceSublayerScale.x
        renderSurfaceSublayerScale.y)
  let s := s.modify id fun l => { l with drawTransform := layerDrawTransform }
  let sublayerMatrix :=
    WebTransformationMatrix.identity.scaleNonUniform renderSurfaceSublayerScale.x
      renderSurfaceSublayerScale.y
  let s := s.modifySurface id fun rs =>
    { rs with drawOpacity := opacity.1, drawOpacityIsAnimating := opacity.2 }
  let s := s.modify id fun l => { l with drawOpacity := 1, drawOpacityIsAnimating := false }
  let s := s.modifySurface id fun rs =>
    { rs with
      targetSurfaceTransformsAreAnimating := animating.1
      screenSpaceTransformsAreAnimating := animating.2 }
  let s := s.modify id fun l =>
    { l with drawTransformIsAnimating := false, screenSpaceTransformIsAnimating := animating.2 }
  let nextHierarchyMatrix := args.fullHierarchyMatrix.multiply surfaceDrawTransform
  let s := s.modify id fun l =>
    if layer.hasMaskLayer then
      { l with
        maskRenderTarget := some id
        maskVisibleContentRect := IntRect.ofSize layer.contentBounds }
    else l
  let s := s.modify id fun l =>
    if (layer.replicaLayer.map (·.hasMaskLayer)).getD false then
      { l with
        replicaMaskRenderTarget := some id
        replicaMaskVisibleContentRect := IntRect.ofSize layer.contentBounds }
    else l
  let nearestAncestorThatMovesPixels :=
    if layer.hasFilterThatMovesPixels || layer.hasFilter then some id
    else args.nearestAncestorThatMovesPixels
  let s := s.modifySurface id fun rs =>
    { rs with
      clipRect := if args.ancestorClipsSubtree then args.clipRectFromAncestor else IntRect.zero }
  let s := s.modifySurface id fun rs =>
    { rs with nearestAncestorThatMovesPixels := nearestAncestorThatMovesPixels }
  { state := s.pushSurfaceLayer id
    nextHierarchyMatrix := nextHierarchyMatrix
    sublayerMatrix := sublayerMatrix
    nearestAncestorThatMovesPixels := nearestAncestorThatMovesPixels
    subtreeShouldBeClipped := false
    clipRectForSubtree := IntRect.zero }

/-- The branch of a visit that gives the layer no render surface; the layer is
the root layer when `id = []`. `drawTransform` and `combinedTransform` are the
locals of those names, `opacity` and `animating` as in `enterSurface`. -/
def enterNoSurface (id : LayerId) (args : WalkArgs)
    (drawTransform combinedTransform : WebTransformationMatrix)
    (opacity : ℚ × Bool) (animating : Bool × Bool) (s : State) : Branch :=
  let s := s.modify id fun l =>
    { l with
      drawTransform := drawTransform
      drawTransformIsAnimating := animating.1
      screenSpaceTransformIsAnimating := animating.2 }
  let s := s.modify id fun l =>
    { l with drawOpacity := opacity.1, drawOpacityIsAnimating := opacity.2 }
  if id ≠ [] then
    let s := s.clearRenderSurface id
    let s := s.modify id fun l => { l with renderTarget := (s.layers id.tail).renderTarget }
    { state := s
      nextHierarchyMatrix := args.fullHierarchyMatrix
      sublayerMatrix := combinedTransform
      nearestAncestorThatMovesPixels := args.nearestAncestorThatMovesPixels
      subtreeShouldBeClipped := args.ancestorClipsSubtree
      clipRectForSubtree :=
        if args.ancestorClipsSubtree then args.clipRectFromAncestor else IntRect.zero }
  else
    let s := s.modifySurface id fun rs => { rs with clipRect := args.clipRectFromAncestor }
    { state := s
      nextHierarchyMatrix := args.fullHierarchyMatrix
      sublayerMatrix := combinedTransform
      nearestAncestorThatMovesPixels := args.nearestAncestorThatMovesPixels
      subtreeShouldBeClipped := false
      clipRectForSubtree := IntRect.zero }

/-- The statements of a visit between the two branches and the loop over the
children: the rect of the layer in target space, the clip of the subtree, the
matrix for the children, the choice of `descendants` and the layer's own
entry in it. -/
def enterChildren (cfg : Config) (anc : List LayerAttrs) (id : LayerId) (layer : LayerAttrs)
    (args : WalkArgs) (renderSurfaceSublayerScale : FloatPoint) (b : Branch) : Locals × State :=
  let s := b.state
  let bounds := layer.bounds
  let contentRect := FloatRect.ofSize layer.contentBounds
  let rectInTargetSpace :=
    enclosingIntRect (cfg.ext.mapClippedRect (s.layers id).drawTransform contentRect)
  let subtreeShouldBeClipped := layerClipsSubtree layer || b.subtreeShouldBeClipped
  let clipRectForSubtree :=
    if layerClipsSubtree layer then
      if args.ancestorClipsSubtree && (s.surface id).isNone then
        args.clipRectFromAncestor.intersect rectInTargetSpace
      else rectInTargetSpace
    else b.clipRectForSubtree
  let sublayerMatrix :=
    if !layer.preserves3D then cfg.ext.flattenTransformTo2d b.sublayerMatrix
    else b.sublayerMatrix
  let sublayerMatrix :=
    ((sublayerMatrix.translate ((1 / 2 : ℚ) * bounds.width) ((1 / 2 : ℚ) * bounds.height)).multiply
      layer.sublayerTransform).translate
      (-(1 / 2 : ℚ) * bounds.width) (-(1 / 2 : ℚ) * bounds.height)
  let descendants := if (s.surface id).isSome then id else args.layerList
  let sortingStartIndex := (s.layerListOf descendants).length
  let s := if !layerShouldBeSkipped cfg anc id layer s then s.pushLayer descendants id else s
  let nextScrollCompensationMatrix :=
    computeScrollCompensationMatrixForChildren cfg.kind layer (s.surface id)
      args.parentMatrix args.currentScrollCompensationMatrix
  ({ rectInTargetSpace := rectInTargetSpace
     subtreeShouldBeClipped := subtreeShouldBeClipped
     clipRectForSubtree := clipRectForSubtree
     sublayerMatrix := sublayerMatrix
     nextHierarchyMatrix := b.nextHierarchyMatrix
     nextScrollCompensationMatrix := nextScrollCompensationMatrix
     nearestAncestorThatMovesPixels := b.nearestAncestorThatMovesPixels
     renderSurfaceSublayerScale := renderSurfaceSublayerScale
     descendants := descendants
     sortingStartIndex := sortingStartIndex },
    s)

/-- The part of `calculateDrawTransformsInternal` that precedes the loop over
the children. `anc` lists the attributes of the ancestors of the layer, the
parent first; the layer is the root layer when `id = []`. -/
def enterLayer (cfg : Config) (anc : List LayerAttrs) (id : LayerId) (layer : LayerAttrs)
    (descendantDrawsContent : Bool) (args : WalkArgs) (s : State) : Entered :=
  if subtreeShouldBeSkipped cfg.kind layer then .exit s
  else
    let opacity := accumulatedDrawOpacity anc.head? (s.layers id.tail) layer
    let combinedTransform := combinedTransformOf layer args
    let drawTransform := scaleLayerToContent layer combinedTransform
    let s := beginLayer cfg id layer args s
    let animating := animatingTransforms anc.head? (s.layers id.tail) layer
    let renderSurfaceSublayerScale :=
      cfg.ext.computeTransform2dScaleComponents combinedTransform
    if rendersToSeparateSurface anc layer descendantDrawsContent args then
      if surfaceIsCulled cfg anc layer args then .exit s
      else
        let r := enterChildren cfg anc id layer args renderSurfaceSublayerScale
          (enterSurface layer id args drawTransform renderSurfaceSublayerScale opacity animating s)
        .proceed r.1 r.2
    else
      let r := enterChildren cfg anc id layer args renderSurfaceSublayerScale
        (enterNoSurface id args drawTransform combinedTransform opacity animating s)
      .proceed r.1 r.2

/-- The arguments with which a visit visits each of the children of its
layer. -/
def Locals.childArgs (loc : Locals) : WalkArgs where
  parentMatrix := loc.sublayerMatrix
  fullHierarchyMatrix := loc.nextHierarchyMatrix
  currentScrollCompensationMatrix := loc.nextScrollCompensationMatrix
  clipRectFromAncestor := loc.clipRectForSubtree
  ancestorClipsSubtree := loc.subtreeShouldBeClipped
  nearestAncestorThatMovesPixels := loc.nearestAncestorThatMovesPixels
  layerList := loc.descendants

/-- The loop that removes the surfaces after `layer` from the end of the
render-surface layer list (given here last element first) and clears them; the
result is the list with `layer` at its end, last element first. The loop stops
on an empty list (the source would read the back of an empty vector). -/
def popSurfacesAfter (layer : LayerId) : List LayerId → State → List LayerId × State
  | [], s => ([], s)
  | back :: rest, s =>
    if back = layer then (back :: rest, s)
    else popSurfacesAfter layer rest (s.clearRenderSurface back)

/-- The statements that remove a layer whose surface has an empty layer list,
with the surfaces after it, from the render-surface layer list. -/
def removeEmptySurface (layer : LayerId) (s : State) : State :=
  let r := popSurfacesAfter layer s.renderSurfaceLayerList.reverse s
  let s := { r.2 with renderSurfaceLayerList := r.1.tail.reverse }
  s.clearRenderSurface layer

/-- The value of the local `clippedContentRect` of a visit when it is stored as
the content rect of the surface `rs`: the drawable content rect of the subtree
clipped to what the clip rect of the surface shows of it and clamped to the
maximum texture size. -/
def clippedContentRectOf (cfg : Config) (layer : LayerAttrs) (args : WalkArgs)
    (localDrawableContentRectOfSubtree : IntRect) (rs : RenderSurface) : IntRect :=
  let clippedContentRect := localDrawableContentRectOfSubtree
  let clippedContentRect :=
    if layer.replicaLayer.isNone && transformToParentIsKnown cfg.kind layer
        && args.ancestorClipsSubtree && !clippedContentRect.isEmpty then
      clippedContentRect.intersect
        (calculateVisibleRect cfg.ext rs.clipRect clippedContentRect rs.drawTransform)
    else clippedContentRect
  let clippedContentRect :=
    clippedContentRect.setWidth (min clippedContentRect.width cfg.maxTextureSize)
  clippedContentRect.setHeight (min clippedContentRect.height cfg.maxTextureSize)

/-- The statements of a visit, for a layer other than the root that owns a
render surface, that compute the remaining properties of the surface, up to
the test of its layer list, as a function of the surface.
`layerScreenSpaceTransform` is `layer->screenSpaceTransform()`. -/
def finishSurfaceOf (cfg : Config) (layer : LayerAttrs) (args : WalkArgs) (loc : Locals)
    (localDrawableContentRectOfSubtree : IntRect)
    (layerScreenSpaceTransform : WebTransformationMatrix) (rs : RenderSurface) : RenderSurface :=
  let bounds := layer.bounds
  let clippedContentRect :=
    clippedContentRectOf cfg layer args localDrawableContentRectOfSubtree rs
  let rs := if clippedContentRect.isEmpty then rs.clearLayerLists else rs
  let rs := { rs with contentRect := clippedContentRect }
  let screenSpaceTransform :=
    (scaleContentToLayer layer layerScreenSpaceTransform).scaleNonUniform
      (1 / loc.renderSurfaceSublayerScale.x) (1 / loc.renderSurfaceSublayerScale.y)
  let rs := { rs with screenSpaceTransform := screenSpaceTransform }
  match layer.replicaLayer with
  | some replica =>
    let surfaceOriginToReplicaOriginTransform :=
      ((((WebTransformationMatrix.identity.scaleNonUniform loc.renderSurfaceSublayerScale.x
            loc.renderSurfaceSublayerScale.y).translate
          (replica.position.x + replica.anchorPoint.x * bounds.width)
          (replica.position.y + replica.anchorPoint.y * bounds.height)).multiply
        replica.transform).translate
          (-replica.anchorPoint.x * bounds.width) (-replica.anchorPoint.y * bounds.height)).scaleNonUniform
        (1 / loc.renderSurfaceSublayerScale.x) (1 / loc.renderSurfaceSublayerScale.y)
    { rs with
      replicaDrawTransform := rs.drawTransform.multiply surfaceOriginToReplicaOriginTransform
      replicaScreenSpaceTransform :=
        rs.screenSpaceTransform.multiply surfaceOriginToReplicaOriginTransform }
  | none => rs

/-- The statements of a visit, for a layer other than the root that owns a
render surface, that compute the remaining properties of the surface, up to
the test of its layer list. -/
def finishSurface (cfg : Config) (layer : LayerAttrs) (id : LayerId) (args : WalkArgs)
    (loc : Locals) (localDrawableContentRectOfSubtree : IntRect) (s : State) : State :=
  s.modifySurface id
    (finishSurfaceOf cfg layer args loc localDrawableContentRectOfSubtree
      (s.layers id).screenSpaceTransform)

/-- The value of the local `localDrawableContentRectOfSubtree` of a visit;
`accumulatedDrawableContentRectOfChildren` is what the loop over the children
accumulated. -/
def localDrawableContentRectOfSubtree (layer : LayerAttrs) (loc : Locals)
    (accumulatedDrawableContentRectOfChildren : IntRect) : IntRect :=
  let r := accumulatedDrawableContentRectOfChildren
  let r := if layer.drawsContent then r.unite loc.rectInTargetSpace else r
  if loc.subtreeShouldBeClipped then r.intersect loc.clipRectForSubtree else r

/-- The statements of a visit that store the drawable content rect and the
visible content rect on the layer. -/
def setContentRects (cfg : Config) (layer : LayerAttrs) (id : LayerId) (loc : Locals)
    (s : State) : State :=
  let drawableContentRectOfLayer :=
    if loc.subtreeShouldBeClipped then loc.rectInTargetSpace.intersect loc.clipRectForSubtree
    else loc.rectInTargetSpace
  let s := s.modify id fun l => { l with drawableContentRect := drawableContentRectOfLayer }
  s.modify id fun l =>
    { l with visibleContentRect := calculateVisibleContentRect cfg.ext layer id s }

/-- The statement of a visit that sorts the descendants appended since
`sortingStartIndex`, for a layer that preserves 3D below a parent that does
not. -/
def sortDescendants (cfg : Config) (anc : List LayerAttrs) (layer : LayerAttrs) (loc : Locals)
    (s : State) : State :=
  let descendants := s.layerListOf loc.descendants
  if !descendants.isEmpty && layer.preserves3D
      && (anc.head?.isNone || !(anc.head?.map (·.preserves3D)).getD false) then
    s.modifySurface loc.descendants fun rs =>
      { rs with
        layerList :=
          (s.layerListOf loc.descendants).take loc.sortingStartIndex
            ++ (cfg.ext.sortLayers s (descendants.drop loc.sortingStartIndex)).val }
  else s

/-- The last statement of a visit: a layer with contributing delegated render
passes is added to the surface of its render target. Nothing happens when the
layer has no render target (the source dereferences it without a test). -/
def addContributingDelegatedRenderPassLayer (layer : LayerAttrs) (id : LayerId) (s : State) :
    State :=
  if layer.hasContributingDelegatedRenderPasses then
    match (s.layers id).renderTarget with
    | some target =>
      s.modifySurface target fun rs =>
        { rs with
          contributingDelegatedRenderPassLayerList :=
            rs.contributingDelegatedRenderPassLayerList ++ [id] }
    | none => s
  else s

/-- The end of a visit, from the test `sortingStartIndex == descendants.size()`
on: the sort of the new descendants, `drawableContentRectOfSubtree` and the
delegated render passes. -/
def finishDescendants (cfg : Config) (anc : List LayerAttrs) (id : LayerId)
    (layer : LayerAttrs) (loc : Locals) (localDrawableContentRectOfSubtree : IntRect)
    (s : State) : IntRect × State :=
  if loc.sortingStartIndex = (s.layerListOf loc.descendants).length then
    (IntRect.zero, s)
  else
    let s := sortDescendants cfg anc layer loc s
    let drawableContentRectOfSubtree :=
      match s.surface id with
      | some rs => enclosingIntRect (cfg.ext.surfaceDrawableContentRect rs layer)
      | none => localDrawableContentRectOfSubtree
    (drawableContentRectOfSubtree, addContributingDelegatedRenderPassLayer layer id s)

/-- The part of `calculateDrawTransformsInternal` that follows the loop over
the children; `accumulatedDrawableContentRectOfChildren` is what the loop
accumulated. The result holds `drawableContentRectOfSubtree`. -/
def finishLayer (cfg : Config) (anc : List LayerAttrs) (id : LayerId) (layer : LayerAttrs)
    (args : WalkArgs) (loc : Locals) (accumulatedDrawableContentRectOfChildren : IntRect)
    (s : State) : IntRect × State :=
  let localRect :=
    localDrawableContentRectOfSubtree layer loc accumulatedDrawableContentRectOfChildren
  let s := setContentRects cfg layer id loc s
  if (s.surface id).isSome && decide (id ≠ []) then
    let s := finishSurface cfg layer id args loc localRect s
    if (s.layerListOf id).isEmpty then (IntRect.zero, removeEmptySurface id s)
    else finishDescendants cfg anc id layer loc localRect s
  else finishDescendants cfg anc id layer loc localRect s

/-- The statements of the loop over the children that follow the visit of the
child `child`: the child is appended to `descendants` when its subtree has a
drawable content rect and it owns a render surface. `r` is the result of the
visit of the child. -/
def appendChildSurface (args : WalkArgs) (child : LayerId) (r : IntRect × State) : State :=
  if !r.1.isEmpty && (r.2.surface child).isSome then r.2.pushLayer args.layerList child
  else r.2

mutual
/-- The function `calculateDrawTransformsInternal`: the visit of `layer`, whose
position is `id` and whose ancestors have the attributes `anc` (the parent
first). The result holds `drawableContentRectOfSubtree` and the state after
the visit. -/
def calculateDrawTransformsInternal (cfg : Config) (anc : List LayerAttrs) (id : LayerId) :
    LayerType → WalkArgs → State → IntRect × State
  | .mk layer children, args, s =>
    match enterLayer cfg anc id layer (anyDrawsContent children) args s with
    | .exit s => (IntRect.zero, s)
    | .proceed loc s =>
      let r := visitChildren cfg (layer :: anc) id children 0 loc.childArgs IntRect.zero s
      finishLayer cfg anc id layer args loc r.1 r.2
/-- The loop of `calculateDrawTransformsInternal` over the children of the
layer at `parentId`, from the child of index `i` on; `acc` is
`accumulatedDrawableContentRectOfChildren`. -/
def visitChildren (cfg : Config) (anc : List LayerAttrs) (parentId : LayerId) :
    List LayerType → Nat → WalkArgs → IntRect → State → IntRect × State
  | [], _, _, acc, s => (acc, s)
  | child :: rest, i, args, acc, s =>
    let r := calculateDrawTransformsInternal cfg anc (i :: parentId) child args s
    let acc := if !r.1.isEmpty then acc.unite r.1 else acc
    visitChildren cfg anc parentId rest (i + 1) args acc
      (appendChildSurface args (i :: parentId) r)
end

/-- The arguments with which `calculateDrawTransforms` calls
`calculateDrawTransformsInternal` on the root layer; `s` is the state after
`setupRootLayerAndSurfaceForRecursion`. -/
def rootArgs (cfg : Config) (s : State) : WalkArgs where
  parentMatrix := WebTransformationMatrix.identity.scale cfg.deviceScaleFactor
  fullHierarchyMatrix := WebTransformationMatrix.identity
  currentScrollCompensationMatrix := WebTransformationMatrix.identity
  clipRectFromAncestor := ((s.surface []).map (·.contentRect)).getD IntRect.zero
  ancestorClipsSubtree := true
  nearestAncestorThatMovesPixels := none
  layerList := []

/-- The two overloads of `LayerTreeHostCommon::calculateDrawTransforms`; `s`
holds the members of the layers before the walk and the render-surface layer
list passed in. -/
def calculateDrawTransforms (cfg : Config) (rootLayer : LayerType) (deviceViewportSize : IntSize)
    (s : State) : State :=
  let s := setupRootLayerAndSurfaceForRecursion [] deviceViewportSize s
  (calculateDrawTransformsInternal cfg [] [] rootLayer (rootArgs cfg s) s).2

end cc

namespace cc

/-! ## A planar instance of the collaborators, and scenarios -/

/-- The image of the point `(x, y, z)` under `m`, in homogeneous coordinates
`(x, y, w)`. -/
def mapHomogeneous (m : WebTransformationMatrix) (x y z : ℚ) : ℚ × ℚ × ℚ :=
  (m.m11 * x + m.m21 * y + m.m31 * z + m.m41,
    m.m12 * x + m.m22 * y + m.m32 * z + m.m42,
    m.m14 * x + m.m24 * y + m.m34 * z + m.m44)

/-- The bounding box of four points given in homogeneous coordinates; the zero
rect when one of them has `w ≤ 0`. -/
def boundingBox (p1 p2 p3 p4 : ℚ × ℚ × ℚ) : FloatRect :=
  if p1.2.2 ≤ 0 ∨ p2.2.2 ≤ 0 ∨ p3.2.2 ≤ 0 ∨ p4.2.2 ≤ 0 then ⟨0, 0, 0, 0⟩
  else
    let xs := [p1.1 / p1.2.2, p2.1 / p2.2.2, p3.1 / p3.2.2, p4.1 / p4.2.2]
    let ys := [p1.2.1 / p1.2.2, p2.2.1 / p2.2.2, p3.2.1 / p3.2.2, p4.2.1 / p4.2.2]
    let xmin := xs.foldl min (p1.1 / p1.2.2)
    let xmax := xs.foldl max (p1.1 / p1.2.2)
    let ymin := ys.foldl min (p1.2.1 / p1.2.2)
    let ymax := ys.foldl max (p1.2.1 / p1.2.2)
    ⟨xmin, ymin, xmax - xmin, ymax - ymin⟩

/-- Modelled from the spec: `MathUtil::mapClippedRect`, declared outside src/:
the bounding box of the four corners of the rect mapped through the matrix. The
model is exact when no corner is mapped behind the camera and answers the zero
rect otherwise. -/
def planarMapClippedRect (m : WebTransformationMatrix) (r : FloatRect) : FloatRect :=
  boundingBox (mapHomogeneous m r.x r.y 0) (mapHomogeneous m r.maxX r.y 0)
    (mapHomogeneous m r.maxX r.maxY 0) (mapHomogeneous m r.x r.maxY 0)

/-- The image of `(x, y)` under `m` for the `z` whose image has `z = 0`; the
origin when `m33 = 0`. -/
def projectHomogeneous (m : WebTransformationMatrix) (x y : ℚ) : ℚ × ℚ × ℚ :=
  if m.m33 = 0 then (0, 0, 1)
  else mapHomogeneous m x y (-(m.m13 * x + m.m23 * y + m.m43) / m.m33)

/-- Modelled from the spec: `MathUtil::projectClippedRect`, declared outside
src/: the bounding box of the four corners of the rect projected through the
matrix onto the plane `z = 0`, under the same restriction as
`planarMapClippedRect`. -/
def planarProjectClippedRect (m : WebTransformationMatrix) (r : FloatRect) : FloatRect :=
  boundingBox (projectHomogeneous m r.x r.y) (projectHomogeneous m r.maxX r.y)
    (projectHomogeneous m r.maxX r.maxY) (projectHomogeneous m r.x r.maxY)

/-- Modelled from the spec: `MathUtil::projectPoint`, declared outside src/: the
projected point, and whether it lies behind the camera. -/
def planarProjectPoint (m : WebTransformationMatrix) (p : FloatPoint) : FloatPoint × Bool :=
  let h := projectHomogeneous m p.x p.y
  if h.2.2 ≤ 0 then (⟨0, 0⟩, true) else (⟨h.1 / h.2.2, h.2.1 / h.2.2⟩, false)

/-- Modelled from the spec: `MathUtil::flattenTransformTo2d`, declared outside
src/: the third row and the third column are replaced by those of the
identity. -/
def planarFlattenTransformTo2d (m : WebTransformationMatrix) : WebTransformationMatrix :=
  { m with m13 := 0, m23 := 0, m31 := 0, m32 := 0, m33 := 1, m34 := 0, m43 := 0 }

/-- A square root on the rationals: exact on the square of a rational, rounded
on the numerator and on the denominator otherwise. -/
def ratSqrt (q : ℚ) : ℚ :=
  (Nat.sqrt q.num.toNat : ℚ) / (Nat.sqrt q.den : ℚ)

/-- Modelled from the spec: `MathUtil::computeTransform2dScaleComponents`,
declared outside src/: the lengths of the images of the x and y axes, `(1, 1)`
for a matrix with perspective. -/
def planarTransform2dScaleComponents (m : WebTransformationMatrix) : FloatPoint :=
  if m.m14 ≠ 0 ∨ m.m24 ≠ 0 ∨ m.m34 ≠ 0 ∨ m.m44 ≠ 1 then ⟨1, 1⟩
  else
    ⟨ratSqrt (m.m11 * m.m11 + m.m12 * m.m12 + m.m13 * m.m13),
      ratSqrt (m.m21 * m.m21 + m.m22 * m.m22 + m.m23 * m.m23)⟩

/-- Modelled from the spec: `WebTransformationMatrix::isBackFaceVisible`,
declared outside src/: the normal `(0, 0, 1)` of the layer points away from the
viewer after the transform; never for a matrix without inverse. -/
def planarIsBackFaceVisible (m : WebTransformationMatrix) : Bool :=
  decide (m.determinant ≠ 0) && decide (m.cofactor.m33 / m.determinant < 0)

/-- Modelled from the spec: `drawableContentRect()` of a render surface,
declared outside src/: the content rect mapped through the draw transform of
the surface, united with its image through the replica draw transform when the
owning layer has a replica. -/
def planarSurfaceDrawableContentRect (rs : RenderSurface) (owner : LayerAttrs) : FloatRect :=
  let r := planarMapClippedRect rs.drawTransform (FloatRect.ofIntRect rs.contentRect)
  if owner.replicaLayer.isSome then
    let r2 := planarMapClippedRect rs.replicaDrawTransform (FloatRect.ofIntRect rs.contentRect)
    let l := min r.x r2.x
    let t := min r.y r2.y
    ⟨l, t, max r.maxX r2.maxX - l, max r.maxY r2.maxY - t⟩
  else r

/-- The collaborators used in the scenarios: the planar geometry above and a
layer sorter that leaves the order as it is. -/
def planarCollaborators : Collaborators where
  mapClippedRect := planarMapClippedRect
  projectClippedRect := planarProjectClippedRect
  projectPoint := planarProjectPoint
  flattenTransformTo2d := planarFlattenTransformTo2d
  computeTransform2dScaleComponents := planarTransform2dScaleComponents
  isBackFaceVisible := planarIsBackFaceVisible
  surfaceDrawableContentRect := planarSurfaceDrawableContentRect
  sortLayers := fun _ l => ⟨l, List.Perm.refl l⟩

/-- A layer as its constructor leaves it: empty bounds at the origin, anchor at
the centre, identity transforms, opaque, double-sided, nothing else set. -/
def LayerAttrs.blank : LayerAttrs where
  bounds := ⟨0, 0⟩
  contentBounds := ⟨0, 0⟩
  position := ⟨0, 0⟩
  anchorPoint := ⟨1 / 2, 1 / 2⟩
  anchorPointZ := 0
  transform := WebTransformationMatrix.identity
  sublayerTransform := WebTransformationMatrix.identity
  implTransform := WebTransformationMatrix.identity
  scrollDelta := ⟨0, 0⟩
  opacity := 1
  opacityIsAnimating := false
  transformIsAnimating := false
  doubleSided := true
  masksToBounds := false
  preserves3D := false
  useParentBackfaceVisibility := false
  forceRenderSurface := false
  drawsContent := false
  hasMaskLayer := false
  replicaLayer := none
  filtersIsEmpty := true
  backgroundFiltersIsEmpty := true
  hasFilter := false
  hasFilterThatMovesPixels := false
  isContainerForFixedPositionLayers := false
  fixedToContainerLayer := false
  hasContributingDelegatedRenderPasses := false
  automaticallyComputeRasterScale := false
  boundsContainPageScale := false

/-- The settings of the scenarios: planar collaborators, device scale 1, page
scale 1, maximum texture size 2048. -/
def scenarioConfig (kind : TreeKind) : Config where
  ext := planarCollaborators
  kind := kind
  maxTextureSize := 2048
  deviceScaleFactor := 1
  pageScaleFactor := 1

/-- A root layer of 100×100 that draws content. -/
def scenarioRoot : LayerAttrs :=
  { LayerAttrs.blank with bounds := ⟨100, 100⟩, contentBounds := ⟨100, 100⟩, drawsContent := true }

/-- A layer of 50×50 at (10, 10) that draws content. -/
def scenarioChild : LayerAttrs :=
  { LayerAttrs.blank with
    bounds := ⟨50, 50⟩, contentBounds := ⟨50, 50⟩, position := ⟨10, 10⟩, drawsContent := true }

/-- The tree of the first scenario: the root of 100×100 with the child of
50×50 at (10, 10). -/
def scenarioTree : LayerType := .mk scenarioRoot [.mk scenarioChild []]

/-- A layer of 50×50 with opacity 1/2 that draws nothing itself. -/
def halfOpaqueChild : LayerAttrs :=
  { LayerAttrs.blank with bounds := ⟨50, 50⟩, contentBounds := ⟨50, 50⟩, opacity := 1 / 2 }

/-- A tree in which the child of the root has opacity 1/2 and a descendant that
draws content. -/
def opacityTree : LayerType :=
  .mk scenarioRoot [.mk halfOpaqueChild [.mk scenarioChild []]]

/-- The tree `opacityTree` under a root that preserves 3D and has opacity
1/2. -/
def opacityTree3d : LayerType :=
  .mk { scenarioRoot with preserves3D := true, opacity := 1 / 2 }
    [.mk halfOpaqueChild [.mk scenarioChild []]]

/-- A tree in which the child of the root has opacity 0. -/
def transparentTree : LayerType :=
  .mk scenarioRoot [.mk { halfOpaqueChild with opacity := 0 } [.mk scenarioChild []]]

/-- The state in which a second frame starts: the members of the layers as the
walk of the first frame left them in `s`, and an empty render-surface layer
list. -/
def nextFrame (s : State) : State := { s with renderSurfaceLayerList := [] }

/-- A matrix with a perspective component along x. -/
def perspectiveX : WebTransformationMatrix :=
  { WebTransformationMatrix.identity with m14 := 1 / 100 }

/-- A container for fixed-position layers that is itself fixed to an ancestor
container and has the scroll delta `d`. -/
def fixedContainer (d : FloatSize) : LayerAttrs :=
  { LayerAttrs.blank with
    scrollDelta := d, isContainerForFixedPositionLayers := true, fixedToContainerLayer := true }

/-- A container for fixed-position layers of 100×100 that is not fixed. -/
def plainContainer : LayerAttrs :=
  { LayerAttrs.blank with
    bounds := ⟨100, 100⟩, contentBounds := ⟨100, 100⟩, isContainerForFixedPositionLayers := true }

/-- A fixed-position layer of 50×50 at (10, 10) that draws content. -/
def fixedChild : LayerAttrs := { scenarioChild with fixedToContainerLayer := true }

/-- A root layer whose sublayer transform has perspective. -/
def perspectiveRoot : LayerAttrs :=
  { LayerAttrs.blank with sublayerTransform := perspectiveX }

/-- A layer scrolled by (10, 0) whose sublayer transform undoes the transform
that its children would inherit under `perspectiveRoot`, so that they are
visited with the identity as parent matrix. -/
def scrolledLayer : LayerAttrs :=
  { LayerAttrs.blank with
    scrollDelta := ⟨10, 0⟩
    sublayerTransform := (perspectiveX.translate (-10) 0).inverse }

/-- A tree of four levels: `perspectiveRoot`, `scrolledLayer`, the fixed
container `fixedContainer d` and the fixed-position layer `fixedChild`. -/
def nestedFixedTree (d : FloatSize) : LayerType :=
  .mk perspectiveRoot [.mk scrolledLayer [.mk (fixedContainer d) [.mk fixedChild []]]]

end cc

namespace cc

/-! ## Predicates on states used in the statements and in the proofs -/

/-- The members of a layer with the two lists of its surface emptied: what a
visit of another layer leaves as it is. -/
def LayerState.eraseLists (l : LayerState) : LayerState :=
  { l with renderSurface := l.renderSurface.map RenderSurface.clearLayerLists }

/-- The layer list of the surface among the members `l`; empty when there is no
surface. -/
def LayerState.layerList (l : LayerState) : List LayerId :=
  match l.renderSurface with
  | some rs => rs.layerList
  | none => []

/-- The members `k` are the members `l` up to layers appended to the layer list
of the surface and up to its list of delegated render pass layers. -/
def Frame (l k : LayerState) : Prop :=
  k.eraseLists = l.eraseLists ∧ l.layerList <+: k.layerList

/-- Outside the region `R`, the state `t` is the state `s` up to frames, and the
render-surface layer list of `t` is that of `s` followed by `new`. -/
structure Step (R : LayerId → Prop) (new : List LayerId) (s t : State) : Prop where
  rsll : t.renderSurfaceLayerList = s.renderSurfaceLayerList ++ new
  frame : ∀ q, ¬ R q → Frame (s.layers q) (t.layers q)


/-- The layer `q` lies in the subtree of one of the children of index at least
`i` of the layer `parentId`. -/
def InChildren (parentId : LayerId) (i : Nat) (q : LayerId) : Prop :=
  ∃ j, i ≤ j ∧ (j :: parentId) <:+ q

/-- The members `k` are the members `l` up to the order of the layer list of
the surface and up to its list of delegated render pass layers. -/
def ModLists (l k : LayerState) : Prop :=
  k.eraseLists = l.eraseLists ∧ k.layerList.Perm l.layerList

/-- The layer `q` lies in the subtree of the layer `id`. -/
def InSubtree (id q : LayerId) : Prop := id <:+ q

/-- The branch that a visit takes when it gives the layer a render surface,
as a function of the arguments of the visit. -/
def surfaceBranch (cfg : Config) (anc : List LayerAttrs) (id : LayerId) (layer : LayerAttrs)
    (args : WalkArgs) (s : State) : Branch :=
  enterSurface layer id args (scaleLayerToContent layer (combinedTransformOf layer args))
    (cfg.ext.computeTransform2dScaleComponents (combinedTransformOf layer args))
    (accumulatedDrawOpacity anc.head? (s.layers id.tail) layer)
    (animatingTransforms anc.head? ((beginLayer cfg id layer args s).layers id.tail) layer)
    (beginLayer cfg id layer args s)

/-- The branch that a visit takes when it gives the layer no render surface,
as a function of the arguments of the visit. -/
def noSurfaceBranch (cfg : Config) (anc : List LayerAttrs) (id : LayerId) (layer : LayerAttrs)
    (args : WalkArgs) (s : State) : Branch :=
  enterNoSurface id args (scaleLayerToContent layer (combinedTransformOf layer args))
    (combinedTransformOf layer args)
    (accumulatedDrawOpacity anc.head? (s.layers id.tail) layer)
    (animatingTransforms anc.head? ((beginLayer cfg id layer args s).layers id.tail) layer)
    (beginLayer cfg id layer args s)

/-- The locals and the state with which a visit reaches the loop over the
children after the branch `b`. -/
def childrenOf (cfg : Config) (anc : List LayerAttrs) (id : LayerId) (layer : LayerAttrs)
    (args : WalkArgs) (b : Branch) : Locals × State :=
  enterChildren cfg anc id layer args
    (cfg.ext.computeTransform2dScaleComponents (combinedTransformOf layer args)) b

/-- The members `l` of a layer once its surface is destroyed. -/
def LayerState.withoutSurface (l : LayerState) : LayerState :=
  { l with renderSurface := none }

/-- What a visit of the layer `id` does to the state outside the subtree of
the layer: frames on the layers, and new entries of the render-surface layer
list that all lie in the subtree. -/
def WalkStep (id : LayerId) (s t : State) : Prop :=
  ∃ new, Step (InSubtree id) new s t ∧ ∀ q ∈ new, InSubtree id q

/-- What the loop over the children of index at least `i` of the layer
`parentId` does to the state outside the subtrees of these children. -/
def ChildrenStep (parentId : LayerId) (i : Nat) (s t : State) : Prop :=
  ∃ new, Step (InChildren parentId i) new s t ∧ ∀ q ∈ new, InChildren parentId i q

/-! ## The visits that a walk makes -/

/-- One call of `calculateDrawTransformsInternal`: the layer (its attributes
and its children), its position, the attributes of its ancestors, the arguments
and the state in which the call starts. -/
structure Call where
  anc : List LayerAttrs
  id : LayerId
  layer : LayerAttrs
  children : List LayerType
  args : WalkArgs
  s : State

/-- How the part of the call before the loop over the children ends. -/
def Call.entered (cfg : Config) (v : Call) : Entered :=
  enterLayer cfg v.anc v.id v.layer (anyDrawsContent v.children) v.args v.s

/-- The call passes the two early returns and gives its layer a render
surface. -/
def Call.takesSurface (cfg : Config) (v : Call) : Prop :=
  subtreeShouldBeSkipped cfg.kind v.layer = false
    ∧ rendersToSeparateSurface v.anc v.layer (anyDrawsContent v.children) v.args = true
    ∧ surfaceIsCulled cfg v.anc v.layer v.args = false

/-- The call passes the first early return and gives its layer no render
surface. -/
def Call.takesNoSurface (cfg : Config) (v : Call) : Prop :=
  subtreeShouldBeSkipped cfg.kind v.layer = false
    ∧ rendersToSeparateSurface v.anc v.layer (anyDrawsContent v.children) v.args = false

mutual
/-- The call `v` is made during the visit of a layer: it is the visit itself or
a call made, directly or not, by the loop over the children of the layer. -/
def Visits (cfg : Config) (anc : List LayerAttrs) (id : LayerId) :
    LayerType → WalkArgs → State → Call → Prop
  | .mk layer children, args, s, v =>
    v = ⟨anc, id, layer, children, args, s⟩ ∨
      match enterLayer cfg anc id layer (anyDrawsContent children) args s with
      | .exit _ => False
      | .proceed loc u =>
        ChildVisits cfg (layer :: anc) id children 0 loc.childArgs IntRect.zero u v
/-- The call `v` is made during the loop over the children of the layer at
`parentId`, from the child of index `i` on. -/
def ChildVisits (cfg : Config) (anc : List LayerAttrs) (parentId : LayerId) :
    List LayerType → Nat → WalkArgs → IntRect → State → Call → Prop
  | [], _, _, _, _, _ => False
  | child :: rest, i, args, acc, s, v =>
    Visits cfg anc (i :: parentId) child args s v ∨
      ChildVisits cfg anc parentId rest (i + 1) args
        (if !(calculateDrawTransformsInternal cfg anc (i :: parentId) child args s).1.isEmpty then
          acc.unite (calculateDrawTransformsInternal cfg anc (i :: parentId) child args s).1
        else acc)
        (appendChildSurface args (i :: parentId)
          (calculateDrawTransformsInternal cfg anc (i :: parentId) child args s)) v
end

/-- The call `v` is made during `calculateDrawTransforms cfg rootLayer
deviceViewportSize s`. -/
def WalkVisits (cfg : Config) (rootLayer : LayerType) (deviceViewportSize : IntSize) (s : State)
    (v : Call) : Prop :=
  Visits cfg [] [] rootLayer
    (rootArgs cfg (setupRootLayerAndSurfaceForRecursion [] deviceViewportSize s))
    (setupRootLayerAndSurfaceForRecursion [] deviceViewportSize s) v

/-- The members of a layer that only the part of its own visit before the loop
writes: all but the surface and the two content rects. -/
def LayerState.core (l : LayerState) : LayerState :=
  { l with
    renderSurface := none
    visibleContentRect := IntRect.zero
    drawableContentRect := IntRect.zero }

/-- The members `k` are the members `l` up to the surface and the two content
rects. -/
def Core (l k : LayerState) : Prop := k.core = l.core

/-- The members `k` are the members `l` up to the two lists of the surface, and
the layer list is not empty in `k` when it is not in `l`. -/
def Keeps (l k : LayerState) : Prop :=
  k.eraseLists = l.eraseLists ∧ (l.layerList ≠ [] → k.layerList ≠ [])

/-- What holds of the layer of the call `v`, when the call passes the early
returns, in a state `t` reached after the call, where `new` lists the entries
appended to the render-surface layer list since the start of an enclosing
visit. `u0` is the state in which the call reaches the loop over the
children. -/
def CallPost (cfg : Config) (v : Call) (new : List LayerId) (t : State) : Prop :=
  ∀ loc u0, v.entered cfg = .proceed loc u0 →
    Core (u0.layers v.id) (t.layers v.id)
    ∧ (v.id ≠ [] → Core (v.s.layers v.id.tail) (t.layers v.id.tail))
    ∧ (v.id ≠ [] → ((t.surface v.id).isSome = true ↔ v.id ∈ new))
    ∧ (v.id ≠ [] → ∀ rs, t.surface v.id = some rs →
        rendersToSeparateSurface v.anc v.layer (anyDrawsContent v.children) v.args = true
        ∧ rs.layerList ≠ []
        ∧ rs.contentRect.width ≤ cfg.maxTextureSize
        ∧ rs.contentRect.height ≤ cfg.maxTextureSize
        ∧ ∃ rs0, u0.surface v.id = some rs0 ∧ rs.drawOpacity = rs0.drawOpacity
          ∧ rs.drawTransform = rs0.drawTransform ∧ rs.clipRect = rs0.clipRect)

/-- What a visit of the layer `id` establishes, from the state `s` to the state
`t`: the frame of `WalkStep`, and for every call `v` among `calls` the
postcondition `CallPost` and a frame from `s` to the state in which `v` starts,
on the subtree of `v`; every new entry of the render-surface layer list is the
layer of such a call that passes the early returns. -/
def WalkPost (cfg : Config) (R : LayerId → Prop) (calls : Call → Prop) (s t : State) : Prop :=
  ∃ new, Step R new s t
    ∧ (∀ q ∈ new, R q ∧ ∃ v loc u0, calls v ∧ v.id = q ∧ v.entered cfg = .proceed loc u0)
    ∧ ∀ v, calls v →
        R v.id ∧ CallPost cfg v new t
        ∧ ∀ q, InSubtree v.id q → Frame (s.layers q) (v.s.layers q)

/-! ## Calls named by their position -/

/-- The call that `calculateDrawTransforms` makes on the root layer. -/
def rootCall (cfg : Config) (rootLayer : LayerType) (deviceViewportSize : IntSize) (s : State) :
    Call :=
  ⟨[], [], rootLayer.attrs, rootLayer.children,
    rootArgs cfg (setupRootLayerAndSurfaceForRecursion [] deviceViewportSize s),
    setupRootLayerAndSurfaceForRecursion [] deviceViewportSize s⟩

/-- The call that the call `v`, when it gives its layer no render surface, makes
on the first child of its layer; `child` and `grandchildren` are the attributes
and the children of that child. -/
def Call.firstChild (cfg : Config) (v : Call) (child : LayerAttrs)
    (grandchildren : List LayerType) : Call :=
  ⟨v.layer :: v.anc, 0 :: v.id, child, grandchildren,
    (childrenOf cfg v.anc v.id v.layer v.args
      (noSurfaceBranch cfg v.anc v.id v.layer v.args v.s)).1.childArgs,
    (childrenOf cfg v.anc v.id v.layer v.args
      (noSurfaceBranch cfg v.anc v.id v.layer v.args v.s)).2⟩

instance (cfg : Config) (v : Call) : Decidable (v.takesSurface cfg) := by
  unfold Call.takesSurface
  infer_instance

instance (cfg : Config) (v : Call) : Decidable (v.takesNoSurface cfg) := by
  unfold Call.takesNoSurface
  infer_instance

/-- Every layer that owns a render surface in `s` is its own render target:
what `createRenderSurface` establishes. -/
def SurfaceOwnersAreTargets (s : State) : Prop :=
  ∀ q, (s.surface q).isSome = true → (s.layers q).renderTarget = some q

/-- What a visit of the layer `id` needs of the state in which it starts, for
the render targets: the owners of a surface in the subtree are their own
targets, the root owns a surface, and the render target of the parent is the
parent or one of its ancestors. -/
def TargetOk (id : LayerId) (s : State) : Prop :=
  (∀ q, InSubtree id q → (s.surface q).isSome = true → (s.layers q).renderTarget = some q)
  ∧ (id = [] → (s.surface []).isSome = true)
  ∧ (id ≠ [] → ∃ a, (s.layers id.tail).renderTarget = some a ∧ a <:+ id.tail)

/-- What the loop over the children of index at least `i` of the layer
`parentId` needs of the state in which it starts, for the render targets. -/
def ChildrenTargetOk (parentId : LayerId) (i : Nat) (s : State) : Prop :=
  (∀ q, InChildren parentId i q → (s.surface q).isSome = true →
    (s.layers q).renderTarget = some q)
  ∧ ∃ a, (s.layers parentId).renderTarget = some a ∧ a <:+ parentId

/-- The matrix is one that `flattenTransformTo2d` leaves as it is: its third
row and its third column are those of the identity. -/
def WebTransformationMatrix.is2d (m : WebTransformationMatrix) : Prop :=
  m.m13 = 0 ∧ m.m23 = 0 ∧ m.m31 = 0 ∧ m.m32 = 0 ∧ m.m33 = 1 ∧ m.m34 = 0 ∧ m.m43 = 0

instance (m : WebTransformationMatrix) : Decidable m.is2d := by
  unfold WebTransformationMatrix.is2d
  infer_instance

/-- The value of the local `sublayerMatrix` that a visit passes to the children
of its layer as their parent matrix, as a function of the value `m` that the
branch left in it. -/
def sublayerMatrixOf (cfg : Config) (layer : LayerAttrs) (m : WebTransformationMatrix) :
    WebTransformationMatrix :=
  (((if !layer.preserves3D then cfg.ext.flattenTransformTo2d m else m).translate
      ((1 / 2 : ℚ) * layer.bounds.width) ((1 / 2 : ℚ) * layer.bounds.height)).multiply
    layer.sublayerTransform).translate
      (-(1 / 2 : ℚ) * layer.bounds.width) (-(1 / 2 : ℚ) * layer.bounds.height)

/-- The layer `layer` with the scroll delta `d`. -/
def LayerAttrs.withScrollDelta (layer : LayerAttrs) (d : FloatSize) : LayerAttrs :=
  { layer with scrollDelta := d }

end cc

namespace cc

/-! ## Hit testing -/

/-- The function `pointHitsRect`. -/
def pointHitsRect (c : Collaborators) (screenSpacePoint : IntPoint)
    (localSpaceToScreenSpaceTransform : WebTransformationMatrix) (localSpaceRect : FloatRect) :
    Bool :=
  if !localSpaceToScreenSpaceTransform.isInvertible then false
  else
    let projected := c.projectPoint localSpaceToScreenSpaceTransform.inverse
      ⟨screenSpacePoint.x, screenSpacePoint.y⟩
    if projected.2 then false else localSpaceRect.contains projected.1

/-- The value `currentLayer->renderTarget()->renderSurface()->screenSpaceTransform()`;
`none` when the layer has no render target or the target owns no surface (the
source dereferences both without a test). -/
def targetScreenSpaceTransform (s : State) (id : LayerId) : Option WebTransformationMatrix :=
  ((s.layers id).renderTarget.bind s.surface).map (·.screenSpaceTransform)

/-- One turn of the loop of `pointIsClippedBySurfaceOrClipRect`, for the layer
`currentLayer` with the attributes `layer`; `rest` is what the loop answers from
the parent on. The answer is `none` when the turn dereferences a null
pointer. -/
def clipTestStep (c : Collaborators) (s : State) (screenSpacePoint : IntPoint)
    (currentLayer : LayerId) (layer : LayerAttrs) (rest : Option Bool) : Option Bool :=
  let missesSurface :=
    match s.surface currentLayer with
    | some rs =>
      !pointHitsRect c screenSpacePoint rs.screenSpaceTransform (FloatRect.ofIntRect rs.contentRect)
    | none => false
  if missesSurface then some true
  else if layerClipsSubtree layer then
    match targetScreenSpaceTransform s currentLayer with
    | none => none
    | some m =>
      if !pointHitsRect c screenSpacePoint m
          (FloatRect.ofIntRect (s.layers currentLayer).drawableContentRect) then some true
      else rest
  else rest

/-- The function `pointIsClippedBySurfaceOrClipRect`: the walk from the layer at
`id` up to the root layer. `attrsOf` gives the attributes of the layers. -/
def pointIsClippedBySurfaceOrClipRect (c : Collaborators) (attrsOf : LayerId → LayerAttrs)
    (s : State) (screenSpacePoint : IntPoint) : LayerId → Option Bool
  | [] => clipTestStep c s screenSpacePoint [] (attrsOf []) (some false)
  | i :: parent =>
    clipTestStep c s screenSpacePoint (i :: parent) (attrsOf (i :: parent))
      (pointIsClippedBySurfaceOrClipRect c attrsOf s screenSpacePoint parent)

/-- One position of the `LayerIterator`: the layer `*it` and the value of
`it.representsItself()`. -/
structure IteratorPosition where
  layer : LayerId
  representsItself : Bool
deriving DecidableEq

/-- The loop of `findLayerThatIsHitByPoint` over the positions that the
front-to-back iteration yields. The answer is `none` when the loop dereferences
a null pointer, `some none` for the null result. -/
def findLayerInPositions (c : Collaborators) (attrsOf : LayerId → LayerAttrs) (s : State)
    (screenSpacePoint : IntPoint) : List IteratorPosition → Option (Option LayerId)
  | [] => some none
  | it :: rest =>
    if !it.representsItself then findLayerInPositions c attrsOf s screenSpacePoint rest
    else if !pointHitsRect c screenSpacePoint (s.layers it.layer).screenSpaceTransform
        (FloatRect.ofSize (attrsOf it.layer).contentBounds) then
      findLayerInPositions c attrsOf s screenSpacePoint rest
    else
      match pointIsClippedBySurfaceOrClipRect c attrsOf s screenSpacePoint it.layer with
      | none => none
      | some true => findLayerInPositions c attrsOf s screenSpacePoint rest
      | some false => some (some it.layer)

/-- The function `LayerTreeHostCommon::findLayerThatIsHitByPoint`. The
`LayerIterator` is declared outside src/: `frontToBack` gives the positions
that it yields, in order, for a render-surface layer list. -/
def findLayerThatIsHitByPoint (c : Collaborators)
    (frontToBack : State → List LayerId → List IteratorPosition)
    (attrsOf : LayerId → LayerAttrs) (s : State) (screenSpacePoint : IntPoint)
    (renderSurfaceLayerList : List LayerId) : Option (Option LayerId) :=
  findLayerInPositions c attrsOf s screenSpacePoint (frontToBack s renderSurfaceLayerList)

/-- An entry passes the tests of `findLayerThatIsHitByPoint`, in the words of
the specification: it represents itself, the screen-space transform of its layer
is invertible, the projection of the point through the inverse is not clipped
and lies in the content-bounds rect, and the point is not clipped by a surface
or a clip rect on the way to the root. -/
def IteratorPosition.isHit (c : Collaborators) (attrsOf : LayerId → LayerAttrs) (s : State)
    (screenSpacePoint : IntPoint) (it : IteratorPosition) : Bool :=
  it.representsItself
    && (s.layers it.layer).screenSpaceTransform.isInvertible
    && !(c.projectPoint (s.layers it.layer).screenSpaceTransform.inverse
          ⟨screenSpacePoint.x, screenSpacePoint.y⟩).2
    && (FloatRect.ofSize (attrsOf it.layer).contentBounds).contains
        (c.projectPoint (s.layers it.layer).screenSpaceTransform.inverse
          ⟨screenSpacePoint.x, screenSpacePoint.y⟩).1
    && decide (pointIsClippedBySurfaceOrClipRect c attrsOf s screenSpacePoint it.layer
        = some false)

/-- The attributes of the layers of a tree by position; the attributes
`LayerAttrs.blank` at a position outside the tree. `path` lists the child
indices from the root down. -/
def LayerType.attrsAtPath : List Nat → LayerType → LayerAttrs
  | [], t => t.attrs
  | i :: rest, t =>
    match t.children[i]? with
    | some child => LayerType.attrsAtPath rest child
    | none => LayerAttrs.blank

/-- The attributes of the layer at the position `id` of the tree `root`. -/
def LayerType.attrsOf (root : LayerType) (id : LayerId) : LayerAttrs :=
  LayerType.attrsAtPath id.reverse root

/-! ## More calls named by their parts -/

/-- The branch that the call `v` takes. -/
def Call.branch (cfg : Config) (v : Call) : Branch :=
  if rendersToSeparateSurface v.anc v.layer (anyDrawsContent v.children) v.args then
    surfaceBranch cfg v.anc v.id v.layer v.args v.s
  else noSurfaceBranch cfg v.anc v.id v.layer v.args v.s

/-- The layer whose surface owns the vector `descendants` of the call `v`. -/
def Call.descendants (cfg : Config) (v : Call) : LayerId :=
  if ((v.branch cfg).state.surface v.id).isSome then v.id else v.args.layerList

/-! ## A scenario for hit testing -/

/-- A layer of 50×50 at (10, 10) that masks to its bounds and draws nothing
itself. -/
def clippingChild : LayerAttrs :=
  { LayerAttrs.blank with
    bounds := ⟨50, 50⟩, contentBounds := ⟨50, 50⟩, position := ⟨10, 10⟩, masksToBounds := true }

/-- A layer of 100×100 that draws content. -/
def wideLayer : LayerAttrs :=
  { LayerAttrs.blank with bounds := ⟨100, 100⟩, contentBounds := ⟨100, 100⟩, drawsContent := true }

/-- A tree in which the child of the root clips a grandchild that is wider than
the clip. -/
def clipTree : LayerType := .mk scenarioRoot [.mk clippingChild [.mk wideLayer []]]

/-- The positions of an iteration over the three layers of `clipTree`, the
deepest layer first. -/
def clipTreePositions : List IteratorPosition :=
  [⟨[0, 0], true⟩, ⟨[0], true⟩, ⟨[], true⟩, ⟨[], false⟩]

/-- A layer of 50×50 at (10, 10) that masks to its bounds and is fully
transparent. -/
def hiddenClippingChild : LayerAttrs := { clippingChild with opacity := 0 }

/-- The root of 100×100 with the transparent layer that masks to its bounds. -/
def hiddenClipTree : LayerType := .mk scenarioRoot [.mk hiddenClippingChild []]

/-- The positions of an iteration over the one layer that the walk of
`hiddenClipTree` lists. -/
def hiddenClipTreePositions : List IteratorPosition := [⟨[], true⟩, ⟨[], false⟩]

/-- A matrix of rank one in x and y: it maps the point (x, y) to
(x + y, x + y), a rect onto a diagonal segment. -/
def diagonalCollapse : WebTransformationMatrix :=
  { WebTransformationMatrix.identity with m12 := 1, m21 := 1 }

/-- A layer of 50×50 that is not double-sided, is the root of a new 3D rendering
context, forces a render surface and is turned by 180° around the y axis, so
that it shows its back face. -/
def flippedLayer : LayerAttrs :=
  { LayerAttrs.blank with
    bounds := ⟨50, 50⟩, contentBounds := ⟨50, 50⟩, drawsContent := true
    doubleSided := false, preserves3D := true, forceRenderSurface := true
    transform := { WebTransformationMatrix.identity with m11 := -1, m33 := -1 } }

/-! ## The order of the render-surface layer list -/

/-- The layer list of `descendants` after the statement of the call `v` that
appends the layer itself is the one that the branch left, followed by the
layer. -/
def Call.appendsItself (cfg : Config) (v : Call) : Prop :=
  (childrenOf cfg v.anc v.id v.layer v.args (v.branch cfg)).2.layerListOf (v.descendants cfg)
    = (v.branch cfg).state.layerListOf (v.descendants cfg) ++ [v.id]

end cc

namespace cc

/-! ## The stages of a call -/

/-- The visit that the call `v` stands for: `drawableContentRectOfSubtree` and
the state after the visit. -/
def Call.result (cfg : Config) (v : Call) : IntRect × State :=
  calculateDrawTransformsInternal cfg v.anc v.id (.mk v.layer v.children) v.args v.s

/-- The locals with which the call `v` reaches the loop over the children, when
it passes the early returns. -/
def Call.locals (cfg : Config) (v : Call) : Locals :=
  (childrenOf cfg v.anc v.id v.layer v.args (v.branch cfg)).1

/-- The state in which the call `v` reaches the loop over the children, when it
passes the early returns. -/
def Call.atLoop (cfg : Config) (v : Call) : State :=
  (childrenOf cfg v.anc v.id v.layer v.args (v.branch cfg)).2

/-- What the loop over the children of the call `v` leaves:
`accumulatedDrawableContentRectOfChildren` and the state. -/
def Call.afterChildren (cfg : Config) (v : Call) : IntRect × State :=
  visitChildren cfg (v.layer :: v.anc) v.id v.children 0 (v.locals cfg).childArgs IntRect.zero
    (v.atLoop cfg)

/-- The value of the local `localDrawableContentRectOfSubtree` of the call
`v`. -/
def Call.localRect (cfg : Config) (v : Call) : IntRect :=
  localDrawableContentRectOfSubtree v.layer (v.locals cfg) (v.afterChildren cfg).1

/-- The state in which the call `v` reaches the test of the layer list of the
surface of its layer, when the layer owns a surface and is not the root. -/
def Call.atListTest (cfg : Config) (v : Call) : State :=
  finishSurface cfg v.layer v.id v.args (v.locals cfg) (v.localRect cfg)
    (setContentRects cfg v.layer v.id (v.locals cfg) (v.afterChildren cfg).2)

/-- The state in which the call `v` reaches the test `sortingStartIndex ==
descendants.size()`, when the surface of its layer is not removed. -/
def Call.atSizeTest (cfg : Config) (v : Call) : State :=
  if ((v.afterChildren cfg).2.surface v.id).isSome && decide (v.id ≠ []) then v.atListTest cfg
  else setContentRects cfg v.layer v.id (v.locals cfg) (v.afterChildren cfg).2

/-- The state in which the call `v` assigns `drawableContentRectOfSubtree`, after
the sort of the new descendants, when it passes the test of the size of
`descendants`. -/
def Call.atAssign (cfg : Config) (v : Call) : State :=
  sortDescendants cfg v.anc v.layer (v.locals cfg) (v.atSizeTest cfg)

/-- The call `v` removes the render surface of its layer: the layer owns a
surface after the loop over the children, is not the root, and the layer list
of the surface is empty when the call tests it. -/
def Call.removesSurface (cfg : Config) (v : Call) : Prop :=
  ((v.afterChildren cfg).2.surface v.id).isSome = true ∧ v.id ≠ []
    ∧ (v.atListTest cfg).layerListOf v.id = []

/-- The test `sortingStartIndex == descendants.size()` of the call `v` succeeds:
neither the layer nor a layer of its subtree was appended to `descendants`. -/
def Call.appendsNothing (cfg : Config) (v : Call) : Prop :=
  (v.locals cfg).sortingStartIndex
    = ((v.atSizeTest cfg).layerListOf (v.locals cfg).descendants).length

instance (cfg : Config) (v : Call) : Decidable (v.removesSurface cfg) := by
  unfold Call.removesSurface
  infer_instance

instance (cfg : Config) (v : Call) : Decidable (v.appendsNothing cfg) := by
  unfold Call.appendsNothing
  infer_instance

/-- The values of `drawableContentRectOfChildSubtree` in the loop over the
children of the layer at `parentId`, from the child of index `i` on, in the
order of the children. -/
def childRects (cfg : Config) (anc : List LayerAttrs) (parentId : LayerId) :
    List LayerType → Nat → WalkArgs → State → List IntRect
  | [], _, _, _ => []
  | child :: rest, i, args, s =>
    (calculateDrawTransformsInternal cfg anc (i :: parentId) child args s).1
      :: childRects cfg anc parentId rest (i + 1) args
        (appendChildSurface args (i :: parentId)
          (calculateDrawTransformsInternal cfg anc (i :: parentId) child args s))

/-- The call `c` is one that the call `p` makes, in its loop over the children
of its layer, on the child of index `j`. -/
def Call.IsChildOf (cfg : Config) (c p : Call) : Prop :=
  ∃ loc u0 j, p.entered cfg = .proceed loc u0
    ∧ p.children[j]? = some (.mk c.layer c.children)
    ∧ c.anc = p.layer :: p.anc ∧ c.id = j :: p.id ∧ c.args = loc.childArgs

/-- The members `k` are the members `l` up to the render surface. -/
def ButSurface (l k : LayerState) : Prop := k.withoutSurface = l.withoutSurface

mutual
/-- Every layer of the tree satisfies `p`. -/
def LayerType.All (p : LayerAttrs → Prop) : LayerType → Prop
  | .mk a cs => p a ∧ AllOf p cs
/-- Every layer of the trees of the list satisfies `p`. -/
def AllOf (p : LayerAttrs → Prop) : List LayerType → Prop
  | [] => True
  | c :: cs => c.All p ∧ AllOf p cs
end

/-- Every point of the rect `r` is a point of the rect `bound`. -/
def IntRect.Within (r bound : IntRect) : Prop :=
  ∀ x y : Int, r.x ≤ x → x < r.maxX → r.y ≤ y → y < r.maxY →
    bound.x ≤ x ∧ x < bound.maxX ∧ bound.y ≤ y ∧ y < bound.maxY

/-! ## Scenarios with a scaled surface and with a layer that shows its back -/

/-- A layer of 50×50 that forces a render surface and draws nothing. -/
def emptySurfaceLayer : LayerAttrs :=
  { LayerAttrs.blank with
    bounds := ⟨50, 50⟩, contentBounds := ⟨50, 50⟩, forceRenderSurface := true }

/-- The root of 100×100 with the layer that forces a render surface and draws
nothing. -/
def emptySurfaceTree : LayerType := .mk scenarioRoot [.mk emptySurfaceLayer []]

/-- A layer of 50×50 at (10, 10) that draws content, is not double-sided and is
turned by 180° around the y axis, so that it shows its back face. -/
def backFacingChild : LayerAttrs :=
  { scenarioChild with
    doubleSided := false
    transform := { WebTransformationMatrix.identity with m11 := -1, m33 := -1 } }

/-- The root of 100×100 with the layer that shows its back face. -/
def backFacingTree : LayerType := .mk scenarioRoot [.mk backFacingChild []]

end cc

namespace cc

/-! ## Matrix algebra -/

theorem WebTransformationMatrix.multiply_assoc (a b c : WebTransformationMatrix) :
    (a.multiply b).multiply c = a.multiply (b.multiply c) := by
  ext <;> simp only [multiply] <;> ring

theorem WebTransformationMatrix.multiply_identity (a : WebTransformationMatrix) :
    a.multiply identity = a := by
  ext <;> simp [multiply, identity]

theorem WebTransformationMatrix.identity_multiply (a : WebTransformationMatrix) :
    identity.multiply a = a := by
  ext <;> simp [multiply, identity]

set_option maxHeartbeats 1600000 in
theorem WebTransformationMatrix.multiply_inverse (a : WebTransformationMatrix)
    (h : a.determinant ≠ 0) : a.multiply a.inverse = identity := by
  ext <;> simp only [inverse, if_neg h, multiply, adjugateOver, identity]
  · have e : a.cofactor.m11 * a.m11 + a.cofactor.m21 * a.m21 + a.cofactor.m31 * a.m31 + a.cofactor.m41 * a.m41 = a.determinant := by
      simp only [determinant, cofactor, det3]; ring
    field_simp
    linear_combination e
  · have e : a.cofactor.m11 * a.m12 + a.cofactor.m21 * a.m22 + a.cofactor.m31 * a.m32 + a.cofactor.m41 * a.m42 = 0 := by
      simp only [determinant, cofactor, det3]; ring
    field_simp
    linear_combination e
  · have e : a.cofactor.m11 * a.m13 + a.cofactor.m21 * a.m23 + a.cofactor.m31 * a.m33 + a.cofactor.m41 * a.m43 = 0 := by
      simp only [determinant, cofactor, det3]; ring
    field_simp
    linear_combination e
  · have e : a.cofactor.m11 * a.m14 + a.cofactor.m21 * a.m24 + a.cofactor.m31 * a.m34 + a.cofactor.m41 * a.m44 = 0 := by
      simp only [determinant, cofactor, det3]; ring
    field_simp
    linear_combination e
  · have e : a.cofactor.m12 * a.m11 + a.cofactor.m22 * a.m21 + a.cofactor.m32 * a.m31 + a.cofactor.m42 * a.m41 = 0 := by
      simp only [determinant, cofactor, det3]; ring
    field_simp
    linear_combination e
  · have e : a.cofactor.m12 * a.m12 + a.cofactor.m22 * a.m22 + a.cofactor.m32 * a.m32 + a.cofactor.m42 * a.m42 = a.determinant := by
      simp only [determinant, cofactor, det3]; ring
    field_simp
    linear_combination e
  · have e : a.cofactor.m12 * a.m13 + a.cofactor.m22 * a.m23 + a.cofactor.m32 * a.m33 + a.cofactor.m42 * a.m43 = 0 := by
      simp only [determinant, cofactor, det3]; ring
    field_simp
    linear_combination e
  · have e : a.cofactor.m12 * a.m14 + a.cofactor.m22 * a.m24 + a.cofactor.m32 * a.m34 + a.cofactor.m42 * a.m44 = 0 := by
      simp only [determinant, cofactor, det3]; ring
    field_simp
    linear_combination e
  · have e : a.cofactor.m13 * a.m11 + a.cofactor.m23 * a.m21 + a.cofactor.m33 * a.m31 + a.cofactor.m43 * a.m41 = 0 := by
      simp only [determinant, cofactor, det3]; ring
    field_simp
    linear_combination e
  · have e : a.cofactor.m13 * a.m12 + a.cofactor.m23 * a.m22 + a.cofactor.m33 * a.m32 + a.cofactor.m43 * a.m42 = 0 := by
      simp only [determinant, cofactor, det3]; ring
    field_simp
    linear_combination e
  · have e : a.cofactor.m13 * a.m13 + a.cofactor.m23 * a.m23 + a.cofactor.m33 * a.m33 + a.cofactor.m43 * a.m43 = a.determinant := by
      simp only [determinant, cofactor, det3]; ring
    field_simp
    linear_combination e
  · have e : a.cofactor.m13 * a.m14 + a.cofactor.m23 * a.m24 + a.cofactor.m33 * a.m34 + a.cofactor.m43 * a.m44 = 0 := by
      simp only [determinant, cofactor, det3]; ring
    field_simp
    linear_combination e
  · have e : a.cofactor.m14 * a.m11 + a.cofactor.m24 * a.m21 + a.cofactor.m34 * a.m31 + a.cofactor.m44 * a.m41 = 0 := by
      simp only [determinant, cofactor, det3]; ring
    field_simp
    linear_combination e
  · have e : a.cofactor.m14 * a.m12 + a.cofactor.m24 * a.m22 + a.cofactor.m34 * a.m32 + a.cofactor.m44 * a.m42 = 0 := by
      simp only [determinant, cofactor, det3]; ring
    field_simp
    linear_combination e
  · have e : a.cofactor.m14 * a.m13 + a.cofactor.m24 * a.m23 + a.cofactor.m34 * a.m33 + a.cofactor.m44 * a.m43 = 0 := by
      simp only [determinant, cofactor, det3]; ring
    field_simp
    linear_combination e
  · have e : a.cofactor.m14 * a.m14 + a.cofactor.m24 * a.m24 + a.cofactor.m34 * a.m34 + a.cofactor.m44 * a.m44 = a.determinant := by
      simp only [determinant, cofactor, det3]; ring
    field_simp
    linear_combination e

set_option maxHeartbeats 1600000 in
theorem WebTransformationMatrix.inverse_multiply (a : WebTransformationMatrix)
    (h : a.determinant ≠ 0) : a.inverse.multiply a = identity := by
  ext <;> simp only [inverse, if_neg h, multiply, adjugateOver, identity]
  · have e : a.m11 * a.cofactor.m11 + a.m12 * a.cofactor.m12 + a.m13 * a.cofactor.m13 + a.m14 * a.cofactor.m14 = a.determinant := by
      simp only [determinant]
    field_simp
    linear_combination e
  · have e : a.m11 * a.cofactor.m21 + a.m12 * a.cofactor.m22 + a.m13 * a.cofactor.m23 + a.m14 * a.cofactor.m24 = 0 := by
      simp only [determinant, cofactor, det3]; ring
    field_simp
    linear_combination e
  · have e : a.m11 * a.cofactor.m31 + a.m12 * a.cofactor.m32 + a.m13 * a.cofactor.m33 + a.m14 * a.cofactor.m34 = 0 := by
      simp only [determinant, cofactor, det3]; ring
    field_simp
    linear_combination e
  · have e : a.m11 * a.cofactor.m41 + a.m12 * a.cofactor.m42 + a.m13 * a.cofactor.m43 + a.m14 * a.cofactor.m44 = 0 := by
      simp only [determinant, cofactor, det3]; ring
    field_simp
    linear_combination e
  · have e : a.m21 * a.cofactor.m11 + a.m22 * a.cofactor.m12 + a.m23 * a.cofactor.m13 + a.m24 * a.cofactor.m14 = 0 := by
      simp only [determinant, cofactor, det3]; ring
    field_simp
    linear_combination e
  · have e : a.m21 * a.cofactor.m21 + a.m22 * a.cofactor.m22 + a.m23 * a.cofactor.m23 + a.m24 * a.cofactor.m24 = a.determinant := by
      simp only [determinant, cofactor, det3]; ring
    field_simp
    linear_combination e
  · have e : a.m21 * a.cofactor.m31 + a.m22 * a.cofactor.m32 + a.m23 * a.cofactor.m33 + a.m24 * a.cofactor.m34 = 0 := by
      simp only [determinant, cofactor, det3]; ring
    field_simp
    linear_combination e
  · have e : a.m21 * a.cofactor.m41 + a.m22 * a.cofactor.m42 + a.m23 * a.cofactor.m43 + a.m24 * a.cofactor.m44 = 0 := by
      simp only [determinant, cofactor, det3]; ring
    field_simp
    linear_combination e
  · have e : a.m31 * a.cofactor.m11 + a.m32 * a.cofactor.m12 + a.m33 * a.cofactor.m13 + a.m34 * a.cofactor.m14 = 0 := by
      simp only [determinant, cofactor, det3]; ring
    field_simp
    linear_combination e
  · have e : a.m31 * a.cofactor.m21 + a.m32 * a.cofactor.m22 + a.m33 * a.cofactor.m23 + a.m34 * a.cofactor.m24 = 0 := by
      simp only [determinant, cofactor, det3]; ring
    field_simp
    linear_combination e
  · have e : a.m31 * a.cofactor.m31 + a.m32 * a.cofactor.m32 + a.m33 * a.cofactor.m33 + a.m34 * a.cofactor.m34 = a.determinant := by
      simp only [determinant, cofactor, det3]; ring
    field_simp
    linear_combination e
  · have e : a.m31 * a.cofactor.m41 + a.m32 * a.cofactor.m42 + a.m33 * a.cofactor.m43 + a.m34 * a.cofactor.m44 = 0 := by
      simp only [determinant, cofactor, det3]; ring
    field_simp
    linear_combination e
  · have e : a.m41 * a.cofactor.m11 + a.m42 * a.cofactor.m12 + a.m43 * a.cofactor.m13 + a.m44 * a.cofactor.m14 = 0 := by
      simp only [determinant, cofactor, det3]; ring
    field_simp
    linear_combination e
  · have e : a.m41 * a.cofactor.m21 + a.m42 * a.cofactor.m22 + a.m43 * a.cofactor.m23 + a.m44 * a.cofactor.m24 = 0 := by
      simp only [determinant, cofactor, det3]; ring
    field_simp
    linear_combination e
  · have e : a.m41 * a.cofactor.m31 + a.m42 * a.cofactor.m32 + a.m43 * a.cofactor.m33 + a.m44 * a.cofactor.m34 = 0 := by
      simp only [determinant, cofactor, det3]; ring
    field_simp
    linear_combination e
  · have e : a.m41 * a.cofactor.m41 + a.m42 * a.cofactor.m42 + a.m43 * a.cofactor.m43 + a.m44 * a.cofactor.m44 = a.determinant := by
      simp only [determinant, cofactor, det3]; ring
    field_simp
    linear_combination e


end cc

namespace cc

/-! ## The state operations -/

@[simp] theorem State.modify_layers_self (s : State) (id : LayerId) (f : LayerState → LayerState) :
    (s.modify id f).layers id = f (s.layers id) := by
  simp [State.modify]

@[simp] theorem State.modify_layers_other (s : State) (id q : LayerId) (f : LayerState → LayerState)
    (h : q ≠ id) : (s.modify id f).layers q = s.layers q := by
  simp [State.modify, Function.update_noteq h]

@[simp] theorem State.modify_rsll (s : State) (id : LayerId) (f : LayerState → LayerState) :
    (s.modify id f).renderSurfaceLayerList = s.renderSurfaceLayerList := rfl

@[simp] theorem State.pushSurfaceLayer_layers (s : State) (id : LayerId) :
    (s.pushSurfaceLayer id).layers = s.layers := rfl

@[simp] theorem State.pushSurfaceLayer_rsll (s : State) (id : LayerId) :
    (s.pushSurfaceLayer id).renderSurfaceLayerList = s.renderSurfaceLayerList ++ [id] := rfl

theorem Frame.frame_refl (l : LayerState) : Frame l l := ⟨rfl, List.prefix_refl _⟩

theorem Frame.frame_trans {a b c : LayerState} (h1 : Frame a b) (h2 : Frame b c) : Frame a c :=
  ⟨h2.1.trans h1.1, h1.2.trans h2.2⟩

theorem Frame.frame_of_eq {a b : LayerState} (h : b = a) : Frame a b := h ▸ Frame.frame_refl a

theorem LayerState.eraseLists_surface_isSome (l : LayerState) :
    l.eraseLists.renderSurface.isSome = l.renderSurface.isSome := by
  simp [LayerState.eraseLists]

theorem Frame.frame_surface_isSome {l k : LayerState} (h : Frame l k) :
    k.renderSurface.isSome = l.renderSurface.isSome := by
  rw [← k.eraseLists_surface_isSome, h.1, l.eraseLists_surface_isSome]

theorem Frame.frame_renderTarget {l k : LayerState} (h : Frame l k) : k.renderTarget = l.renderTarget := by
  have := congrArg LayerState.renderTarget h.1
  simpa [LayerState.eraseLists] using this

theorem Frame.frame_drawTransform {l k : LayerState} (h : Frame l k) :
    k.drawTransform = l.drawTransform := by
  have := congrArg LayerState.drawTransform h.1
  simpa [LayerState.eraseLists] using this

theorem Frame.frame_drawOpacity {l k : LayerState} (h : Frame l k) : k.drawOpacity = l.drawOpacity := by
  have := congrArg LayerState.drawOpacity h.1
  simpa [LayerState.eraseLists] using this

theorem Frame.frame_drawableContentRect {l k : LayerState} (h : Frame l k) :
    k.drawableContentRect = l.drawableContentRect := by
  have := congrArg LayerState.drawableContentRect h.1
  simpa [LayerState.eraseLists] using this

/-- What a frame keeps of a surface: everything but the two lists, and the layer
list up to appended layers. -/
theorem Frame.frame_surface {l k : LayerState} (h : Frame l k) {rs : RenderSurface}
    (hl : l.renderSurface = some rs) :
    ∃ rs2, k.renderSurface = some rs2 ∧ rs2.clearLayerLists = rs.clearLayerLists
      ∧ rs.layerList <+: rs2.layerList := by
  have h1 := congrArg LayerState.renderSurface h.1
  have h2 := h.2
  simp only [LayerState.eraseLists, LayerState.layerList, hl, Option.map_some'] at h1 h2
  cases hk : k.renderSurface with
  | none => simp [hk] at h1
  | some rs2 =>
    simp only [hk, Option.map_some', Option.some.injEq] at h1 h2
    exact ⟨rs2, rfl, h1, h2⟩

theorem Frame.frame_modifySurface_lists (l : LayerState) (f : RenderSurface → RenderSurface)
    (hf : ∀ rs, (f rs).clearLayerLists = rs.clearLayerLists)
    (hp : ∀ rs, rs.layerList <+: (f rs).layerList) :
    Frame l { l with renderSurface := l.renderSurface.map f } := by
  constructor
  · cases h : l.renderSurface <;> simp [LayerState.eraseLists, h, hf]
  · cases h : l.renderSurface <;> simp [LayerState.layerList, h, hp]

theorem Step.step_refl (R : LayerId → Prop) (s : State) : Step R [] s s :=
  ⟨by simp, fun _ _ => Frame.frame_refl _⟩

theorem Step.step_trans {R : LayerId → Prop} {n1 n2 : List LayerId} {s t u : State}
    (h1 : Step R n1 s t) (h2 : Step R n2 t u) : Step R (n1 ++ n2) s u :=
  ⟨by rw [h2.rsll, h1.rsll, List.append_assoc], fun q hq => (h1.frame q hq).frame_trans (h2.frame q hq)⟩

theorem Step.step_mono {R Q : LayerId → Prop} {n : List LayerId} {s t : State} (h : Step R n s t)
    (hRQ : ∀ q, R q → Q q) : Step Q n s t :=
  ⟨h.rsll, fun q hq => h.frame q fun hr => hq (hRQ q hr)⟩

theorem Step.step_modify (s : State) (id : LayerId) (f : LayerState → LayerState) :
    Step (· = id) [] s (s.modify id f) :=
  ⟨by simp, fun q hq => Frame.frame_of_eq (State.modify_layers_other s id q f hq)⟩

theorem Step.step_pushSurfaceLayer (s : State) (id : LayerId) :
    Step (fun _ => False) [id] s (s.pushSurfaceLayer id) :=
  ⟨rfl, fun _ _ => Frame.frame_refl _⟩

theorem Step.step_modifySurface_lists (s : State) (id : LayerId) (f : RenderSurface → RenderSurface)
    (hf : ∀ rs, (f rs).clearLayerLists = rs.clearLayerLists)
    (hp : ∀ rs, rs.layerList <+: (f rs).layerList) :
    Step (fun _ => False) [] s (s.modifySurface id f) := by
  refine ⟨by simp [State.modifySurface], fun q _ => ?_⟩
  by_cases hq : q = id
  · subst hq
    simp only [State.modifySurface, State.modify_layers_self]
    exact Frame.frame_modifySurface_lists _ f hf hp
  · simp only [State.modifySurface, State.modify_layers_other _ _ _ _ hq]
    exact Frame.frame_refl _

theorem Step.step_pushLayer (s : State) (owner layer : LayerId) :
    Step (fun _ => False) [] s (s.pushLayer owner layer) :=
  Step.step_modifySurface_lists s owner _ (fun _ => rfl) (fun _ => List.prefix_append _ _)

/-! ## The stages of a visit before the loop over the children -/

theorem updateLayerContentsScale_layers_other (cfg : Config) (layer : LayerAttrs) (id q : LayerId)
    (m : WebTransformationMatrix) (s : State) (hq : q ≠ id) :
    (updateLayerContentsScale cfg layer id m s).layers q = s.layers q := by
  unfold updateLayerContentsScale
  cases cfg.kind <;> simp [hq]

theorem updateLayerContentsScale_rsll (cfg : Config) (layer : LayerAttrs) (id : LayerId)
    (m : WebTransformationMatrix) (s : State) :
    (updateLayerContentsScale cfg layer id m s).renderSurfaceLayerList
      = s.renderSurfaceLayerList := by
  unfold updateLayerContentsScale
  cases cfg.kind <;> simp

theorem beginLayer_layers_other (cfg : Config) (id q : LayerId) (layer : LayerAttrs)
    (args : WalkArgs) (s : State) (hq : q ≠ id) :
    (beginLayer cfg id layer args s).layers q = s.layers q := by
  simp [beginLayer, hq, updateLayerContentsScale_layers_other]

theorem beginLayer_rsll (cfg : Config) (id : LayerId) (layer : LayerAttrs)
    (args : WalkArgs) (s : State) :
    (beginLayer cfg id layer args s).renderSurfaceLayerList = s.renderSurfaceLayerList := by
  simp [beginLayer, updateLayerContentsScale_rsll]

/-- The statements before the branches leave the surface, the render target
and the draw properties of the layer as they are. -/
theorem beginLayer_layers_self (cfg : Config) (id : LayerId) (layer : LayerAttrs)
    (args : WalkArgs) (s : State) :
    ((beginLayer cfg id layer args s).layers id).renderSurface = (s.layers id).renderSurface
    ∧ ((beginLayer cfg id layer args s).layers id).renderTarget = (s.layers id).renderTarget := by
  unfold beginLayer updateLayerContentsScale
  cases cfg.kind <;> simp

theorem enterSurface_layers_other (layer : LayerAttrs) (id q : LayerId) (args : WalkArgs)
    (dt : WebTransformationMatrix) (sc : FloatPoint) (o : ℚ × Bool) (an : Bool × Bool) (s : State)
    (hq : q ≠ id) :
    (enterSurface layer id args dt sc o an s).state.layers q = s.layers q := by
  unfold enterSurface
  simp only [State.modifySurface, State.createRenderSurface]
  split_ifs <;> simp [hq]

theorem enterSurface_rsll (layer : LayerAttrs) (id : LayerId) (args : WalkArgs)
    (dt : WebTransformationMatrix) (sc : FloatPoint) (o : ℚ × Bool) (an : Bool × Bool) (s : State) :
    (enterSurface layer id args dt sc o an s).state.renderSurfaceLayerList
      = s.renderSurfaceLayerList ++ [id] := by
  unfold enterSurface
  simp only [State.modifySurface, State.createRenderSurface]
  split_ifs <;> simp

/-- What the surface branch leaves on the layer: a surface with an empty layer
list that carries the accumulated opacity, and draw opacity 1 on the layer. -/
theorem enterSurface_layers_self (layer : LayerAttrs) (id : LayerId) (args : WalkArgs)
    (dt : WebTransformationMatrix) (sc : FloatPoint) (o : ℚ × Bool) (an : Bool × Bool) (s : State) :
    ((enterSurface layer id args dt sc o an s).state.layers id).drawOpacity = 1
    ∧ ((enterSurface layer id args dt sc o an s).state.layers id).drawTransform
        = scaleLayerToContent layer (WebTransformationMatrix.identity.scaleNonUniform sc.x sc.y)
    ∧ ((enterSurface layer id args dt sc o an s).state.layers id).renderTarget
        = (if (s.surface id).isNone then some id else (s.layers id).renderTarget)
    ∧ ∃ rs, (enterSurface layer id args dt sc o an s).state.surface id = some rs
        ∧ rs.layerList = [] ∧ rs.drawOpacity = o.1
        ∧ rs.drawTransform
          = (scaleContentToLayer layer dt).scaleNonUniform (1 / sc.x) (1 / sc.y) := by
  unfold enterSurface
  simp only [State.modifySurface, State.createRenderSurface, State.surface,
    State.pushSurfaceLayer_layers, State.modify_layers_self]
  rcases Option.eq_none_or_eq_some (s.layers id).renderSurface with hs | ⟨rs0, hs⟩
  · simp [hs, RenderSurface.clearLayerLists]; split_ifs <;> simp
  · simp [hs, RenderSurface.clearLayerLists]; split_ifs <;> simp

theorem enterNoSurface_layers_other (id q : LayerId) (args : WalkArgs)
    (dt ct : WebTransformationMatrix) (o : ℚ × Bool) (an : Bool × Bool) (s : State) (hq : q ≠ id) :
    (enterNoSurface id args dt ct o an s).state.layers q = s.layers q := by
  unfold enterNoSurface
  simp only [State.modifySurface, State.clearRenderSurface]
  split_ifs <;> simp [hq]

theorem enterNoSurface_rsll (id : LayerId) (args : WalkArgs)
    (dt ct : WebTransformationMatrix) (o : ℚ × Bool) (an : Bool × Bool) (s : State) :
    (enterNoSurface id args dt ct o an s).state.renderSurfaceLayerList
      = s.renderSurfaceLayerList := by
  unfold enterNoSurface
  simp only [State.modifySurface, State.clearRenderSurface]
  split_ifs <;> simp

theorem tail_ne_self {id : LayerId} (h : id ≠ []) : id.tail ≠ id := by
  intro e
  have := congrArg List.length e
  cases id with
  | nil => exact h rfl
  | cons a l => simp at this

/-- What the branch without surface leaves on a layer other than the root: no
surface, the render target of the parent, and the draw properties computed by
the visit. -/
theorem enterNoSurface_layers_self (id : LayerId) (args : WalkArgs)
    (dt ct : WebTransformationMatrix) (o : ℚ × Bool) (an : Bool × Bool) (s : State) :
    ((enterNoSurface id args dt ct o an s).state.layers id).drawOpacity = o.1
    ∧ ((enterNoSurface id args dt ct o an s).state.layers id).drawOpacityIsAnimating = o.2
    ∧ ((enterNoSurface id args dt ct o an s).state.layers id).drawTransform = dt
    ∧ (id ≠ [] → (enterNoSurface id args dt ct o an s).state.surface id = none
        ∧ ((enterNoSurface id args dt ct o an s).state.layers id).renderTarget
          = (s.layers id.tail).renderTarget)
    ∧ (id = [] → ((enterNoSurface id args dt ct o an s).state.surface id).isSome
          = (s.surface id).isSome
        ∧ ((enterNoSurface id args dt ct o an s).state.layers id).renderTarget
          = (s.layers id).renderTarget) := by
  unfold enterNoSurface
  simp only [State.modifySurface, State.clearRenderSurface, State.surface]
  by_cases h : id = []
  · subst h
    simp
  · simp [h, tail_ne_self h]

theorem enterChildren_step (cfg : Config) (anc : List LayerAttrs) (id : LayerId)
    (layer : LayerAttrs) (args : WalkArgs) (sc : FloatPoint) (b : Branch) :
    Step (fun _ => False) [] b.state (enterChildren cfg anc id layer args sc b).2 := by
  unfold enterChildren
  simp only
  split_ifs <;> first | exact Step.step_refl _ _ | exact Step.step_pushLayer _ _ _

theorem enterChildren_descendants (cfg : Config) (anc : List LayerAttrs) (id : LayerId)
    (layer : LayerAttrs) (args : WalkArgs) (sc : FloatPoint) (b : Branch) :
    (enterChildren cfg anc id layer args sc b).1.descendants
        = (if (b.state.surface id).isSome then id else args.layerList)
    ∧ (enterChildren cfg anc id layer args sc b).1.sortingStartIndex
        = (b.state.layerListOf (enterChildren cfg anc id layer args sc b).1.descendants).length := by
  simp [enterChildren]


theorem enterLayer_skipped (cfg : Config) (anc : List LayerAttrs) (id : LayerId)
    (layer : LayerAttrs) (ddc : Bool) (args : WalkArgs) (s : State)
    (h : subtreeShouldBeSkipped cfg.kind layer = true) :
    enterLayer cfg anc id layer ddc args s = .exit s := by
  simp [enterLayer, h]

/-- The four ways in which the part of a visit before the loop can go. -/
theorem enterLayer_cases (cfg : Config) (anc : List LayerAttrs) (id : LayerId)
    (layer : LayerAttrs) (ddc : Bool) (args : WalkArgs) (s : State) :
    (subtreeShouldBeSkipped cfg.kind layer = true
      ∧ enterLayer cfg anc id layer ddc args s = .exit s)
    ∨ (subtreeShouldBeSkipped cfg.kind layer = false
      ∧ rendersToSeparateSurface anc layer ddc args = true
      ∧ surfaceIsCulled cfg anc layer args = true
      ∧ enterLayer cfg anc id layer ddc args s = .exit (beginLayer cfg id layer args s))
    ∨ (subtreeShouldBeSkipped cfg.kind layer = false
      ∧ rendersToSeparateSurface anc layer ddc args = true
      ∧ surfaceIsCulled cfg anc layer args = false
      ∧ enterLayer cfg anc id layer ddc args s
        = .proceed (childrenOf cfg anc id layer args (surfaceBranch cfg anc id layer args s)).1
            (childrenOf cfg anc id layer args (surfaceBranch cfg anc id layer args s)).2)
    ∨ (subtreeShouldBeSkipped cfg.kind layer = false
      ∧ rendersToSeparateSurface anc layer ddc args = false
      ∧ enterLayer cfg anc id layer ddc args s
        = .proceed (childrenOf cfg anc id layer args (noSurfaceBranch cfg anc id layer args s)).1
            (childrenOf cfg anc id layer args (noSurfaceBranch cfg anc id layer args s)).2) := by
  unfold enterLayer childrenOf surfaceBranch noSurfaceBranch
  by_cases h1 : subtreeShouldBeSkipped cfg.kind layer = true
  · left; simp [h1]
  · right
    by_cases h2 : rendersToSeparateSurface anc layer ddc args = true
    · by_cases h3 : surfaceIsCulled cfg anc layer args = true
      · left; simp [h1, h2, h3]
      · right; left; simp [h1, h2, h3]
    · right; right; simp [h1, h2]

theorem surfaceBranch_step (cfg : Config) (anc : List LayerAttrs) (id : LayerId)
    (layer : LayerAttrs) (args : WalkArgs) (s : State) :
    Step (· = id) [id] s (surfaceBranch cfg anc id layer args s).state := by
  constructor
  · simp [surfaceBranch, enterSurface_rsll, beginLayer_rsll]
  · intro q hq
    apply Frame.frame_of_eq
    simp [surfaceBranch, enterSurface_layers_other _ _ _ _ _ _ _ _ _ hq,
      beginLayer_layers_other _ _ _ _ _ _ hq]

theorem noSurfaceBranch_step (cfg : Config) (anc : List LayerAttrs) (id : LayerId)
    (layer : LayerAttrs) (args : WalkArgs) (s : State) :
    Step (· = id) [] s (noSurfaceBranch cfg anc id layer args s).state := by
  constructor
  · simp [noSurfaceBranch, enterNoSurface_rsll, beginLayer_rsll]
  · intro q hq
    apply Frame.frame_of_eq
    simp [noSurfaceBranch, enterNoSurface_layers_other _ _ _ _ _ _ _ _ hq,
      beginLayer_layers_other _ _ _ _ _ _ hq]

theorem beginLayer_step (cfg : Config) (id : LayerId) (layer : LayerAttrs) (args : WalkArgs)
    (s : State) : Step (· = id) [] s (beginLayer cfg id layer args s) := by
  constructor
  · simp [beginLayer_rsll]
  · intro q hq
    exact Frame.frame_of_eq (beginLayer_layers_other _ _ _ _ _ _ hq)

theorem childrenOf_step (cfg : Config) (anc : List LayerAttrs) (id : LayerId)
    (layer : LayerAttrs) (args : WalkArgs) (b : Branch) :
    Step (fun _ => False) [] b.state (childrenOf cfg anc id layer args b).2 :=
  enterChildren_step _ _ _ _ _ _ _

/-! ## The stages of a visit after the loop over the children -/

theorem setContentRects_layers_other (cfg : Config) (layer : LayerAttrs) (id q : LayerId)
    (loc : Locals) (s : State) (hq : q ≠ id) :
    (setContentRects cfg layer id loc s).layers q = s.layers q := by
  simp [setContentRects, hq]

theorem setContentRects_rsll (cfg : Config) (layer : LayerAttrs) (id : LayerId)
    (loc : Locals) (s : State) :
    (setContentRects cfg layer id loc s).renderSurfaceLayerList = s.renderSurfaceLayerList := by
  simp [setContentRects]

/-- The two content rects are the only members of the layer that
`setContentRects` writes. -/
theorem setContentRects_layers_self (cfg : Config) (layer : LayerAttrs) (id : LayerId)
    (loc : Locals) (s : State) :
    ∃ d v, (setContentRects cfg layer id loc s).layers id
      = { s.layers id with drawableContentRect := d, visibleContentRect := v } := by
  simp [setContentRects]

theorem setContentRects_modLists (cfg : Config) (layer : LayerAttrs) (id : LayerId)
    (loc : Locals) (s : State) (q : LayerId) :
    ((setContentRects cfg layer id loc s).layers q).renderSurface = (s.layers q).renderSurface
    ∧ ((setContentRects cfg layer id loc s).layers q).renderTarget = (s.layers q).renderTarget
    ∧ ((setContentRects cfg layer id loc s).layers q).drawOpacity = (s.layers q).drawOpacity
    ∧ ((setContentRects cfg layer id loc s).layers q).drawTransform
        = (s.layers q).drawTransform := by
  by_cases hq : q = id
  · subst hq; simp [setContentRects]
  · simp [setContentRects_layers_other _ _ _ _ _ _ hq]

theorem finishSurface_layers_other (cfg : Config) (layer : LayerAttrs) (id q : LayerId)
    (args : WalkArgs) (loc : Locals) (r : IntRect) (s : State) (hq : q ≠ id) :
    (finishSurface cfg layer id args loc r s).layers q = s.layers q := by
  simp [finishSurface, State.modifySurface, hq]

theorem finishSurface_rsll (cfg : Config) (layer : LayerAttrs) (id : LayerId)
    (args : WalkArgs) (loc : Locals) (r : IntRect) (s : State) :
    (finishSurface cfg layer id args loc r s).renderSurfaceLayerList
      = s.renderSurfaceLayerList := by
  simp [finishSurface, State.modifySurface]

theorem finishSurface_layers_self (cfg : Config) (layer : LayerAttrs) (id : LayerId)
    (args : WalkArgs) (loc : Locals) (r : IntRect) (s : State) :
    (finishSurface cfg layer id args loc r s).layers id
      = { s.layers id with
          renderSurface := (s.layers id).renderSurface.map
            (finishSurfaceOf cfg layer args loc r (s.layers id).screenSpaceTransform) } := by
  simp [finishSurface, State.modifySurface]

theorem clippedContentRectOf_le (cfg : Config) (layer : LayerAttrs) (args : WalkArgs)
    (r : IntRect) (rs : RenderSurface) :
    (clippedContentRectOf cfg layer args r rs).width ≤ cfg.maxTextureSize
    ∧ (clippedContentRectOf cfg layer args r rs).height ≤ cfg.maxTextureSize := by
  simp only [clippedContentRectOf, IntRect.setHeight, IntRect.setWidth]
  exact ⟨min_le_right _ _, min_le_right _ _⟩

/-- What `finishSurfaceOf` does to a surface: its content rect is clamped to the
maximum texture size, its layer list is kept or emptied, and it is emptied when
the content rect is empty. -/
theorem finishSurfaceOf_spec (cfg : Config) (layer : LayerAttrs) (args : WalkArgs)
    (loc : Locals) (r : IntRect) (m : WebTransformationMatrix) (rs : RenderSurface) :
    (finishSurfaceOf cfg layer args loc r m rs).contentRect.width ≤ cfg.maxTextureSize
    ∧ (finishSurfaceOf cfg layer args loc r m rs).contentRect.height ≤ cfg.maxTextureSize
    ∧ (finishSurfaceOf cfg layer args loc r m rs).drawOpacity = rs.drawOpacity
    ∧ (finishSurfaceOf cfg layer args loc r m rs).drawTransform = rs.drawTransform
    ∧ ((finishSurfaceOf cfg layer args loc r m rs).layerList = rs.layerList
      ∨ (finishSurfaceOf cfg layer args loc r m rs).layerList = [])
    ∧ ((finishSurfaceOf cfg layer args loc r m rs).contentRect.isEmpty = true →
      (finishSurfaceOf cfg layer args loc r m rs).layerList = []) := by
  have hle := clippedContentRectOf_le cfg layer args r rs
  unfold finishSurfaceOf
  by_cases he : (clippedContentRectOf cfg layer args r rs).isEmpty = true <;>
    cases hr : layer.replicaLayer <;>
    simp [he, hr, hle.1, hle.2, RenderSurface.clearLayerLists]

theorem ModLists.modLists_refl (l : LayerState) : ModLists l l := ⟨rfl, List.Perm.refl _⟩

theorem ModLists.modLists_trans {a b c : LayerState} (h1 : ModLists a b) (h2 : ModLists b c) :
    ModLists a c :=
  ⟨h2.1.trans h1.1, h2.2.trans h1.2⟩

theorem ModLists.modLists_of_eq {a b : LayerState} (h : b = a) : ModLists a b := h ▸ ModLists.modLists_refl a

theorem ModLists.modLists_surface_isSome {l k : LayerState} (h : ModLists l k) :
    k.renderSurface.isSome = l.renderSurface.isSome := by
  rw [← k.eraseLists_surface_isSome, h.1, l.eraseLists_surface_isSome]

theorem ModLists.modLists_modifySurface (s : State) (id q : LayerId) (f : RenderSurface → RenderSurface)
    (hf : ∀ rs, (f rs).clearLayerLists = rs.clearLayerLists)
    (hp : ∀ rs, (s.layers id).renderSurface = some rs → (f rs).layerList.Perm rs.layerList) :
    ModLists (s.layers q) ((s.modifySurface id f).layers q) := by
  by_cases hq : q = id
  · subst hq
    simp only [State.modifySurface, State.modify_layers_self]
    constructor
    · cases h : (s.layers q).renderSurface <;> simp [LayerState.eraseLists, h, hf]
    · cases h : (s.layers q).renderSurface with
      | none => simp [LayerState.layerList, h]
      | some rs => simpa [LayerState.layerList, h] using hp rs h
  · simp only [State.modifySurface, State.modify_layers_other _ _ _ _ hq]
    exact ModLists.modLists_refl _

/-- A frame taken before the new descendants were appended survives the
reordering of the new descendants. -/
theorem Frame.frame_modifySurface_sorted (s : State) (id q : LayerId) (k : Nat)
    (sorted : List LayerId) (l0 : LayerState) (h0 : Frame l0 (s.layers q))
    (hk : q = id → l0.layerList.length ≤ k) :
    Frame l0 ((s.modifySurface id fun rs =>
      { rs with layerList := (s.layerListOf id).take k ++ sorted }).layers q) := by
  by_cases hq : q = id
  · subst hq
    simp only [State.modifySurface, State.modify_layers_self]
    constructor
    · rw [← h0.1]
      cases h : (s.layers q).renderSurface <;>
        simp [LayerState.eraseLists, h, RenderSurface.clearLayerLists]
    · have hp := h0.2
      cases h : (s.layers q).renderSurface with
      | none =>
        simp only [LayerState.layerList, h] at hp
        simpa [LayerState.layerList, h] using hp
      | some rs =>
        have hp2 : l0.layerList <+: rs.layerList := by
          simpa only [LayerState.layerList, h] using hp
        have h1 : l0.layerList <+: rs.layerList.take k := by
          rw [List.prefix_iff_eq_take.mp hp2]
          exact (List.take_prefix_take_left _ (hk rfl))
        simpa [LayerState.layerList, h, State.layerListOf, State.surface]
          using h1.trans (List.prefix_append _ _)
  · simp only [State.modifySurface, State.modify_layers_other _ _ _ _ hq]
    exact h0

theorem sortDescendants_rsll (cfg : Config) (anc : List LayerAttrs) (layer : LayerAttrs)
    (loc : Locals) (s : State) :
    (sortDescendants cfg anc layer loc s).renderSurfaceLayerList = s.renderSurfaceLayerList := by
  unfold sortDescendants
  simp only [State.modifySurface]
  split_ifs <;> simp

theorem sortDescendants_modLists (cfg : Config) (anc : List LayerAttrs) (layer : LayerAttrs)
    (loc : Locals) (s : State) (q : LayerId) :
    ModLists (s.layers q) ((sortDescendants cfg anc layer loc s).layers q) := by
  unfold sortDescendants
  simp only
  split_ifs
  · apply ModLists.modLists_modifySurface
    · intro rs; rfl
    · intro rs hrs
      have hl : s.layerListOf loc.descendants = rs.layerList := by
        simp [State.layerListOf, State.surface, hrs]
      have p := List.Perm.append_left ((s.layerListOf loc.descendants).take loc.sortingStartIndex)
        (cfg.ext.sortLayers s ((s.layerListOf loc.descendants).drop loc.sortingStartIndex)).property
      rw [List.take_append_drop] at p
      rw [← hl]
      exact p
  · exact ModLists.modLists_refl _

theorem sortDescendants_frame (cfg : Config) (anc : List LayerAttrs) (layer : LayerAttrs)
    (loc : Locals) (s : State) (q : LayerId) (l0 : LayerState) (h0 : Frame l0 (s.layers q))
    (hk : q = loc.descendants → l0.layerList.length ≤ loc.sortingStartIndex) :
    Frame l0 ((sortDescendants cfg anc layer loc s).layers q) := by
  unfold sortDescendants
  simp only
  split_ifs
  · exact Frame.frame_modifySurface_sorted s loc.descendants q loc.sortingStartIndex _ l0 h0 hk
  · exact h0

theorem addContributing_rsll (layer : LayerAttrs) (id : LayerId) (s : State) :
    (addContributingDelegatedRenderPassLayer layer id s).renderSurfaceLayerList
      = s.renderSurfaceLayerList := by
  unfold addContributingDelegatedRenderPassLayer
  simp only [State.modifySurface]
  split_ifs
  · split <;> simp
  · rfl

theorem addContributing_frame (layer : LayerAttrs) (id : LayerId) (s : State) (q : LayerId) :
    Frame (s.layers q) ((addContributingDelegatedRenderPassLayer layer id s).layers q) := by
  unfold addContributingDelegatedRenderPassLayer
  split_ifs
  · split
    · refine (Step.step_modifySurface_lists s _ _ ?_ ?_).frame q (fun h => h)
      · intro rs; rfl
      · intro rs; exact List.prefix_refl _
    · exact Frame.frame_refl _
  · exact Frame.frame_refl _

theorem Frame.frame_modLists {l k : LayerState} (h : Frame l k) (hl : k.layerList = l.layerList) :
    ModLists l k :=
  ⟨h.1, by rw [hl]⟩

theorem addContributing_layerList (layer : LayerAttrs) (id : LayerId) (s : State) (q : LayerId) :
    ((addContributingDelegatedRenderPassLayer layer id s).layers q).layerList
      = (s.layers q).layerList := by
  unfold addContributingDelegatedRenderPassLayer
  split_ifs
  · split
    · rename_i target _
      by_cases hq : q = target
      · subst hq
        simp only [State.modifySurface, State.modify_layers_self, LayerState.layerList]
        cases (s.layers q).renderSurface <;> rfl
      · simp [State.modifySurface, hq]
    · rfl
  · rfl

theorem finishDescendants_rsll (cfg : Config) (anc : List LayerAttrs) (id : LayerId)
    (layer : LayerAttrs) (loc : Locals) (lr : IntRect) (s : State) :
    (finishDescendants cfg anc id layer loc lr s).2.renderSurfaceLayerList
      = s.renderSurfaceLayerList := by
  unfold finishDescendants
  split_ifs
  · rfl
  · simp [addContributing_rsll, sortDescendants_rsll]

theorem finishDescendants_modLists (cfg : Config) (anc : List LayerAttrs) (id : LayerId)
    (layer : LayerAttrs) (loc : Locals) (lr : IntRect) (s : State) (q : LayerId) :
    ModLists (s.layers q) ((finishDescendants cfg anc id layer loc lr s).2.layers q) := by
  unfold finishDescendants
  split_ifs
  · exact ModLists.modLists_refl _
  · exact (sortDescendants_modLists cfg anc layer loc s q).modLists_trans
      ((addContributing_frame layer id _ q).frame_modLists (addContributing_layerList layer id _ q))

theorem finishDescendants_frame (cfg : Config) (anc : List LayerAttrs) (id : LayerId)
    (layer : LayerAttrs) (loc : Locals) (lr : IntRect) (s : State) (q : LayerId)
    (l0 : LayerState) (h0 : Frame l0 (s.layers q))
    (hk : q = loc.descendants → l0.layerList.length ≤ loc.sortingStartIndex) :
    Frame l0 ((finishDescendants cfg anc id layer loc lr s).2.layers q) := by
  unfold finishDescendants
  split_ifs
  · exact h0
  · exact (sortDescendants_frame cfg anc layer loc s q l0 h0 hk).frame_trans
      (addContributing_frame layer id _ q)

/-! ## The removal of an empty surface -/

/-- The members of the layers after the loop that pops the surfaces in `l`: the
surfaces of the layers in `l` are cleared and nothing else changes. -/
theorem popSurfacesAfter_spec (layer : LayerId) (rest : List LayerId) :
    ∀ (l : List LayerId) (s : State), layer ∉ l →
      (popSurfacesAfter layer (l ++ layer :: rest) s).1 = layer :: rest
      ∧ (popSurfacesAfter layer (l ++ layer :: rest) s).2.renderSurfaceLayerList
          = s.renderSurfaceLayerList
      ∧ ∀ q, (popSurfacesAfter layer (l ++ layer :: rest) s).2.layers q
          = if q ∈ l then (s.layers q).withoutSurface else s.layers q := by
  intro l
  induction l with
  | nil =>
    intro s _
    simp [popSurfacesAfter]
  | cons a l ih =>
    intro s hl
    have ha : a ≠ layer := fun e => hl (by simp [e])
    have hl2 : layer ∉ l := fun e => hl (by simp [e])
    obtain ⟨h1, h2, h3⟩ := ih (s.clearRenderSurface a) hl2
    simp only [List.cons_append, popSurfacesAfter, if_neg ha, List.append_eq]
    refine ⟨h1, ?_, ?_⟩
    · rw [h2]; rfl
    · intro q
      rw [h3 q]
      by_cases hqa : q = a
      · subst hqa
        by_cases hql : q ∈ l <;> simp [hql, State.clearRenderSurface, LayerState.withoutSurface]
      · by_cases hql : q ∈ l <;> simp [hql, hqa, State.clearRenderSurface, LayerState.withoutSurface]

/-- When the render-surface layer list is `pre`, then `layer`, then `newer`, the
removal of the empty surface of `layer` leaves `pre` and clears the surfaces of
`layer` and of the layers in `newer`. -/
theorem removeEmptySurface_spec (layer : LayerId) (s : State) (pre newer : List LayerId)
    (hs : s.renderSurfaceLayerList = pre ++ layer :: newer) (hn : layer ∉ newer) :
    (removeEmptySurface layer s).renderSurfaceLayerList = pre
    ∧ ∀ q, (removeEmptySurface layer s).layers q
        = if q = layer ∨ q ∈ newer then (s.layers q).withoutSurface
          else s.layers q := by
  have hrev : s.renderSurfaceLayerList.reverse = newer.reverse ++ layer :: pre.reverse := by
    simp [hs]
  have hn2 : layer ∉ newer.reverse := by simpa using hn
  obtain ⟨h1, h2, h3⟩ := popSurfacesAfter_spec layer pre.reverse newer.reverse s hn2
  unfold removeEmptySurface
  simp only [hrev]
  constructor
  · simp [State.clearRenderSurface, h1]
  · intro q
    by_cases hq : q = layer
    · subst hq
      simp [State.clearRenderSurface, h3 q, hn, LayerState.withoutSurface]
    · simp [State.clearRenderSurface, hq, h3 q, LayerState.withoutSurface]

/-! ## Positions in the tree -/

theorem InSubtree.inSubtree_refl (id : LayerId) : InSubtree id id := List.suffix_refl id

theorem InSubtree.inSubtree_of_child {i : Nat} {pid q : LayerId} (h : InSubtree (i :: pid) q) :
    InSubtree pid q :=
  (List.suffix_cons i pid).trans h

theorem InSubtree.inSubtree_ne_of_child {i : Nat} {pid q : LayerId} (h : InSubtree (i :: pid) q) :
    q ≠ pid := by
  intro e
  subst e
  have := h.length_le
  simp at this

theorem InChildren.inChildren_inSubtree {pid q : LayerId} {i : Nat} (h : InChildren pid i q) :
    InSubtree pid q := by
  obtain ⟨j, _, hj⟩ := h
  exact InSubtree.inSubtree_of_child hj

theorem InChildren.inChildren_ne {pid q : LayerId} {i : Nat} (h : InChildren pid i q) : q ≠ pid := by
  obtain ⟨j, _, hj⟩ := h
  exact InSubtree.inSubtree_ne_of_child hj

theorem InChildren.inChildren_of_child {pid q : LayerId} {i : Nat} (h : InSubtree (i :: pid) q) :
    InChildren pid i q :=
  ⟨i, le_refl i, h⟩

theorem InChildren.inChildren_of_succ {pid q : LayerId} {i : Nat} (h : InChildren pid (i + 1) q) :
    InChildren pid i q := by
  obtain ⟨j, hj, hq⟩ := h
  exact ⟨j, by omega, hq⟩

/-- The subtrees of two different children of a layer are disjoint. -/
theorem InSubtree.inSubtree_child_index {i j : Nat} {pid q : LayerId} (hi : InSubtree (i :: pid) q)
    (hj : InSubtree (j :: pid) q) : i = j := by
  have h := List.suffix_of_suffix_length_le hi hj (by simp)
  have e := h.eq_of_length (by simp)
  simpa using e

theorem InChildren.inChildren_not_of_child {i : Nat} {pid q : LayerId} (h : InSubtree (i :: pid) q) :
    ¬ InChildren pid (i + 1) q := by
  rintro ⟨j, hj, hq⟩
  have := InSubtree.inSubtree_child_index h hq
  omega

/-! ## The frame of a visit -/

theorem appendChildSurface_step (args : WalkArgs) (child : LayerId) (r : IntRect × State) :
    Step (fun _ => False) [] r.2 (appendChildSurface args child r) := by
  unfold appendChildSurface
  split_ifs
  · exact Step.step_pushLayer _ _ _
  · exact Step.step_refl _ _

/-- The three ways in which the part of a visit after the loop can go: the
surface of the layer is removed because its layer list is empty, the surface
is kept, or the layer is the root or owns no surface. -/
theorem finishLayer_cases (cfg : Config) (anc : List LayerAttrs) (id : LayerId)
    (layer : LayerAttrs) (args : WalkArgs) (loc : Locals) (acc : IntRect) (u : State) :
    ((u.surface id).isSome = true ∧ id ≠ []
      ∧ (finishSurface cfg layer id args loc (localDrawableContentRectOfSubtree layer loc acc)
          (setContentRects cfg layer id loc u)).layerListOf id = []
      ∧ finishLayer cfg anc id layer args loc acc u
        = (IntRect.zero, removeEmptySurface id
            (finishSurface cfg layer id args loc (localDrawableContentRectOfSubtree layer loc acc)
              (setContentRects cfg layer id loc u))))
    ∨ ((u.surface id).isSome = true ∧ id ≠ []
      ∧ (finishSurface cfg layer id args loc (localDrawableContentRectOfSubtree layer loc acc)
          (setContentRects cfg layer id loc u)).layerListOf id ≠ []
      ∧ finishLayer cfg anc id layer args loc acc u
        = finishDescendants cfg anc id layer loc (localDrawableContentRectOfSubtree layer loc acc)
            (finishSurface cfg layer id args loc (localDrawableContentRectOfSubtree layer loc acc)
              (setContentRects cfg layer id loc u)))
    ∨ (((u.surface id).isSome = false ∨ id = [])
      ∧ finishLayer cfg anc id layer args loc acc u
        = finishDescendants cfg anc id layer loc (localDrawableContentRectOfSubtree layer loc acc)
            (setContentRects cfg layer id loc u)) := by
  have hsurf : ((setContentRects cfg layer id loc u).surface id) = u.surface id :=
    (setContentRects_modLists cfg layer id loc u id).1
  unfold finishLayer
  simp only [hsurf]
  by_cases h1 : (u.surface id).isSome = true
  · by_cases h2 : id = []
    · right; right
      simp [h1, h2]
    · by_cases h3 : (finishSurface cfg layer id args loc
          (localDrawableContentRectOfSubtree layer loc acc)
          (setContentRects cfg layer id loc u)).layerListOf id = []
      · left
        simp [h1, h2, h3]
      · right; left
        simp [h1, h2, h3]
  · right; right
    simp at h1
    simp [h1]

theorem State.layerListOf_eq (s : State) (q : LayerId) :
    s.layerListOf q = (s.layers q).layerList := rfl

/-- The statements after the loop that keep the surface of the layer preserve
the frame of the visit. `u2` is the state before `finishDescendants`. -/
theorem finishDescendants_step (cfg : Config) (anc : List LayerAttrs) (id : LayerId)
    (layer : LayerAttrs) (loc : Locals) (lr : IntRect) (s u2 : State) (new : List LayerId)
    (h : Step (InSubtree id) new s u2)
    (hk : ∀ q, ¬ InSubtree id q → q = loc.descendants →
      (s.layers q).layerList.length ≤ loc.sortingStartIndex) :
    Step (InSubtree id) new s (finishDescendants cfg anc id layer loc lr u2).2 := by
  constructor
  · rw [finishDescendants_rsll, h.rsll]
  · intro q hq
    exact finishDescendants_frame cfg anc id layer loc lr u2 q _ (h.frame q hq) (hk q hq)

/-- The states before and after `setContentRects` and `finishSurface` differ
at the layer only. -/
theorem Step.step_setContentRects (cfg : Config) (layer : LayerAttrs) (id : LayerId) (loc : Locals)
    (s : State) : Step (InSubtree id) [] s (setContentRects cfg layer id loc s) := by
  constructor
  · simp [setContentRects_rsll]
  · intro q hq
    have hne : q ≠ id := fun e => hq (e ▸ InSubtree.inSubtree_refl id)
    exact Frame.frame_of_eq (setContentRects_layers_other _ _ _ _ _ _ hne)

theorem Step.step_finishSurface (cfg : Config) (layer : LayerAttrs) (id : LayerId) (args : WalkArgs)
    (loc : Locals) (r : IntRect) (s : State) :
    Step (InSubtree id) [] s (finishSurface cfg layer id args loc r s) := by
  constructor
  · simp [finishSurface_rsll]
  · intro q hq
    have hne : q ≠ id := fun e => hq (e ▸ InSubtree.inSubtree_refl id)
    exact Frame.frame_of_eq (finishSurface_layers_other _ _ _ _ _ _ _ _ hne)

theorem Step.step_append_nil {R : LayerId → Prop} {n : List LayerId} {s t u : State}
    (h1 : Step R n s t) (h2 : Step R [] t u) : Step R n s u := by
  simpa using h1.step_trans h2

/-- The removal of the empty surface of `id` restores the render-surface layer
list of the start of the visit and touches the subtree of `id` only. -/
theorem removeEmptySurface_step (id : LayerId) (s u : State) (newc : List LayerId)
    (h : Step (InSubtree id) ([id] ++ newc) s u)
    (hn : ∀ q ∈ newc, InSubtree id q ∧ q ≠ id) :
    Step (InSubtree id) [] s (removeEmptySurface id u) := by
  have hrs : u.renderSurfaceLayerList = s.renderSurfaceLayerList ++ id :: newc := by
    simpa using h.rsll
  have hid : id ∉ newc := fun hm => (hn id hm).2 rfl
  obtain ⟨h1, h2⟩ := removeEmptySurface_spec id u _ newc hrs hid
  constructor
  · simpa using h1
  · intro q hq
    have hne : q ≠ id := fun e => hq (e ▸ InSubtree.inSubtree_refl id)
    have hnn : q ∉ newc := fun hm => hq (hn q hm).1
    rw [h2 q]
    simp only [hne, hnn, or_self, if_false]
    exact h.frame q hq

theorem walk_step_node (cfg : Config) (anc : List LayerAttrs) (id : LayerId)
    (layer : LayerAttrs) (children : List LayerType) (args : WalkArgs) (s : State)
    (hc : ∀ (cfg : Config) (anc : List LayerAttrs) (i : Nat) (args : WalkArgs) (acc : IntRect)
      (s : State), ChildrenStep id i s (visitChildren cfg anc id children i args acc s).2) :
    WalkStep id s (calculateDrawTransformsInternal cfg anc id (.mk layer children) args s).2 := by
  rw [calculateDrawTransformsInternal]
  have hsub : ∀ q, q = id → InSubtree id q := fun q e => e ▸ InSubtree.inSubtree_refl id
  rcases enterLayer_cases cfg anc id layer (anyDrawsContent children) args s with
    ⟨_, he⟩ | ⟨_, _, _, he⟩ | ⟨_, _, _, he⟩ | ⟨_, _, he⟩
  · rw [he]
    exact ⟨[], Step.step_refl _ _, by simp⟩
  · rw [he]
    exact ⟨[], (beginLayer_step cfg id layer args s).step_mono hsub, by simp⟩
  · -- the layer gets a render surface
    rw [he]
    simp only
    generalize hb : surfaceBranch cfg anc id layer args s = b
    have hb1 : Step (· = id) [id] s b.state := hb ▸ surfaceBranch_step cfg anc id layer args s
    have hbs : (b.state.surface id).isSome = true := by
      rw [← hb]
      obtain ⟨_, _, _, rs, hrs, _⟩ := enterSurface_layers_self layer id args
        (scaleLayerToContent layer (combinedTransformOf layer args))
        (cfg.ext.computeTransform2dScaleComponents (combinedTransformOf layer args))
        (accumulatedDrawOpacity anc.head? (s.layers id.tail) layer)
        (animatingTransforms anc.head? ((beginLayer cfg id layer args s).layers id.tail) layer)
        (beginLayer cfg id layer args s)
      simp [surfaceBranch, hrs]
    generalize hlu : childrenOf cfg anc id layer args b = lu
    have hu0 : Step (fun _ => False) [] b.state lu.2 := hlu ▸ childrenOf_step cfg anc id layer args b
    have hdesc : lu.1.descendants = id := by
      rw [← hlu]
      simp [childrenOf, (enterChildren_descendants cfg anc id layer args _ b).1, hbs]
    obtain ⟨newc, hcs, hcn⟩ := hc cfg (layer :: anc) 0 lu.1.childArgs IntRect.zero lu.2
    generalize visitChildren cfg (layer :: anc) id children 0 lu.1.childArgs IntRect.zero lu.2
      = r at hcs
    have h1 : Step (InSubtree id) ([id] ++ newc) s r.2 := by
      have := ((hb1.step_mono hsub).step_trans (hu0.step_mono (fun _ h => h.elim))).step_trans
        (hcs.step_mono (fun q h => h.inChildren_inSubtree))
      simpa using this
    have hall : ∀ q ∈ [id] ++ newc, InSubtree id q := by
      intro q hq
      rcases List.mem_append.mp hq with h | h
      · simp at h; exact h ▸ InSubtree.inSubtree_refl id
      · exact (hcn q h).inChildren_inSubtree
    have hk : ∀ q, ¬ InSubtree id q → q = lu.1.descendants →
        (s.layers q).layerList.length ≤ lu.1.sortingStartIndex := by
      intro q hq e
      exact absurd (e.trans hdesc ▸ InSubtree.inSubtree_refl id) hq
    rcases finishLayer_cases cfg anc id layer args lu.1 r.1 r.2 with
      ⟨_, _, _, hf⟩ | ⟨_, _, _, hf⟩ | ⟨_, hf⟩
    · rw [hf]
      refine ⟨[], ?_, by simp⟩
      apply removeEmptySurface_step id s _ newc
      · exact (h1.step_append_nil (Step.step_setContentRects _ _ _ _ _)).step_append_nil
          (Step.step_finishSurface _ _ _ _ _ _ _)
      · intro q hq
        exact ⟨(hcn q hq).inChildren_inSubtree, (hcn q hq).inChildren_ne⟩
    · rw [hf]
      refine ⟨[id] ++ newc, ?_, hall⟩
      apply finishDescendants_step _ _ _ _ _ _ _ _ _ _ hk
      exact (h1.step_append_nil (Step.step_setContentRects _ _ _ _ _)).step_append_nil
          (Step.step_finishSurface _ _ _ _ _ _ _)
    · rw [hf]
      refine ⟨[id] ++ newc, ?_, hall⟩
      apply finishDescendants_step _ _ _ _ _ _ _ _ _ _ hk
      exact h1.step_append_nil (Step.step_setContentRects _ _ _ _ _)
  · -- the layer gets no render surface
    rw [he]
    simp only
    generalize hb : noSurfaceBranch cfg anc id layer args s = b
    have hb1 : Step (· = id) [] s b.state := hb ▸ noSurfaceBranch_step cfg anc id layer args s
    have hbo : ∀ q, q ≠ id → b.state.layers q = s.layers q := by
      intro q hq
      rw [← hb]
      simp [noSurfaceBranch, enterNoSurface_layers_other _ _ _ _ _ _ _ _ hq,
        beginLayer_layers_other _ _ _ _ _ _ hq]
    have hbs : id ≠ [] → b.state.surface id = none := by
      intro hid
      rw [← hb]
      exact ((enterNoSurface_layers_self id args _ _ _ _ _).2.2.2.1 hid).1
    generalize hlu : childrenOf cfg anc id layer args b = lu
    have hu0 : Step (fun _ => False) [] b.state lu.2 := hlu ▸ childrenOf_step cfg anc id layer args b
    have hdesc := (enterChildren_descendants cfg anc id layer args
      (cfg.ext.computeTransform2dScaleComponents (combinedTransformOf layer args)) b)
    obtain ⟨newc, hcs, hcn⟩ := hc cfg (layer :: anc) 0 lu.1.childArgs IntRect.zero lu.2
    generalize visitChildren cfg (layer :: anc) id children 0 lu.1.childArgs IntRect.zero lu.2
      = r at hcs
    have hid : ¬ InChildren id 0 id := fun h => h.inChildren_ne rfl
    have hsurf : (r.2.surface id).isSome = (b.state.surface id).isSome :=
      ((hu0.frame id (fun h => h)).frame_trans (hcs.frame id hid)).frame_surface_isSome
    have h1 : Step (InSubtree id) newc s r.2 := by
      have := ((hb1.step_mono hsub).step_trans (hu0.step_mono (fun _ h => h.elim))).step_trans
        (hcs.step_mono (fun q h => h.inChildren_inSubtree))
      simpa using this
    have hall : ∀ q ∈ newc, InSubtree id q := fun q hq => (hcn q hq).inChildren_inSubtree
    have hk : ∀ q, ¬ InSubtree id q → q = lu.1.descendants →
        (s.layers q).layerList.length ≤ lu.1.sortingStartIndex := by
      intro q hq e
      have hne : q ≠ id := fun e => hq (e ▸ InSubtree.inSubtree_refl id)
      rw [← hlu] at e ⊢
      simp only [childrenOf] at e ⊢
      rw [hdesc.2, ← e, State.layerListOf_eq, hbo q hne]
    rcases finishLayer_cases cfg anc id layer args lu.1 r.1 r.2 with
      ⟨hs, hid, _⟩ | ⟨hs, hid, _⟩ | ⟨_, hf⟩
    · rw [hsurf, hbs hid] at hs; simp at hs
    · rw [hsurf, hbs hid] at hs; simp at hs
    · rw [hf]
      refine ⟨newc, ?_, hall⟩
      apply finishDescendants_step _ _ _ _ _ _ _ _ _ _ hk
      exact h1.step_append_nil (Step.step_setContentRects _ _ _ _ _)

theorem walk_step_cons (cfg : Config) (anc : List LayerAttrs) (pid : LayerId) (i : Nat)
    (child : LayerType) (rest : List LayerType) (args : WalkArgs) (acc : IntRect) (s : State)
    (h1 : ∀ (cfg : Config) (anc : List LayerAttrs) (id : LayerId) (args : WalkArgs) (s : State),
      WalkStep id s (calculateDrawTransformsInternal cfg anc id child args s).2)
    (h2 : ∀ (cfg : Config) (anc : List LayerAttrs) (i : Nat) (args : WalkArgs) (acc : IntRect)
      (s : State), ChildrenStep pid i s (visitChildren cfg anc pid rest i args acc s).2) :
    ChildrenStep pid i s (visitChildren cfg anc pid (child :: rest) i args acc s).2 := by
  rw [visitChildren]
  obtain ⟨n1, hs1, hn1⟩ := h1 cfg anc (i :: pid) args s
  generalize calculateDrawTransformsInternal cfg anc (i :: pid) child args s = r at hs1 ⊢
  have ha := appendChildSurface_step args (i :: pid) r
  obtain ⟨n2, hs2, hn2⟩ := h2 cfg anc (i + 1) args
    (if (!r.1.isEmpty) = true then acc.unite r.1 else acc) (appendChildSurface args (i :: pid) r)
  refine ⟨n1 ++ n2, ?_, ?_⟩
  · have := ((hs1.step_mono (fun q h => InChildren.inChildren_of_child h)).step_trans
      (ha.step_mono (fun _ h => h.elim))).step_trans (hs2.step_mono (fun q h => InChildren.inChildren_of_succ h))
    simpa using this
  · intro q hq
    rcases List.mem_append.mp hq with h | h
    · exact InChildren.inChildren_of_child (hn1 q h)
    · exact InChildren.inChildren_of_succ (hn2 q h)

/-- A visit changes the layers outside the subtree of its layer by frames only,
and the entries that it adds to the render-surface layer list are layers of the
subtree. -/
theorem walk_step (layer : LayerType) :
    ∀ (cfg : Config) (anc : List LayerAttrs) (id : LayerId) (args : WalkArgs) (s : State),
      WalkStep id s (calculateDrawTransformsInternal cfg anc id layer args s).2 :=
  @LayerType.rec
    (fun layer => ∀ (cfg : Config) (anc : List LayerAttrs) (id : LayerId) (args : WalkArgs)
      (s : State), WalkStep id s (calculateDrawTransformsInternal cfg anc id layer args s).2)
    (fun children => ∀ (pid : LayerId) (cfg : Config) (anc : List LayerAttrs) (i : Nat)
      (args : WalkArgs) (acc : IntRect) (s : State),
      ChildrenStep pid i s (visitChildren cfg anc pid children i args acc s).2)
    (fun attrs children ih cfg anc id args s =>
      walk_step_node cfg anc id attrs children args s (ih id))
    (fun pid cfg anc i args acc s => by
      rw [visitChildren]
      exact ⟨[], Step.step_refl _ _, by simp⟩)
    (fun child rest ih1 ih2 pid cfg anc i args acc s =>
      walk_step_cons cfg anc pid i child rest args acc s ih1 (ih2 pid))
    layer

theorem children_step (children : List LayerType) (pid : LayerId) (cfg : Config)
    (anc : List LayerAttrs) (i : Nat) (args : WalkArgs) (acc : IntRect) (s : State) :
    ChildrenStep pid i s (visitChildren cfg anc pid children i args acc s).2 := by
  induction children generalizing cfg anc i args acc s with
  | nil =>
    rw [visitChildren]
    exact ⟨[], Step.step_refl _ _, by simp⟩
  | cons child rest ih =>
    exact walk_step_cons cfg anc pid i child rest args acc s (walk_step child) ih

/-! ## What later steps keep of a layer -/

theorem LayerState.core_eraseLists (l : LayerState) : l.eraseLists.core = l.core := rfl

theorem LayerState.core_withoutSurface (l : LayerState) : l.withoutSurface.core = l.core := rfl

theorem Core.core_refl (l : LayerState) : Core l l := rfl

theorem Core.core_trans {a b c : LayerState} (h1 : Core a b) (h2 : Core b c) : Core a c :=
  Eq.trans h2 h1

theorem Core.core_of_eq {a b : LayerState} (h : b = a) : Core a b := h ▸ Core.core_refl a

theorem Core.core_of_eraseLists {a b : LayerState} (h : b.eraseLists = a.eraseLists) :
    Core a b := by
  unfold Core
  rw [← b.core_eraseLists, h, a.core_eraseLists]

theorem Core.core_renderTarget {a b : LayerState} (h : Core a b) :
    b.renderTarget = a.renderTarget :=
  by
  have e : b.core = a.core := h
  have := congrArg LayerState.renderTarget e
  simpa [LayerState.core] using this

theorem Core.core_drawOpacity {a b : LayerState} (h : Core a b) :
    b.drawOpacity = a.drawOpacity :=
  by
  have e : b.core = a.core := h
  have := congrArg LayerState.drawOpacity e
  simpa [LayerState.core] using this

theorem Core.core_drawTransform {a b : LayerState} (h : Core a b) :
    b.drawTransform = a.drawTransform :=
  by
  have e : b.core = a.core := h
  have := congrArg LayerState.drawTransform e
  simpa [LayerState.core] using this

theorem Keeps.keeps_refl (l : LayerState) : Keeps l l := ⟨rfl, fun h => h⟩

theorem Keeps.keeps_trans {a b c : LayerState} (h1 : Keeps a b) (h2 : Keeps b c) : Keeps a c :=
  ⟨h2.1.trans h1.1, fun h => h2.2 (h1.2 h)⟩

theorem Keeps.keeps_core {a b : LayerState} (h : Keeps a b) : Core a b :=
  Core.core_of_eraseLists h.1

theorem Frame.frame_keeps {a b : LayerState} (h : Frame a b) : Keeps a b := by
  refine ⟨h.1, fun hne hb => hne ?_⟩
  have := h.2
  rw [hb] at this
  exact List.prefix_nil.mp this

theorem Frame.frame_core {a b : LayerState} (h : Frame a b) : Core a b :=
  h.frame_keeps.keeps_core

theorem ModLists.modLists_keeps {a b : LayerState} (h : ModLists a b) : Keeps a b := by
  refine ⟨h.1, fun hne hb => hne ?_⟩
  have := h.2
  rw [hb] at this
  exact List.Perm.eq_nil this.symm

theorem ModLists.modLists_core {a b : LayerState} (h : ModLists a b) : Core a b :=
  h.modLists_keeps.keeps_core

theorem Keeps.keeps_surface_isSome {l k : LayerState} (h : Keeps l k) :
    k.renderSurface.isSome = l.renderSurface.isSome := by
  rw [← k.eraseLists_surface_isSome, h.1, l.eraseLists_surface_isSome]

/-- What is kept of a surface: everything but the two lists, and a layer list
that is not empty stays so. -/
theorem Keeps.keeps_surface {l k : LayerState} (h : Keeps l k) {rs : RenderSurface}
    (hk : k.renderSurface = some rs) :
    ∃ rs0, l.renderSurface = some rs0 ∧ rs.clearLayerLists = rs0.clearLayerLists
      ∧ (rs0.layerList ≠ [] → rs.layerList ≠ []) := by
  have h1 := congrArg LayerState.renderSurface h.1
  have h2 := h.2
  simp only [LayerState.eraseLists, LayerState.layerList, hk, Option.map_some'] at h1 h2
  cases hl : l.renderSurface with
  | none => simp [hl] at h1
  | some rs0 =>
    simp only [hl, Option.map_some', Option.some.injEq] at h1 h2
    exact ⟨rs0, rfl, h1, h2⟩

theorem RenderSurface.clearLayerLists_fields {a b : RenderSurface}
    (h : a.clearLayerLists = b.clearLayerLists) :
    a.contentRect = b.contentRect ∧ a.drawOpacity = b.drawOpacity
      ∧ a.drawTransform = b.drawTransform ∧ a.clipRect = b.clipRect :=
  by
  have h1 := congrArg RenderSurface.contentRect h
  have h2 := congrArg RenderSurface.drawOpacity h
  have h3 := congrArg RenderSurface.drawTransform h
  have h4 := congrArg RenderSurface.clipRect h
  simp only [RenderSurface.clearLayerLists] at h1 h2 h3 h4
  exact ⟨h1, h2, h3, h4⟩

/-- The postcondition of a call holds in a later state when its layer was kept
or lost its surface and left the list, and the core of its parent was kept. -/
theorem CallPost.callPost_lift {cfg : Config} {v : Call} {new1 new2 : List LayerId}
    {t1 t2 : State} (h : CallPost cfg v new1 t1)
    (hq : (Keeps (t1.layers v.id) (t2.layers v.id) ∧ (v.id ∈ new2 ↔ v.id ∈ new1))
      ∨ (Core (t1.layers v.id) (t2.layers v.id) ∧ t2.surface v.id = none ∧ v.id ∉ new2))
    (hp : v.id ≠ [] → Core (t1.layers v.id.tail) (t2.layers v.id.tail)) :
    CallPost cfg v new2 t2 := by
  intro loc u0 he
  obtain ⟨r1, r2, f1, f2⟩ := h loc u0 he
  rcases hq with ⟨hk, hm⟩ | ⟨hc, hn, hm⟩
  · refine ⟨r1.core_trans hk.keeps_core, fun hid => (r2 hid).core_trans (hp hid), ?_, ?_⟩
    · intro hid
      rw [hm, ← f1 hid]
      simp only [State.surface]
      rw [hk.keeps_surface_isSome]
    · intro hid rs hrs
      obtain ⟨rs1, hrs1, hcl, hne⟩ := hk.keeps_surface hrs
      obtain ⟨g1, g2, g3, g4, rs0, g5, g6, g7, g8⟩ := f2 hid rs1 hrs1
      obtain ⟨e1, e2, e3, e4⟩ := RenderSurface.clearLayerLists_fields hcl
      refine ⟨g1, hne g2, e1 ▸ g3, e1 ▸ g4, rs0, g5, ?_, ?_, ?_⟩
      · rw [e2, g6]
      · rw [e3, g7]
      · rw [e4, g8]
  · refine ⟨r1.core_trans hc, fun hid => (r2 hid).core_trans (hp hid), ?_, ?_⟩
    · intro _
      simp [hn, hm]
    · intro _ rs hrs
      rw [hn] at hrs
      cases hrs

theorem popSurfacesAfter_core (layer : LayerId) :
    ∀ (l : List LayerId) (s : State) (q : LayerId),
      Core (s.layers q) ((popSurfacesAfter layer l s).2.layers q) := by
  intro l
  induction l with
  | nil => intro s q; exact Core.core_refl _
  | cons a l ih =>
    intro s q
    unfold popSurfacesAfter
    split_ifs
    · exact Core.core_refl _
    · refine Core.core_trans ?_ (ih (s.clearRenderSurface a) q)
      by_cases hq : q = a
      · subst hq
        simp only [State.clearRenderSurface, State.modify_layers_self]
        rfl
      · simp only [State.clearRenderSurface, State.modify_layers_other _ _ _ _ hq]
        exact Core.core_refl _

theorem removeEmptySurface_core (layer : LayerId) (s : State) (q : LayerId) :
    Core (s.layers q) ((removeEmptySurface layer s).layers q) := by
  unfold removeEmptySurface
  refine Core.core_trans (popSurfacesAfter_core layer s.renderSurfaceLayerList.reverse s q) ?_
  by_cases hq : q = layer
  · subst hq
    simp only [State.clearRenderSurface, State.modify_layers_self]
    rfl
  · simp only [State.clearRenderSurface, State.modify_layers_other _ _ _ _ hq]
    exact Core.core_refl _

theorem setContentRects_core (cfg : Config) (layer : LayerAttrs) (id : LayerId) (loc : Locals)
    (s : State) (q : LayerId) : Core (s.layers q) ((setContentRects cfg layer id loc s).layers q) := by
  by_cases hq : q = id
  · subst hq
    obtain ⟨d, v, h⟩ := setContentRects_layers_self cfg layer q loc s
    rw [h]
    rfl
  · exact Core.core_of_eq (setContentRects_layers_other _ _ _ _ _ _ hq)

theorem finishSurface_core (cfg : Config) (layer : LayerAttrs) (id : LayerId) (args : WalkArgs)
    (loc : Locals) (r : IntRect) (s : State) (q : LayerId) :
    Core (s.layers q) ((finishSurface cfg layer id args loc r s).layers q) := by
  by_cases hq : q = id
  · subst hq
    rw [finishSurface_layers_self]
    rfl
  · exact Core.core_of_eq (finishSurface_layers_other _ _ _ _ _ _ _ _ hq)

/-- The part of a visit after the loop keeps the core of every layer. -/
theorem finishLayer_core (cfg : Config) (anc : List LayerAttrs) (id : LayerId)
    (layer : LayerAttrs) (args : WalkArgs) (loc : Locals) (acc : IntRect) (u : State)
    (q : LayerId) :
    Core (u.layers q) ((finishLayer cfg anc id layer args loc acc u).2.layers q) := by
  rcases finishLayer_cases cfg anc id layer args loc acc u with
    ⟨_, _, _, hf⟩ | ⟨_, _, _, hf⟩ | ⟨_, hf⟩ <;> rw [hf]
  · exact ((setContentRects_core _ _ _ _ _ q).core_trans
      (finishSurface_core _ _ _ _ _ _ _ q)).core_trans (removeEmptySurface_core _ _ q)
  · exact ((setContentRects_core _ _ _ _ _ q).core_trans
      (finishSurface_core _ _ _ _ _ _ _ q)).core_trans
        (finishDescendants_modLists _ _ _ _ _ _ _ q).modLists_core
  · exact (setContentRects_core _ _ _ _ _ q).core_trans
      (finishDescendants_modLists _ _ _ _ _ _ _ q).modLists_core

/-! ## The calls of a walk -/

theorem visits_mk (cfg : Config) (anc : List LayerAttrs) (id : LayerId) (layer : LayerAttrs)
    (children : List LayerType) (args : WalkArgs) (s : State) (v : Call) :
    Visits cfg anc id (.mk layer children) args s v ↔
      (v = ⟨anc, id, layer, children, args, s⟩ ∨
        match enterLayer cfg anc id layer (anyDrawsContent children) args s with
        | .exit _ => False
        | .proceed loc u =>
          ChildVisits cfg (layer :: anc) id children 0 loc.childArgs IntRect.zero u v) := by
  unfold Visits
  exact Iff.rfl

theorem childVisits_nil (cfg : Config) (anc : List LayerAttrs) (pid : LayerId) (i : Nat)
    (args : WalkArgs) (acc : IntRect) (s : State) (v : Call) :
    ¬ ChildVisits cfg anc pid [] i args acc s v := by
  rw [ChildVisits]
  exact fun h => h

theorem childVisits_cons (cfg : Config) (anc : List LayerAttrs) (pid : LayerId)
    (child : LayerType) (rest : List LayerType) (i : Nat) (args : WalkArgs) (acc : IntRect)
    (s : State) (v : Call) :
    ChildVisits cfg anc pid (child :: rest) i args acc s v ↔
      (Visits cfg anc (i :: pid) child args s v ∨
        ChildVisits cfg anc pid rest (i + 1) args
          (if !(calculateDrawTransformsInternal cfg anc (i :: pid) child args s).1.isEmpty then
            acc.unite (calculateDrawTransformsInternal cfg anc (i :: pid) child args s).1
          else acc)
          (appendChildSurface args (i :: pid)
            (calculateDrawTransformsInternal cfg anc (i :: pid) child args s)) v) := by
  rw [ChildVisits]

/-! ## The postcondition of a walk -/

theorem InSubtree.inSubtree_trans {a b c : LayerId} (h1 : InSubtree a b) (h2 : InSubtree b c) :
    InSubtree a c :=
  List.IsSuffix.trans h1 h2

theorem InChildren.inChildren_trans {pid a b : LayerId} {i : Nat} (h1 : InChildren pid i a)
    (h2 : InSubtree a b) : InChildren pid i b := by
  obtain ⟨j, hj, hq⟩ := h1
  exact ⟨j, hj, List.IsSuffix.trans hq h2⟩

theorem InSubtree.inSubtree_tail (q : LayerId) : InSubtree q.tail q := List.tail_suffix q

/-- The parent of a layer in the subtree of the child `i` is not in the subtree
of a later child. -/
theorem InChildren.inChildren_not_tail {i : Nat} {pid q : LayerId}
    (h : InSubtree (i :: pid) q) : ¬ InChildren pid (i + 1) q.tail := fun h2 =>
  InChildren.inChildren_not_of_child h (h2.inChildren_trans (InSubtree.inSubtree_tail q))

theorem InSubtree.inSubtree_not_tail {id : LayerId} (h : id ≠ []) : ¬ InSubtree id id.tail := by
  intro hs
  have := hs.length_le
  cases id with
  | nil => exact h rfl
  | cons a l => simp at this

theorem walk_post_cons (cfg : Config) (anc : List LayerAttrs) (pid : LayerId) (i : Nat)
    (child : LayerType) (rest : List LayerType) (args : WalkArgs) (acc : IntRect) (s : State)
    (h1 : ∀ (cfg : Config) (anc : List LayerAttrs) (id : LayerId) (args : WalkArgs) (s : State),
      WalkPost cfg (InSubtree id) (Visits cfg anc id child args s) s
        (calculateDrawTransformsInternal cfg anc id child args s).2)
    (h2 : ∀ (cfg : Config) (anc : List LayerAttrs) (i : Nat) (args : WalkArgs) (acc : IntRect)
      (s : State), WalkPost cfg (InChildren pid i) (ChildVisits cfg anc pid rest i args acc s) s
        (visitChildren cfg anc pid rest i args acc s).2) :
    WalkPost cfg (InChildren pid i) (ChildVisits cfg anc pid (child :: rest) i args acc s) s
      (visitChildren cfg anc pid (child :: rest) i args acc s).2 := by
  rw [visitChildren]
  obtain ⟨n1, st1, l1, c1⟩ := h1 cfg anc (i :: pid) args s
  have ha := appendChildSurface_step args (i :: pid)
    (calculateDrawTransformsInternal cfg anc (i :: pid) child args s)
  obtain ⟨n2, st2, l2, c2⟩ := h2 cfg anc (i + 1) args
    (if (!(calculateDrawTransformsInternal cfg anc (i :: pid) child args s).1.isEmpty) = true then
      acc.unite (calculateDrawTransformsInternal cfg anc (i :: pid) child args s).1 else acc)
    (appendChildSurface args (i :: pid)
      (calculateDrawTransformsInternal cfg anc (i :: pid) child args s))
  refine ⟨n1 ++ n2, ?_, ?_, ?_⟩
  · have := ((st1.step_mono (fun q h => InChildren.inChildren_of_child h)).step_trans
      (ha.step_mono (fun _ h => h.elim))).step_trans
        (st2.step_mono (fun q h => InChildren.inChildren_of_succ h))
    simpa using this
  · intro q hq
    rcases List.mem_append.mp hq with h | h
    · obtain ⟨hr, v, loc, u0, hv, hvid, hve⟩ := l1 q h
      exact ⟨InChildren.inChildren_of_child hr, v, loc, u0,
        (childVisits_cons _ _ _ _ _ _ _ _ _ _).mpr (Or.inl hv), hvid, hve⟩
    · obtain ⟨hr, v, loc, u0, hv, hvid, hve⟩ := l2 q h
      exact ⟨InChildren.inChildren_of_succ hr, v, loc, u0,
        (childVisits_cons _ _ _ _ _ _ _ _ _ _).mpr (Or.inr hv), hvid, hve⟩
  · intro v hv
    rcases (childVisits_cons _ _ _ _ _ _ _ _ _ _).mp hv with hv1 | hv2
    · obtain ⟨rv, pv, fv⟩ := c1 v hv1
      refine ⟨InChildren.inChildren_of_child rv, ?_, fv⟩
      apply pv.callPost_lift
      · left
        refine ⟨((ha.frame v.id (fun h => h)).frame_trans
          (st2.frame v.id (InChildren.inChildren_not_of_child rv))).frame_keeps, ?_⟩
        rw [List.mem_append]
        constructor
        · rintro (h | h)
          · exact h
          · exact absurd (l2 v.id h).1 (InChildren.inChildren_not_of_child rv)
        · exact Or.inl
      · intro _
        exact ((ha.frame v.id.tail (fun h => h)).frame_trans
          (st2.frame v.id.tail (InChildren.inChildren_not_tail rv))).frame_core
    · obtain ⟨rv, pv, fv⟩ := c2 v hv2
      refine ⟨InChildren.inChildren_of_succ rv, ?_, ?_⟩
      · apply pv.callPost_lift
        · left
          refine ⟨Keeps.keeps_refl _, ?_⟩
          rw [List.mem_append]
          constructor
          · rintro (h | h)
            · exact absurd rv (InChildren.inChildren_not_of_child (l1 v.id h).1)
            · exact h
          · exact Or.inr
        · intro _
          exact Core.core_refl _
      · intro q hq
        have hnot : ¬ InSubtree (i :: pid) q := fun h =>
          InChildren.inChildren_not_of_child h (rv.inChildren_trans hq)
        exact ((st1.frame q hnot).frame_trans (ha.frame q (fun h => h))).frame_trans (fv q hq)

theorem WalkPost.walkPost_congr {cfg : Config} {R : LayerId → Prop} {calls1 calls2 : Call → Prop}
    {s t : State} (h : ∀ v, calls2 v ↔ calls1 v) (hw : WalkPost cfg R calls1 s t) :
    WalkPost cfg R calls2 s t := by
  obtain ⟨new, st, l, c⟩ := hw
  refine ⟨new, st, ?_, fun v hv => c v ((h v).mp hv)⟩
  intro q hq
  obtain ⟨hr, v, loc, u0, hv, e1, e2⟩ := l q hq
  exact ⟨hr, v, loc, u0, (h v).mpr hv, e1, e2⟩

theorem finishSurfaceOf_clipRect (cfg : Config) (layer : LayerAttrs) (args : WalkArgs)
    (loc : Locals) (r : IntRect) (m : WebTransformationMatrix) (rs : RenderSurface) :
    (finishSurfaceOf cfg layer args loc r m rs).clipRect = rs.clipRect := by
  unfold finishSurfaceOf
  by_cases he : (clippedContentRectOf cfg layer args r rs).isEmpty = true <;>
    cases hr : layer.replicaLayer <;>
    simp [he, hr, RenderSurface.clearLayerLists]

/-- What `setContentRects` and `finishSurface` leave of the surface of the
layer. -/
theorem finishSurface_surface (cfg : Config) (layer : LayerAttrs) (id : LayerId) (args : WalkArgs)
    (loc : Locals) (r : IntRect) (u : State) (rs1 : RenderSurface)
    (h : u.surface id = some rs1) :
    ∃ rs, (finishSurface cfg layer id args loc r (setContentRects cfg layer id loc u)).surface id
        = some rs
      ∧ rs.contentRect.width ≤ cfg.maxTextureSize
      ∧ rs.contentRect.height ≤ cfg.maxTextureSize
      ∧ rs.drawOpacity = rs1.drawOpacity ∧ rs.drawTransform = rs1.drawTransform
      ∧ rs.clipRect = rs1.clipRect := by
  have h1 : ((setContentRects cfg layer id loc u).layers id).renderSurface = some rs1 :=
    (setContentRects_modLists cfg layer id loc u id).1.trans h
  obtain ⟨a, b, c, d, _, _⟩ := finishSurfaceOf_spec cfg layer args loc r
    ((setContentRects cfg layer id loc u).layers id).screenSpaceTransform rs1
  refine ⟨_, ?_, a, b, c, d, finishSurfaceOf_clipRect cfg layer args loc r _ rs1⟩
  simp only [State.surface, finishSurface_layers_self, h1, Option.map_some']

/-- The postcondition of a visit from the facts about its last part: `new` and
`t` are the new entries and the state that the part after the loop leaves. -/
theorem walk_post_assemble (cfg : Config) (anc : List LayerAttrs) (id : LayerId)
    (layer : LayerAttrs) (children : List LayerType) (args : WalkArgs) (s : State)
    (e : List LayerId) (loc : Locals) (u0 u1 t : State) (calls : Call → Prop)
    (Lc new : List LayerId)
    (hent : enterLayer cfg anc id layer (anyDrawsContent children) args s = .proceed loc u0)
    (hE : Step (· = id) e s u0)
    (stc : Step (InChildren id 0) Lc u0 u1)
    (lc : ∀ q ∈ Lc, InChildren id 0 q
      ∧ ∃ v loc u0, calls v ∧ v.id = q ∧ v.entered cfg = .proceed loc u0)
    (cc : ∀ v, calls v → InChildren id 0 v.id ∧ CallPost cfg v Lc u1
      ∧ ∀ q, InSubtree v.id q → Frame (u0.layers q) (v.s.layers q))
    (hst : Step (InSubtree id) new s t)
    (hnew : ∀ q ∈ new, q = id ∨ q ∈ Lc)
    (hcore : ∀ q, Core (u1.layers q) (t.layers q))
    (hF1 : id ≠ [] → ((t.surface id).isSome = true ↔ id ∈ new))
    (hF2 : id ≠ [] → ∀ rs, t.surface id = some rs →
      rendersToSeparateSurface anc layer (anyDrawsContent children) args = true
      ∧ rs.layerList ≠ []
      ∧ rs.contentRect.width ≤ cfg.maxTextureSize
      ∧ rs.contentRect.height ≤ cfg.maxTextureSize
      ∧ ∃ rs0, u0.surface id = some rs0 ∧ rs.drawOpacity = rs0.drawOpacity
        ∧ rs.drawTransform = rs0.drawTransform ∧ rs.clipRect = rs0.clipRect)
    (hchild : ∀ q, InChildren id 0 q →
      (Keeps (u1.layers q) (t.layers q) ∧ (q ∈ new ↔ q ∈ Lc))
      ∨ (Core (u1.layers q) (t.layers q) ∧ t.surface q = none ∧ q ∉ new)) :
    WalkPost cfg (InSubtree id) (fun v => v = ⟨anc, id, layer, children, args, s⟩ ∨ calls v) s t := by
  have hidc : ¬ InChildren id 0 id := fun h => h.inChildren_ne rfl
  refine ⟨new, hst, ?_, ?_⟩
  · intro q hq
    rcases hnew q hq with h | h
    · subst h
      exact ⟨InSubtree.inSubtree_refl q, ⟨anc, q, layer, children, args, s⟩, loc, u0, Or.inl rfl,
        rfl, hent⟩
    · obtain ⟨hr, v, l2, u2, hv, e1, e2⟩ := lc q h
      exact ⟨hr.inChildren_inSubtree, v, l2, u2, Or.inr hv, e1, e2⟩
  · intro v hv
    rcases hv with hv | hv
    · subst hv
      refine ⟨InSubtree.inSubtree_refl id, ?_, fun q _ => Frame.frame_refl _⟩
      intro loc2 u2 he2
      have he3 : Entered.proceed loc2 u2 = Entered.proceed loc u0 := he2.symm.trans hent
      injection he3 with e1 e2
      subst e1 e2
      exact ⟨(stc.frame id hidc).frame_core.core_trans (hcore id),
        fun hid => (hst.frame id.tail (InSubtree.inSubtree_not_tail hid)).frame_core, hF1, hF2⟩
    · obtain ⟨rv, pv, fv⟩ := cc v hv
      refine ⟨rv.inChildren_inSubtree, pv.callPost_lift (hchild v.id rv) (fun _ => hcore _), ?_⟩
      intro q hq
      have hne : ¬ (q = id) := (rv.inChildren_trans hq).inChildren_ne
      exact (hE.frame q hne).frame_trans (fv q hq)

theorem LayerState.withoutSurface_renderSurface (l : LayerState) :
    l.withoutSurface.renderSurface = none := rfl

/-- The postcondition of a visit that reaches the loop over its children, from
the postcondition of the loop. -/
theorem walk_post_finish (cfg : Config) (anc : List LayerAttrs) (id : LayerId)
    (layer : LayerAttrs) (children : List LayerType) (args : WalkArgs) (s : State)
    (e : List LayerId) (loc : Locals) (u0 : State) (acc : IntRect) (u1 : State)
    (calls : Call → Prop)
    (hent : enterLayer cfg anc id layer (anyDrawsContent children) args s = .proceed loc u0)
    (hE : Step (· = id) e s u0)
    (hC : WalkPost cfg (InChildren id 0) calls u0 u1)
    (hk : ∀ q, ¬ InSubtree id q → q = loc.descendants →
      (s.layers q).layerList.length ≤ loc.sortingStartIndex)
    (hbr : (rendersToSeparateSurface anc layer (anyDrawsContent children) args = true
        ∧ e = [id] ∧ (u0.surface id).isSome = true)
      ∨ (e = [] ∧ (id ≠ [] → u0.surface id = none))) :
    WalkPost cfg (InSubtree id) (fun v => v = ⟨anc, id, layer, children, args, s⟩ ∨ calls v) s
      (finishLayer cfg anc id layer args loc acc u1).2 := by
  obtain ⟨Lc, stc, lc, cc⟩ := hC
  have hsub : ∀ q, q = id → InSubtree id q := fun q h => h ▸ InSubtree.inSubtree_refl id
  have hidc : ¬ InChildren id 0 id := fun h => h.inChildren_ne rfl
  have hidLc : id ∉ Lc := fun h => hidc (lc id h).1
  have hf01 : Frame (u0.layers id) (u1.layers id) := stc.frame id hidc
  have hsurf : (u1.surface id).isSome = (u0.surface id).isSome := hf01.frame_surface_isSome
  have h1 : Step (InSubtree id) (e ++ Lc) s u1 :=
    (hE.step_mono hsub).step_trans (stc.step_mono (fun q h => h.inChildren_inSubtree))
  have he_sub : ∀ q ∈ e, q = id := by
    rcases hbr with ⟨_, h, _⟩ | ⟨h, _⟩ <;> simp [h]
  have hcore := finishLayer_core cfg anc id layer args loc acc u1
  have hset : ∀ q, q ≠ id → (setContentRects cfg layer id loc u1).layers q = u1.layers q :=
    fun q hq => setContentRects_layers_other _ _ _ _ _ _ hq
  have hfin : ∀ q, q ≠ id →
      (finishSurface cfg layer id args loc (localDrawableContentRectOfSubtree layer loc acc)
        (setContentRects cfg layer id loc u1)).layers q = u1.layers q :=
    fun q hq => (finishSurface_layers_other _ _ _ _ _ _ _ _ hq).trans (hset q hq)
  rcases finishLayer_cases cfg anc id layer args loc acc u1 with
    ⟨hs, hid, hempty, hf⟩ | ⟨hs, hid, hne, hf⟩ | ⟨hor, hf⟩
  · -- the surface of the layer is removed
    rcases hbr with ⟨hrend, he, hu0s⟩ | ⟨_, hnone⟩
    swap
    · rw [hsurf, hnone hid] at hs
      simp at hs
    subst he
    rw [hf] at hcore ⊢
    have h3 : Step (InSubtree id) ([id] ++ Lc) s
        (finishSurface cfg layer id args loc (localDrawableContentRectOfSubtree layer loc acc)
          (setContentRects cfg layer id loc u1)) :=
      (h1.step_append_nil (Step.step_setContentRects _ _ _ _ _)).step_append_nil
        (Step.step_finishSurface _ _ _ _ _ _ _)
    have hrs : (finishSurface cfg layer id args loc (localDrawableContentRectOfSubtree layer loc acc)
          (setContentRects cfg layer id loc u1)).renderSurfaceLayerList
        = s.renderSurfaceLayerList ++ id :: Lc := by
      simpa using h3.rsll
    obtain ⟨_, hl⟩ := removeEmptySurface_spec id _ _ Lc hrs hidLc
    have hsn : ∀ q, q = id ∨ q ∈ Lc →
        (removeEmptySurface id (finishSurface cfg layer id args loc
          (localDrawableContentRectOfSubtree layer loc acc)
          (setContentRects cfg layer id loc u1))).surface q = none := by
      intro q hq
      simp only [State.surface, hl q, if_pos hq, LayerState.withoutSurface_renderSurface]
    apply walk_post_assemble cfg anc id layer children args s [id] loc u0 u1 _ calls Lc []
      hent hE stc lc cc
    · exact removeEmptySurface_step id s _ Lc h3
        (fun q hq => ⟨(lc q hq).1.inChildren_inSubtree, (lc q hq).1.inChildren_ne⟩)
    · intro q hq
      simp at hq
    · exact hcore
    · intro _
      simp [hsn id (Or.inl rfl)]
    · intro _ rs hrs2
      rw [hsn id (Or.inl rfl)] at hrs2
      cases hrs2
    · intro q hq
      by_cases hm : q ∈ Lc
      · right
        exact ⟨hcore q, hsn q (Or.inr hm), by simp⟩
      · left
        have hqe : ¬ (q = id ∨ q ∈ Lc) := fun h => h.elim hq.inChildren_ne hm
        have : (removeEmptySurface id (finishSurface cfg layer id args loc
            (localDrawableContentRectOfSubtree layer loc acc)
            (setContentRects cfg layer id loc u1))).layers q = u1.layers q := by
          rw [hl q, if_neg hqe, hfin q hq.inChildren_ne]
        rw [this]
        exact ⟨Keeps.keeps_refl _, by simp [hm]⟩
  · -- the surface of the layer is kept
    rcases hbr with ⟨hrend, he, hu0s⟩ | ⟨_, hnone⟩
    swap
    · rw [hsurf, hnone hid] at hs
      simp at hs
    subst he
    rw [hf] at hcore ⊢
    have h3 : Step (InSubtree id) ([id] ++ Lc) s
        (finishSurface cfg layer id args loc (localDrawableContentRectOfSubtree layer loc acc)
          (setContentRects cfg layer id loc u1)) :=
      (h1.step_append_nil (Step.step_setContentRects _ _ _ _ _)).step_append_nil
        (Step.step_finishSurface _ _ _ _ _ _ _)
    have hml := fun q => finishDescendants_modLists cfg anc id layer loc
      (localDrawableContentRectOfSubtree layer loc acc)
      (finishSurface cfg layer id args loc (localDrawableContentRectOfSubtree layer loc acc)
        (setContentRects cfg layer id loc u1)) q
    obtain ⟨rs1, hrs1⟩ := Option.isSome_iff_exists.mp hs
    obtain ⟨rs3, hrs3, hw, hh, ho, ht, hcl⟩ := finishSurface_surface cfg layer id args loc
      (localDrawableContentRectOfSubtree layer loc acc) u1 rs1 hrs1
    apply walk_post_assemble cfg anc id layer children args s [id] loc u0 u1 _ calls Lc
      ([id] ++ Lc) hent hE stc lc cc
    · exact finishDescendants_step _ _ _ _ _ _ _ _ _ h3 hk
    · intro q hq
      simpa using hq
    · exact hcore
    · intro _
      have h5 := (hml id).modLists_surface_isSome
      simp only [State.surface] at hrs3 ⊢
      rw [h5, hrs3]
      simp
    · intro _ rs hrs
      obtain ⟨rs4, hrs4, hcl4, hne4⟩ := (hml id).modLists_keeps.keeps_surface hrs
      have e34 : rs4 = rs3 := Option.some.inj (hrs4.symm.trans hrs3)
      subst e34
      obtain ⟨f1, f2, f3, f4⟩ := RenderSurface.clearLayerLists_fields hcl4
      obtain ⟨rs0, hrs0, hcl0, _⟩ := hf01.frame_keeps.keeps_surface hrs1
      obtain ⟨g1, g2, g3, g4⟩ := RenderSurface.clearLayerLists_fields hcl0
      refine ⟨hrend, hne4 ?_, f1 ▸ hw, f1 ▸ hh, rs0, hrs0, ?_, ?_, ?_⟩
      · have hne2 := hne
        simp only [State.layerListOf_eq, LayerState.layerList] at hne2
        simp only [State.surface] at hrs3
        rw [hrs3] at hne2
        exact hne2
      · rw [f2, ho, g2]
      · rw [f3, ht, g3]
      · rw [f4, hcl, g4]
    · intro q hq
      left
      refine ⟨?_, by simp [hq.inChildren_ne]⟩
      have := (hml q).modLists_keeps
      rwa [hfin q hq.inChildren_ne] at this
  · -- the layer owns no surface, or it is the root
    rw [hf] at hcore ⊢
    have h2 : Step (InSubtree id) (e ++ Lc) s (setContentRects cfg layer id loc u1) :=
      h1.step_append_nil (Step.step_setContentRects _ _ _ _ _)
    have hml := fun q => finishDescendants_modLists cfg anc id layer loc
      (localDrawableContentRectOfSubtree layer loc acc) (setContentRects cfg layer id loc u1) q
    have hnone : id ≠ [] → ((finishDescendants cfg anc id layer loc
        (localDrawableContentRectOfSubtree layer loc acc)
        (setContentRects cfg layer id loc u1)).2.surface id).isSome = false := by
      intro hid
      have h5 := (hml id).modLists_surface_isSome
      simp only [State.surface] at hor ⊢
      rw [h5, (setContentRects_modLists cfg layer id loc u1 id).1]
      exact hor.resolve_right hid
    have hide : id ≠ [] → id ∉ e := by
      intro hid hm
      rcases hbr with ⟨_, _, hu0s⟩ | ⟨he, _⟩
      · rw [← hsurf] at hu0s
        rw [hor.resolve_right hid] at hu0s
        cases hu0s
      · rw [he] at hm
        cases hm
    apply walk_post_assemble cfg anc id layer children args s e loc u0 u1 _ calls Lc
      (e ++ Lc) hent hE stc lc cc
    · exact finishDescendants_step _ _ _ _ _ _ _ _ _ h2 hk
    · intro q hq
      rcases List.mem_append.mp hq with h | h
      · exact Or.inl (he_sub q h)
      · exact Or.inr h
    · exact hcore
    · intro hid
      rw [hnone hid]
      simp [hide hid, hidLc]
    · intro hid rs hrs
      have := hnone hid
      rw [hrs] at this
      cases this
    · intro q hq
      left
      constructor
      · have := (hml q).modLists_keeps
        rwa [hset q hq.inChildren_ne] at this
      · rw [List.mem_append]
        constructor
        · rintro (h | h)
          · exact absurd (he_sub q h) hq.inChildren_ne
          · exact h
        · exact Or.inr

theorem walk_post_node (cfg : Config) (anc : List LayerAttrs) (id : LayerId)
    (layer : LayerAttrs) (children : List LayerType) (args : WalkArgs) (s : State)
    (hc : ∀ (cfg : Config) (anc : List LayerAttrs) (i : Nat) (args : WalkArgs) (acc : IntRect)
      (s : State), WalkPost cfg (InChildren id i) (ChildVisits cfg anc id children i args acc s) s
        (visitChildren cfg anc id children i args acc s).2) :
    WalkPost cfg (InSubtree id) (Visits cfg anc id (.mk layer children) args s) s
      (calculateDrawTransformsInternal cfg anc id (.mk layer children) args s).2 := by
  rw [calculateDrawTransformsInternal]
  have hsub : ∀ q, q = id → InSubtree id q := fun q e => e ▸ InSubtree.inSubtree_refl id
  have hexit : ∀ u, enterLayer cfg anc id layer (anyDrawsContent children) args s = .exit u →
      Step (InSubtree id) [] s u →
      WalkPost cfg (InSubtree id) (Visits cfg anc id (.mk layer children) args s) s u := by
    intro u he hst
    refine ⟨[], hst, by simp, ?_⟩
    intro v hv
    rw [visits_mk, he] at hv
    simp only [or_false] at hv
    subst hv
    refine ⟨InSubtree.inSubtree_refl id, ?_, fun q _ => Frame.frame_refl _⟩
    intro loc u0 h
    have h2 : Entered.proceed loc u0 = Entered.exit u := h.symm.trans he
    cases h2
  rcases enterLayer_cases cfg anc id layer (anyDrawsContent children) args s with
    ⟨_, he⟩ | ⟨_, _, _, he⟩ | ⟨_, hrend, _, he⟩ | ⟨_, hrend, he⟩
  · have := hexit _ he (Step.step_refl _ _)
    rw [he]
    exact this
  · have := hexit _ he ((beginLayer_step cfg id layer args s).step_mono hsub)
    rw [he]
    exact this
  · -- the layer gets a render surface
    have hcongr : ∀ v, Visits cfg anc id (.mk layer children) args s v ↔
        (v = ⟨anc, id, layer, children, args, s⟩ ∨ ChildVisits cfg (layer :: anc) id children 0
          (childrenOf cfg anc id layer args (surfaceBranch cfg anc id layer args s)).1.childArgs
          IntRect.zero
          (childrenOf cfg anc id layer args (surfaceBranch cfg anc id layer args s)).2 v) := by
      intro v
      rw [visits_mk, he]
    apply WalkPost.walkPost_congr hcongr
    rw [he]
    simp only
    have hb1 : Step (· = id) [id] s (surfaceBranch cfg anc id layer args s).state :=
      surfaceBranch_step cfg anc id layer args s
    have hbs : ((surfaceBranch cfg anc id layer args s).state.surface id).isSome = true := by
      obtain ⟨_, _, _, rs, hrs, _⟩ := enterSurface_layers_self layer id args
        (scaleLayerToContent layer (combinedTransformOf layer args))
        (cfg.ext.computeTransform2dScaleComponents (combinedTransformOf layer args))
        (accumulatedDrawOpacity anc.head? (s.layers id.tail) layer)
        (animatingTransforms anc.head? ((beginLayer cfg id layer args s).layers id.tail) layer)
        (beginLayer cfg id layer args s)
      simp [surfaceBranch, hrs]
    have hu0 := childrenOf_step cfg anc id layer args (surfaceBranch cfg anc id layer args s)
    have hdesc : (childrenOf cfg anc id layer args
        (surfaceBranch cfg anc id layer args s)).1.descendants = id := by
      simp [childrenOf, (enterChildren_descendants cfg anc id layer args _ _).1, hbs]
    have hE : Step (· = id) [id] s
        (childrenOf cfg anc id layer args (surfaceBranch cfg anc id layer args s)).2 := by
      simpa using hb1.step_trans (hu0.step_mono (fun _ h => h.elim))
    have hu0s : ((childrenOf cfg anc id layer args
        (surfaceBranch cfg anc id layer args s)).2.surface id).isSome = true := by
      have := (hu0.frame id (fun h => h)).frame_surface_isSome
      simp only [State.surface] at hbs ⊢
      rw [this, hbs]
    exact walk_post_finish cfg anc id layer children args s [id] _ _ _ _ _ he hE
      (hc cfg (layer :: anc) 0 _ IntRect.zero _)
      (fun q hq e => absurd (e.trans hdesc ▸ InSubtree.inSubtree_refl id) hq)
      (Or.inl ⟨hrend, rfl, hu0s⟩)
  · -- the layer gets no render surface
    have hcongr : ∀ v, Visits cfg anc id (.mk layer children) args s v ↔
        (v = ⟨anc, id, layer, children, args, s⟩ ∨ ChildVisits cfg (layer :: anc) id children 0
          (childrenOf cfg anc id layer args (noSurfaceBranch cfg anc id layer args s)).1.childArgs
          IntRect.zero
          (childrenOf cfg anc id layer args (noSurfaceBranch cfg anc id layer args s)).2 v) := by
      intro v
      rw [visits_mk, he]
    apply WalkPost.walkPost_congr hcongr
    rw [he]
    simp only
    have hb1 : Step (· = id) [] s (noSurfaceBranch cfg anc id layer args s).state :=
      noSurfaceBranch_step cfg anc id layer args s
    have hbo : ∀ q, q ≠ id → (noSurfaceBranch cfg anc id layer args s).state.layers q
        = s.layers q := by
      intro q hq
      simp [noSurfaceBranch, enterNoSurface_layers_other _ _ _ _ _ _ _ _ hq,
        beginLayer_layers_other _ _ _ _ _ _ hq]
    have hbs : id ≠ [] → (noSurfaceBranch cfg anc id layer args s).state.surface id = none := by
      intro hid
      exact ((enterNoSurface_layers_self id args _ _ _ _ _).2.2.2.1 hid).1
    have hu0 := childrenOf_step cfg anc id layer args (noSurfaceBranch cfg anc id layer args s)
    have hdesc := (enterChildren_descendants cfg anc id layer args
      (cfg.ext.computeTransform2dScaleComponents (combinedTransformOf layer args))
      (noSurfaceBranch cfg anc id layer args s))
    have hE : Step (· = id) [] s
        (childrenOf cfg anc id layer args (noSurfaceBranch cfg anc id layer args s)).2 := by
      simpa using hb1.step_trans (hu0.step_mono (fun _ h => h.elim))
    have hu0s : id ≠ [] → (childrenOf cfg anc id layer args
        (noSurfaceBranch cfg anc id layer args s)).2.surface id = none := by
      intro hid
      have := (hu0.frame id (fun h => h)).frame_surface_isSome
      have h2 := hbs hid
      simp only [State.surface] at h2 ⊢
      rw [h2] at this
      simpa using this
    refine walk_post_finish cfg anc id layer children args s [] _ _ _ _ _ he hE
      (hc cfg (layer :: anc) 0 _ IntRect.zero _) ?_ (Or.inr ⟨rfl, hu0s⟩)
    intro q hq e
    have hne : q ≠ id := fun e => hq (e ▸ InSubtree.inSubtree_refl id)
    simp only [childrenOf] at e ⊢
    rw [hdesc.2, ← e, State.layerListOf_eq, hbo q hne]

/-- The postcondition `WalkPost` holds of every visit. -/
theorem walk_post (layer : LayerType) :
    ∀ (cfg : Config) (anc : List LayerAttrs) (id : LayerId) (args : WalkArgs) (s : State),
      WalkPost cfg (InSubtree id) (Visits cfg anc id layer args s) s
        (calculateDrawTransformsInternal cfg anc id layer args s).2 :=
  @LayerType.rec
    (fun layer => ∀ (cfg : Config) (anc : List LayerAttrs) (id : LayerId) (args : WalkArgs)
      (s : State), WalkPost cfg (InSubtree id) (Visits cfg anc id layer args s) s
        (calculateDrawTransformsInternal cfg anc id layer args s).2)
    (fun children => ∀ (pid : LayerId) (cfg : Config) (anc : List LayerAttrs) (i : Nat)
      (args : WalkArgs) (acc : IntRect) (s : State),
      WalkPost cfg (InChildren pid i) (ChildVisits cfg anc pid children i args acc s) s
        (visitChildren cfg anc pid children i args acc s).2)
    (fun attrs children ih cfg anc id args s =>
      walk_post_node cfg anc id attrs children args s (ih id))
    (fun pid cfg anc i args acc s => by
      rw [visitChildren]
      exact ⟨[], Step.step_refl _ _, by simp,
        fun v hv => absurd hv (childVisits_nil cfg anc pid i args acc s v)⟩)
    (fun child rest ih1 ih2 pid cfg anc i args acc s =>
      walk_post_cons cfg anc pid i child rest args acc s ih1 (ih2 pid))
    layer

/-! ## The branches of a call -/

theorem Call.entered_of_takesSurface {cfg : Config} {v : Call} (h : v.takesSurface cfg) :
    v.entered cfg
      = .proceed (childrenOf cfg v.anc v.id v.layer v.args
          (surfaceBranch cfg v.anc v.id v.layer v.args v.s)).1
        (childrenOf cfg v.anc v.id v.layer v.args
          (surfaceBranch cfg v.anc v.id v.layer v.args v.s)).2 := by
  obtain ⟨h1, h2, h3⟩ := h
  rcases enterLayer_cases cfg v.anc v.id v.layer (anyDrawsContent v.children) v.args v.s with
    ⟨g, _⟩ | ⟨_, _, g, _⟩ | ⟨_, _, _, he⟩ | ⟨_, g, _⟩
  · rw [h1] at g; cases g
  · rw [h3] at g; cases g
  · exact he
  · rw [h2] at g; cases g

theorem Call.entered_of_takesNoSurface {cfg : Config} {v : Call} (h : v.takesNoSurface cfg) :
    v.entered cfg
      = .proceed (childrenOf cfg v.anc v.id v.layer v.args
          (noSurfaceBranch cfg v.anc v.id v.layer v.args v.s)).1
        (childrenOf cfg v.anc v.id v.layer v.args
          (noSurfaceBranch cfg v.anc v.id v.layer v.args v.s)).2 := by
  obtain ⟨h1, h2⟩ := h
  rcases enterLayer_cases cfg v.anc v.id v.layer (anyDrawsContent v.children) v.args v.s with
    ⟨g, _⟩ | ⟨_, g, _, _⟩ | ⟨_, g, _, _⟩ | ⟨_, _, he⟩
  · rw [h1] at g; cases g
  · rw [h2] at g; cases g
  · rw [h2] at g; cases g
  · exact he

theorem Call.takes_of_entered {cfg : Config} {v : Call} {loc : Locals} {u0 : State}
    (h : v.entered cfg = .proceed loc u0) : v.takesSurface cfg ∨ v.takesNoSurface cfg := by
  rcases enterLayer_cases cfg v.anc v.id v.layer (anyDrawsContent v.children) v.args v.s with
    ⟨_, he⟩ | ⟨_, _, _, he⟩ | ⟨h1, h2, h3, _⟩ | ⟨h1, h2, _⟩
  · have := h.symm.trans he
    cases this
  · have := h.symm.trans he
    cases this
  · exact Or.inl ⟨h1, h2, h3⟩
  · exact Or.inr ⟨h1, h2⟩

/-- What the layer carries when its visit reaches the loop over the children
after the surface branch. -/
theorem surfaceBranch_self (cfg : Config) (anc : List LayerAttrs) (id : LayerId)
    (layer : LayerAttrs) (args : WalkArgs) (s : State) :
    (((childrenOf cfg anc id layer args (surfaceBranch cfg anc id layer args s)).2).layers
        id).drawOpacity = 1
    ∧ (((childrenOf cfg anc id layer args (surfaceBranch cfg anc id layer args s)).2).layers
        id).renderTarget = (if (s.surface id).isNone then some id else (s.layers id).renderTarget)
    ∧ ∃ rs0, ((childrenOf cfg anc id layer args (surfaceBranch cfg anc id layer args s)).2).surface
        id = some rs0
      ∧ rs0.drawOpacity = (accumulatedDrawOpacity anc.head? (s.layers id.tail) layer).1 := by
  have hf := (childrenOf_step cfg anc id layer args (surfaceBranch cfg anc id layer args s)).frame
    id (fun h => h)
  obtain ⟨e1, _, e3, rs, hrs, _, e5, _⟩ := enterSurface_layers_self layer id args
    (scaleLayerToContent layer (combinedTransformOf layer args))
    (cfg.ext.computeTransform2dScaleComponents (combinedTransformOf layer args))
    (accumulatedDrawOpacity anc.head? (s.layers id.tail) layer)
    (animatingTransforms anc.head? ((beginLayer cfg id layer args s).layers id.tail) layer)
    (beginLayer cfg id layer args s)
  obtain ⟨b1, b2⟩ := beginLayer_layers_self cfg id layer args s
  refine ⟨?_, ?_, ?_⟩
  · rw [hf.frame_drawOpacity]
    exact e1
  · rw [hf.frame_renderTarget]
    simp only [State.surface, b1, b2] at e3
    exact e3
  · obtain ⟨rs2, h2, hcl, _⟩ := hf.frame_surface hrs
    refine ⟨rs2, h2, ?_⟩
    rw [(RenderSurface.clearLayerLists_fields hcl).2.1]
    exact e5

/-- What the layer carries when its visit reaches the loop over the children
after the branch without surface. -/
theorem noSurfaceBranch_self (cfg : Config) (anc : List LayerAttrs) (id : LayerId)
    (layer : LayerAttrs) (args : WalkArgs) (s : State) :
    (((childrenOf cfg anc id layer args (noSurfaceBranch cfg anc id layer args s)).2).layers
        id).drawTransform = scaleLayerToContent layer (combinedTransformOf layer args)
    ∧ (((childrenOf cfg anc id layer args (noSurfaceBranch cfg anc id layer args s)).2).layers
        id).drawOpacity = (accumulatedDrawOpacity anc.head? (s.layers id.tail) layer).1
    ∧ (id ≠ [] →
      ((childrenOf cfg anc id layer args (noSurfaceBranch cfg anc id layer args s)).2).surface id
        = none
      ∧ (((childrenOf cfg anc id layer args (noSurfaceBranch cfg anc id layer args s)).2).layers
        id).renderTarget = (s.layers id.tail).renderTarget)
    ∧ (id = [] →
      (((childrenOf cfg anc id layer args (noSurfaceBranch cfg anc id layer args s)).2).layers
        id).renderTarget = (s.layers id).renderTarget) := by
  have hf := (childrenOf_step cfg anc id layer args (noSurfaceBranch cfg anc id layer args s)).frame
    id (fun h => h)
  obtain ⟨e1, _, e3, e4, e5⟩ := enterNoSurface_layers_self id args
    (scaleLayerToContent layer (combinedTransformOf layer args)) (combinedTransformOf layer args)
    (accumulatedDrawOpacity anc.head? (s.layers id.tail) layer)
    (animatingTransforms anc.head? ((beginLayer cfg id layer args s).layers id.tail) layer)
    (beginLayer cfg id layer args s)
  obtain ⟨b1, b2⟩ := beginLayer_layers_self cfg id layer args s
  refine ⟨?_, ?_, ?_, ?_⟩
  · rw [hf.frame_drawTransform]
    exact e3
  · rw [hf.frame_drawOpacity]
    exact e1
  · intro hid
    obtain ⟨g1, g2⟩ := e4 hid
    constructor
    · have := hf.frame_surface_isSome
      simp only [State.surface] at g1 ⊢
      rw [show (noSurfaceBranch cfg anc id layer args s).state.layers id
        = (enterNoSurface id args (scaleLayerToContent layer (combinedTransformOf layer args))
            (combinedTransformOf layer args)
            (accumulatedDrawOpacity anc.head? (s.layers id.tail) layer)
            (animatingTransforms anc.head? ((beginLayer cfg id layer args s).layers id.tail) layer)
            (beginLayer cfg id layer args s)).state.layers id from rfl, g1] at this
      simpa using this
    · rw [hf.frame_renderTarget]
      exact g2.trans (by rw [beginLayer_layers_other _ _ _ _ _ _ (tail_ne_self hid)])
  · intro hid
    rw [hf.frame_renderTarget]
    exact (e5 hid).2.trans b2

/-! ## The whole walk -/

theorem setup_rsll (vp : IntSize) (s : State) :
    (setupRootLayerAndSurfaceForRecursion [] vp s).renderSurfaceLayerList
      = s.renderSurfaceLayerList ++ [[]] := by
  unfold setupRootLayerAndSurfaceForRecursion
  simp only [State.modifySurface, State.createRenderSurface]
  split_ifs <;> simp

theorem setup_layers_other (vp : IntSize) (s : State) (q : LayerId) (hq : q ≠ []) :
    (setupRootLayerAndSurfaceForRecursion [] vp s).layers q = s.layers q := by
  unfold setupRootLayerAndSurfaceForRecursion
  simp only [State.modifySurface, State.createRenderSurface]
  split_ifs <;> simp [hq]

/-- What `setupRootLayerAndSurfaceForRecursion` leaves on the root layer: a
surface with the viewport as content rect, and the root as its own render
target when the surface is new. -/
theorem setup_root (vp : IntSize) (s : State) :
    (∃ rs, (setupRootLayerAndSurfaceForRecursion [] vp s).surface [] = some rs
      ∧ rs.contentRect = IntRect.ofSize vp ∧ rs.layerList = [])
    ∧ ((setupRootLayerAndSurfaceForRecursion [] vp s).layers []).renderTarget
        = (if (s.surface []).isNone then some [] else (s.layers []).renderTarget) := by
  unfold setupRootLayerAndSurfaceForRecursion
  simp only [State.modifySurface, State.createRenderSurface, State.surface,
    State.pushSurfaceLayer_layers, State.modify_layers_self]
  rcases Option.eq_none_or_eq_some (s.layers []).renderSurface with hs | ⟨rs0, hs⟩
  · simp [hs, RenderSurface.clearLayerLists]
  · simp [hs, RenderSurface.clearLayerLists]

/-- The postcondition of the whole walk: the render-surface layer list is the
one passed in, followed by the root and by the new entries, and `CallPost`
holds of every call. -/
theorem calculateDrawTransforms_post (cfg : Config) (rootLayer : LayerType) (vp : IntSize)
    (s : State) :
    ∃ new, (calculateDrawTransforms cfg rootLayer vp s).renderSurfaceLayerList
        = s.renderSurfaceLayerList ++ [] :: new
      ∧ (∀ q ∈ new, ∃ v loc u0, WalkVisits cfg rootLayer vp s v ∧ v.id = q
          ∧ v.entered cfg = .proceed loc u0)
      ∧ ∀ v, WalkVisits cfg rootLayer vp s v →
          CallPost cfg v new (calculateDrawTransforms cfg rootLayer vp s)
          ∧ ∀ q, InSubtree v.id q →
            Frame ((setupRootLayerAndSurfaceForRecursion [] vp s).layers q) (v.s.layers q) := by
  obtain ⟨new, st, l, c⟩ := walk_post rootLayer cfg [] []
    (rootArgs cfg (setupRootLayerAndSurfaceForRecursion [] vp s))
    (setupRootLayerAndSurfaceForRecursion [] vp s)
  refine ⟨new, ?_, fun q hq => (l q hq).2, fun v hv => (c v hv).2⟩
  have := st.rsll
  rw [setup_rsll] at this
  simpa [calculateDrawTransforms] using this

/-! ## The render targets in the states in which the calls start -/

theorem InSubtree.inSubtree_not_parent (i : Nat) (pid : LayerId) : ¬ InSubtree (i :: pid) pid := by
  intro h
  have := h.length_le
  simp at this

theorem target_node (cfg : Config) (anc : List LayerAttrs) (id : LayerId)
    (layer : LayerAttrs) (children : List LayerType) (args : WalkArgs) (s : State)
    (hc : ∀ (cfg : Config) (anc : List LayerAttrs) (i : Nat) (args : WalkArgs) (acc : IntRect)
      (s : State), ChildrenTargetOk id i s →
        ∀ v, ChildVisits cfg anc id children i args acc s v → TargetOk v.id v.s)
    (hs : TargetOk id s) (v : Call)
    (hv : Visits cfg anc id (.mk layer children) args s v) : TargetOk v.id v.s := by
  rw [visits_mk] at hv
  rcases hv with hv | hv
  · subst hv
    exact hs
  have hself : (s.surface id).isSome = true → (s.layers id).renderTarget = some id :=
    hs.1 id (InSubtree.inSubtree_refl id)
  rcases enterLayer_cases cfg anc id layer (anyDrawsContent children) args s with
    ⟨_, he⟩ | ⟨_, _, _, he⟩ | ⟨_, _, _, he⟩ | ⟨_, _, he⟩
  · rw [he] at hv
    exact hv.elim
  · rw [he] at hv
    exact hv.elim
  · rw [he] at hv
    refine hc _ _ _ _ _ _ ⟨?_, ?_⟩ v hv
    · intro q hq
      have hne : ¬ (q = id) := hq.inChildren_ne
      have hf := ((surfaceBranch_step cfg anc id layer args s).frame q hne).frame_trans
        ((childrenOf_step cfg anc id layer args _).frame q (fun h => h))
      simp only [State.surface]
      rw [hf.frame_surface_isSome, hf.frame_renderTarget]
      exact hs.1 q hq.inChildren_inSubtree
    · refine ⟨id, ?_, List.suffix_refl id⟩
      rw [(surfaceBranch_self cfg anc id layer args s).2.1]
      split_ifs with h
      · rfl
      · apply hself
        cases hh : s.surface id with
        | none => simp [hh] at h
        | some _ => rfl
  · rw [he] at hv
    refine hc _ _ _ _ _ _ ⟨?_, ?_⟩ v hv
    · intro q hq
      have hne : ¬ (q = id) := hq.inChildren_ne
      have hf := ((noSurfaceBranch_step cfg anc id layer args s).frame q hne).frame_trans
        ((childrenOf_step cfg anc id layer args _).frame q (fun h => h))
      simp only [State.surface]
      rw [hf.frame_surface_isSome, hf.frame_renderTarget]
      exact hs.1 q hq.inChildren_inSubtree
    · obtain ⟨_, _, n1, n2⟩ := noSurfaceBranch_self cfg anc id layer args s
      by_cases hid : id = []
      · refine ⟨id, ?_, List.suffix_refl id⟩
        rw [n2 hid]
        apply hself
        subst hid
        exact hs.2.1 rfl
      · obtain ⟨a, ha, hsuf⟩ := hs.2.2 hid
        refine ⟨a, ?_, hsuf.trans (List.tail_suffix id)⟩
        rw [(n1 hid).2]
        exact ha

theorem target_cons (cfg : Config) (anc : List LayerAttrs) (pid : LayerId) (i : Nat)
    (child : LayerType) (rest : List LayerType) (args : WalkArgs) (acc : IntRect) (s : State)
    (h1 : ∀ (cfg : Config) (anc : List LayerAttrs) (id : LayerId) (args : WalkArgs) (s : State),
      TargetOk id s → ∀ v, Visits cfg anc id child args s v → TargetOk v.id v.s)
    (h2 : ∀ (cfg : Config) (anc : List LayerAttrs) (i : Nat) (args : WalkArgs) (acc : IntRect)
      (s : State), ChildrenTargetOk pid i s →
        ∀ v, ChildVisits cfg anc pid rest i args acc s v → TargetOk v.id v.s)
    (hs : ChildrenTargetOk pid i s) (v : Call)
    (hv : ChildVisits cfg anc pid (child :: rest) i args acc s v) : TargetOk v.id v.s := by
  rcases (childVisits_cons _ _ _ _ _ _ _ _ _ _).mp hv with hv1 | hv2
  · refine h1 cfg anc (i :: pid) args s ⟨?_, ?_, ?_⟩ v hv1
    · intro q hq
      exact hs.1 q (InChildren.inChildren_of_child hq)
    · intro h
      cases h
    · intro _
      exact hs.2
  · refine h2 _ _ _ _ _ _ ⟨?_, ?_⟩ v hv2
    · intro q hq
      obtain ⟨new, st, _⟩ := walk_step child cfg anc (i :: pid) args s
      have hnot : ¬ InSubtree (i :: pid) q := fun h => InChildren.inChildren_not_of_child h hq
      have hf := (st.frame q hnot).frame_trans
        ((appendChildSurface_step args (i :: pid) _).frame q (fun h => h))
      simp only [State.surface]
      rw [hf.frame_surface_isSome, hf.frame_renderTarget]
      exact hs.1 q (InChildren.inChildren_of_succ hq)
    · obtain ⟨new, st, _⟩ := walk_step child cfg anc (i :: pid) args s
      have hf := (st.frame pid (InSubtree.inSubtree_not_parent i pid)).frame_trans
        ((appendChildSurface_step args (i :: pid) _).frame pid (fun h => h))
      rw [hf.frame_renderTarget]
      exact hs.2

/-- Every call of a visit starts in a state in which the render target of the
parent of its layer is the parent or one of its ancestors, when the visit
does. -/
theorem target_ok (layer : LayerType) :
    ∀ (cfg : Config) (anc : List LayerAttrs) (id : LayerId) (args : WalkArgs) (s : State),
      TargetOk id s → ∀ v, Visits cfg anc id layer args s v → TargetOk v.id v.s :=
  @LayerType.rec
    (fun layer => ∀ (cfg : Config) (anc : List LayerAttrs) (id : LayerId) (args : WalkArgs)
      (s : State), TargetOk id s → ∀ v, Visits cfg anc id layer args s v → TargetOk v.id v.s)
    (fun children => ∀ (pid : LayerId) (cfg : Config) (anc : List LayerAttrs) (i : Nat)
      (args : WalkArgs) (acc : IntRect) (s : State), ChildrenTargetOk pid i s →
        ∀ v, ChildVisits cfg anc pid children i args acc s v → TargetOk v.id v.s)
    (fun attrs children ih cfg anc id args s =>
      target_node cfg anc id attrs children args s (ih id))
    (fun pid cfg anc i args acc s _ v hv => absurd hv (childVisits_nil cfg anc pid i args acc s v))
    (fun child rest ih1 ih2 pid cfg anc i args acc s =>
      target_cons cfg anc pid i child rest args acc s ih1 (ih2 pid))
    layer

theorem setup_targetOk (vp : IntSize) (s : State) (h : SurfaceOwnersAreTargets s) :
    TargetOk [] (setupRootLayerAndSurfaceForRecursion [] vp s) := by
  obtain ⟨⟨rs, hrs, _⟩, ht⟩ := setup_root vp s
  refine ⟨?_, fun _ => by rw [hrs]; rfl, fun h => absurd rfl h⟩
  intro q _ hq
  by_cases hq0 : q = []
  · subst hq0
    rw [ht]
    split_ifs with hn
    · rfl
    · apply h
      cases hh : s.surface [] with
      | none => simp [hh] at hn
      | some _ => rfl
  · simp only [State.surface] at hq
    rw [setup_layers_other vp s q hq0] at hq ⊢
    exact h q hq

open WebTransformationMatrix

/-! ## Scroll compensation -/

theorem WebTransformationMatrix.translation_is2d (x y : ℚ) : (translation x y 0).is2d := by
  simp [is2d, translation, identity]

theorem WebTransformationMatrix.translation_zero : translation 0 0 0 = identity := rfl

theorem WebTransformationMatrix.translation_cancel (x y : ℚ) :
    (translation x y 0).multiply (translation (-x) (-y) 0) = identity := by
  ext <;> simp [multiply, translation, identity]

/-- The planar `flattenTransformTo2d` commutes with the product by a flat matrix
on the left. -/
theorem planarFlatten_multiply (a b : WebTransformationMatrix) (h : a.is2d) :
    planarFlattenTransformTo2d (a.multiply b) = a.multiply (planarFlattenTransformTo2d b) := by
  obtain ⟨h1, h2, h3, h4, h5, h6, h7⟩ := h
  ext <;> simp [planarFlattenTransformTo2d, multiply, h1, h2, h3, h4, h5, h6, h7]

theorem WebTransformationMatrix.translate3d_shift (x y z dx dy : ℚ) :
    identity.translate3d (x - dx) (y - dy) z
      = (translation (-dx) (-dy) 0).multiply (identity.translate3d x y z) := by
  ext <;> simp [translate3d, multiply, translation, identity] <;> ring

/-- The scroll delta of a layer enters its local transform as a translation on
the left. -/
theorem layerLocalTransform_scroll (layer : LayerAttrs) (d : FloatSize) :
    layerLocalTransform (layer.withScrollDelta d)
      = (translation (-d.width) (-d.height) 0).multiply
          (layerLocalTransform (layer.withScrollDelta ⟨0, 0⟩)) := by
  have e1 : layer.position.x - d.width + layer.anchorPoint.x * layer.bounds.width
      = (layer.position.x - 0 + layer.anchorPoint.x * layer.bounds.width) - d.width := by ring
  have e2 : layer.position.y - d.height + layer.anchorPoint.y * layer.bounds.height
      = (layer.position.y - 0 + layer.anchorPoint.y * layer.bounds.height) - d.height := by ring
  simp only [layerLocalTransform, LayerAttrs.withScrollDelta]
  rw [e1, e2, translate3d_shift]
  simp only [translate3d, multiply_assoc]

theorem noSurfaceBranch_sublayerMatrix (cfg : Config) (anc : List LayerAttrs) (id : LayerId)
    (layer : LayerAttrs) (args : WalkArgs) (s : State) :
    (noSurfaceBranch cfg anc id layer args s).sublayerMatrix = combinedTransformOf layer args := by
  unfold noSurfaceBranch enterNoSurface
  simp only
  split_ifs <;> rfl

theorem childArgs_parentMatrix (cfg : Config) (anc : List LayerAttrs) (id : LayerId)
    (layer : LayerAttrs) (args : WalkArgs) (s : State) :
    (childrenOf cfg anc id layer args
        (noSurfaceBranch cfg anc id layer args s)).1.childArgs.parentMatrix
      = sublayerMatrixOf cfg layer (combinedTransformOf layer args) := by
  simp only [childrenOf, enterChildren, Locals.childArgs, noSurfaceBranch_sublayerMatrix,
    sublayerMatrixOf]

theorem childArgs_scrollCompensation (cfg : Config) (anc : List LayerAttrs) (id : LayerId)
    (layer : LayerAttrs) (args : WalkArgs) (s : State) (hid : id ≠ []) :
    (childrenOf cfg anc id layer args
        (noSurfaceBranch cfg anc id layer args s)).1.childArgs.currentScrollCompensationMatrix
      = computeScrollCompensationMatrixForChildren cfg.kind layer none args.parentMatrix
          args.currentScrollCompensationMatrix := by
  have h := ((noSurfaceBranch_self cfg anc id layer args s).2.2.1 hid).1
  have e : (childrenOf cfg anc id layer args
        (noSurfaceBranch cfg anc id layer args s)).1.childArgs.currentScrollCompensationMatrix
      = computeScrollCompensationMatrixForChildren cfg.kind layer
          ((childrenOf cfg anc id layer args (noSurfaceBranch cfg anc id layer args s)).2.surface id)
          args.parentMatrix args.currentScrollCompensationMatrix := rfl
  rw [e, h]

theorem WebTransformationMatrix.inverse_multiply_cancel (a y : WebTransformationMatrix)
    (h : a.determinant ≠ 0) : a.inverse.multiply (a.multiply y) = y := by
  rw [← multiply_assoc, inverse_multiply a h, identity_multiply]

theorem WebTransformationMatrix.translation_multiply_cancel (x y : ℚ)
    (m : WebTransformationMatrix) :
    (translation x y 0).multiply ((translation (-x) (-y) 0).multiply m) = m := by
  rw [← multiply_assoc, translation_cancel, identity_multiply]

/-- A flat matrix on the left of the matrix that a branch leaves in
`sublayerMatrix` stays on the left of the parent matrix of the children. -/
theorem sublayerMatrixOf_multiply (cfg : Config)
    (hflat : ∀ a b : WebTransformationMatrix, a.is2d →
      cfg.ext.flattenTransformTo2d (a.multiply b) = a.multiply (cfg.ext.flattenTransformTo2d b))
    (layer : LayerAttrs) (a m : WebTransformationMatrix) (ha : a.is2d) :
    sublayerMatrixOf cfg layer (a.multiply m) = a.multiply (sublayerMatrixOf cfg layer m) := by
  unfold sublayerMatrixOf
  by_cases h : layer.preserves3D = true
  · simp only [h, Bool.not_true, Bool.false_eq_true, if_false, WebTransformationMatrix.translate,
      multiply_assoc]
  · simp only [Bool.not_eq_true] at h
    simp only [h, Bool.not_false, if_true, WebTransformationMatrix.translate, multiply_assoc,
      hflat a m ha]

/-- The combined transform of a scrolling container that is not fixed itself,
or that receives no scroll compensation. -/
theorem combinedTransformOf_scroll (layer : LayerAttrs) (d : FloatSize) (args : WalkArgs)
    (himpl : layer.implTransform = identity)
    (hfix : layer.fixedToContainerLayer = false
      ∨ args.currentScrollCompensationMatrix = identity) :
    combinedTransformOf (layer.withScrollDelta d) args
      = args.parentMatrix.multiply ((translation (-d.width) (-d.height) 0).multiply
          (layerLocalTransform (layer.withScrollDelta ⟨0, 0⟩))) := by
  have e : combinedTransformOf (layer.withScrollDelta d) args
      = (if layer.fixedToContainerLayer then
          args.currentScrollCompensationMatrix.multiply
            (layer.implTransform.multiply
              (args.parentMatrix.multiply (layerLocalTransform (layer.withScrollDelta d))))
        else
          layer.implTransform.multiply
            (args.parentMatrix.multiply (layerLocalTransform (layer.withScrollDelta d)))) :=
    rfl
  rw [e, himpl, layerLocalTransform_scroll layer d]
  simp only [identity_multiply]
  rcases hfix with h | h
  · simp only [h, Bool.false_eq_true, if_false]
  · simp only [h, identity_multiply, ite_self]

/-- The scroll compensation that a container without surface hands to its
children on the committed tree. -/
theorem scrollCompensation_container (layer : LayerAttrs) (d : FloatSize)
    (p k : WebTransformationMatrix) (hcont : layer.isContainerForFixedPositionLayers = true)
    (himpl : layer.implTransform = identity) (hp : p.determinant ≠ 0) :
    computeScrollCompensationMatrixForChildren .layerImpl (layer.withScrollDelta d) none p k
      = (p.multiply (translation d.width d.height 0)).multiply p.inverse := by
  have a1 : (layer.withScrollDelta d).isContainerForFixedPositionLayers = true := hcont
  have a2 : (layer.withScrollDelta d).implTransform = identity := himpl
  have a3 : (layer.withScrollDelta d).scrollDelta = d := rfl
  unfold computeScrollCompensationMatrixForChildren computeScrollCompensationForThisLayer
  simp only [a1, a2, a3, multiply_identity, Bool.not_true, Bool.false_and, Bool.false_eq_true,
    if_false, identity_multiply, WebTransformationMatrix.translate]
  by_cases hz : d.isZero = true
  · have hz2 := hz
    simp only [FloatSize.isZero, Bool.and_eq_true, decide_eq_true_eq] at hz2
    simp only [hz, Bool.not_true, Bool.false_eq_true, if_false, hz2.1, hz2.2, translation_zero,
      multiply_identity, multiply_inverse p hp]
  · simp only [Bool.not_eq_true] at hz
    simp only [hz, Bool.not_false, if_true]

/-- Over the rationals, where the scroll delta that `layerLocalTransform`
subtracts and the one that the scroll compensation adds cancel exactly, the
combined transform of a fixed-position child of a scrolling container does not
depend on the scroll delta of the container. -/
theorem fixedChild_combinedTransform (cfg : Config) (anc : List LayerAttrs) (id : LayerId)
    (layer : LayerAttrs) (d : FloatSize) (args : WalkArgs) (s : State) (c : LayerAttrs)
    (hkind : cfg.kind = TreeKind.layerImpl)
    (hflat : ∀ a b : WebTransformationMatrix, a.is2d →
      cfg.ext.flattenTransformTo2d (a.multiply b) = a.multiply (cfg.ext.flattenTransformTo2d b))
    (hid : id ≠ [])
    (hcont : layer.isContainerForFixedPositionLayers = true)
    (himpl : layer.implTransform = identity)
    (hfix : layer.fixedToContainerLayer = false
      ∨ args.currentScrollCompensationMatrix = identity)
    (hp2d : args.parentMatrix.is2d) (hp : args.parentMatrix.determinant ≠ 0)
    (hcfix : c.fixedToContainerLayer = true) (hcimpl : c.implTransform = identity) :
    combinedTransformOf c
        (childrenOf cfg anc id (layer.withScrollDelta d) args
          (noSurfaceBranch cfg anc id (layer.withScrollDelta d) args s)).1.childArgs
      = args.parentMatrix.multiply
          ((sublayerMatrixOf cfg layer
            (layerLocalTransform (layer.withScrollDelta ⟨0, 0⟩))).multiply
            (layerLocalTransform c)) := by
  have e1 := childArgs_parentMatrix cfg anc id (layer.withScrollDelta d) args s
  have e2 := childArgs_scrollCompensation cfg anc id (layer.withScrollDelta d) args s hid
  rw [combinedTransformOf_scroll layer d args himpl hfix] at e1
  have e3 : sublayerMatrixOf cfg (layer.withScrollDelta d)
      = sublayerMatrixOf cfg layer := rfl
  rw [e3, sublayerMatrixOf_multiply cfg hflat layer _ _ hp2d,
    sublayerMatrixOf_multiply cfg hflat layer _ _ (translation_is2d _ _)] at e1
  rw [hkind, scrollCompensation_container layer d _ _ hcont himpl hp] at e2
  unfold combinedTransformOf
  rw [e1, e2]
  simp only [hcfix, hcimpl, if_true, identity_multiply, multiply_assoc]
  rw [inverse_multiply_cancel _ _ hp, translation_multiply_cancel]

/-! ## The calls on the children -/

/-- The loop over the children calls the child of index `j` with the arguments
of the loop. -/
theorem childVisits_get (cfg : Config) (anc : List LayerAttrs) (pid : LayerId) :
    ∀ (cs : List LayerType) (j i0 : Nat) (args : WalkArgs) (acc : IntRect) (s : State)
      (c : LayerAttrs) (gcs : List LayerType), cs[j]? = some (.mk c gcs) →
      ∃ sj, ChildVisits cfg anc pid cs i0 args acc s ⟨anc, (i0 + j) :: pid, c, gcs, args, sj⟩ := by
  intro cs
  induction cs with
  | nil =>
    intro j i0 args acc s c gcs h
    simp at h
  | cons child rest ih =>
    intro j i0 args acc s c gcs h
    cases j with
    | zero =>
      simp only [List.getElem?_cons_zero, Option.some.injEq] at h
      subst h
      exact ⟨s, (childVisits_cons _ _ _ _ _ _ _ _ _ _).mpr
        (Or.inl ((visits_mk _ _ _ _ _ _ _ _).mpr (Or.inl rfl)))⟩
    | succ j =>
      simp only [List.getElem?_cons_succ] at h
      obtain ⟨sj, hsj⟩ := ih j (i0 + 1) args _ _ c gcs h
      refine ⟨sj, (childVisits_cons _ _ _ _ _ _ _ _ _ _).mpr (Or.inr ?_)⟩
      have e : i0 + 1 + j = i0 + (j + 1) := by omega
      rw [e] at hsj
      exact hsj

theorem walkVisits_rootCall (cfg : Config) (rootLayer : LayerType) (vp : IntSize) (s : State) :
    WalkVisits cfg rootLayer vp s (rootCall cfg rootLayer vp s) := by
  cases rootLayer with
  | mk attrs children =>
    unfold WalkVisits
    rw [visits_mk]
    exact Or.inl rfl

theorem rendersToSeparateSurface_root (layer : LayerAttrs) (ddc : Bool) (args : WalkArgs) :
    rendersToSeparateSurface [] layer ddc args = false := by
  simp [rendersToSeparateSurface, subtreeShouldRenderToSeparateSurface]

/-- The call on the first child of the root layer is a call of the walk, when
the root layer is not skipped. -/
theorem walkVisits_firstChild (cfg : Config) (root child : LayerAttrs)
    (gcs rest : List LayerType) (vp : IntSize) (s : State)
    (h : subtreeShouldBeSkipped cfg.kind root = false) :
    WalkVisits cfg (.mk root (.mk child gcs :: rest)) vp s
      ((rootCall cfg (.mk root (.mk child gcs :: rest)) vp s).firstChild cfg child gcs) := by
  have ht : (rootCall cfg (.mk root (.mk child gcs :: rest)) vp s).takesNoSurface cfg :=
    ⟨h, rendersToSeparateSurface_root _ _ _⟩
  have he := Call.entered_of_takesNoSurface ht
  unfold WalkVisits
  rw [visits_mk]
  right
  simp only [Call.entered, rootCall, LayerType.attrs, LayerType.children] at he
  rw [he]
  simp only
  rw [childVisits_cons]
  left
  rw [visits_mk]
  exact Or.inl rfl

/-! ## The surface of the root layer -/

theorem enterNoSurface_root_surface (args : WalkArgs) (dt ct : WebTransformationMatrix)
    (o : ℚ × Bool) (an : Bool × Bool) (s : State) :
    (enterNoSurface [] args dt ct o an s).state.surface []
      = (s.surface []).map fun rs => { rs with clipRect := args.clipRectFromAncestor } := by
  unfold enterNoSurface
  simp [State.modifySurface, State.surface]

/-- The visit of the root layer keeps the content rect of the surface of the
root layer. -/
theorem root_contentRect (cfg : Config) (layer : LayerType) (args : WalkArgs) (s : State)
    (rs0 : RenderSurface) (h0 : s.surface [] = some rs0) :
    ∃ rs, (calculateDrawTransformsInternal cfg [] [] layer args s).2.surface [] = some rs
      ∧ rs.contentRect = rs0.contentRect := by
  cases layer with
  | mk attrs children =>
  rw [calculateDrawTransformsInternal]
  rcases enterLayer_cases cfg [] [] attrs (anyDrawsContent children) args s with
    ⟨_, he⟩ | ⟨_, h, _, _⟩ | ⟨_, h, _, _⟩ | ⟨_, _, he⟩
  · rw [he]
    exact ⟨rs0, h0, rfl⟩
  · rw [rendersToSeparateSurface_root] at h
    cases h
  · rw [rendersToSeparateSurface_root] at h
    cases h
  · rw [he]
    simp only
    have hb : ((noSurfaceBranch cfg [] [] attrs args s).state.surface [])
        = some { rs0 with clipRect := args.clipRectFromAncestor } := by
      unfold noSurfaceBranch
      rw [enterNoSurface_root_surface]
      have := (beginLayer_layers_self cfg [] attrs args s).1
      simp only [State.surface] at h0 ⊢
      rw [this, h0]
      rfl
    have hf1 := (childrenOf_step cfg [] [] attrs args (noSurfaceBranch cfg [] [] attrs args s)).frame
      [] (fun h => h)
    obtain ⟨newc, hcs, _⟩ := children_step children [] cfg [attrs] 0
      (childrenOf cfg [] [] attrs args (noSurfaceBranch cfg [] [] attrs args s)).1.childArgs
      IntRect.zero (childrenOf cfg [] [] attrs args (noSurfaceBranch cfg [] [] attrs args s)).2
    have hf2 := hcs.frame [] (fun h => h.inChildren_ne rfl)
    obtain ⟨rs1, hrs1, hcl1, _⟩ := (hf1.frame_trans hf2).frame_surface hb
    have e1 := (RenderSurface.clearLayerLists_fields hcl1).1
    generalize visitChildren cfg [attrs] [] children 0
      (childrenOf cfg [] [] attrs args (noSurfaceBranch cfg [] [] attrs args s)).1.childArgs
      IntRect.zero (childrenOf cfg [] [] attrs args (noSurfaceBranch cfg [] [] attrs args s)).2
      = r at hrs1 ⊢
    rcases finishLayer_cases cfg [] [] attrs args
      (childrenOf cfg [] [] attrs args (noSurfaceBranch cfg [] [] attrs args s)).1 r.1 r.2 with
      ⟨_, hid, _⟩ | ⟨_, hid, _⟩ | ⟨_, hf⟩
    · exact absurd rfl hid
    · exact absurd rfl hid
    · rw [hf]
      have hm := (finishDescendants_modLists cfg [] [] attrs
        (childrenOf cfg [] [] attrs args (noSurfaceBranch cfg [] [] attrs args s)).1
        (localDrawableContentRectOfSubtree attrs
          (childrenOf cfg [] [] attrs args (noSurfaceBranch cfg [] [] attrs args s)).1 r.1)
        (setContentRects cfg attrs []
          (childrenOf cfg [] [] attrs args (noSurfaceBranch cfg [] [] attrs args s)).1 r.2)
        []).modLists_keeps
      have hs2 : ((setContentRects cfg attrs []
          (childrenOf cfg [] [] attrs args (noSurfaceBranch cfg [] [] attrs args s)).1 r.2).layers
            []).renderSurface = some rs1 :=
        (setContentRects_modLists cfg attrs [] _ r.2 []).1.trans hrs1
      cases hh : (finishDescendants cfg [] [] attrs
        (childrenOf cfg [] [] attrs args (noSurfaceBranch cfg [] [] attrs args s)).1
        (localDrawableContentRectOfSubtree attrs
          (childrenOf cfg [] [] attrs args (noSurfaceBranch cfg [] [] attrs args s)).1 r.1)
        (setContentRects cfg attrs []
          (childrenOf cfg [] [] attrs args (noSurfaceBranch cfg [] [] attrs args s)).1 r.2)).2.surface
            [] with
      | none =>
        have := hm.keeps_surface_isSome
        simp only [State.surface] at hh
        rw [hh, hs2] at this
        cases this
      | some rs =>
        obtain ⟨rs2, hrs2, hcl2, _⟩ := hm.keeps_surface hh
        have e12 : rs2 = rs1 := Option.some.inj (hrs2.symm.trans hs2)
        subst e12
        exact ⟨rs, rfl, (RenderSurface.clearLayerLists_fields hcl2).1.trans e1⟩

/-- After the walk the content rect of the surface of the root layer is the
viewport. -/
theorem calculateDrawTransforms_root (cfg : Config) (rootLayer : LayerType) (vp : IntSize)
    (s : State) :
    ∃ rs, (calculateDrawTransforms cfg rootLayer vp s).surface [] = some rs
      ∧ rs.contentRect = IntRect.ofSize vp := by
  obtain ⟨⟨rs0, h0, hc, _⟩, _⟩ := setup_root vp s
  obtain ⟨rs, h1, h2⟩ := root_contentRect cfg rootLayer
    (rootArgs cfg (setupRootLayerAndSurfaceForRecursion [] vp s)) _ rs0 h0
  exact ⟨rs, h1, h2.trans hc⟩

end cc

namespace cc

/-! ## The claims -/

/-- C1. A layer whose opacity is exactly 0 (on the committed tree always, on the
main-thread tree when its opacity is not animating) is skipped with its whole
subtree: whatever its children are, the visit returns the empty rect `IntRect()`
as `drawableContentRectOfSubtree` and leaves the state as it was, so that no
child is visited and nothing is appended to a layer list or to the
render-surface layer list. -/
theorem C1_transparent_subtree_is_skipped (cfg : Config) (anc : List LayerAttrs) (id : LayerId)
    (layer : LayerAttrs) (children : List LayerType) (args : WalkArgs) (s : State)
    (hopacity : layer.opacity = 0)
    (hkind : cfg.kind = TreeKind.layerImpl ∨ layer.opacityIsAnimating = false) :
    calculateDrawTransformsInternal cfg anc id (.mk layer children) args s = (IntRect.zero, s)
    ∧ IntRect.zero.isEmpty = true := by
  have hskip : subtreeShouldBeSkipped cfg.kind layer = true := by
    unfold subtreeShouldBeSkipped
    rcases hkind with h | h
    · simp [h, hopacity]
    · cases cfg.kind <;> simp [h, hopacity]
  refine ⟨?_, by decide⟩
  rw [calculateDrawTransformsInternal, enterLayer_skipped _ _ _ _ _ _ _ hskip]

/-- Witness of C1: a transparent layer with a child that draws content, on a
committed tree. -/
theorem C1_transparent_subtree_is_skipped_witness :
    calculateDrawTransformsInternal (scenarioConfig .layerImpl) [scenarioRoot] [0]
        (.mk { scenarioChild with opacity := 0 } [.mk scenarioChild []])
        ⟨.identity, .identity, .identity, ⟨0, 0, 100, 100⟩, true, none, []⟩ State.initial
      = (IntRect.zero, State.initial)
    ∧ IntRect.zero.isEmpty = true :=
  C1_transparent_subtree_is_skipped (scenarioConfig .layerImpl) [scenarioRoot] [0]
    { scenarioChild with opacity := 0 } [.mk scenarioChild []]
    ⟨.identity, .identity, .identity, ⟨0, 0, 100, 100⟩, true, none, []⟩ State.initial
    rfl (Or.inl rfl)

/-- C2. `subtreeShouldRenderToSeparateSurface` answers true exactly when the
layer has a parent and one of the seven rules holds: the surface is forced; the
layer has a mask; it has a replica; it has a filter (a non-empty filter list, a
non-empty background filter list or an image filter); its parent preserves 3D,
it does not and a descendant draws content; it clips its subtree, is not
axis-aligned with respect to its parent and a descendant draws content; its
opacity is not 1, it does not preserve 3D and a descendant draws content. It
answers false for every layer without parent. -/
theorem C2_separate_surface_rules (parent : Option LayerAttrs) (layer : LayerType)
    (axisAligned : Bool) :
    (subtreeShouldRenderToSeparateSurface parent layer.attrs layer.descendantDrawsContent
        axisAligned = true
      ↔ parent.isSome = true
        ∧ (layer.attrs.forceRenderSurface = true
          ∨ layer.attrs.hasMaskLayer = true
          ∨ layer.attrs.replicaLayer.isSome = true
          ∨ (layer.attrs.filtersIsEmpty = false ∨ layer.attrs.backgroundFiltersIsEmpty = false
            ∨ layer.attrs.hasFilter = true)
          ∨ ((∃ p, parent = some p ∧ p.preserves3D = true) ∧ layer.attrs.preserves3D = false
            ∧ layer.descendantDrawsContent = true)
          ∨ ((layer.attrs.masksToBounds = true ∨ layer.attrs.hasMaskLayer = true)
            ∧ axisAligned = false ∧ layer.descendantDrawsContent = true)
          ∨ (layer.attrs.opacity ≠ 1 ∧ layer.attrs.preserves3D = false
            ∧ layer.descendantDrawsContent = true)))
    ∧ subtreeShouldRenderToSeparateSurface none layer.attrs layer.descendantDrawsContent
        axisAligned = false := by
  constructor
  · unfold subtreeShouldRenderToSeparateSurface layerIsInExisting3DRenderingContext
      layerClipsSubtree
    cases parent with
    | none => simp
    | some p =>
      simp only [Option.isNone_some, Option.isSome_some, Bool.false_eq_true, if_false, true_and,
        Option.some.injEq, exists_eq_left']
      by_cases h1 : layer.attrs.forceRenderSurface = true
      · simp [h1]
      by_cases h2 : layer.attrs.hasMaskLayer = true
      · simp [h2]
      by_cases h3 : layer.attrs.replicaLayer.isSome = true
      · simp [h3]
      by_cases h4 : layer.attrs.filtersIsEmpty = true <;>
        by_cases h5 : layer.attrs.backgroundFiltersIsEmpty = true <;>
        by_cases h6 : layer.attrs.hasFilter = true <;>
        by_cases h7 : p.preserves3D = true <;>
        by_cases h8 : layer.attrs.preserves3D = true <;>
        by_cases h9 : layer.descendantDrawsContent = true <;>
        by_cases h10 : layer.attrs.masksToBounds = true <;>
        by_cases h11 : axisAligned = true <;>
        by_cases h12 : layer.attrs.opacity = 1 <;>
        simp [h1, h2, h3, h4, h5, h6, h7, h8, h9, h10, h11, h12]
  · simp [subtreeShouldRenderToSeparateSurface]

theorem accumulatedDrawOpacity_congr (p : Option LayerAttrs) (l1 l2 : LayerState)
    (layer : LayerAttrs) (h : l1.drawOpacity = l2.drawOpacity) :
    (accumulatedDrawOpacity p l1 layer).1 = (accumulatedDrawOpacity p l2 layer).1 := by
  unfold accumulatedDrawOpacity
  cases p with
  | none => rfl
  | some q => by_cases hq : q.preserves3D = true <;> simp [hq, h]

set_option maxRecDepth 100000 in
/-- C3, counterexample. Under a root that preserves 3D and has opacity 1/2, the
child with opacity 1/2 gets a render surface that survives the walk, and the
draw opacity of that surface is 1/4: the opacity of the child times the draw
opacity of its parent, not the opacity of the child. -/
theorem C3_counterexample_parent_preserves_3d :
    [0] ∈ (calculateDrawTransforms (scenarioConfig TreeKind.layerImpl) opacityTree3d ⟨100, 100⟩
      State.initial).renderSurfaceLayerList
    ∧ ((calculateDrawTransforms (scenarioConfig TreeKind.layerImpl) opacityTree3d ⟨100, 100⟩
      State.initial).surface [0]).map (·.drawOpacity) = some (1 / 4)
    ∧ halfOpaqueChild.opacity = 1 / 2 := by
  decide!

/-- C3, amended. For every layer other than the root to which the walk gives a
render surface that survives the walk, the draw opacity of the layer after the
walk is 1, and the draw opacity of its surface is the opacity of the layer when
its parent does not preserve 3D, and the opacity of the layer times the draw
opacity of its parent when the parent preserves 3D. -/
theorem C3_surface_carries_accumulated_opacity (cfg : Config) (rootLayer : LayerType)
    (deviceViewportSize : IntSize) (s : State) (v : Call)
    (hv : WalkVisits cfg rootLayer deviceViewportSize s v) (hid : v.id ≠ [])
    (hpass : v.takesSurface cfg)
    (hkept : ((calculateDrawTransforms cfg rootLayer deviceViewportSize s).surface v.id).isSome
      = true) :
    ((calculateDrawTransforms cfg rootLayer deviceViewportSize s).layers v.id).drawOpacity = 1
    ∧ ((calculateDrawTransforms cfg rootLayer deviceViewportSize s).surface v.id).map
        (·.drawOpacity)
      = some (accumulatedDrawOpacity v.anc.head?
          ((calculateDrawTransforms cfg rootLayer deviceViewportSize s).layers v.id.tail)
          v.layer).1
    ∧ (∀ p, v.anc.head? = some p → p.preserves3D = false →
      ((calculateDrawTransforms cfg rootLayer deviceViewportSize s).surface v.id).map
        (·.drawOpacity) = some v.layer.opacity)
    ∧ (∀ p, v.anc.head? = some p → p.preserves3D = true →
      ((calculateDrawTransforms cfg rootLayer deviceViewportSize s).surface v.id).map
        (·.drawOpacity)
      = some (v.layer.opacity
          * ((calculateDrawTransforms cfg rootLayer deviceViewportSize s).layers
              v.id.tail).drawOpacity)) := by
  obtain ⟨new, _, _, c⟩ := calculateDrawTransforms_post cfg rootLayer deviceViewportSize s
  obtain ⟨r1, r2, _, f2⟩ := (c v hv).1 _ _ (Call.entered_of_takesSurface hpass)
  obtain ⟨d1, _, rs0, hrs0, d3⟩ := surfaceBranch_self cfg v.anc v.id v.layer v.args v.s
  obtain ⟨rs, hrs⟩ := Option.isSome_iff_exists.mp hkept
  obtain ⟨_, _, _, _, rs1, hrs1, e1, _, _⟩ := f2 hid rs hrs
  have e01 : rs1 = rs0 := Option.some.inj (hrs1.symm.trans hrs0)
  subst e01
  have hop : rs.drawOpacity = (accumulatedDrawOpacity v.anc.head?
      ((calculateDrawTransforms cfg rootLayer deviceViewportSize s).layers v.id.tail)
      v.layer).1 := by
    rw [e1, d3]
    exact accumulatedDrawOpacity_congr _ _ _ _ (r2 hid).core_drawOpacity.symm
  refine ⟨r1.core_drawOpacity.trans d1, ?_, ?_, ?_⟩
  · rw [hrs, Option.map_some', hop]
  · intro p hp h3
    rw [hrs, Option.map_some', hop]
    simp [accumulatedDrawOpacity, hp, h3]
  · intro p hp h3
    rw [hrs, Option.map_some', hop]
    simp [accumulatedDrawOpacity, hp, h3]

set_option maxRecDepth 100000 in
/-- C3, witness: the child with opacity 1/2 of `opacityTree`, whose parent does
not preserve 3D. -/
theorem C3_surface_carries_accumulated_opacity_witness :
    ((calculateDrawTransforms (scenarioConfig TreeKind.layerImpl) opacityTree ⟨100, 100⟩
      State.initial).layers [0]).drawOpacity = 1
    ∧ ((calculateDrawTransforms (scenarioConfig TreeKind.layerImpl) opacityTree ⟨100, 100⟩
      State.initial).surface [0]).map (·.drawOpacity) = some (1 / 2) := by
  have h := C3_surface_carries_accumulated_opacity (scenarioConfig TreeKind.layerImpl) opacityTree
    ⟨100, 100⟩ State.initial
    ((rootCall (scenarioConfig TreeKind.layerImpl) opacityTree ⟨100, 100⟩ State.initial).firstChild
      (scenarioConfig TreeKind.layerImpl) halfOpaqueChild [.mk scenarioChild []])
    (walkVisits_firstChild _ _ _ _ _ _ _ (by decide!))
    (by simp [Call.firstChild]) (by decide!) (by decide!)
  exact ⟨h.1, h.2.2.1 scenarioRoot rfl rfl⟩

theorem WebTransformationMatrix.scaling_one : WebTransformationMatrix.scaling 1 1
    = WebTransformationMatrix.identity := rfl

theorem IntSize.width_pos_of_not_isEmpty {b : IntSize} (h : b.isEmpty = false) :
    (b.width : ℚ) ≠ 0 ∧ (b.height : ℚ) ≠ 0 := by
  simp only [IntSize.isEmpty, Bool.or_eq_false_iff, decide_eq_false_iff_not, not_le] at h
  constructor
  · exact_mod_cast (ne_of_gt h.1)
  · exact_mod_cast (ne_of_gt h.2)

/-- C4. For every layer that the walk visits without giving it a render surface
and whose bounds and content bounds are not empty, the draw transform stored on
the layer is `combinedTransform · Scale(bounds.width / contentBounds.width,
bounds.height / contentBounds.height)`, where `combinedTransform` is the parent
matrix times the local transform of the layer, with the impl transform and, for
a fixed-position layer, the scroll compensation multiplied on the left; when the
bounds equal the content bounds the draw transform is `combinedTransform`. -/
theorem C4_draw_transform_without_surface (cfg : Config) (rootLayer : LayerType)
    (deviceViewportSize : IntSize) (s : State) (v : Call)
    (hv : WalkVisits cfg rootLayer deviceViewportSize s v)
    (hpass : v.takesNoSurface cfg)
    (hbounds : v.layer.bounds.isEmpty = false)
    (hcontent : v.layer.contentBounds.isEmpty = false) :
    ((calculateDrawTransforms cfg rootLayer deviceViewportSize s).layers v.id).drawTransform
      = (combinedTransformOf v.layer v.args).multiply
          (WebTransformationMatrix.scaling
            ((v.layer.bounds.width : ℚ) / v.layer.contentBounds.width)
            ((v.layer.bounds.height : ℚ) / v.layer.contentBounds.height))
    ∧ combinedTransformOf v.layer v.args
      = (if v.layer.fixedToContainerLayer then
          v.args.currentScrollCompensationMatrix.multiply
            (v.layer.implTransform.multiply
              (v.args.parentMatrix.multiply (layerLocalTransform v.layer)))
        else
          v.layer.implTransform.multiply
            (v.args.parentMatrix.multiply (layerLocalTransform v.layer)))
    ∧ (v.layer.bounds = v.layer.contentBounds →
      ((calculateDrawTransforms cfg rootLayer deviceViewportSize s).layers v.id).drawTransform
        = combinedTransformOf v.layer v.args) := by
  obtain ⟨new, _, _, c⟩ := calculateDrawTransforms_post cfg rootLayer deviceViewportSize s
  obtain ⟨r1, _, _, _⟩ := (c v hv).1 _ _ (Call.entered_of_takesNoSurface hpass)
  have d1 := (noSurfaceBranch_self cfg v.anc v.id v.layer v.args v.s).1
  have hdt : ((calculateDrawTransforms cfg rootLayer deviceViewportSize s).layers
      v.id).drawTransform
      = (combinedTransformOf v.layer v.args).multiply
          (WebTransformationMatrix.scaling
            ((v.layer.bounds.width : ℚ) / v.layer.contentBounds.width)
            ((v.layer.bounds.height : ℚ) / v.layer.contentBounds.height)) := by
    rw [r1.core_drawTransform, d1]
    simp [scaleLayerToContent, hbounds, hcontent, WebTransformationMatrix.scaleNonUniform]
  refine ⟨hdt, rfl, ?_⟩
  intro heq
  obtain ⟨hw, hh⟩ := IntSize.width_pos_of_not_isEmpty hcontent
  rw [hdt, heq, div_self hw, div_self hh, WebTransformationMatrix.scaling_one,
    WebTransformationMatrix.multiply_identity]

set_option maxRecDepth 100000 in
/-- C4, witness: the child of `scenarioTree`, whose bounds equal its content
bounds. -/
theorem C4_draw_transform_without_surface_witness :
    ((calculateDrawTransforms (scenarioConfig TreeKind.layerImpl) scenarioTree ⟨100, 100⟩
      State.initial).layers [0]).drawTransform
      = WebTransformationMatrix.translation 10 10 0 := by
  have h := C4_draw_transform_without_surface (scenarioConfig TreeKind.layerImpl) scenarioTree
    ⟨100, 100⟩ State.initial
    ((rootCall (scenarioConfig TreeKind.layerImpl) scenarioTree ⟨100, 100⟩ State.initial).firstChild
      (scenarioConfig TreeKind.layerImpl) scenarioChild [])
    (walkVisits_firstChild _ _ _ _ _ _ _ (by decide!)) (by decide!) (by decide!) (by decide!)
  have e := h.2.2 (by decide!)
  exact e.trans (by decide!)

set_option maxRecDepth 100000 in
/-- C5, evaluation at a failing input. In `nestedFixedTree d` the parent of the
fixed-position layer is a container for fixed-position layers that is itself
fixed-position, under a layer scrolled by (10, 0) and a root with perspective.
The container is visited with the identity as parent matrix, neither the
container nor its fixed-position child owns a render surface and both have
identity impl transforms. The draw transform that the walk leaves on the child
with the scroll delta (0, 20) on the container differs from the one that it
leaves with the scroll delta (0, 0): its entries m12 and m42 are -1/50 and 59/5
instead of 0 and 10. -/
theorem C5_scroll_of_fixed_container_reaches_child :
    ((calculateDrawTransforms (scenarioConfig TreeKind.layerImpl) (nestedFixedTree ⟨0, 20⟩)
        ⟨100, 100⟩ State.initial).layers [0, 0, 0]).drawTransform
      ≠ ((calculateDrawTransforms (scenarioConfig TreeKind.layerImpl) (nestedFixedTree ⟨0, 0⟩)
        ⟨100, 100⟩ State.initial).layers [0, 0, 0]).drawTransform
    ∧ ((calculateDrawTransforms (scenarioConfig TreeKind.layerImpl) (nestedFixedTree ⟨0, 20⟩)
        ⟨100, 100⟩ State.initial).layers [0, 0, 0]).drawTransform.m12 = -1 / 50
    ∧ ((calculateDrawTransforms (scenarioConfig TreeKind.layerImpl) (nestedFixedTree ⟨0, 20⟩)
        ⟨100, 100⟩ State.initial).layers [0, 0, 0]).drawTransform.m42 = 59 / 5
    ∧ ((calculateDrawTransforms (scenarioConfig TreeKind.layerImpl) (nestedFixedTree ⟨0, 0⟩)
        ⟨100, 100⟩ State.initial).layers [0, 0, 0]).drawTransform.m12 = 0
    ∧ ((calculateDrawTransforms (scenarioConfig TreeKind.layerImpl) (nestedFixedTree ⟨0, 0⟩)
        ⟨100, 100⟩ State.initial).layers [0, 0, 0]).drawTransform.m42 = 10
    ∧ (((rootCall (scenarioConfig TreeKind.layerImpl) (nestedFixedTree ⟨0, 20⟩) ⟨100, 100⟩
          State.initial).firstChild (scenarioConfig TreeKind.layerImpl) scrolledLayer
            [.mk (fixedContainer ⟨0, 20⟩) [.mk fixedChild []]]).firstChild
          (scenarioConfig TreeKind.layerImpl) (fixedContainer ⟨0, 20⟩)
            [.mk fixedChild []]).args.parentMatrix = WebTransformationMatrix.identity
    ∧ ((calculateDrawTransforms (scenarioConfig TreeKind.layerImpl) (nestedFixedTree ⟨0, 20⟩)
        ⟨100, 100⟩ State.initial).surface [0, 0]).isNone = true
    ∧ ((calculateDrawTransforms (scenarioConfig TreeKind.layerImpl) (nestedFixedTree ⟨0, 20⟩)
        ⟨100, 100⟩ State.initial).surface [0, 0, 0]).isNone = true
    ∧ ((calculateDrawTransforms (scenarioConfig TreeKind.layerImpl) (nestedFixedTree ⟨0, 0⟩)
        ⟨100, 100⟩ State.initial).surface [0, 0]).isNone = true
    ∧ ((calculateDrawTransforms (scenarioConfig TreeKind.layerImpl) (nestedFixedTree ⟨0, 0⟩)
        ⟨100, 100⟩ State.initial).surface [0, 0, 0]).isNone = true
    ∧ (fixedContainer ⟨0, 20⟩).isContainerForFixedPositionLayers = true
    ∧ (fixedContainer ⟨0, 20⟩).implTransform = WebTransformationMatrix.identity
    ∧ fixedChild.fixedToContainerLayer = true
    ∧ fixedChild.implTransform = WebTransformationMatrix.identity := by
  decide!

set_option maxRecDepth 100000 in
/-- C6. For the root of 100×100 with one child of 50×50 at (10, 10), identity
transforms, opacity 1, no mask, replica, filter or forced surface, walked with
the viewport 100×100, device scale 1, page scale 1 and maximum texture size
2048, on either tree: after `calculateDrawTransforms` the drawable content
rect of the child is (10, 10, 50, 50) and the render-surface layer list is
exactly `[root]`. -/
theorem C6_scenario_root_with_one_child (kind : TreeKind) :
    ((calculateDrawTransforms (scenarioConfig kind) scenarioTree ⟨100, 100⟩
      State.initial).layers [0]).drawableContentRect = ⟨10, 10, 50, 50⟩
    ∧ (calculateDrawTransforms (scenarioConfig kind) scenarioTree ⟨100, 100⟩
      State.initial).renderSurfaceLayerList = [[]] := by
  cases kind <;> decide!

/-- What the walk leaves on a layer of the returned list other than the root,
when the list passed in is empty: a surface whose layer list is not empty and
whose content rect fits the maximum texture size. -/
theorem listed_surface (cfg : Config) (rootLayer : LayerType) (vp : IntSize) (s : State)
    (hempty : s.renderSurfaceLayerList = []) (q : LayerId)
    (hq : q ∈ (calculateDrawTransforms cfg rootLayer vp s).renderSurfaceLayerList)
    (hroot : q ≠ []) :
    ∃ rs, (calculateDrawTransforms cfg rootLayer vp s).surface q = some rs
      ∧ rs.layerList ≠ []
      ∧ rs.contentRect.width ≤ cfg.maxTextureSize
      ∧ rs.contentRect.height ≤ cfg.maxTextureSize := by
  obtain ⟨new, hl, hn, c⟩ := calculateDrawTransforms_post cfg rootLayer vp s
  rw [hl, hempty] at hq
  simp only [List.nil_append, List.mem_cons] at hq
  rcases hq with h | h
  · exact absurd h hroot
  obtain ⟨v, loc, u0, hv, hvid, hent⟩ := hn q h
  subst hvid
  obtain ⟨_, _, f1, f2⟩ := (c v hv).1 loc u0 hent
  obtain ⟨rs, hrs⟩ := Option.isSome_iff_exists.mp ((f1 hroot).mpr h)
  obtain ⟨_, g2, g3, g4, _⟩ := f2 hroot rs hrs
  exact ⟨rs, hrs, g2, g3, g4⟩

set_option maxRecDepth 100000 in
/-- C7, counterexample. With a viewport of 4096×4096 and a maximum texture size
of 2048, the root layer is in the returned list and the content rect of its
surface is 4096 wide and 4096 high. -/
theorem C7_counterexample_root_surface :
    [] ∈ (calculateDrawTransforms (scenarioConfig TreeKind.layerImpl) (.mk scenarioRoot [])
      ⟨4096, 4096⟩ State.initial).renderSurfaceLayerList
    ∧ ((calculateDrawTransforms (scenarioConfig TreeKind.layerImpl) (.mk scenarioRoot [])
      ⟨4096, 4096⟩ State.initial).surface []).map (·.contentRect) = some ⟨0, 0, 4096, 4096⟩
    ∧ (scenarioConfig TreeKind.layerImpl).maxTextureSize = 2048 := by
  decide!

/-- C7, amended. After `calculateDrawTransforms`, called with an empty list as
its DCHECK requires, every layer in the returned render-surface layer list
other than the root owns a render surface whose content rect is at most
`maxTextureSize` wide and at most `maxTextureSize` high; the content rect of
the surface of the root is the viewport at the origin, whatever its size. -/
theorem C7_content_rect_within_max_texture_size (cfg : Config) (rootLayer : LayerType)
    (deviceViewportSize : IntSize) (s : State) (hempty : s.renderSurfaceLayerList = []) :
    (∀ q, q ∈ (calculateDrawTransforms cfg rootLayer deviceViewportSize s).renderSurfaceLayerList →
      q ≠ [] →
      ∃ rs, (calculateDrawTransforms cfg rootLayer deviceViewportSize s).surface q = some rs
        ∧ rs.contentRect.width ≤ cfg.maxTextureSize
        ∧ rs.contentRect.height ≤ cfg.maxTextureSize)
    ∧ ∃ rs, (calculateDrawTransforms cfg rootLayer deviceViewportSize s).surface [] = some rs
        ∧ rs.contentRect = IntRect.ofSize deviceViewportSize := by
  refine ⟨?_, calculateDrawTransforms_root cfg rootLayer deviceViewportSize s⟩
  intro q hq hroot
  obtain ⟨rs, h1, _, h3, h4⟩ := listed_surface cfg rootLayer deviceViewportSize s hempty q hq hroot
  exact ⟨rs, h1, h3, h4⟩

set_option maxRecDepth 100000 in
/-- C7, witness: the child with opacity 1/2 of `opacityTree`. -/
theorem C7_content_rect_within_max_texture_size_witness :
    ∃ rs, (calculateDrawTransforms (scenarioConfig TreeKind.layerImpl) opacityTree ⟨100, 100⟩
        State.initial).surface [0] = some rs
      ∧ rs.contentRect.width ≤ 2048 ∧ rs.contentRect.height ≤ 2048 :=
  (C7_content_rect_within_max_texture_size (scenarioConfig TreeKind.layerImpl) opacityTree
    ⟨100, 100⟩ State.initial rfl).1 [0] (by decide!) (by decide)

set_option maxRecDepth 100000 in
/-- C9, counterexample. The child of the root of `transparentTree` has opacity
0: the walk visits it and returns at once. After the walk from the initial
state the child owns no render surface, and its render target is not the
render target of its parent: it has none, and the render target of its parent
is the root. -/
theorem C9_counterexample_skipped_layer :
    ((calculateDrawTransforms (scenarioConfig TreeKind.layerImpl) transparentTree ⟨100, 100⟩
      State.initial).surface [0]).isNone = true
    ∧ ((calculateDrawTransforms (scenarioConfig TreeKind.layerImpl) transparentTree ⟨100, 100⟩
      State.initial).layers [0]).renderTarget = none
    ∧ ((calculateDrawTransforms (scenarioConfig TreeKind.layerImpl) transparentTree ⟨100, 100⟩
      State.initial).layers []).renderTarget = some [] := by
  decide!

/-- C9, amended. Let the walk start in a state in which every layer that owns a
render surface is its own render target. After `calculateDrawTransforms`, every
layer other than the root whose visit passes the early returns, and whose
surface, if its visit made or kept one, is still there after the walk,
satisfies: it is its own render target if and only if it owns a render surface,
and when it owns no render surface its render target is the render target of
its parent. -/
theorem C9_render_target_follows_surface (cfg : Config) (rootLayer : LayerType)
    (deviceViewportSize : IntSize) (s : State) (v : Call)
    (hstart : SurfaceOwnersAreTargets s)
    (hv : WalkVisits cfg rootLayer deviceViewportSize s v) (hid : v.id ≠ [])
    (hpass : (v.takesSurface cfg
        ∧ ((calculateDrawTransforms cfg rootLayer deviceViewportSize s).surface v.id).isSome
          = true)
      ∨ v.takesNoSurface cfg) :
    (((calculateDrawTransforms cfg rootLayer deviceViewportSize s).layers v.id).renderTarget
        = some v.id
      ↔ ((calculateDrawTransforms cfg rootLayer deviceViewportSize s).surface v.id).isSome = true)
    ∧ (((calculateDrawTransforms cfg rootLayer deviceViewportSize s).surface v.id).isSome = false →
      ((calculateDrawTransforms cfg rootLayer deviceViewportSize s).layers v.id).renderTarget
        = ((calculateDrawTransforms cfg rootLayer deviceViewportSize s).layers
            v.id.tail).renderTarget) := by
  obtain ⟨new, _, _, c⟩ := calculateDrawTransforms_post cfg rootLayer deviceViewportSize s
  have htar := target_ok rootLayer cfg [] [] _ _ (setup_targetOk deviceViewportSize s hstart) v hv
  rcases hpass with ⟨hsurf, hkept⟩ | hno
  · obtain ⟨r1, _, _, _⟩ := (c v hv).1 _ _ (Call.entered_of_takesSurface hsurf)
    have d2 := (surfaceBranch_self cfg v.anc v.id v.layer v.args v.s).2.1
    have ht : ((calculateDrawTransforms cfg rootLayer deviceViewportSize s).layers
        v.id).renderTarget = some v.id := by
      rw [r1.core_renderTarget, d2]
      split_ifs with h
      · rfl
      · apply htar.1 v.id (InSubtree.inSubtree_refl _)
        cases hh : v.s.surface v.id with
        | none => simp [hh] at h
        | some _ => rfl
    refine ⟨⟨fun _ => hkept, fun _ => ht⟩, ?_⟩
    intro h
    rw [hkept] at h
    cases h
  · obtain ⟨r1, r2, _, f2⟩ := (c v hv).1 _ _ (Call.entered_of_takesNoSurface hno)
    obtain ⟨n1, n2⟩ := (noSurfaceBranch_self cfg v.anc v.id v.layer v.args v.s).2.2.1 hid
    have hnone : ((calculateDrawTransforms cfg rootLayer deviceViewportSize s).surface
        v.id).isSome = false := by
      cases hh : (calculateDrawTransforms cfg rootLayer deviceViewportSize s).surface v.id with
      | none => rfl
      | some rs =>
        have := (f2 hid rs hh).1
        rw [hno.2] at this
        cases this
    have ht : ((calculateDrawTransforms cfg rootLayer deviceViewportSize s).layers
        v.id).renderTarget
        = ((calculateDrawTransforms cfg rootLayer deviceViewportSize s).layers
            v.id.tail).renderTarget := by
      rw [r1.core_renderTarget, n2, (r2 hid).core_renderTarget]
    refine ⟨⟨?_, ?_⟩, fun _ => ht⟩
    · intro h
      exfalso
      obtain ⟨a, ha, hsuf⟩ := htar.2.2 hid
      rw [r1.core_renderTarget, n2, ha] at h
      have e : a = v.id := Option.some.inj h
      rw [e] at hsuf
      exact InSubtree.inSubtree_not_tail hid hsuf
    · intro h
      rw [hnone] at h
      cases h

set_option maxRecDepth 100000 in
/-- C9, witness: the child with opacity 1/2 of `opacityTree`, which gets a
surface that survives the walk from the initial state. -/
theorem C9_render_target_follows_surface_witness :
    ((calculateDrawTransforms (scenarioConfig TreeKind.layerImpl) opacityTree ⟨100, 100⟩
      State.initial).layers [0]).renderTarget = some [0]
    ∧ ((calculateDrawTransforms (scenarioConfig TreeKind.layerImpl) opacityTree ⟨100, 100⟩
      State.initial).surface [0]).isSome = true := by
  have h := C9_render_target_follows_surface (scenarioConfig TreeKind.layerImpl) opacityTree
    ⟨100, 100⟩ State.initial
    ((rootCall (scenarioConfig TreeKind.layerImpl) opacityTree ⟨100, 100⟩ State.initial).firstChild
      (scenarioConfig TreeKind.layerImpl) halfOpaqueChild [.mk scenarioChild []])
    (fun q hq => by simp [State.surface, State.initial, LayerState.initial] at hq)
    (walkVisits_firstChild _ _ _ _ _ _ _ (by decide!))
    (by simp [Call.firstChild]) (Or.inl ⟨by decide!, by decide!⟩)
  have hs : ((calculateDrawTransforms (scenarioConfig TreeKind.layerImpl) opacityTree ⟨100, 100⟩
      State.initial).surface [0]).isSome = true := by decide!
  exact ⟨h.1.mpr hs, hs⟩

set_option maxRecDepth 100000 in
/-- C10, counterexample. A first walk of `opacityTree` gives the child of the
root a render surface. In the next frame the opacity of the child is 0
(`transparentTree`): the second walk returns from the visit of the child at
once, the child still owns its render surface after it, and the child is not
in the returned render-surface layer list. -/
theorem C10_counterexample_skipped_layer_keeps_surface :
    ((calculateDrawTransforms (scenarioConfig TreeKind.layerImpl) transparentTree ⟨100, 100⟩
      (nextFrame (calculateDrawTransforms (scenarioConfig TreeKind.layerImpl) opacityTree
        ⟨100, 100⟩ State.initial))).surface [0]).isSome = true
    ∧ [0] ∉ (calculateDrawTransforms (scenarioConfig TreeKind.layerImpl) transparentTree ⟨100, 100⟩
      (nextFrame (calculateDrawTransforms (scenarioConfig TreeKind.layerImpl) opacityTree
        ⟨100, 100⟩ State.initial))).renderSurfaceLayerList := by
  decide!

/-- C10, amended. For every initial state of the tree, after
`calculateDrawTransforms` every layer other than the root whose visit passes
the early returns and that owns a render surface is an element of the returned
render-surface layer list. -/
theorem C10_surface_owners_are_listed (cfg : Config) (rootLayer : LayerType)
    (deviceViewportSize : IntSize) (s : State) (v : Call)
    (hv : WalkVisits cfg rootLayer deviceViewportSize s v) (hid : v.id ≠ [])
    (hpass : v.takesSurface cfg ∨ v.takesNoSurface cfg)
    (howns : ((calculateDrawTransforms cfg rootLayer deviceViewportSize s).surface v.id).isSome
      = true) :
    v.id ∈ (calculateDrawTransforms cfg rootLayer deviceViewportSize s).renderSurfaceLayerList := by
  obtain ⟨new, hl, _, c⟩ := calculateDrawTransforms_post cfg rootLayer deviceViewportSize s
  have hent : ∃ loc u0, v.entered cfg = .proceed loc u0 := by
    rcases hpass with h | h
    · exact ⟨_, _, Call.entered_of_takesSurface h⟩
    · exact ⟨_, _, Call.entered_of_takesNoSurface h⟩
  obtain ⟨loc, u0, he⟩ := hent
  obtain ⟨_, _, f1, _⟩ := (c v hv).1 loc u0 he
  rw [hl]
  exact List.mem_append_right _ (List.mem_cons_of_mem _ ((f1 hid).mp howns))

set_option maxRecDepth 100000 in
/-- C10, witness: the child with opacity 1/2 of `opacityTree`, walked from a
state in which it already owns a render surface. -/
theorem C10_surface_owners_are_listed_witness :
    [0] ∈ (calculateDrawTransforms (scenarioConfig TreeKind.layerImpl) opacityTree ⟨100, 100⟩
      (nextFrame (calculateDrawTransforms (scenarioConfig TreeKind.layerImpl) opacityTree
        ⟨100, 100⟩ State.initial))).renderSurfaceLayerList :=
  C10_surface_owners_are_listed (scenarioConfig TreeKind.layerImpl) opacityTree ⟨100, 100⟩
    (nextFrame (calculateDrawTransforms (scenarioConfig TreeKind.layerImpl) opacityTree
      ⟨100, 100⟩ State.initial))
    ((rootCall (scenarioConfig TreeKind.layerImpl) opacityTree ⟨100, 100⟩
      (nextFrame (calculateDrawTransforms (scenarioConfig TreeKind.layerImpl) opacityTree
        ⟨100, 100⟩ State.initial))).firstChild
      (scenarioConfig TreeKind.layerImpl) halfOpaqueChild [.mk scenarioChild []])
    (walkVisits_firstChild _ _ _ _ _ _ _ (by decide!))
    (by simp [Call.firstChild]) (Or.inl (by decide!)) (by decide!)

end cc

namespace cc

/-! ## The claims on the setup, the surface rules and the scroll compensation -/

/-- C13. For every root layer, with or without a render surface, and every
viewport size, `setupRootLayerAndSurfaceForRecursion` called with an empty
render-surface layer list leaves the root owning a render surface whose content
rect is the rect at (0, 0) with the viewport size and whose layer list is
empty, and leaves the render-surface layer list equal to `[root]`; after the
whole walk the first element of the render-surface layer list is still the
root. -/
theorem C13_setup_seeds_root_surface (cfg : Config) (rootLayer : LayerType)
    (deviceViewportSize : IntSize) (s : State) (hempty : s.renderSurfaceLayerList = []) :
    (∃ rs, (setupRootLayerAndSurfaceForRecursion [] deviceViewportSize s).surface [] = some rs
      ∧ rs.contentRect = ⟨0, 0, deviceViewportSize.width, deviceViewportSize.height⟩
      ∧ rs.layerList = [])
    ∧ (setupRootLayerAndSurfaceForRecursion [] deviceViewportSize s).renderSurfaceLayerList = [[]]
    ∧ (calculateDrawTransforms cfg rootLayer deviceViewportSize s).renderSurfaceLayerList.head?
        = some [] := by
  refine ⟨(setup_root deviceViewportSize s).1, ?_, ?_⟩
  · rw [setup_rsll, hempty]
    rfl
  · obtain ⟨new, hl, _⟩ := calculateDrawTransforms_post cfg rootLayer deviceViewportSize s
    rw [hl, hempty]
    rfl

set_option maxRecDepth 100000 in
/-- C13, witness: the walk of `scenarioTree` from the initial state. -/
theorem C13_setup_seeds_root_surface_witness :
    (setupRootLayerAndSurfaceForRecursion [] ⟨100, 100⟩ State.initial).renderSurfaceLayerList
      = [[]]
    ∧ (calculateDrawTransforms (scenarioConfig TreeKind.layerImpl) scenarioTree ⟨100, 100⟩
        State.initial).renderSurfaceLayerList.head? = some [] :=
  (C13_setup_seeds_root_surface (scenarioConfig TreeKind.layerImpl) scenarioTree ⟨100, 100⟩
    State.initial rfl).2

/-- C14. For a layer with a parent that clips its subtree through
`masksToBounds`, has a descendant that draws content and meets no other rule
for a render surface (not forced, no mask, no replica, no filter, opacity 1,
not flattening under a parent that preserves 3D),
`subtreeShouldRenderToSeparateSurface` is true exactly when the combined
transform fails `isScaleOrTranslation`: it is false for every combined
transform that is a 2D scale followed by a translation, and true for every
combined transform with a non-zero `m12` or `m21`, as a rotation by 45° has. -/
theorem C14_clip_needs_surface_iff_not_axis_aligned (parent layer : LayerAttrs)
    (combinedTransform : WebTransformationMatrix)
    (hclips : layer.masksToBounds = true)
    (hforce : layer.forceRenderSurface = false)
    (hmask : layer.hasMaskLayer = false)
    (hreplica : layer.replicaLayer = none)
    (hfilters : layer.filtersIsEmpty = true)
    (hbackground : layer.backgroundFiltersIsEmpty = true)
    (hfilter : layer.hasFilter = false)
    (hopacity : layer.opacity = 1)
    (hflat : parent.preserves3D = false ∨ layer.preserves3D = true) :
    (subtreeShouldRenderToSeparateSurface (some parent) layer true
        (isScaleOrTranslation combinedTransform) = true
      ↔ isScaleOrTranslation combinedTransform = false)
    ∧ (∀ sx sy tx ty : ℚ,
      subtreeShouldRenderToSeparateSurface (some parent) layer true
        (isScaleOrTranslation ((WebTransformationMatrix.translation tx ty 0).multiply
          (WebTransformationMatrix.scaling sx sy))) = false)
    ∧ (combinedTransform.m12 ≠ 0 ∨ combinedTransform.m21 ≠ 0 →
      subtreeShouldRenderToSeparateSurface (some parent) layer true
        (isScaleOrTranslation combinedTransform) = true) := by
  have key : ∀ b : Bool,
      subtreeShouldRenderToSeparateSurface (some parent) layer true b = !b := by
    intro b
    rcases hflat with h | h <;>
      cases b <;>
      simp [subtreeShouldRenderToSeparateSurface, layerIsInExisting3DRenderingContext,
        layerClipsSubtree, hclips, hforce, hmask, hreplica, hfilters, hbackground, hfilter,
        hopacity, h]
  refine ⟨?_, ?_, ?_⟩
  · rw [key]
    cases isScaleOrTranslation combinedTransform <;> simp
  · intro sx sy tx ty
    rw [key]
    simp [isScaleOrTranslation, WebTransformationMatrix.multiply,
      WebTransformationMatrix.translation, WebTransformationMatrix.scaling,
      WebTransformationMatrix.identity]
  · intro h
    rw [key]
    rcases h with h | h <;> simp [isScaleOrTranslation, h]

/-- C14, witness: a layer that masks to its bounds under `scenarioRoot`, with a
combined transform that rotates by 45° (and scales by √2). -/
theorem C14_clip_needs_surface_iff_not_axis_aligned_witness :
    subtreeShouldRenderToSeparateSurface (some scenarioRoot)
      { scenarioChild with masksToBounds := true } true
      (isScaleOrTranslation
        { WebTransformationMatrix.identity with m11 := 1, m12 := 1, m21 := -1, m22 := 1 })
      = true :=
  (C14_clip_needs_surface_iff_not_axis_aligned scenarioRoot
    { scenarioChild with masksToBounds := true }
    { WebTransformationMatrix.identity with m11 := 1, m12 := 1, m21 := -1, m22 := 1 }
    rfl rfl rfl rfl rfl rfl rfl rfl (Or.inl rfl)).2.2 (Or.inl (by decide))

/-- C15. For every layer of the committed tree that is not a container for
fixed-position layers, has a zero scroll delta and owns no render surface,
`computeScrollCompensationMatrixForChildren` returns the incoming compensation
matrix, for every parent matrix. -/
theorem C15_scroll_compensation_fast_path (layer : LayerAttrs)
    (parentMatrix currentScrollCompensationMatrix : WebTransformationMatrix)
    (hcontainer : layer.isContainerForFixedPositionLayers = false)
    (hzero : layer.scrollDelta.isZero = true) :
    computeScrollCompensationMatrixForChildren TreeKind.layerImpl layer none parentMatrix
      currentScrollCompensationMatrix = currentScrollCompensationMatrix := by
  simp [computeScrollCompensationMatrixForChildren, hcontainer, hzero]

/-- C15, witness: the layer `scenarioChild` with a translation as incoming
compensation. -/
theorem C15_scroll_compensation_fast_path_witness :
    computeScrollCompensationMatrixForChildren TreeKind.layerImpl scenarioChild none
      WebTransformationMatrix.identity (WebTransformationMatrix.translation 3 4 0)
      = WebTransformationMatrix.translation 3 4 0 :=
  C15_scroll_compensation_fast_path scenarioChild WebTransformationMatrix.identity
    (WebTransformationMatrix.translation 3 4 0) rfl (by decide)

/-- C16. For every layer of the committed tree that is a container for
fixed-position layers, the matrix that
`computeScrollCompensationMatrixForChildren` returns is the same for any two
incoming compensation matrices; when the container has a zero scroll delta the
result is the identity, whether or not it owns a render surface. -/
theorem C16_container_resets_scroll_compensation (layer : LayerAttrs)
    (renderSurface : Option RenderSurface)
    (parentMatrix compensation1 compensation2 : WebTransformationMatrix)
    (hcontainer : layer.isContainerForFixedPositionLayers = true) :
    computeScrollCompensationMatrixForChildren TreeKind.layerImpl layer renderSurface
        parentMatrix compensation1
      = computeScrollCompensationMatrixForChildren TreeKind.layerImpl layer renderSurface
        parentMatrix compensation2
    ∧ (layer.scrollDelta.isZero = true →
      computeScrollCompensationMatrixForChildren TreeKind.layerImpl layer renderSurface
        parentMatrix compensation1 = WebTransformationMatrix.identity) := by
  constructor
  · simp [computeScrollCompensationMatrixForChildren, hcontainer]
  · intro hzero
    cases renderSurface <;>
      simp [computeScrollCompensationMatrixForChildren, hcontainer, hzero,
        WebTransformationMatrix.isIdentity]

/-- C16, witness: the container `plainContainer`, without scroll delta and
without surface. -/
theorem C16_container_resets_scroll_compensation_witness :
    computeScrollCompensationMatrixForChildren TreeKind.layerImpl plainContainer none
      WebTransformationMatrix.identity (WebTransformationMatrix.translation 3 4 0)
      = WebTransformationMatrix.identity :=
  (C16_container_resets_scroll_compensation plainContainer none WebTransformationMatrix.identity
    (WebTransformationMatrix.translation 3 4 0) WebTransformationMatrix.identity rfl).2
    (by decide)

/-! ## The claims on the visible rect and on culled surfaces -/

theorem IntRect.isEmpty_zero : IntRect.zero.isEmpty = true := by decide

/-- An empty rect has an empty intersection with every rect. -/
theorem IntRect.intersect_isEmpty_left (a b : IntRect) (h : a.isEmpty = true) :
    (a.intersect b).isEmpty = true := by
  unfold IntRect.intersect
  simp only []
  split_ifs with hc
  · exact IntRect.isEmpty_zero
  · exfalso
    apply hc
    simp only [IntRect.isEmpty, Bool.or_eq_true, decide_eq_true_eq] at h
    simp only [IntRect.maxX, IntRect.maxY, ge_iff_le]
    rcases h with h | h
    · left
      exact le_trans (min_le_left _ _) (le_trans (by omega) (le_max_left _ _))
    · right
      exact le_trans (min_le_left _ _) (le_trans (by omega) (le_max_left _ _))

set_option maxRecDepth 100000 in
/-- C17, evaluation at two failing inputs. The transform `diagonalCollapse` is
not invertible; with the target surface rect (5, 5, 100, 100) and the layer
bound rect (0, 0, 10, 10) the target surface rect does not contain the mapped
layer rect (0, 0, 20, 20), the rect is projected back through
`transform.inverse()`, which is the identity for a matrix without inverse, and
`calculateVisibleRect` returns the rect (5, 5, 5, 5), which is not empty. The
transform `Scale(0, 0)` is not invertible either; with the target surface rect
(0, 0, 100, 100) the target surface rect contains the mapped layer rect, and
`calculateVisibleRect` returns the layer bound rect (0, 0, 10, 10), which is
not empty, before it takes the inverse. -/
theorem C17_visible_rect_of_singular_transform :
    diagonalCollapse.isInvertible = false
    ∧ planarCollaborators.mapClippedIntRect diagonalCollapse ⟨0, 0, 10, 10⟩ = ⟨0, 0, 20, 20⟩
    ∧ (⟨5, 5, 100, 100⟩ : IntRect).contains
        (planarCollaborators.mapClippedIntRect diagonalCollapse ⟨0, 0, 10, 10⟩) = false
    ∧ diagonalCollapse.inverse = WebTransformationMatrix.identity
    ∧ calculateVisibleRect planarCollaborators ⟨5, 5, 100, 100⟩ ⟨0, 0, 10, 10⟩ diagonalCollapse
        = ⟨5, 5, 5, 5⟩
    ∧ (calculateVisibleRect planarCollaborators ⟨5, 5, 100, 100⟩ ⟨0, 0, 10, 10⟩
        diagonalCollapse).isEmpty = false
    ∧ (WebTransformationMatrix.scaling 0 0).isInvertible = false
    ∧ (⟨0, 0, 100, 100⟩ : IntRect).contains
        (planarCollaborators.mapClippedIntRect (WebTransformationMatrix.scaling 0 0)
          ⟨0, 0, 10, 10⟩) = true
    ∧ calculateVisibleRect planarCollaborators ⟨0, 0, 100, 100⟩ ⟨0, 0, 10, 10⟩
        (WebTransformationMatrix.scaling 0 0) = ⟨0, 0, 10, 10⟩
    ∧ (calculateVisibleRect planarCollaborators ⟨0, 0, 100, 100⟩ ⟨0, 0, 10, 10⟩
        (WebTransformationMatrix.scaling 0 0)).isEmpty = false := by
  decide!

/-- C19. When a layer requires a render surface, is not double-sided, its
transform to its parent is known (always on the committed tree, when its
transform is not animating on the main-thread tree) and
`isSurfaceBackFaceVisible` holds of it with the combined transform, the visit
returns the empty rect `IntRect()` as `drawableContentRectOfSubtree` whatever
the children of the layer are, and leaves the render-surface layer list and
the render surface of every layer, with its layer list, as they were: no
surface is created and no child is visited. `isSurfaceBackFaceVisible` tests
the transform that it is given when the parent preserves 3D, the own transform
of the layer when the layer is the root of a new 3D rendering context, and is
false otherwise. -/
theorem C19_culled_surface_is_skipped (cfg : Config) (anc : List LayerAttrs) (id : LayerId)
    (layer : LayerAttrs) (children : List LayerType) (args : WalkArgs) (s : State)
    (hsurface : rendersToSeparateSurface anc layer (anyDrawsContent children) args = true)
    (hsided : layer.doubleSided = false)
    (hknown : transformToParentIsKnown cfg.kind layer = true)
    (hback : isSurfaceBackFaceVisible cfg.ext anc.head? layer (combinedTransformOf layer args)
      = true) :
    calculateDrawTransformsInternal cfg anc id (.mk layer children) args s
      = (IntRect.zero,
          if subtreeShouldBeSkipped cfg.kind layer then s else beginLayer cfg id layer args s)
    ∧ IntRect.zero.isEmpty = true
    ∧ (calculateDrawTransformsInternal cfg anc id (.mk layer children) args
        s).2.renderSurfaceLayerList = s.renderSurfaceLayerList
    ∧ (∀ q, (calculateDrawTransformsInternal cfg anc id (.mk layer children) args s).2.surface q
        = s.surface q)
    ∧ transformToParentIsKnown TreeKind.layerImpl layer = true
    ∧ transformToParentIsKnown TreeKind.layer layer = !layer.transformIsAnimating
    ∧ (∀ (p l : LayerAttrs) (m : WebTransformationMatrix),
      isSurfaceBackFaceVisible cfg.ext (some p) l m
        = if p.preserves3D then cfg.ext.isBackFaceVisible m
          else if l.preserves3D then cfg.ext.isBackFaceVisible l.transform
          else false)
    ∧ (∀ (l : LayerAttrs) (m : WebTransformationMatrix),
      isSurfaceBackFaceVisible cfg.ext none l m
        = if l.preserves3D then cfg.ext.isBackFaceVisible l.transform else false) := by
  have hculled : surfaceIsCulled cfg anc layer args = true := by
    simp [surfaceIsCulled, hsided, hknown, hback]
  have hres : calculateDrawTransformsInternal cfg anc id (.mk layer children) args s
      = (IntRect.zero,
          if subtreeShouldBeSkipped cfg.kind layer then s
          else beginLayer cfg id layer args s) := by
    rw [calculateDrawTransformsInternal]
    rcases enterLayer_cases cfg anc id layer (anyDrawsContent children) args s with
      ⟨h, he⟩ | ⟨h, _, _, he⟩ | ⟨_, _, h, _⟩ | ⟨_, h, _⟩
    · rw [he]
      simp [h]
    · rw [he]
      simp [h]
    · rw [hculled] at h
      cases h
    · rw [hsurface] at h
      cases h
  refine ⟨hres, IntRect.isEmpty_zero, ?_, ?_, rfl, rfl, ?_, ?_⟩
  · rw [hres]
    simp only
    split_ifs
    · rfl
    · exact beginLayer_rsll cfg id layer args s
  · intro q
    rw [hres]
    simp only
    split_ifs
    · rfl
    · by_cases hq : q = id
      · subst hq
        exact (beginLayer_layers_self cfg q layer args s).1
      · simp only [State.surface, beginLayer_layers_other _ _ _ _ _ _ hq]
  · intro p l m
    by_cases h1 : p.preserves3D = true <;> by_cases h2 : l.preserves3D = true <;>
      simp [isSurfaceBackFaceVisible, layerIsInExisting3DRenderingContext,
        layerIsRootOfNewRenderingContext, h1, h2]
  · intro l m
    by_cases h2 : l.preserves3D = true <;>
      simp [isSurfaceBackFaceVisible, layerIsInExisting3DRenderingContext,
        layerIsRootOfNewRenderingContext, h2]

set_option maxRecDepth 100000 in
/-- C19, witness: the layer `flippedLayer` as a child of `scenarioRoot`. -/
theorem C19_culled_surface_is_skipped_witness :
    (calculateDrawTransformsInternal (scenarioConfig TreeKind.layerImpl) [scenarioRoot] [0]
        (.mk flippedLayer [])
        (rootArgs (scenarioConfig TreeKind.layerImpl) State.initial) State.initial).1
      = IntRect.zero
    ∧ (calculateDrawTransformsInternal (scenarioConfig TreeKind.layerImpl) [scenarioRoot] [0]
        (.mk flippedLayer [])
        (rootArgs (scenarioConfig TreeKind.layerImpl) State.initial)
        State.initial).2.renderSurfaceLayerList = [] := by
  have h := C19_culled_surface_is_skipped (scenarioConfig TreeKind.layerImpl) [scenarioRoot] [0]
    flippedLayer [] (rootArgs (scenarioConfig TreeKind.layerImpl) State.initial) State.initial
    (by decide!) rfl rfl (by decide!)
  exact ⟨congrArg Prod.fst h.1, h.2.2.1⟩

/-! ## Hit testing -/

theorem clipTestStep_ne_false_of_rest (c : Collaborators) (s : State) (p : IntPoint)
    (id : LayerId) (layer : LayerAttrs) (rest : Option Bool) (h : rest ≠ some false) :
    clipTestStep c s p id layer rest ≠ some false := by
  unfold clipTestStep
  simp only
  split_ifs
  · simp
  · cases targetScreenSpaceTransform s id with
    | none => simp
    | some m =>
      simp only
      split_ifs
      · simp
      · exact h
  · exact h

theorem clipTestStep_ne_false_of_clip (c : Collaborators) (s : State) (p : IntPoint)
    (id : LayerId) (layer : LayerAttrs) (rest : Option Bool) (m : WebTransformationMatrix)
    (hclips : layerClipsSubtree layer = true)
    (htarget : targetScreenSpaceTransform s id = some m)
    (hout : pointHitsRect c p m (FloatRect.ofIntRect (s.layers id).drawableContentRect) = false) :
    clipTestStep c s p id layer rest ≠ some false := by
  unfold clipTestStep
  simp only [hclips, htarget, hout]
  split_ifs with h1 h2
  · simp
  · simp
  · simp at h2

theorem pointIsClipped_unfold (c : Collaborators) (attrsOf : LayerId → LayerAttrs) (s : State)
    (p : IntPoint) (id : LayerId) :
    pointIsClippedBySurfaceOrClipRect c attrsOf s p id
      = clipTestStep c s p id (attrsOf id)
          (match id with
            | [] => some false
            | _ :: parent => pointIsClippedBySurfaceOrClipRect c attrsOf s p parent) := by
  cases id <;> rfl

/-- A clipping layer on the way from `id` to the root whose drawable content
rect the point misses makes `pointIsClippedBySurfaceOrClipRect` answer true or
fail. -/
theorem pointIsClipped_of_ancestor (c : Collaborators) (attrsOf : LayerId → LayerAttrs)
    (s : State) (p : IntPoint) (a : LayerId) (m : WebTransformationMatrix)
    (hclips : layerClipsSubtree (attrsOf a) = true)
    (htarget : targetScreenSpaceTransform s a = some m)
    (hout : pointHitsRect c p m (FloatRect.ofIntRect (s.layers a).drawableContentRect) = false) :
    ∀ id : LayerId, a <:+ id →
      pointIsClippedBySurfaceOrClipRect c attrsOf s p id ≠ some false := by
  intro id
  induction id with
  | nil =>
    intro h
    have e : a = [] := List.suffix_nil.mp h
    subst e
    rw [pointIsClipped_unfold]
    exact clipTestStep_ne_false_of_clip c s p [] _ _ m hclips htarget hout
  | cons i parent ih =>
    intro h
    rw [pointIsClipped_unfold]
    rcases List.suffix_cons_iff.mp h with h1 | h1
    · subst h1
      exact clipTestStep_ne_false_of_clip c s p _ _ _ m hclips htarget hout
    · exact clipTestStep_ne_false_of_rest c s p _ _ _ (ih h1)

/-- The layer that the loop of `findLayerThatIsHitByPoint` returns passed the
test of `pointIsClippedBySurfaceOrClipRect`. -/
theorem findLayerInPositions_some (c : Collaborators) (attrsOf : LayerId → LayerAttrs)
    (s : State) (p : IntPoint) (l : LayerId) :
    ∀ ps : List IteratorPosition, findLayerInPositions c attrsOf s p ps = some (some l) →
      pointIsClippedBySurfaceOrClipRect c attrsOf s p l = some false := by
  intro ps
  induction ps with
  | nil =>
    intro h
    simp [findLayerInPositions] at h
  | cons it rest ih =>
    intro h
    unfold findLayerInPositions at h
    split_ifs at h
    · exact ih h
    · exact ih h
    · cases hc : pointIsClippedBySurfaceOrClipRect c attrsOf s p it.layer with
      | none => simp [hc] at h
      | some b =>
        cases b with
        | true =>
          simp only [hc] at h
          exact ih h
        | false =>
          simp only [hc, Option.some.injEq] at h
          rw [← h]
          exact hc

/-- C11. For every screen point and every layer L: when L or one of its
ancestors A clips its subtree (`masksToBounds` or a mask) and the point,
projected back through the screen-space transform of the surface of the render
target of A, does not hit the drawable content rect of A,
`findLayerThatIsHitByPoint` does not return L, whatever the content bounds of L
are and whatever the front-to-back iteration yields. -/
theorem C11_clipped_point_hits_no_layer (c : Collaborators)
    (frontToBack : State → List LayerId → List IteratorPosition)
    (attrsOf : LayerId → LayerAttrs) (s : State) (screenSpacePoint : IntPoint)
    (renderSurfaceLayerList : List LayerId) (layer ancestor : LayerId)
    (targetTransform : WebTransformationMatrix)
    (hancestor : ancestor <:+ layer)
    (hclips : layerClipsSubtree (attrsOf ancestor) = true)
    (htarget : targetScreenSpaceTransform s ancestor = some targetTransform)
    (houtside : pointHitsRect c screenSpacePoint targetTransform
      (FloatRect.ofIntRect (s.layers ancestor).drawableContentRect) = false) :
    findLayerThatIsHitByPoint c frontToBack attrsOf s screenSpacePoint renderSurfaceLayerList
      ≠ some (some layer) := by
  intro h
  exact pointIsClipped_of_ancestor c attrsOf s screenSpacePoint ancestor targetTransform hclips
    htarget houtside layer hancestor
    (findLayerInPositions_some c attrsOf s screenSpacePoint layer _ h)

set_option maxRecDepth 100000 in
/-- C11, witness: in `clipTree` after the walk, the point (80, 80) lies in the
content bounds of the grandchild and outside the drawable content rect of the
child that clips it. -/
theorem C11_clipped_point_hits_no_layer_witness :
    pointHitsRect planarCollaborators ⟨80, 80⟩
        ((calculateDrawTransforms (scenarioConfig TreeKind.layerImpl) clipTree ⟨100, 100⟩
          State.initial).layers [0, 0]).screenSpaceTransform
        (FloatRect.ofSize wideLayer.contentBounds) = true
    ∧ findLayerThatIsHitByPoint planarCollaborators (fun _ _ => clipTreePositions)
        clipTree.attrsOf
        (calculateDrawTransforms (scenarioConfig TreeKind.layerImpl) clipTree ⟨100, 100⟩
          State.initial) ⟨80, 80⟩ [[]] ≠ some (some [0, 0]) :=
  ⟨by decide!,
    C11_clipped_point_hits_no_layer planarCollaborators (fun _ _ => clipTreePositions)
      clipTree.attrsOf
      (calculateDrawTransforms (scenarioConfig TreeKind.layerImpl) clipTree ⟨100, 100⟩
        State.initial) ⟨80, 80⟩ [[]] [0, 0] [0] WebTransformationMatrix.identity
      ⟨[0], rfl⟩ (by decide!) (by decide!) (by decide!)⟩

/-- The test of `pointIsClippedBySurfaceOrClipRect` on a layer dereferences no
null pointer when every layer on the way from the layer to the root that clips
its subtree has a render target that owns a surface. -/
theorem pointIsClipped_isSome_of_path (c : Collaborators) (attrsOf : LayerId → LayerAttrs)
    (s : State) (p : IntPoint) :
    ∀ id : LayerId,
      (∀ q, q <:+ id → layerClipsSubtree (attrsOf q) = true →
        (targetScreenSpaceTransform s q).isSome = true) →
      (pointIsClippedBySurfaceOrClipRect c attrsOf s p id).isSome = true := by
  have hstep : ∀ (id : LayerId) (rest : Option Bool),
      (layerClipsSubtree (attrsOf id) = true → (targetScreenSpaceTransform s id).isSome = true) →
      rest.isSome = true → (clipTestStep c s p id (attrsOf id) rest).isSome = true := by
    intro id rest hid hrest
    unfold clipTestStep
    simp only
    split_ifs with h1 h2
    · rfl
    · obtain ⟨m, hm⟩ := Option.isSome_iff_exists.mp (hid h2)
      simp only [hm]
      split_ifs
      · rfl
      · exact hrest
    · exact hrest
  intro id
  induction id with
  | nil =>
    intro h
    rw [pointIsClipped_unfold]
    exact hstep [] _ (h [] (List.suffix_refl _)) rfl
  | cons i parent ih =>
    intro h
    rw [pointIsClipped_unfold]
    exact hstep _ _ (h _ (List.suffix_refl _))
      (ih fun q hq => h q (hq.trans (List.suffix_cons i parent)))

theorem IteratorPosition.isHit_eq (c : Collaborators) (attrsOf : LayerId → LayerAttrs)
    (s : State) (p : IntPoint) (it : IteratorPosition) :
    it.isHit c attrsOf s p
      = (it.representsItself
        && pointHitsRect c p (s.layers it.layer).screenSpaceTransform
            (FloatRect.ofSize (attrsOf it.layer).contentBounds)
        && decide (pointIsClippedBySurfaceOrClipRect c attrsOf s p it.layer = some false)) := by
  unfold IteratorPosition.isHit pointHitsRect
  cases h1 : it.representsItself <;>
    cases h2 : (s.layers it.layer).screenSpaceTransform.isInvertible <;>
    cases h3 : (c.projectPoint (s.layers it.layer).screenSpaceTransform.inverse
      ⟨p.x, p.y⟩).2 <;>
    simp [h3]

/-- A run of the loop of `findLayerThatIsHitByPoint` that dereferences no null
pointer returns the first position that passes the tests. -/
theorem findLayerInPositions_of_some (c : Collaborators) (attrsOf : LayerId → LayerAttrs)
    (s : State) (p : IntPoint) :
    ∀ ps : List IteratorPosition, findLayerInPositions c attrsOf s p ps ≠ none →
      findLayerInPositions c attrsOf s p ps
        = some ((ps.find? (fun it => it.isHit c attrsOf s p)).map (·.layer)) := by
  intro ps
  induction ps with
  | nil => intro _; rfl
  | cons it rest ih =>
    intro h
    unfold findLayerInPositions at h ⊢
    rw [List.find?_cons, IteratorPosition.isHit_eq]
    by_cases h1 : it.representsItself = true
    · by_cases h2 : pointHitsRect c p (s.layers it.layer).screenSpaceTransform
          (FloatRect.ofSize (attrsOf it.layer).contentBounds) = true
      · cases hb : pointIsClippedBySurfaceOrClipRect c attrsOf s p it.layer with
        | none => simp [h1, h2, hb] at h
        | some b =>
          cases b with
          | true =>
            simp only [h1, h2, hb, Bool.not_true, Bool.false_eq_true, if_false] at h
            simp [h1, h2, hb, ih h]
          | false => simp [h1, h2, hb]
      · simp only [Bool.not_eq_true] at h2
        simp only [h1, h2, Bool.not_true, Bool.not_false, Bool.false_eq_true, if_false,
          if_true] at h
        simp [h1, h2, ih h]
    · simp only [Bool.not_eq_true] at h1
      simp only [h1, Bool.not_false, if_true] at h
      simp [h1, ih h]

/-- The loop of `findLayerThatIsHitByPoint` dereferences no null pointer when the
test of `pointIsClippedBySurfaceOrClipRect` dereferences none on the positions
that represent themselves and pass the test of the content bounds. -/
theorem findLayerInPositions_ne_none (c : Collaborators) (attrsOf : LayerId → LayerAttrs)
    (s : State) (p : IntPoint) :
    ∀ ps : List IteratorPosition,
      (∀ it ∈ ps, it.representsItself = true →
        pointHitsRect c p (s.layers it.layer).screenSpaceTransform
          (FloatRect.ofSize (attrsOf it.layer).contentBounds) = true →
        (pointIsClippedBySurfaceOrClipRect c attrsOf s p it.layer).isSome = true) →
      findLayerInPositions c attrsOf s p ps ≠ none := by
  intro ps
  induction ps with
  | nil => intro _; simp [findLayerInPositions]
  | cons it rest ih =>
    intro h
    have hrest := ih fun it2 h2 => h it2 (List.mem_cons_of_mem _ h2)
    unfold findLayerInPositions
    by_cases h1 : it.representsItself = true
    · by_cases h2 : pointHitsRect c p (s.layers it.layer).screenSpaceTransform
          (FloatRect.ofSize (attrsOf it.layer).contentBounds) = true
      · obtain ⟨b, hb⟩ := Option.isSome_iff_exists.mp (h it (List.mem_cons_self _ _) h1 h2)
        cases b with
        | true => simpa [h1, h2, hb] using hrest
        | false => simp [h1, h2, hb]
      · simp only [Bool.not_eq_true] at h2
        simpa [h1, h2] using hrest
    · simp only [Bool.not_eq_true] at h1
      simpa [h1] using hrest

/-- C12. For every screen point and every render-surface layer list, a run of
`findLayerThatIsHitByPoint` that dereferences no null pointer returns the layer
of the first position of the front-to-back iteration that represents itself,
whose screen-space transform is invertible, whose content-bounds rect contains
the projection of the point, the projection not being clipped, and for which
`pointIsClippedBySurfaceOrClipRect` is false; it returns null if and only if no
position passes these tests. The run dereferences no null pointer when, for
every position that represents itself and passes the test of the content
bounds, every layer on the way from its layer to the root that clips its
subtree has a render target that owns a surface: the only pointers that the
function dereferences without a test. -/
theorem C12_first_hit_front_to_back (c : Collaborators)
    (frontToBack : State → List LayerId → List IteratorPosition)
    (attrsOf : LayerId → LayerAttrs) (s : State) (screenSpacePoint : IntPoint)
    (renderSurfaceLayerList : List LayerId) :
    ((∀ it ∈ frontToBack s renderSurfaceLayerList, it.representsItself = true →
        pointHitsRect c screenSpacePoint (s.layers it.layer).screenSpaceTransform
          (FloatRect.ofSize (attrsOf it.layer).contentBounds) = true →
        ∀ q, q <:+ it.layer → layerClipsSubtree (attrsOf q) = true →
          (targetScreenSpaceTransform s q).isSome = true) →
      findLayerThatIsHitByPoint c frontToBack attrsOf s screenSpacePoint renderSurfaceLayerList
        ≠ none)
    ∧ (findLayerThatIsHitByPoint c frontToBack attrsOf s screenSpacePoint renderSurfaceLayerList
          ≠ none →
        findLayerThatIsHitByPoint c frontToBack attrsOf s screenSpacePoint renderSurfaceLayerList
          = some (((frontToBack s renderSurfaceLayerList).find?
              (fun it => it.isHit c attrsOf s screenSpacePoint)).map (·.layer))
        ∧ (findLayerThatIsHitByPoint c frontToBack attrsOf s screenSpacePoint
              renderSurfaceLayerList = some none
          ↔ ∀ it ∈ frontToBack s renderSurfaceLayerList,
              it.isHit c attrsOf s screenSpacePoint = false)) := by
  refine ⟨fun hpath => ?_, fun hrun => ?_⟩
  · exact findLayerInPositions_ne_none c attrsOf s screenSpacePoint _
      fun it hit h1 h2 =>
        pointIsClipped_isSome_of_path c attrsOf s screenSpacePoint it.layer (hpath it hit h1 h2)
  · have h := findLayerInPositions_of_some c attrsOf s screenSpacePoint
      (frontToBack s renderSurfaceLayerList) hrun
    refine ⟨h, ?_⟩
    unfold findLayerThatIsHitByPoint
    rw [h]
    simp [List.find?_eq_none]

/-- The only layer of `clipTree` that clips its subtree is the child of the
root. -/
theorem clipTree_clips (id : LayerId) (h : layerClipsSubtree (clipTree.attrsOf id) = true) :
    id = [0] := by
  have key : ∀ path : List Nat,
      layerClipsSubtree (LayerType.attrsAtPath path clipTree) = true → path = [0] := by
    intro path hp
    match path, hp with
    | [], hp => exact absurd hp (by decide)
    | [0], _ => rfl
    | [0, 0], hp => exact absurd hp (by decide)
    | 0 :: 0 :: _ :: _, hp =>
      simp [LayerType.attrsAtPath, clipTree, LayerType.children, layerClipsSubtree,
        LayerAttrs.blank] at hp
    | 0 :: (_ + 1) :: _, hp =>
      simp [LayerType.attrsAtPath, clipTree, LayerType.children, layerClipsSubtree,
        LayerAttrs.blank] at hp
    | (_ + 1) :: _, hp =>
      simp [LayerType.attrsAtPath, clipTree, LayerType.children, layerClipsSubtree,
        LayerAttrs.blank] at hp
  have := key id.reverse h
  have e : id = [0].reverse := by rw [← this, List.reverse_reverse]
  simpa using e

set_option maxRecDepth 100000 in
/-- C12, witness. In `hiddenClipTree` after the walk the child of the root clips
its subtree and has no render target, being skipped as transparent; no position
of the iteration lies under it, and the point (30, 30) hits the root. In
`clipTree` after the walk the point (30, 30) hits the grandchild, the first
position of the iteration. -/
theorem C12_first_hit_front_to_back_witness :
    layerClipsSubtree (hiddenClipTree.attrsOf [0]) = true
    ∧ (targetScreenSpaceTransform
        (calculateDrawTransforms (scenarioConfig TreeKind.layerImpl) hiddenClipTree ⟨100, 100⟩
          State.initial) [0]).isSome = false
    ∧ findLayerThatIsHitByPoint planarCollaborators (fun _ _ => hiddenClipTreePositions)
        hiddenClipTree.attrsOf
        (calculateDrawTransforms (scenarioConfig TreeKind.layerImpl) hiddenClipTree ⟨100, 100⟩
          State.initial) ⟨30, 30⟩ [[]] = some (some [])
    ∧ findLayerThatIsHitByPoint planarCollaborators (fun _ _ => clipTreePositions)
        clipTree.attrsOf
        (calculateDrawTransforms (scenarioConfig TreeKind.layerImpl) clipTree ⟨100, 100⟩
          State.initial) ⟨30, 30⟩ [[]] = some (some [0, 0]) := by
  have h1 := C12_first_hit_front_to_back planarCollaborators (fun _ _ => hiddenClipTreePositions)
    hiddenClipTree.attrsOf
    (calculateDrawTransforms (scenarioConfig TreeKind.layerImpl) hiddenClipTree ⟨100, 100⟩
      State.initial) ⟨30, 30⟩ [[]]
  have h2 := C12_first_hit_front_to_back planarCollaborators (fun _ _ => clipTreePositions)
    clipTree.attrsOf
    (calculateDrawTransforms (scenarioConfig TreeKind.layerImpl) clipTree ⟨100, 100⟩
      State.initial) ⟨30, 30⟩ [[]]
  refine ⟨by decide, by decide!, ?_, ?_⟩
  · refine (h1.2 (h1.1 ?_)).1.trans (by decide!)
    intro it hit _ _ q hq hclips
    have hl : it.layer = [] := by
      simp only [hiddenClipTreePositions, List.mem_cons, List.mem_singleton,
        List.not_mem_nil, or_false] at hit
      rcases hit with e | e <;> rw [e]
    rw [hl] at hq
    rw [List.suffix_nil.mp hq] at hclips
    exact absurd hclips (by decide)
  · refine (h2.2 (h2.1 ?_)).1.trans (by decide!)
    intro it _ _ _ q _ hclips
    rw [clipTree_clips q hclips]
    decide!

/-! ## The order of the render-surface layer list -/

theorem State.pushLayer_layerListOf (s : State) (owner layer : LayerId)
    (h : (s.surface owner).isSome = true) :
    (s.pushLayer owner layer).layerListOf owner = s.layerListOf owner ++ [layer] := by
  obtain ⟨rs, hrs⟩ := Option.isSome_iff_exists.mp h
  simp only [State.surface] at hrs
  simp [State.pushLayer, State.modifySurface, State.layerListOf, State.surface, hrs]

theorem childrenOf_state (cfg : Config) (anc : List LayerAttrs) (id : LayerId)
    (layer : LayerAttrs) (args : WalkArgs) (b : Branch) :
    (childrenOf cfg anc id layer args b).2
      = if layerShouldBeSkipped cfg anc id layer b.state = false then
          b.state.pushLayer (if (b.state.surface id).isSome then id else args.layerList) id
        else b.state := by
  simp only [childrenOf, enterChildren]
  cases layerShouldBeSkipped cfg anc id layer b.state <;> simp

theorem Call.entered_eq_branch {cfg : Config} {v : Call}
    (h : v.takesSurface cfg ∨ v.takesNoSurface cfg) :
    v.entered cfg
      = .proceed (childrenOf cfg v.anc v.id v.layer v.args (v.branch cfg)).1
          (childrenOf cfg v.anc v.id v.layer v.args (v.branch cfg)).2 := by
  rcases h with h | h
  · rw [Call.entered_of_takesSurface h]
    simp only [Call.branch, h.2.1, if_true]
  · rw [Call.entered_of_takesNoSurface h]
    simp only [Call.branch, h.2, Bool.false_eq_true, if_false]

/-- The layer appends itself to `descendants` exactly when `layerShouldBeSkipped`
is false. -/
theorem Call.appendsItself_iff (cfg : Config) (v : Call)
    (hlist : ((v.branch cfg).state.surface (v.descendants cfg)).isSome = true) :
    v.appendsItself cfg
      ↔ layerShouldBeSkipped cfg v.anc v.id v.layer (v.branch cfg).state = false := by
  unfold Call.appendsItself
  rw [childrenOf_state]
  cases h : layerShouldBeSkipped cfg v.anc v.id v.layer (v.branch cfg).state with
  | false =>
    simp only [if_true, iff_true]
    exact State.pushLayer_layerListOf _ _ _ hlist
  | true =>
    simp only [Bool.true_eq_false, if_false, iff_false]
    intro e
    have := List.self_eq_append_right.mp e
    cases this

/-- C20. For every visit that passes the early returns, the layer is appended
to `descendants`, the layer list of the surface it draws into, if and only if
it draws content, its bounds are not empty, and its back-face test subject (its
parent when `useParentBackfaceVisibility` is set, the layer itself otherwise)
is double-sided, or has a screen-space transform that is not known, or does not
show its back face; and every child of the layer is visited, with the same
arguments, whether or not the layer was appended. -/
theorem C20_layer_appended_iff_it_draws (cfg : Config) (v : Call)
    (hpass : v.takesSurface cfg ∨ v.takesNoSurface cfg)
    (hlist : ((v.branch cfg).state.surface (v.descendants cfg)).isSome = true) :
    v.entered cfg
      = .proceed (childrenOf cfg v.anc v.id v.layer v.args (v.branch cfg)).1
          (childrenOf cfg v.anc v.id v.layer v.args (v.branch cfg)).2
    ∧ (v.layer.useParentBackfaceVisibility = false →
      (v.appendsItself cfg
        ↔ v.layer.drawsContent = true ∧ v.layer.bounds.isEmpty = false
          ∧ (v.layer.doubleSided = true
            ∨ transformToScreenIsKnown cfg.kind ((v.branch cfg).state.layers v.id) = false
            ∨ isLayerBackFaceVisible cfg.ext v.anc.head? v.layer
                ((v.branch cfg).state.layers v.id).drawTransform = false)))
    ∧ (∀ (parent : LayerAttrs) (rest : List LayerAttrs), v.anc = parent :: rest →
      v.layer.useParentBackfaceVisibility = true →
      (v.appendsItself cfg
        ↔ v.layer.drawsContent = true ∧ v.layer.bounds.isEmpty = false
          ∧ (parent.doubleSided = true
            ∨ transformToScreenIsKnown cfg.kind ((v.branch cfg).state.layers v.id.tail) = false
            ∨ isLayerBackFaceVisible cfg.ext rest.head? parent
                ((v.branch cfg).state.layers v.id.tail).drawTransform = false)))
    ∧ (∀ (j : Nat) (child : LayerAttrs) (grandchildren : List LayerType),
      v.children[j]? = some (.mk child grandchildren) →
      ∃ sj, Visits cfg v.anc v.id (.mk v.layer v.children) v.args v.s
        ⟨v.layer :: v.anc, j :: v.id, child, grandchildren,
          (childrenOf cfg v.anc v.id v.layer v.args (v.branch cfg)).1.childArgs, sj⟩) := by
  have he := Call.entered_eq_branch hpass
  refine ⟨he, ?_, ?_, ?_⟩
  · intro huse
    rw [Call.appendsItself_iff cfg v hlist]
    unfold layerShouldBeSkipped
    cases h1 : v.layer.drawsContent <;> cases h2 : v.layer.bounds.isEmpty <;>
      cases h3 : v.layer.doubleSided <;>
      cases h4 : transformToScreenIsKnown cfg.kind ((v.branch cfg).state.layers v.id) <;>
      cases h5 : isLayerBackFaceVisible cfg.ext v.anc.head? v.layer
        ((v.branch cfg).state.layers v.id).drawTransform <;>
      simp [huse, h1, h2, h3, h4, h5]
  · intro parent rest hanc huse
    rw [Call.appendsItself_iff cfg v hlist]
    unfold layerShouldBeSkipped
    cases h1 : v.layer.drawsContent <;> cases h2 : v.layer.bounds.isEmpty <;>
      cases h3 : parent.doubleSided <;>
      cases h4 : transformToScreenIsKnown cfg.kind ((v.branch cfg).state.layers v.id.tail) <;>
      cases h5 : isLayerBackFaceVisible cfg.ext rest.head? parent
        ((v.branch cfg).state.layers v.id.tail).drawTransform <;>
      simp [huse, hanc, h1, h2, h3, h4, h5]
  · intro j child grandchildren hchild
    obtain ⟨sj, hsj⟩ := childVisits_get cfg (v.layer :: v.anc) v.id v.children j 0
      (childrenOf cfg v.anc v.id v.layer v.args (v.branch cfg)).1.childArgs IntRect.zero
      (childrenOf cfg v.anc v.id v.layer v.args (v.branch cfg)).2 child grandchildren hchild
    rw [Nat.zero_add] at hsj
    refine ⟨sj, ?_⟩
    simp only [Call.entered] at he
    rw [visits_mk, he]
    exact Or.inr hsj

set_option maxRecDepth 100000 in
/-- C20, witness: the child of `scenarioTree`, which draws content and is
double-sided, appends itself to the layer list of the surface of the root. -/
theorem C20_layer_appended_iff_it_draws_witness :
    ((rootCall (scenarioConfig TreeKind.layerImpl) scenarioTree ⟨100, 100⟩
      State.initial).firstChild (scenarioConfig TreeKind.layerImpl) scenarioChild
        []).appendsItself (scenarioConfig TreeKind.layerImpl) :=
  ((C20_layer_appended_iff_it_draws (scenarioConfig TreeKind.layerImpl)
    ((rootCall (scenarioConfig TreeKind.layerImpl) scenarioTree ⟨100, 100⟩
      State.initial).firstChild (scenarioConfig TreeKind.layerImpl) scenarioChild [])
    (Or.inr (by decide!)) (by decide!)).2.1 rfl).mpr ⟨rfl, by decide, Or.inl rfl⟩

end cc

namespace cc

/-! ## The calls of a walk and their parents -/

theorem LayerType.mk_attrs_children (t : LayerType) : LayerType.mk t.attrs t.children = t := by
  cases t
  rfl

/-- A call made during a visit is the visit itself or a call that another call
of the visit makes on a child of its layer; a call made during a loop over
children is the call on one of these children or has such a parent. -/
theorem visits_parent (layer : LayerType) :
    ∀ (cfg : Config) (anc : List LayerAttrs) (id : LayerId) (args : WalkArgs) (s : State)
      (v : Call), Visits cfg anc id layer args s v →
      v = ⟨anc, id, layer.attrs, layer.children, args, s⟩
      ∨ ∃ p, Visits cfg anc id layer args s p ∧ v.IsChildOf cfg p :=
  @LayerType.rec
    (fun layer => ∀ (cfg : Config) (anc : List LayerAttrs) (id : LayerId) (args : WalkArgs)
      (s : State) (v : Call), Visits cfg anc id layer args s v →
      v = ⟨anc, id, layer.attrs, layer.children, args, s⟩
      ∨ ∃ p, Visits cfg anc id layer args s p ∧ v.IsChildOf cfg p)
    (fun children => ∀ (pid : LayerId) (cfg : Config) (anc : List LayerAttrs) (i : Nat)
      (args : WalkArgs) (acc : IntRect) (s : State) (v : Call),
      ChildVisits cfg anc pid children i args acc s v →
      (∃ j child sj, children[j]? = some child
        ∧ v = ⟨anc, (i + j) :: pid, child.attrs, child.children, args, sj⟩)
      ∨ ∃ p, ChildVisits cfg anc pid children i args acc s p ∧ v.IsChildOf cfg p)
    (fun attrs children ih cfg anc id args s v hv => by
      rw [visits_mk] at hv
      rcases hv with hv | hv
      · exact Or.inl hv
      · right
        cases he : enterLayer cfg anc id attrs (anyDrawsContent children) args s with
        | exit u => rw [he] at hv; exact hv.elim
        | proceed loc u0 =>
          rw [he] at hv
          simp only at hv
          rcases ih id cfg (attrs :: anc) 0 loc.childArgs IntRect.zero u0 v hv with
            ⟨j, child, sj, hj, e⟩ | ⟨p, hp, hc⟩
          · refine ⟨⟨anc, id, attrs, children, args, s⟩,
              (visits_mk _ _ _ _ _ _ _ _).mpr (Or.inl rfl), loc, u0, j, he, ?_, ?_, ?_, ?_⟩
            · subst e
              simpa [LayerType.mk_attrs_children] using hj
            · subst e; rfl
            · subst e; simp
            · subst e; rfl
          · refine ⟨p, (visits_mk _ _ _ _ _ _ _ _).mpr (Or.inr ?_), hc⟩
            rw [he]
            exact hp)
    (fun pid cfg anc i args acc s v hv =>
      absurd hv (childVisits_nil cfg anc pid i args acc s v))
    (fun child rest ih1 ih2 pid cfg anc i args acc s v hv => by
      rw [childVisits_cons] at hv
      rcases hv with hv | hv
      · rcases ih1 cfg anc (i :: pid) args s v hv with e | ⟨p, hp, hc⟩
        · exact Or.inl ⟨0, child, s, by simp, by simpa using e⟩
        · exact Or.inr ⟨p, (childVisits_cons _ _ _ _ _ _ _ _ _ _).mpr (Or.inl hp), hc⟩
      · rcases ih2 pid cfg anc (i + 1) args _ _ v hv with ⟨j, c, sj, hj, e⟩ | ⟨p, hp, hc⟩
        · refine Or.inl ⟨j + 1, c, sj, by simpa using hj, ?_⟩
          rw [e]
          have : i + 1 + j = i + (j + 1) := by omega
          rw [this]
        · exact Or.inr ⟨p, (childVisits_cons _ _ _ _ _ _ _ _ _ _).mpr (Or.inr hp), hc⟩)
    layer

/-- Induction over the calls of a visit: a property of the visit itself that
passes from every call to the calls it makes on the children of its layer holds
of every call of the visit. -/
theorem visits_induction {cfg : Config} {anc : List LayerAttrs} {id : LayerId}
    {layer : LayerType} {args : WalkArgs} {s : State} (P : Call → Prop)
    (htop : P ⟨anc, id, layer.attrs, layer.children, args, s⟩)
    (hstep : ∀ p c, Visits cfg anc id layer args s p → Visits cfg anc id layer args s c →
      c.IsChildOf cfg p → P p → P c) :
    ∀ v, Visits cfg anc id layer args s v → P v := by
  have key : ∀ n, ∀ v, v.id.length = n → Visits cfg anc id layer args s v → P v := by
    intro n
    induction n using Nat.strong_induction_on with
    | _ n ih =>
      intro v hn hv
      rcases visits_parent layer cfg anc id args s v hv with e | ⟨p, hp, hc⟩
      · rw [e]; exact htop
      · refine hstep p v hp hv hc (ih p.id.length ?_ p rfl hp)
        obtain ⟨_, _, j, _, _, _, hid, _⟩ := hc
        rw [← hn, hid]
        simp
  exact fun v hv => key _ v rfl hv

/-- Induction over the calls of a walk. -/
theorem walkVisits_induction {cfg : Config} {rootLayer : LayerType} {vp : IntSize} {s : State}
    (P : Call → Prop) (htop : P (rootCall cfg rootLayer vp s))
    (hstep : ∀ p c, WalkVisits cfg rootLayer vp s p → WalkVisits cfg rootLayer vp s c →
      c.IsChildOf cfg p → P p → P c) :
    ∀ v, WalkVisits cfg rootLayer vp s v → P v :=
  visits_induction P htop hstep

/-! ## The result of a call -/

theorem Call.entered_eq_locals {cfg : Config} {v : Call}
    (h : v.takesSurface cfg ∨ v.takesNoSurface cfg) :
    v.entered cfg = .proceed (v.locals cfg) (v.atLoop cfg) :=
  Call.entered_eq_branch h

theorem Call.locals_of_entered {cfg : Config} {v : Call} {loc : Locals} {u0 : State}
    (h : v.entered cfg = .proceed loc u0) : loc = v.locals cfg ∧ u0 = v.atLoop cfg := by
  have := (Call.entered_eq_locals (Call.takes_of_entered h)).symm.trans h
  injection this with h1 h2
  exact ⟨h1.symm, h2.symm⟩

/-- The visit of a call that passes the early returns is the part after the
loop, applied to what the loop leaves. -/
theorem Call.result_eq {cfg : Config} {v : Call}
    (h : v.takesSurface cfg ∨ v.takesNoSurface cfg) :
    v.result cfg = finishLayer cfg v.anc v.id v.layer v.args (v.locals cfg)
      (v.afterChildren cfg).1 (v.afterChildren cfg).2 := by
  have he := Call.entered_eq_locals h
  simp only [Call.entered] at he
  rw [Call.result, calculateDrawTransformsInternal, he]
  rfl

theorem Call.branch_of_takesSurface {cfg : Config} {v : Call} (h : v.takesSurface cfg) :
    v.branch cfg = surfaceBranch cfg v.anc v.id v.layer v.args v.s := by
  simp only [Call.branch, h.2.1, if_true]

theorem Call.branch_of_takesNoSurface {cfg : Config} {v : Call} (h : v.takesNoSurface cfg) :
    v.branch cfg = noSurfaceBranch cfg v.anc v.id v.layer v.args v.s := by
  simp only [Call.branch, h.2, Bool.false_eq_true, if_false]

/-- The clip that the branch without surface leaves for the subtree. -/
theorem noSurfaceBranch_clip (cfg : Config) (anc : List LayerAttrs) (id : LayerId)
    (layer : LayerAttrs) (args : WalkArgs) (s : State) :
    (id ≠ [] →
      (noSurfaceBranch cfg anc id layer args s).subtreeShouldBeClipped = args.ancestorClipsSubtree
      ∧ (noSurfaceBranch cfg anc id layer args s).clipRectForSubtree
        = if args.ancestorClipsSubtree then args.clipRectFromAncestor else IntRect.zero)
    ∧ (id = [] →
      (noSurfaceBranch cfg anc id layer args s).subtreeShouldBeClipped = false
      ∧ (noSurfaceBranch cfg anc id layer args s).clipRectForSubtree = IntRect.zero) := by
  unfold noSurfaceBranch enterNoSurface
  constructor
  · intro h
    simp [h]
  · intro h
    simp [h]

theorem surfaceBranch_clip (cfg : Config) (anc : List LayerAttrs) (id : LayerId)
    (layer : LayerAttrs) (args : WalkArgs) (s : State) :
    (surfaceBranch cfg anc id layer args s).subtreeShouldBeClipped = false
    ∧ (surfaceBranch cfg anc id layer args s).clipRectForSubtree = IntRect.zero := by
  simp [surfaceBranch, enterSurface]

/-- The locals of a visit that depend on the branch through its clip and its
state only. -/
theorem childrenOf_locals (cfg : Config) (anc : List LayerAttrs) (id : LayerId)
    (layer : LayerAttrs) (args : WalkArgs) (b : Branch) :
    (childrenOf cfg anc id layer args b).1.rectInTargetSpace
      = enclosingIntRect (cfg.ext.mapClippedRect (b.state.layers id).drawTransform
          (FloatRect.ofSize layer.contentBounds))
    ∧ (childrenOf cfg anc id layer args b).1.subtreeShouldBeClipped
      = (layerClipsSubtree layer || b.subtreeShouldBeClipped)
    ∧ (childrenOf cfg anc id layer args b).1.clipRectForSubtree
      = (if layerClipsSubtree layer then
          if args.ancestorClipsSubtree && (b.state.surface id).isNone then
            args.clipRectFromAncestor.intersect
              (enclosingIntRect (cfg.ext.mapClippedRect (b.state.layers id).drawTransform
                (FloatRect.ofSize layer.contentBounds)))
          else enclosingIntRect (cfg.ext.mapClippedRect (b.state.layers id).drawTransform
            (FloatRect.ofSize layer.contentBounds))
        else b.clipRectForSubtree)
    ∧ (childrenOf cfg anc id layer args b).1.descendants
      = (if (b.state.surface id).isSome then id else args.layerList)
    ∧ (childrenOf cfg anc id layer args b).1.sortingStartIndex
      = (b.state.layerListOf (if (b.state.surface id).isSome then id else args.layerList)).length := by
  simp [childrenOf, enterChildren]

/-- What holds of the arguments of every call of a walk: the call has as many
ancestors as its position has indices, the layer list that it is given belongs
to the parent of its layer or to a layer above, and the clip rect that it is
given is the zero rect when the ancestor does not clip. -/
theorem walkVisits_args (cfg : Config) (rootLayer : LayerType) (vp : IntSize) (s : State)
    (v : Call) (hv : WalkVisits cfg rootLayer vp s v) :
    v.anc.length = v.id.length
    ∧ v.args.layerList <:+ v.id.tail
    ∧ (v.args.ancestorClipsSubtree = false → v.args.clipRectFromAncestor = IntRect.zero) := by
  refine walkVisits_induction
    (fun v => v.anc.length = v.id.length ∧ v.args.layerList <:+ v.id.tail
      ∧ (v.args.ancestorClipsSubtree = false → v.args.clipRectFromAncestor = IntRect.zero))
    ?_ ?_ v hv
  · simp [rootCall, rootArgs]
  · rintro p c _ _ ⟨loc, u0, j, he, _, hanc, hid, hargs⟩ ⟨h1, h2, h3⟩
    obtain ⟨hl, _⟩ := Call.locals_of_entered he
    subst hl
    obtain ⟨_, l2, l3, l4, _⟩ := childrenOf_locals cfg p.anc p.id p.layer p.args (p.branch cfg)
    refine ⟨by simp [hanc, hid, h1], ?_, ?_⟩
    · rw [hargs, hid]
      simp only [Locals.childArgs, Call.locals, l4, List.tail_cons]
      split_ifs
      · exact List.suffix_refl _
      · exact h2.trans (List.tail_suffix _)
    · rw [hargs]
      simp only [Locals.childArgs, Call.locals, l2, l3]
      intro hf
      simp only [Bool.or_eq_false_iff] at hf
      rw [if_neg (by simp [hf.1])]
      rcases Call.takes_of_entered he with ht | ht
      · rw [Call.branch_of_takesSurface ht]
        exact (surfaceBranch_clip _ _ _ _ _ _).2
      · rw [Call.branch_of_takesNoSurface ht] at hf ⊢
        by_cases hp : p.id = []
        · exact ((noSurfaceBranch_clip _ _ _ _ _ _).2 hp).2
        · obtain ⟨g1, g2⟩ := (noSurfaceBranch_clip cfg p.anc p.id p.layer p.args p.s).1 hp
          rw [g2]
          rw [g1] at hf
          simp [hf.2]

/-! ## What the rest of a walk keeps of a layer after its visit -/

theorem ButSurface.butSurface_refl (l : LayerState) : ButSurface l l := rfl

theorem ButSurface.butSurface_trans {a b c : LayerState} (h1 : ButSurface a b)
    (h2 : ButSurface b c) : ButSurface a c :=
  Eq.trans h2 h1

theorem ButSurface.butSurface_of_eq {a b : LayerState} (h : b = a) : ButSurface a b :=
  h ▸ ButSurface.butSurface_refl a

theorem ButSurface.butSurface_of_eraseLists {a b : LayerState} (h : b.eraseLists = a.eraseLists) :
    ButSurface a b := by
  have := congrArg LayerState.withoutSurface h
  exact this

theorem Frame.frame_butSurface {a b : LayerState} (h : Frame a b) : ButSurface a b :=
  ButSurface.butSurface_of_eraseLists h.1

theorem ModLists.modLists_butSurface {a b : LayerState} (h : ModLists a b) : ButSurface a b :=
  ButSurface.butSurface_of_eraseLists h.1

theorem ButSurface.butSurface_fields {a b : LayerState} (h : ButSurface a b) :
    b.drawTransform = a.drawTransform ∧ b.drawOpacity = a.drawOpacity
    ∧ b.drawOpacityIsAnimating = a.drawOpacityIsAnimating
    ∧ b.drawableContentRect = a.drawableContentRect
    ∧ b.visibleContentRect = a.visibleContentRect
    ∧ b.renderTarget = a.renderTarget
    ∧ b.screenSpaceTransform = a.screenSpaceTransform
    ∧ b.contentsScale = a.contentsScale := by
  have e : b.withoutSurface = a.withoutSurface := h
  refine ⟨?_, ?_, ?_, ?_, ?_, ?_, ?_, ?_⟩
  · exact (congrArg LayerState.drawTransform e : b.withoutSurface.drawTransform = a.withoutSurface.drawTransform)
  · exact (congrArg LayerState.drawOpacity e : b.withoutSurface.drawOpacity = a.withoutSurface.drawOpacity)
  · exact (congrArg LayerState.drawOpacityIsAnimating e : b.withoutSurface.drawOpacityIsAnimating = a.withoutSurface.drawOpacityIsAnimating)
  · exact (congrArg LayerState.drawableContentRect e : b.withoutSurface.drawableContentRect = a.withoutSurface.drawableContentRect)
  · exact (congrArg LayerState.visibleContentRect e : b.withoutSurface.visibleContentRect = a.withoutSurface.visibleContentRect)
  · exact (congrArg LayerState.renderTarget e : b.withoutSurface.renderTarget = a.withoutSurface.renderTarget)
  · exact (congrArg LayerState.screenSpaceTransform e : b.withoutSurface.screenSpaceTransform = a.withoutSurface.screenSpaceTransform)
  · exact (congrArg LayerState.contentsScale e : b.withoutSurface.contentsScale = a.withoutSurface.contentsScale)

theorem clearRenderSurface_butSurface (s : State) (a q : LayerId) :
    ButSurface (s.layers q) ((s.clearRenderSurface a).layers q) := by
  by_cases hq : q = a
  · subst hq
    simp only [State.clearRenderSurface, State.modify_layers_self]
    rfl
  · simp only [State.clearRenderSurface, State.modify_layers_other _ _ _ _ hq]
    exact ButSurface.butSurface_refl _

theorem popSurfacesAfter_butSurface (layer : LayerId) :
    ∀ (l : List LayerId) (s : State) (q : LayerId),
      ButSurface (s.layers q) ((popSurfacesAfter layer l s).2.layers q) := by
  intro l
  induction l with
  | nil => intro s q; exact ButSurface.butSurface_refl _
  | cons a l ih =>
    intro s q
    unfold popSurfacesAfter
    split_ifs
    · exact ButSurface.butSurface_refl _
    · exact (clearRenderSurface_butSurface s a q).butSurface_trans (ih (s.clearRenderSurface a) q)

theorem removeEmptySurface_butSurface (layer : LayerId) (s : State) (q : LayerId) :
    ButSurface (s.layers q) ((removeEmptySurface layer s).layers q) := by
  unfold removeEmptySurface
  refine (popSurfacesAfter_butSurface layer s.renderSurfaceLayerList.reverse s q).butSurface_trans ?_
  exact clearRenderSurface_butSurface _ layer q

theorem finishSurface_butSurface (cfg : Config) (layer : LayerAttrs) (id : LayerId)
    (args : WalkArgs) (loc : Locals) (r : IntRect) (s : State) (q : LayerId) :
    ButSurface (s.layers q) ((finishSurface cfg layer id args loc r s).layers q) := by
  by_cases hq : q = id
  · subst hq
    rw [finishSurface_layers_self]
    rfl
  · exact ButSurface.butSurface_of_eq (finishSurface_layers_other _ _ _ _ _ _ _ _ hq)

/-- The part of a visit after the loop changes, besides render surfaces, the two
content rects of the layer of the visit only. -/
theorem finishLayer_butSurface (cfg : Config) (anc : List LayerAttrs) (id : LayerId)
    (layer : LayerAttrs) (args : WalkArgs) (loc : Locals) (acc : IntRect) (u : State)
    (q : LayerId) :
    ButSurface ((setContentRects cfg layer id loc u).layers q)
      ((finishLayer cfg anc id layer args loc acc u).2.layers q) := by
  rcases finishLayer_cases cfg anc id layer args loc acc u with
    ⟨_, _, _, hf⟩ | ⟨_, _, _, hf⟩ | ⟨_, hf⟩ <;> rw [hf]
  · exact (finishSurface_butSurface _ _ _ _ _ _ _ q).butSurface_trans
      (removeEmptySurface_butSurface _ _ q)
  · exact (finishSurface_butSurface _ _ _ _ _ _ _ q).butSurface_trans
      (finishDescendants_modLists _ _ _ _ _ _ _ q).modLists_butSurface
  · exact (finishDescendants_modLists _ _ _ _ _ _ _ q).modLists_butSurface

theorem finishLayer_butSurface_other (cfg : Config) (anc : List LayerAttrs) (id : LayerId)
    (layer : LayerAttrs) (args : WalkArgs) (loc : Locals) (acc : IntRect) (u : State)
    (q : LayerId) (hq : q ≠ id) :
    ButSurface (u.layers q) ((finishLayer cfg anc id layer args loc acc u).2.layers q) := by
  have := finishLayer_butSurface cfg anc id layer args loc acc u q
  rwa [setContentRects_layers_other _ _ _ _ _ _ hq] at this

/-- What a visit leaves on the layer of one of its calls, besides the render
surface, is what the call itself left there. -/
theorem walk_rest (layer : LayerType) :
    ∀ (cfg : Config) (anc : List LayerAttrs) (id : LayerId) (args : WalkArgs) (s : State)
      (v : Call), Visits cfg anc id layer args s v →
      InSubtree id v.id
      ∧ ButSurface ((v.result cfg).2.layers v.id)
          ((calculateDrawTransformsInternal cfg anc id layer args s).2.layers v.id) :=
  @LayerType.rec
    (fun layer => ∀ (cfg : Config) (anc : List LayerAttrs) (id : LayerId) (args : WalkArgs)
      (s : State) (v : Call), Visits cfg anc id layer args s v →
      InSubtree id v.id
      ∧ ButSurface ((v.result cfg).2.layers v.id)
          ((calculateDrawTransformsInternal cfg anc id layer args s).2.layers v.id))
    (fun children => ∀ (pid : LayerId) (cfg : Config) (anc : List LayerAttrs) (i : Nat)
      (args : WalkArgs) (acc : IntRect) (s : State) (v : Call),
      ChildVisits cfg anc pid children i args acc s v →
      InChildren pid i v.id
      ∧ ButSurface ((v.result cfg).2.layers v.id)
          ((visitChildren cfg anc pid children i args acc s).2.layers v.id))
    (fun attrs children ih cfg anc id args s v hv => by
      rw [visits_mk] at hv
      rcases hv with hv | hv
      · subst hv
        exact ⟨InSubtree.inSubtree_refl _, ButSurface.butSurface_refl _⟩
      · rw [calculateDrawTransformsInternal]
        cases he : enterLayer cfg anc id attrs (anyDrawsContent children) args s with
        | exit u => rw [he] at hv; exact hv.elim
        | proceed loc u0 =>
          rw [he] at hv
          simp only at hv ⊢
          obtain ⟨h1, h2⟩ := ih id cfg (attrs :: anc) 0 loc.childArgs IntRect.zero u0 v hv
          exact ⟨h1.inChildren_inSubtree,
            h2.butSurface_trans (finishLayer_butSurface_other _ _ _ _ _ _ _ _ _ h1.inChildren_ne)⟩)
    (fun pid cfg anc i args acc s v hv =>
      absurd hv (childVisits_nil cfg anc pid i args acc s v))
    (fun child rest ih1 ih2 pid cfg anc i args acc s v hv => by
      rw [childVisits_cons] at hv
      rw [visitChildren]
      rcases hv with hv | hv
      · obtain ⟨h1, h2⟩ := ih1 cfg anc (i :: pid) args s v hv
        refine ⟨InChildren.inChildren_of_child h1, ?_⟩
        refine h2.butSurface_trans ?_
        refine ((appendChildSurface_step args (i :: pid) _).frame v.id
          (fun h => h)).frame_butSurface.butSurface_trans ?_
        obtain ⟨_, hcs, _⟩ := children_step rest pid cfg anc (i + 1) args
          (if !(calculateDrawTransformsInternal cfg anc (i :: pid) child args s).1.isEmpty then
            acc.unite (calculateDrawTransformsInternal cfg anc (i :: pid) child args s).1
          else acc)
          (appendChildSurface args (i :: pid)
            (calculateDrawTransformsInternal cfg anc (i :: pid) child args s))
        exact (hcs.frame v.id (InChildren.inChildren_not_of_child h1)).frame_butSurface
      · obtain ⟨h1, h2⟩ := ih2 pid cfg anc (i + 1) args _ _ v hv
        exact ⟨InChildren.inChildren_of_succ h1, h2⟩)
    layer

/-- What the walk leaves on the layer of one of its calls, besides the render
surface, is what the call itself left there. -/
theorem calculateDrawTransforms_rest (cfg : Config) (rootLayer : LayerType) (vp : IntSize)
    (s : State) (v : Call) (hv : WalkVisits cfg rootLayer vp s v) :
    ButSurface ((v.result cfg).2.layers v.id)
      ((calculateDrawTransforms cfg rootLayer vp s).layers v.id) :=
  (walk_rest rootLayer cfg [] [] _ _ v hv).2

/-! ## The calls that a call of a walk makes -/

/-- The calls made during the visit of a call of a visit are calls of the
visit. -/
theorem visits_trans (layer : LayerType) :
    ∀ (cfg : Config) (anc : List LayerAttrs) (id : LayerId) (args : WalkArgs) (s : State)
      (v : Call), Visits cfg anc id layer args s v →
      ∀ w, Visits cfg v.anc v.id (.mk v.layer v.children) v.args v.s w →
        Visits cfg anc id layer args s w :=
  @LayerType.rec
    (fun layer => ∀ (cfg : Config) (anc : List LayerAttrs) (id : LayerId) (args : WalkArgs)
      (s : State) (v : Call), Visits cfg anc id layer args s v →
      ∀ w, Visits cfg v.anc v.id (.mk v.layer v.children) v.args v.s w →
        Visits cfg anc id layer args s w)
    (fun children => ∀ (pid : LayerId) (cfg : Config) (anc : List LayerAttrs) (i : Nat)
      (args : WalkArgs) (acc : IntRect) (s : State) (v : Call),
      ChildVisits cfg anc pid children i args acc s v →
      ∀ w, Visits cfg v.anc v.id (.mk v.layer v.children) v.args v.s w →
        ChildVisits cfg anc pid children i args acc s w)
    (fun attrs children ih cfg anc id args s v hv w hw => by
      rw [visits_mk] at hv
      rcases hv with hv | hv
      · subst hv
        exact hw
      · rw [visits_mk]
        right
        cases he : enterLayer cfg anc id attrs (anyDrawsContent children) args s with
        | exit u => rw [he] at hv; exact hv.elim
        | proceed loc u0 =>
          rw [he] at hv
          simp only at hv ⊢
          exact ih id cfg (attrs :: anc) 0 loc.childArgs IntRect.zero u0 v hv w hw)
    (fun pid cfg anc i args acc s v hv =>
      absurd hv (childVisits_nil cfg anc pid i args acc s v))
    (fun child rest ih1 ih2 pid cfg anc i args acc s v hv w hw => by
      rw [childVisits_cons] at hv ⊢
      rcases hv with hv | hv
      · exact Or.inl (ih1 cfg anc (i :: pid) args s v hv w hw)
      · exact Or.inr (ih2 pid cfg anc (i + 1) args _ _ v hv w hw))
    layer

/-- A call of a walk that passes the early returns calls every child of its
layer, and these calls are calls of the walk. -/
theorem walkVisits_child {cfg : Config} {rootLayer : LayerType} {vp : IntSize} {s : State}
    {v : Call} (hv : WalkVisits cfg rootLayer vp s v)
    (hpass : v.takesSurface cfg ∨ v.takesNoSurface cfg)
    (j : Nat) (child : LayerAttrs) (grandchildren : List LayerType)
    (hchild : v.children[j]? = some (.mk child grandchildren)) :
    ∃ c, WalkVisits cfg rootLayer vp s c ∧ c.IsChildOf cfg v ∧ c.id = j :: v.id
      ∧ c.layer = child ∧ c.children = grandchildren := by
  have he := Call.entered_eq_locals hpass
  obtain ⟨sj, hsj⟩ := childVisits_get cfg (v.layer :: v.anc) v.id v.children j 0
    (v.locals cfg).childArgs IntRect.zero (v.atLoop cfg) child grandchildren hchild
  rw [Nat.zero_add] at hsj
  refine ⟨⟨v.layer :: v.anc, j :: v.id, child, grandchildren, (v.locals cfg).childArgs, sj⟩,
    ?_, ⟨v.locals cfg, v.atLoop cfg, j, he, hchild, rfl, rfl, rfl⟩, rfl, rfl, rfl⟩
  refine visits_trans rootLayer cfg [] [] _ _ v hv _ ?_
  simp only [Call.entered] at he
  rw [visits_mk, he]
  exact Or.inr hsj

/-! ## The content rects that a call leaves on its layer -/

theorem setContentRects_rects (cfg : Config) (layer : LayerAttrs) (id : LayerId) (loc : Locals)
    (s : State) :
    ((setContentRects cfg layer id loc s).layers id).drawableContentRect
      = (if loc.subtreeShouldBeClipped = true then
          loc.rectInTargetSpace.intersect loc.clipRectForSubtree
        else loc.rectInTargetSpace)
    ∧ ((setContentRects cfg layer id loc s).layers id).visibleContentRect
      = calculateVisibleContentRect cfg.ext layer id
          (s.modify id fun l =>
            { l with
              drawableContentRect :=
                if loc.subtreeShouldBeClipped = true then
                  loc.rectInTargetSpace.intersect loc.clipRectForSubtree
                else loc.rectInTargetSpace }) := by
  simp [setContentRects]

/-- The content rects that the visit of a call leaves on the layer of the
call. -/
theorem Call.result_rects {cfg : Config} {v : Call}
    (h : v.takesSurface cfg ∨ v.takesNoSurface cfg) :
    (((v.result cfg).2.layers v.id).drawableContentRect
      = (if (v.locals cfg).subtreeShouldBeClipped = true then
          (v.locals cfg).rectInTargetSpace.intersect (v.locals cfg).clipRectForSubtree
        else (v.locals cfg).rectInTargetSpace))
    ∧ ((v.result cfg).2.layers v.id).visibleContentRect
      = calculateVisibleContentRect cfg.ext v.layer v.id
          ((v.afterChildren cfg).2.modify v.id fun l =>
            { l with
              drawableContentRect :=
                if (v.locals cfg).subtreeShouldBeClipped = true then
                  (v.locals cfg).rectInTargetSpace.intersect (v.locals cfg).clipRectForSubtree
                else (v.locals cfg).rectInTargetSpace }) := by
  rw [Call.result_eq h]
  obtain ⟨_, _, _, e4, e5, _⟩ := (finishLayer_butSurface cfg v.anc v.id v.layer v.args
    (v.locals cfg) (v.afterChildren cfg).1 (v.afterChildren cfg).2 v.id).butSurface_fields
  rw [e4, e5]
  exact setContentRects_rects _ _ _ _ _

end cc

namespace cc

/-! ## The claims on the transforms of a layer that owns a surface -/

theorem WebTransformationMatrix.scaling_multiply (a b c d : ℚ) :
    (scaling a b).multiply (scaling c d) = scaling (a * c) (b * d) := by
  ext <;> simp [multiply, scaling, identity, mul_comm]

/-- A call of a walk that gives its layer a render surface is not the call on
the root layer. -/
theorem walkVisits_takesSurface_ne_nil {cfg : Config} {rootLayer : LayerType} {vp : IntSize}
    {s : State} {v : Call} (hv : WalkVisits cfg rootLayer vp s v) (h : v.takesSurface cfg) :
    v.id ≠ [] := by
  intro hid
  have hl := (walkVisits_args cfg rootLayer vp s v hv).1
  rw [hid] at hl
  have hanc : v.anc = [] := List.length_eq_zero.mp hl
  have := h.2.1
  rw [hanc, rendersToSeparateSurface_root] at this
  cases this

/-- Over the rationals, where the reciprocal of the sublayer scale and the
products of the matrices are exact, the draw transform of the surface times the
draw transform that the surface branch stores on the layer is the draw
transform that the layer would have without a surface. -/
theorem surface_owner_product (layer : LayerAttrs) (c : WebTransformationMatrix) (sc : FloatPoint)
    (hx : sc.x ≠ 0) (hy : sc.y ≠ 0) :
    ((scaleContentToLayer layer (scaleLayerToContent layer c)).scaleNonUniform
        (1 / sc.x) (1 / sc.y)).multiply
      (scaleLayerToContent layer (WebTransformationMatrix.identity.scaleNonUniform sc.x sc.y))
      = scaleLayerToContent layer c := by
  unfold scaleContentToLayer scaleLayerToContent
  by_cases h : (!layer.contentBounds.isEmpty && !layer.bounds.isEmpty) = true
  · simp only [h, if_true]
    simp only [Bool.and_eq_true, Bool.not_eq_true'] at h
    obtain ⟨b1, b2⟩ := IntSize.width_pos_of_not_isEmpty h.2
    obtain ⟨c1, c2⟩ := IntSize.width_pos_of_not_isEmpty h.1
    simp only [WebTransformationMatrix.scaleNonUniform, WebTransformationMatrix.multiply_assoc,
      WebTransformationMatrix.identity_multiply, WebTransformationMatrix.scaling_multiply]
    congr 2 <;> field_simp
  · have h' : (!layer.contentBounds.isEmpty && !layer.bounds.isEmpty) = false := by
      simpa using h
    simp only [h', Bool.false_eq_true, if_false]
    simp only [WebTransformationMatrix.scaleNonUniform, WebTransformationMatrix.multiply_assoc,
      WebTransformationMatrix.identity_multiply, WebTransformationMatrix.scaling_multiply]
    rw [show 1 / sc.x * sc.x = 1 by field_simp, show 1 / sc.y * sc.y = 1 by field_simp,
      WebTransformationMatrix.scaling_one, WebTransformationMatrix.multiply_identity]

/-- C24. On the committed tree, let `C` be the running compensation of a layer:
the incoming compensation for a layer that is not a container for fixed-position
layers and the identity for a container, multiplied on the right by `P ·
Translate(scrollDelta) · P⁻¹` with `P = parentMatrix · implTransform` when the
scroll delta is not zero. For a layer that owns a render surface with draw
transform `D` and whose `C` is not the identity,
`computeScrollCompensationMatrixForChildren` returns `D⁻¹ · C · D`; for a layer
without a render surface it returns `C`. -/
theorem C24_scroll_compensation_across_surface (layer : LayerAttrs)
    (renderSurface : Option RenderSurface)
    (parentMatrix currentScrollCompensationMatrix : WebTransformationMatrix) :
    let P := parentMatrix.multiply layer.implTransform
    let start :=
      if layer.isContainerForFixedPositionLayers = true then WebTransformationMatrix.identity
      else currentScrollCompensationMatrix
    let C :=
      if layer.scrollDelta.width = 0 ∧ layer.scrollDelta.height = 0 then start
      else start.multiply
        ((P.multiply (WebTransformationMatrix.translation layer.scrollDelta.width
          layer.scrollDelta.height 0)).multiply P.inverse)
    (∀ rs, renderSurface = some rs → C ≠ WebTransformationMatrix.identity →
      computeScrollCompensationMatrixForChildren TreeKind.layerImpl layer renderSurface
          parentMatrix currentScrollCompensationMatrix
        = (rs.drawTransform.inverse.multiply C).multiply rs.drawTransform)
    ∧ (renderSurface = none →
      computeScrollCompensationMatrixForChildren TreeKind.layerImpl layer renderSurface
          parentMatrix currentScrollCompensationMatrix = C) := by
  intro P start C
  have hz : (layer.scrollDelta.width = 0 ∧ layer.scrollDelta.height = 0)
      ↔ layer.scrollDelta.isZero = true := by
    simp [FloatSize.isZero]
  have hC : C = (if layer.scrollDelta.isZero = true then
        (if layer.isContainerForFixedPositionLayers = true then WebTransformationMatrix.identity
          else currentScrollCompensationMatrix)
      else
        (if layer.isContainerForFixedPositionLayers = true then WebTransformationMatrix.identity
          else currentScrollCompensationMatrix).multiply
          (computeScrollCompensationForThisLayer layer parentMatrix)) := by
    simp only [C, start, P, hz]
    rfl
  clear_value C
  subst hC
  constructor
  · intro rs hrs hne
    subst hrs
    cases hc : layer.isContainerForFixedPositionLayers <;>
      cases hd : layer.scrollDelta.isZero <;>
      simp only [hc, hd, if_true, if_false, Bool.false_eq_true] at hne ⊢ <;>
      first
      | exact absurd rfl hne
      | simp [computeScrollCompensationMatrixForChildren, hc, hd,
          WebTransformationMatrix.isIdentity, hne]
  · intro hrs
    subst hrs
    cases hc : layer.isContainerForFixedPositionLayers <;>
      cases hd : layer.scrollDelta.isZero <;>
      simp [computeScrollCompensationMatrixForChildren, hc, hd]

/-- C25. On the main-thread tree, for device and page scale factors that are
not zero, `updateLayerContentsScale` sets the contents scale of the layer to
`rasterScale × deviceScaleFactor × pageFactor`, where `pageFactor` is the page
scale factor unless the bounds of the layer contain the page scale (then 1) and
`rasterScale` is the raster scale already set on the layer when that is not
zero, otherwise the larger of the 2D scale components of the combined transform
divided by the device scale factor and by `pageFactor` when the raster scale is
computed automatically (and this value is then stored as the raster scale of the
layer, the contents scale being that larger scale component), otherwise 1. The
same contents scale is set on the mask of the layer and on the mask of its
replica when they exist, and nothing else changes. On the committed tree the
state does not change. -/
theorem C25_contents_scale_of_live_layer (cfg : Config) (layer : LayerAttrs) (id : LayerId)
    (combinedTransform : WebTransformationMatrix) (s : State)
    (hdevice : cfg.deviceScaleFactor ≠ 0) (hpage : cfg.pageScaleFactor ≠ 0) :
    let preset := (s.layers id).rasterScale
    let scale2d := max (cfg.ext.computeTransform2dScaleComponents combinedTransform).x
      (cfg.ext.computeTransform2dScaleComponents combinedTransform).y
    let pageFactor := if layer.boundsContainPageScale = true then 1 else cfg.pageScaleFactor
    let rasterScale :=
      if preset ≠ 0 then preset
      else if layer.automaticallyComputeRasterScale = true then
        scale2d / cfg.deviceScaleFactor / pageFactor
      else 1
    let t := updateLayerContentsScale cfg layer id combinedTransform s
    (cfg.kind = TreeKind.layer →
      (t.layers id).contentsScale = rasterScale * cfg.deviceScaleFactor * pageFactor
      ∧ (preset = 0 → layer.automaticallyComputeRasterScale = true →
          (t.layers id).rasterScale = rasterScale ∧ (t.layers id).contentsScale = scale2d)
      ∧ (preset ≠ 0 ∨ layer.automaticallyComputeRasterScale = false →
          (t.layers id).rasterScale = preset)
      ∧ (t.layers id).maskContentsScale
          = (if layer.hasMaskLayer = true then (t.layers id).contentsScale
            else (s.layers id).maskContentsScale)
      ∧ (∀ replica, layer.replicaLayer = some replica →
          (t.layers id).replicaMaskContentsScale
            = (if replica.hasMaskLayer = true then (t.layers id).contentsScale
              else (s.layers id).replicaMaskContentsScale))
      ∧ (layer.replicaLayer = none →
          (t.layers id).replicaMaskContentsScale = (s.layers id).replicaMaskContentsScale)
      ∧ (∀ q, q ≠ id → t.layers q = s.layers q)
      ∧ t.renderSurfaceLayerList = s.renderSurfaceLayerList
      ∧ (t.layers id).renderSurface = (s.layers id).renderSurface
      ∧ (t.layers id).drawTransform = (s.layers id).drawTransform
      ∧ (t.layers id).drawOpacity = (s.layers id).drawOpacity)
    ∧ (cfg.kind = TreeKind.layerImpl → t = s) := by
  intro preset scale2d pageFactor rasterScale t
  constructor
  · intro hk
    have ht : t = updateLayerContentsScale cfg layer id combinedTransform s := rfl
    unfold updateLayerContentsScale at ht
    rw [hk] at ht
    simp only at ht
    refine ⟨?_, ?_, ?_, ?_, ?_, ?_, ?_, ?_, ?_, ?_, ?_⟩
    · rw [ht]
      simp only [State.modify_layers_self, rasterScale, pageFactor, preset, scale2d]
      by_cases h0 : (s.layers id).rasterScale = 0 <;>
        by_cases ha : layer.automaticallyComputeRasterScale = true <;>
        by_cases hb : layer.boundsContainPageScale = true <;>
        simp [h0, ha, hb]
    · intro h0 ha
      rw [ht]
      simp only [State.modify_layers_self, rasterScale, pageFactor, preset, scale2d]
      have h0' : (s.layers id).rasterScale = 0 := h0
      by_cases hb : layer.boundsContainPageScale = true
      · simp [h0', ha, hb]
        field_simp
      · simp [h0', ha, hb]
        field_simp
        ring
    · intro h
      rw [ht]
      simp only [State.modify_layers_self, preset]
      rcases h with h | h
      · have h' : ¬ (s.layers id).rasterScale = 0 := h
        simp [h']
      · simp [h]
    · rw [ht]
      try (by_cases hm : layer.hasMaskLayer = true <;> simp [hm])
    · intro replica hr
      rw [ht]
      try (by_cases hm : replica.hasMaskLayer = true <;> simp [hr, hm])
    · intro hr
      rw [ht]
      simp [hr]
    · intro q hq
      rw [ht]
      simp [hq]
    · rw [ht]
      simp
    · rw [ht]
      simp
    · rw [ht]
      simp
    · rw [ht]
      simp
  · intro hk
    show updateLayerContentsScale cfg layer id combinedTransform s = s
    unfold updateLayerContentsScale
    rw [hk]

set_option maxRecDepth 100000 in
/-- C25, witness: a layer without a raster scale of its own, whose raster scale
is computed automatically, under a combined transform that scales by 2 and a
device scale factor of 2: its raster scale becomes 1 and its contents scale
2. -/
theorem C25_contents_scale_of_live_layer_witness :
    ((updateLayerContentsScale { scenarioConfig TreeKind.layer with deviceScaleFactor := 2 }
        { scenarioChild with automaticallyComputeRasterScale := true } [0]
        (WebTransformationMatrix.scaling 2 2)
        (State.initial.modify [0] fun l => { l with rasterScale := 0 })).layers [0]).rasterScale
      = 1
    ∧ ((updateLayerContentsScale { scenarioConfig TreeKind.layer with deviceScaleFactor := 2 }
        { scenarioChild with automaticallyComputeRasterScale := true } [0]
        (WebTransformationMatrix.scaling 2 2)
        (State.initial.modify [0] fun l => { l with rasterScale := 0 })).layers [0]).contentsScale
      = 2 := by
  have h := ((C25_contents_scale_of_live_layer
    { scenarioConfig TreeKind.layer with deviceScaleFactor := 2 }
    { scenarioChild with automaticallyComputeRasterScale := true } [0]
    (WebTransformationMatrix.scaling 2 2)
    (State.initial.modify [0] fun l => { l with rasterScale := 0 })
    (by decide!) (by decide!)).1 rfl).2.1 (by decide!) rfl
  exact ⟨h.1.trans (by decide!), h.2.trans (by decide!)⟩

/-! ## The claim on the clip of a layer without a surface -/

/-- The locals of a visit that gives a layer other than the root no surface:
the rect of the layer in target space and the clip of the subtree. -/
theorem Call.locals_of_takesNoSurface {cfg : Config} {v : Call} (h : v.takesNoSurface cfg)
    (hid : v.id ≠ []) :
    (v.locals cfg).rectInTargetSpace
      = enclosingIntRect (cfg.ext.mapClippedRect
          (scaleLayerToContent v.layer (combinedTransformOf v.layer v.args))
          (FloatRect.ofSize v.layer.contentBounds))
    ∧ (v.locals cfg).subtreeShouldBeClipped
      = (layerClipsSubtree v.layer || v.args.ancestorClipsSubtree)
    ∧ (v.locals cfg).clipRectForSubtree
      = (if layerClipsSubtree v.layer = true then
          if v.args.ancestorClipsSubtree = true then
            v.args.clipRectFromAncestor.intersect (v.locals cfg).rectInTargetSpace
          else (v.locals cfg).rectInTargetSpace
        else if v.args.ancestorClipsSubtree = true then v.args.clipRectFromAncestor
        else IntRect.zero) := by
  obtain ⟨l1, l2, l3, _, _⟩ := childrenOf_locals cfg v.anc v.id v.layer v.args (v.branch cfg)
  obtain ⟨_, _, e3, e4, _⟩ := enterNoSurface_layers_self v.id v.args
    (scaleLayerToContent v.layer (combinedTransformOf v.layer v.args))
    (combinedTransformOf v.layer v.args)
    (accumulatedDrawOpacity v.anc.head? (v.s.layers v.id.tail) v.layer)
    (animatingTransforms v.anc.head? ((beginLayer cfg v.id v.layer v.args v.s).layers v.id.tail)
      v.layer)
    (beginLayer cfg v.id v.layer v.args v.s)
  obtain ⟨c1, c2⟩ := (noSurfaceBranch_clip cfg v.anc v.id v.layer v.args v.s).1 hid
  have hb := Call.branch_of_takesNoSurface h
  have hdt : ((v.branch cfg).state.layers v.id).drawTransform
      = scaleLayerToContent v.layer (combinedTransformOf v.layer v.args) := by
    rw [hb]; exact e3
  have hs : (v.branch cfg).state.surface v.id = none := by
    rw [hb]; exact (e4 hid).1
  refine ⟨?_, ?_, ?_⟩
  · rw [Call.locals, l1, hdt]
  · rw [Call.locals, l2, hb, c1]
  · simp only [Call.locals, l3, l1, hdt, hs, Option.isNone_none, Bool.and_true]
    rw [hb, c2]

/-- C22. For every layer other than the root that the walk visits without giving
it a render surface: when the layer does not clip its subtree, its children are
visited with the clip flag and the clip rect that the layer received; when it
clips its subtree (`masksToBounds` or a mask), its children are visited with the
clip flag set and with the clip rect of the ancestor intersected with the rect
of the layer in target space when the ancestor clips, the rect of the layer in
target space otherwise; every child of the layer is visited; and the drawable
content rect of the layer after the walk is its rect in target space
intersected with the clip rect given to the children when the layer or the
ancestor clips, its rect in target space otherwise. -/
theorem C22_clip_of_layer_without_surface (cfg : Config) (rootLayer : LayerType)
    (deviceViewportSize : IntSize) (s : State) (v : Call)
    (hv : WalkVisits cfg rootLayer deviceViewportSize s v)
    (hid : v.id ≠ [])
    (hpass : v.takesNoSurface cfg) :
    let rect := enclosingIntRect (cfg.ext.mapClippedRect
      (scaleLayerToContent v.layer (combinedTransformOf v.layer v.args))
      (FloatRect.ofSize v.layer.contentBounds))
    let clip :=
      if layerClipsSubtree v.layer = true then
        if v.args.ancestorClipsSubtree = true then v.args.clipRectFromAncestor.intersect rect
        else rect
      else v.args.clipRectFromAncestor
    (layerClipsSubtree v.layer = false → ∀ c : Call, c.IsChildOf cfg v →
      c.args.ancestorClipsSubtree = v.args.ancestorClipsSubtree
      ∧ c.args.clipRectFromAncestor = v.args.clipRectFromAncestor)
    ∧ (layerClipsSubtree v.layer = true → ∀ c : Call, c.IsChildOf cfg v →
      c.args.ancestorClipsSubtree = true
      ∧ c.args.clipRectFromAncestor
        = (if v.args.ancestorClipsSubtree = true then v.args.clipRectFromAncestor.intersect rect
          else rect))
    ∧ (∀ (j : Nat) (child : LayerAttrs) (grandchildren : List LayerType),
      v.children[j]? = some (.mk child grandchildren) →
      ∃ c, WalkVisits cfg rootLayer deviceViewportSize s c ∧ c.IsChildOf cfg v
        ∧ c.id = j :: v.id ∧ c.layer = child ∧ c.children = grandchildren)
    ∧ (layerClipsSubtree v.layer = true ∨ v.args.ancestorClipsSubtree = true →
      ((calculateDrawTransforms cfg rootLayer deviceViewportSize s).layers
        v.id).drawableContentRect = rect.intersect clip)
    ∧ (layerClipsSubtree v.layer = false → v.args.ancestorClipsSubtree = false →
      ((calculateDrawTransforms cfg rootLayer deviceViewportSize s).layers
        v.id).drawableContentRect = rect) := by
  intro rect clip
  obtain ⟨l1, l2, l3⟩ := Call.locals_of_takesNoSurface hpass hid
  rw [l1] at l3
  have hzero := (walkVisits_args cfg rootLayer deviceViewportSize s v hv).2.2
  have hclip : (v.locals cfg).clipRectForSubtree = clip := by
    rw [l3]
    simp only [clip, rect]
    by_cases h1 : layerClipsSubtree v.layer = true
    · simp only [h1, if_true]
    · by_cases h2 : v.args.ancestorClipsSubtree = true
      · simp only [h1, h2, if_true, if_false]
      · simp only [h1, h2, if_false]
        exact (hzero (by simpa using h2)).symm
  have hargs : ∀ c : Call, c.IsChildOf cfg v →
      c.args.ancestorClipsSubtree = (layerClipsSubtree v.layer || v.args.ancestorClipsSubtree)
      ∧ c.args.clipRectFromAncestor = clip := by
    rintro c ⟨loc, u0, j, he, _, _, _, ha⟩
    obtain ⟨hl, _⟩ := Call.locals_of_entered he
    subst hl
    rw [ha]
    exact ⟨l2, hclip⟩
  have hrest := (calculateDrawTransforms_rest cfg rootLayer deviceViewportSize s v
    hv).butSurface_fields.2.2.2.1
  have hd := (Call.result_rects (Or.inr hpass : v.takesSurface cfg ∨ v.takesNoSurface cfg)).1
  rw [l1, l2, hclip] at hd
  refine ⟨?_, ?_, ?_, ?_, ?_⟩
  · intro h1 c hc
    obtain ⟨a1, a2⟩ := hargs c hc
    refine ⟨by rw [a1, h1, Bool.false_or], ?_⟩
    rw [a2]
    simp only [clip, h1, Bool.false_eq_true, if_false]
  · intro h1 c hc
    obtain ⟨a1, a2⟩ := hargs c hc
    refine ⟨by rw [a1, h1, Bool.true_or], ?_⟩
    rw [a2]
    simp only [clip, h1, if_true]
  · exact fun j child gcs hj => walkVisits_child hv (Or.inr hpass) j child gcs hj
  · intro h
    rw [hrest, hd]
    have : (layerClipsSubtree v.layer || v.args.ancestorClipsSubtree) = true := by
      rcases h with h | h <;> simp [h]
    rw [if_pos this]
  · intro h1 h2
    rw [hrest, hd, h1, h2]
    simp

set_option maxRecDepth 100000 in
/-- C22, witness: the child of the root of `clipTree`, which masks to its bounds
and is visited without a clip of its ancestor: its drawable content rect is its
rect in target space. -/
theorem C22_clip_of_layer_without_surface_witness :
    ((calculateDrawTransforms (scenarioConfig TreeKind.layerImpl) clipTree ⟨100, 100⟩
        State.initial).layers [0]).drawableContentRect = ⟨10, 10, 50, 50⟩ :=
  ((C22_clip_of_layer_without_surface (scenarioConfig TreeKind.layerImpl) clipTree ⟨100, 100⟩
    State.initial
    ((rootCall (scenarioConfig TreeKind.layerImpl) clipTree ⟨100, 100⟩ State.initial).firstChild
      (scenarioConfig TreeKind.layerImpl) clippingChild [.mk wideLayer []])
    (walkVisits_firstChild _ _ _ _ _ _ _ (by decide!)) (by simp [Call.firstChild])
    (by decide!)).2.2.2.1 (Or.inl (by decide!))).trans (by decide!)

/-! ## The claim on the draw opacity of a layer without a surface -/

theorem Core.core_drawOpacityIsAnimating {a b : LayerState} (h : Core a b) :
    b.drawOpacityIsAnimating = a.drawOpacityIsAnimating := by
  have e : b.core = a.core := h
  have := congrArg LayerState.drawOpacityIsAnimating e
  simpa [LayerState.core] using this

theorem allOf_get (p : LayerAttrs → Prop) :
    ∀ (cs : List LayerType) (j : Nat) (t : LayerType), AllOf p cs → cs[j]? = some t → t.All p := by
  intro cs
  induction cs with
  | nil => intro j t _ h; simp at h
  | cons c cs ih =>
    intro j t hall h
    rw [AllOf] at hall
    cases j with
    | zero =>
      simp only [List.getElem?_cons_zero, Option.some.injEq] at h
      exact h ▸ hall.1
    | succ j =>
      simp only [List.getElem?_cons_succ] at h
      exact ih j t hall.2 h

theorem LayerType.all_mk (p : LayerAttrs → Prop) (a : LayerAttrs) (cs : List LayerType) :
    (LayerType.mk a cs).All p ↔ p a ∧ AllOf p cs := by
  rw [LayerType.All]

/-- Every call of a walk is a call on a layer of the tree: what holds of every
layer of the tree holds of the layer of the call. -/
theorem walkVisits_all {cfg : Config} {rootLayer : LayerType} {vp : IntSize} {s : State}
    (p : LayerAttrs → Prop) (hall : rootLayer.All p) (v : Call)
    (hv : WalkVisits cfg rootLayer vp s v) : (LayerType.mk v.layer v.children).All p := by
  refine walkVisits_induction (fun v => (LayerType.mk v.layer v.children).All p) ?_ ?_ v hv
  · simp only [rootCall, LayerType.mk_attrs_children]
    exact hall
  · rintro q c _ _ ⟨_, _, j, _, hj, _, _, _⟩ hq
    exact allOf_get p q.children j _ ((LayerType.all_mk p _ _).mp hq).2 hj

/-- The draw opacity that the branch without surface leaves on the layer when
the visit reaches the loop over the children. -/
theorem noSurfaceBranch_opacity (cfg : Config) (anc : List LayerAttrs) (id : LayerId)
    (layer : LayerAttrs) (args : WalkArgs) (s : State) :
    (((childrenOf cfg anc id layer args (noSurfaceBranch cfg anc id layer args s)).2).layers
        id).drawOpacity = (accumulatedDrawOpacity anc.head? (s.layers id.tail) layer).1
    ∧ (((childrenOf cfg anc id layer args (noSurfaceBranch cfg anc id layer args s)).2).layers
        id).drawOpacityIsAnimating
      = (accumulatedDrawOpacity anc.head? (s.layers id.tail) layer).2 := by
  have hf := ((childrenOf_step cfg anc id layer args
    (noSurfaceBranch cfg anc id layer args s)).frame id (fun h => h)).frame_butSurface
  obtain ⟨e1, e2, _⟩ := enterNoSurface_layers_self id args
    (scaleLayerToContent layer (combinedTransformOf layer args)) (combinedTransformOf layer args)
    (accumulatedDrawOpacity anc.head? (s.layers id.tail) layer)
    (animatingTransforms anc.head? ((beginLayer cfg id layer args s).layers id.tail) layer)
    (beginLayer cfg id layer args s)
  obtain ⟨_, f2, f3, _⟩ := hf.butSurface_fields
  exact ⟨f2.trans e1, f3.trans e2⟩

/-- The accumulated draw opacity of a visit depends on the state through the
draw opacity of the parent only. -/
theorem accumulatedDrawOpacity_eq (p : Option LayerAttrs) (l1 l2 : LayerState)
    (layer : LayerAttrs) (h1 : l1.drawOpacity = l2.drawOpacity)
    (h2 : l1.drawOpacityIsAnimating = l2.drawOpacityIsAnimating) :
    accumulatedDrawOpacity p l1 layer = accumulatedDrawOpacity p l2 layer := by
  unfold accumulatedDrawOpacity
  rw [h1, h2]

/-- The draw opacity that the walk leaves on the layer of a call that passes the
early returns, and on the surface of the layer when the walk keeps it. -/
theorem walkVisits_opacity {cfg : Config} {rootLayer : LayerType} {vp : IntSize} {s : State}
    {v : Call} (hv : WalkVisits cfg rootLayer vp s v) :
    (v.takesSurface cfg → ((calculateDrawTransforms cfg rootLayer vp s).layers v.id).drawOpacity = 1)
    ∧ (v.takesNoSurface cfg →
      ((calculateDrawTransforms cfg rootLayer vp s).layers v.id).drawOpacity
        = (accumulatedDrawOpacity v.anc.head?
            ((calculateDrawTransforms cfg rootLayer vp s).layers v.id.tail) v.layer).1
      ∧ ((calculateDrawTransforms cfg rootLayer vp s).layers v.id).drawOpacityIsAnimating
        = (accumulatedDrawOpacity v.anc.head?
            ((calculateDrawTransforms cfg rootLayer vp s).layers v.id.tail) v.layer).2)
    ∧ (v.takesSurface cfg → ∀ rs, (v.atLoop cfg).surface v.id = some rs →
        rs.drawOpacity = (accumulatedDrawOpacity v.anc.head?
            ((calculateDrawTransforms cfg rootLayer vp s).layers v.id.tail) v.layer).1)
    ∧ (v.takesSurface cfg ∨ v.takesNoSurface cfg → v.id ≠ [] →
      ∀ rs, (calculateDrawTransforms cfg rootLayer vp s).surface v.id = some rs →
        rs.drawOpacity = (accumulatedDrawOpacity v.anc.head?
            ((calculateDrawTransforms cfg rootLayer vp s).layers v.id.tail) v.layer).1) := by
  obtain ⟨new, _, _, c⟩ := calculateDrawTransforms_post cfg rootLayer vp s
  have hacc : v.takesSurface cfg ∨ v.takesNoSurface cfg →
      accumulatedDrawOpacity v.anc.head? (v.s.layers v.id.tail) v.layer
      = accumulatedDrawOpacity v.anc.head?
          ((calculateDrawTransforms cfg rootLayer vp s).layers v.id.tail) v.layer := by
    intro ht
    by_cases hid : v.id = []
    · have hl := (walkVisits_args cfg rootLayer vp s v hv).1
      rw [hid] at hl
      have hanc : v.anc = [] := List.length_eq_zero.mp hl
      simp [accumulatedDrawOpacity, hanc]
    · have hc := ((c v hv).1 _ _ (Call.entered_eq_locals ht)).2.1 hid
      exact accumulatedDrawOpacity_eq _ _ _ _ hc.core_drawOpacity.symm
        hc.core_drawOpacityIsAnimating.symm
  refine ⟨?_, ?_, ?_, ?_⟩
  · intro ht
    obtain ⟨r1, _⟩ := (c v hv).1 _ _ (Call.entered_of_takesSurface ht)
    exact r1.core_drawOpacity.trans (surfaceBranch_self cfg v.anc v.id v.layer v.args v.s).1
  · intro ht
    obtain ⟨r1, _⟩ := (c v hv).1 _ _ (Call.entered_of_takesNoSurface ht)
    obtain ⟨o1, o2⟩ := noSurfaceBranch_opacity cfg v.anc v.id v.layer v.args v.s
    rw [← hacc (Or.inr ht)]
    exact ⟨r1.core_drawOpacity.trans o1, r1.core_drawOpacityIsAnimating.trans o2⟩
  · intro ht rs hrs
    obtain ⟨_, _, rs0, hrs0, d3⟩ := surfaceBranch_self cfg v.anc v.id v.layer v.args v.s
    rw [Call.atLoop, Call.branch_of_takesSurface ht] at hrs
    have e01 : rs = rs0 := Option.some.inj (hrs.symm.trans hrs0)
    subst e01
    rw [d3, hacc (Or.inl ht)]
  · intro ht hid rs hrs
    obtain ⟨_, _, _, f2⟩ := (c v hv).1 _ _ (Call.entered_eq_locals ht)
    obtain ⟨hrend, _, _, _, rs1, hrs1, e1, _, _⟩ := f2 hid rs hrs
    have hts : v.takesSurface cfg := by
      rcases ht with ht | ht
      · exact ht
      · rw [ht.2] at hrend
        cases hrend
    obtain ⟨_, _, rs0, hrs0, d3⟩ := surfaceBranch_self cfg v.anc v.id v.layer v.args v.s
    rw [Call.atLoop, Call.branch_of_takesSurface hts] at hrs1
    have e01 : rs1 = rs0 := Option.some.inj (hrs1.symm.trans hrs0)
    subst e01
    rw [e1, d3, hacc ht]

/-- When the opacity of every layer of the tree lies in [0, 1], the accumulated
draw opacity of every call of a walk that passes the early returns and the draw
opacity that the walk leaves on its layer lie in [0, 1]. -/
theorem walkVisits_opacity_bounds {cfg : Config} {rootLayer : LayerType} {vp : IntSize}
    {s : State} (hall : rootLayer.All fun a => 0 ≤ a.opacity ∧ a.opacity ≤ 1) (w : Call)
    (hw : WalkVisits cfg rootLayer vp s w) :
    w.takesSurface cfg ∨ w.takesNoSurface cfg →
      (0 ≤ (accumulatedDrawOpacity w.anc.head?
          ((calculateDrawTransforms cfg rootLayer vp s).layers w.id.tail) w.layer).1
        ∧ (accumulatedDrawOpacity w.anc.head?
          ((calculateDrawTransforms cfg rootLayer vp s).layers w.id.tail) w.layer).1 ≤ 1)
      ∧ 0 ≤ ((calculateDrawTransforms cfg rootLayer vp s).layers w.id).drawOpacity
      ∧ ((calculateDrawTransforms cfg rootLayer vp s).layers w.id).drawOpacity ≤ 1 := by
  have hlayer : ∀ u, WalkVisits cfg rootLayer vp s u →
      (u.takesSurface cfg ∨ u.takesNoSurface cfg) →
      (0 ≤ (accumulatedDrawOpacity u.anc.head?
          ((calculateDrawTransforms cfg rootLayer vp s).layers u.id.tail) u.layer).1
        ∧ (accumulatedDrawOpacity u.anc.head?
          ((calculateDrawTransforms cfg rootLayer vp s).layers u.id.tail) u.layer).1 ≤ 1) →
      0 ≤ ((calculateDrawTransforms cfg rootLayer vp s).layers u.id).drawOpacity
      ∧ ((calculateDrawTransforms cfg rootLayer vp s).layers u.id).drawOpacity ≤ 1 := by
    intro u hu ht hb
    obtain ⟨o1, o2, _, _⟩ := walkVisits_opacity hu
    rcases ht with ht | ht
    · rw [o1 ht]
      exact ⟨zero_le_one, le_refl _⟩
    · rw [(o2 ht).1]
      exact hb
  have hacc : ∀ u, WalkVisits cfg rootLayer vp s u →
      (u.takesSurface cfg ∨ u.takesNoSurface cfg) →
      0 ≤ (accumulatedDrawOpacity u.anc.head?
          ((calculateDrawTransforms cfg rootLayer vp s).layers u.id.tail) u.layer).1
        ∧ (accumulatedDrawOpacity u.anc.head?
          ((calculateDrawTransforms cfg rootLayer vp s).layers u.id.tail) u.layer).1 ≤ 1 := by
    intro u hu
    refine walkVisits_induction
      (fun u => (u.takesSurface cfg ∨ u.takesNoSurface cfg) →
        0 ≤ (accumulatedDrawOpacity u.anc.head?
            ((calculateDrawTransforms cfg rootLayer vp s).layers u.id.tail) u.layer).1
          ∧ (accumulatedDrawOpacity u.anc.head?
            ((calculateDrawTransforms cfg rootLayer vp s).layers u.id.tail) u.layer).1 ≤ 1)
      ?_ ?_ u hu
    · intro _
      have h0 := ((LayerType.all_mk _ _ _).mp
        (walkVisits_all _ hall _ (walkVisits_rootCall cfg rootLayer vp s))).1
      simpa [accumulatedDrawOpacity, rootCall] using h0
    · intro q c hq hc hchild hP _
      have hchild' := hchild
      obtain ⟨loc, u0, j, he, _, hanc, hid, _⟩ := hchild'
      have hqt := Call.takes_of_entered he
      obtain ⟨q0, q1⟩ := hlayer q hq hqt (hP hqt)
      obtain ⟨c0, c1⟩ := ((LayerType.all_mk _ _ _).mp (walkVisits_all _ hall c hc)).1
      rw [hanc, hid]
      simp only [accumulatedDrawOpacity, List.head?_cons, List.tail_cons]
      by_cases h3 : q.layer.preserves3D = true
      · simp only [h3, if_true]
        exact ⟨mul_nonneg c0 q0, mul_le_one₀ c1 q0 q1⟩
      · simp only [h3, if_false]
        exact ⟨c0, c1⟩
  intro ht
  exact ⟨hacc w hw ht, hlayer w hw ht (hacc w hw ht)⟩

/-- C26. For every layer that the walk visits without giving it a render
surface: when the layer has a parent that preserves 3D, its draw opacity after
the walk is its opacity times the draw opacity of the parent and its draw opacity
is animating when its opacity or the draw opacity of the parent is; otherwise its
draw opacity is its own opacity and its draw opacity is animating when its
opacity is. When the opacity of every layer of the tree lies in [0, 1], every
draw opacity that the walk writes lies in [0, 1]: the one on the layer of a
visit that passes the early returns, the one on the render surface that such a
visit creates, and the one on a render surface that the walk keeps. -/
theorem C26_draw_opacity_without_surface (cfg : Config) (rootLayer : LayerType)
    (deviceViewportSize : IntSize) (s : State) (v : Call)
    (hv : WalkVisits cfg rootLayer deviceViewportSize s v)
    (hpass : v.takesNoSurface cfg) :
    (∀ p, v.anc.head? = some p → p.preserves3D = true →
      ((calculateDrawTransforms cfg rootLayer deviceViewportSize s).layers v.id).drawOpacity
        = v.layer.opacity
          * ((calculateDrawTransforms cfg rootLayer deviceViewportSize s).layers
              v.id.tail).drawOpacity
      ∧ ((calculateDrawTransforms cfg rootLayer deviceViewportSize s).layers
          v.id).drawOpacityIsAnimating
        = (v.layer.opacityIsAnimating
          || ((calculateDrawTransforms cfg rootLayer deviceViewportSize s).layers
              v.id.tail).drawOpacityIsAnimating))
    ∧ ((v.anc.head? = none ∨ ∃ p, v.anc.head? = some p ∧ p.preserves3D = false) →
      ((calculateDrawTransforms cfg rootLayer deviceViewportSize s).layers v.id).drawOpacity
        = v.layer.opacity
      ∧ ((calculateDrawTransforms cfg rootLayer deviceViewportSize s).layers
          v.id).drawOpacityIsAnimating = v.layer.opacityIsAnimating)
    ∧ ((rootLayer.All fun a => 0 ≤ a.opacity ∧ a.opacity ≤ 1) →
      ∀ w, WalkVisits cfg rootLayer deviceViewportSize s w →
        w.takesSurface cfg ∨ w.takesNoSurface cfg →
        (0 ≤ ((calculateDrawTransforms cfg rootLayer deviceViewportSize s).layers
            w.id).drawOpacity
          ∧ ((calculateDrawTransforms cfg rootLayer deviceViewportSize s).layers
            w.id).drawOpacity ≤ 1)
        ∧ (w.takesSurface cfg → ∀ rs, (w.atLoop cfg).surface w.id = some rs →
          0 ≤ rs.drawOpacity ∧ rs.drawOpacity ≤ 1)
        ∧ (w.id ≠ [] → ∀ rs,
          (calculateDrawTransforms cfg rootLayer deviceViewportSize s).surface w.id = some rs →
          0 ≤ rs.drawOpacity ∧ rs.drawOpacity ≤ 1)) := by
  obtain ⟨_, o2, _, _⟩ := walkVisits_opacity hv
  obtain ⟨e1, e2⟩ := o2 hpass
  refine ⟨?_, ?_, ?_⟩
  · intro p hp h3
    rw [e1, e2]
    simp [accumulatedDrawOpacity, hp, h3]
  · intro h
    rw [e1, e2]
    rcases h with h | ⟨p, hp, h3⟩
    · simp [accumulatedDrawOpacity, h]
    · simp [accumulatedDrawOpacity, hp, h3]
  · intro hall w hw ht
    obtain ⟨hb, h0, h1⟩ := walkVisits_opacity_bounds hall w hw ht
    refine ⟨⟨h0, h1⟩, fun hts rs hrs => ?_, fun hid rs hrs => ?_⟩
    · rw [(walkVisits_opacity hw).2.2.1 hts rs hrs]
      exact hb
    · rw [(walkVisits_opacity hw).2.2.2 ht hid rs hrs]
      exact hb

set_option maxRecDepth 100000 in
/-- C26, witness: the root of `opacityTree3d`, which has no parent and opacity
1/2: its draw opacity after the walk is its own opacity, and it is not
negative. -/
theorem C26_draw_opacity_without_surface_witness :
    ((calculateDrawTransforms (scenarioConfig TreeKind.layerImpl) opacityTree3d ⟨100, 100⟩
        State.initial).layers []).drawOpacity = 1 / 2
    ∧ 0 ≤ ((calculateDrawTransforms (scenarioConfig TreeKind.layerImpl) opacityTree3d ⟨100, 100⟩
        State.initial).layers []).drawOpacity := by
  have h := C26_draw_opacity_without_surface (scenarioConfig TreeKind.layerImpl) opacityTree3d
    ⟨100, 100⟩ State.initial
    (rootCall (scenarioConfig TreeKind.layerImpl) opacityTree3d ⟨100, 100⟩ State.initial)
    (walkVisits_rootCall _ _ _ _) (by decide!)
  have hall : opacityTree3d.All fun a => 0 ≤ a.opacity ∧ a.opacity ≤ 1 := by
    simp only [opacityTree3d, LayerType.All, AllOf, halfOpaqueChild, scenarioChild, scenarioRoot,
      LayerAttrs.blank]
    norm_num
  exact ⟨(h.2.1 (Or.inl rfl)).1,
    (h.2.2 hall _ (walkVisits_rootCall _ _ _ _) (Or.inr (by decide!))).1.1⟩

/-! ## The claim on the visible content rect -/

theorem IntRect.within_refl (r : IntRect) : r.Within r :=
  fun _ _ h1 h2 h3 h4 => ⟨h1, h2, h3, h4⟩

theorem IntRect.within_of_isEmpty {r : IntRect} (h : r.isEmpty = true) (bound : IntRect) :
    r.Within bound := by
  intro x y h1 h2 h3 h4
  simp only [IntRect.isEmpty, Bool.or_eq_true, decide_eq_true_eq] at h
  simp only [IntRect.maxX, IntRect.maxY] at h2 h4
  rcases h with h | h <;> omega

theorem IntRect.within_of_contains {r bound : IntRect} (h : bound.contains r = true) :
    r.Within bound := by
  intro x y h1 h2 h3 h4
  simp only [IntRect.contains, Bool.and_eq_true, decide_eq_true_eq] at h
  obtain ⟨⟨⟨a, b⟩, c⟩, d⟩ := h
  exact ⟨by omega, by omega, by omega, by omega⟩

/-- The intersection of two rects is empty or a rect whose edges lie between
the edges of the second. -/
theorem IntRect.intersect_spec (a b : IntRect) :
    (a.intersect b).isEmpty = true ∨ b.contains (a.intersect b) = true := by
  unfold IntRect.intersect
  simp only
  split_ifs with h
  · exact Or.inl IntRect.isEmpty_zero
  · right
    simp only [IntRect.contains, IntRect.maxX, IntRect.maxY, Bool.and_eq_true, decide_eq_true_eq]
    refine ⟨⟨⟨le_max_right _ _, ?_⟩, le_max_right _ _⟩, ?_⟩
    · have := min_le_right (a.x + a.width) (b.x + b.width)
      omega
    · have := min_le_right (a.y + a.height) (b.y + b.height)
      omega

theorem IntRect.intersect_within (a b : IntRect) : (a.intersect b).Within b := by
  rcases IntRect.intersect_spec a b with h | h
  · exact IntRect.within_of_isEmpty h b
  · exact IntRect.within_of_contains h

theorem IntRect.contains_self (r : IntRect) : r.contains r = true := by
  simp [IntRect.contains]

/-- The rect that `calculateVisibleRect` returns is the layer bound rect or the
intersection of a rect with the layer bound rect. -/
theorem calculateVisibleRect_spec (c : Collaborators) (targetSurfaceRect layerBoundRect : IntRect)
    (transform : WebTransformationMatrix) :
    (calculateVisibleRect c targetSurfaceRect layerBoundRect transform).Within layerBoundRect
    ∧ ((calculateVisibleRect c targetSurfaceRect layerBoundRect transform).isEmpty = true
      ∨ layerBoundRect.contains
          (calculateVisibleRect c targetSurfaceRect layerBoundRect transform) = true)
    ∧ (targetSurfaceRect.contains (c.mapClippedIntRect transform layerBoundRect) = true →
      calculateVisibleRect c targetSurfaceRect layerBoundRect transform = layerBoundRect) := by
  unfold calculateVisibleRect
  simp only
  split_ifs with h
  · exact ⟨IntRect.within_refl _, Or.inr (IntRect.contains_self _), fun _ => rfl⟩
  · exact ⟨IntRect.intersect_within _ _, IntRect.intersect_spec _ _, fun h' => absurd h' h⟩

/-- The rect that `calculateVisibleContentRect` returns lies in the content
rect of the layer, and is the zero rect when the layer does not draw content or
has empty content bounds or an empty drawable content rect. -/
theorem calculateVisibleContentRect_spec (c : Collaborators) (layer : LayerAttrs) (id : LayerId)
    (s : State) :
    (calculateVisibleContentRect c layer id s).Within (IntRect.ofSize layer.contentBounds)
    ∧ ((calculateVisibleContentRect c layer id s).isEmpty = true
      ∨ (IntRect.ofSize layer.contentBounds).contains (calculateVisibleContentRect c layer id s)
        = true)
    ∧ (layer.drawsContent = false ∨ layer.contentBounds.isEmpty = true
        ∨ (s.layers id).drawableContentRect.isEmpty = true →
      calculateVisibleContentRect c layer id s = IntRect.zero) := by
  have key : ∀ tgt : IntRect,
      ((if tgt.isEmpty = true then IntRect.zero
        else calculateVisibleRect c tgt (IntRect.ofSize layer.contentBounds)
          (s.layers id).drawTransform).Within (IntRect.ofSize layer.contentBounds))
      ∧ ((if tgt.isEmpty = true then IntRect.zero
          else calculateVisibleRect c tgt (IntRect.ofSize layer.contentBounds)
            (s.layers id).drawTransform).isEmpty = true
        ∨ (IntRect.ofSize layer.contentBounds).contains
            (if tgt.isEmpty = true then IntRect.zero
              else calculateVisibleRect c tgt (IntRect.ofSize layer.contentBounds)
                (s.layers id).drawTransform) = true) := by
    intro tgt
    by_cases h2 : tgt.isEmpty = true
    · rw [if_pos h2]
      exact ⟨IntRect.within_of_isEmpty IntRect.isEmpty_zero _, Or.inl IntRect.isEmpty_zero⟩
    · rw [if_neg h2]
      obtain ⟨g1, g2, _⟩ := calculateVisibleRect_spec c tgt (IntRect.ofSize layer.contentBounds)
        (s.layers id).drawTransform
      exact ⟨g1, g2⟩
  unfold calculateVisibleContentRect
  simp only
  by_cases h1 : (!layer.drawsContent || layer.contentBounds.isEmpty
      || (s.layers id).drawableContentRect.isEmpty) = true
  · rw [if_pos h1]
    exact ⟨IntRect.within_of_isEmpty IntRect.isEmpty_zero _, Or.inl IntRect.isEmpty_zero,
      fun _ => rfl⟩
  · rw [if_neg h1]
    refine ⟨(key _).1, (key _).2, fun h => ?_⟩
    exfalso
    apply h1
    rcases h with h | h | h <;> simp [h]

/-- C29. For every target surface rect, layer bound rect and transform, with or
without an inverse, every point of the rect that `calculateVisibleRect` returns
is a point of the layer bound rect (the rect is empty or its edges lie between
those of the layer bound rect), and the rect is the whole layer bound rect when
the target surface rect contains the layer bound rect mapped through the
transform. Hence the visible content rect that the walk leaves on the layer of
every visit that passes the early returns is empty or lies in the rect
`(0, 0, contentBounds)`, and it is empty when the layer does not draw content,
has empty content bounds or has an empty drawable content rect. -/
theorem C29_visible_rect_within_layer_bounds (c : Collaborators)
    (targetSurfaceRect layerBoundRect : IntRect) (transform : WebTransformationMatrix)
    (cfg : Config) (rootLayer : LayerType) (deviceViewportSize : IntSize) (s : State) (v : Call)
    (hv : WalkVisits cfg rootLayer deviceViewportSize s v)
    (hpass : v.takesSurface cfg ∨ v.takesNoSurface cfg) :
    (calculateVisibleRect c targetSurfaceRect layerBoundRect transform).Within layerBoundRect
    ∧ ((calculateVisibleRect c targetSurfaceRect layerBoundRect transform).isEmpty = true
      ∨ layerBoundRect.contains
          (calculateVisibleRect c targetSurfaceRect layerBoundRect transform) = true)
    ∧ (targetSurfaceRect.contains (c.mapClippedIntRect transform layerBoundRect) = true →
      calculateVisibleRect c targetSurfaceRect layerBoundRect transform = layerBoundRect)
    ∧ ((calculateDrawTransforms cfg rootLayer deviceViewportSize s).layers
        v.id).visibleContentRect.Within (IntRect.ofSize v.layer.contentBounds)
    ∧ (((calculateDrawTransforms cfg rootLayer deviceViewportSize s).layers
        v.id).visibleContentRect.isEmpty = true
      ∨ (IntRect.ofSize v.layer.contentBounds).contains
          ((calculateDrawTransforms cfg rootLayer deviceViewportSize s).layers
            v.id).visibleContentRect = true)
    ∧ (v.layer.drawsContent = false ∨ v.layer.contentBounds.isEmpty = true
        ∨ ((calculateDrawTransforms cfg rootLayer deviceViewportSize s).layers
            v.id).drawableContentRect.isEmpty = true →
      ((calculateDrawTransforms cfg rootLayer deviceViewportSize s).layers
        v.id).visibleContentRect.isEmpty = true) := by
  obtain ⟨a1, a2, a3⟩ := calculateVisibleRect_spec c targetSurfaceRect layerBoundRect transform
  obtain ⟨_, _, _, f4, f5, _⟩ :=
    (calculateDrawTransforms_rest cfg rootLayer deviceViewportSize s v hv).butSurface_fields
  obtain ⟨r1, r2⟩ := Call.result_rects hpass
  obtain ⟨b1, b2, b3⟩ := calculateVisibleContentRect_spec cfg.ext v.layer v.id
    ((v.afterChildren cfg).2.modify v.id fun l =>
      { l with
        drawableContentRect :=
          if (v.locals cfg).subtreeShouldBeClipped = true then
            (v.locals cfg).rectInTargetSpace.intersect (v.locals cfg).clipRectForSubtree
          else (v.locals cfg).rectInTargetSpace })
  rw [← r2, ← f5] at b1 b2 b3
  refine ⟨a1, a2, a3, b1, b2, fun h => ?_⟩
  rw [b3 ?_]
  · exact IntRect.isEmpty_zero
  · rcases h with h | h | h
    · exact Or.inl h
    · exact Or.inr (Or.inl h)
    · refine Or.inr (Or.inr ?_)
      rw [f4, r1] at h
      simpa using h

set_option maxRecDepth 100000 in
/-- C29, witness: the child of `scenarioTree`, of 50×50, and a transform without
inverse in `calculateVisibleRect`. -/
theorem C29_visible_rect_within_layer_bounds_witness :
    (calculateVisibleRect planarCollaborators ⟨0, 0, 100, 100⟩ ⟨0, 0, 10, 10⟩
        (WebTransformationMatrix.scaling 0 0)).Within ⟨0, 0, 10, 10⟩
    ∧ ((calculateDrawTransforms (scenarioConfig TreeKind.layerImpl) scenarioTree ⟨100, 100⟩
        State.initial).layers [0]).visibleContentRect.Within (IntRect.ofSize ⟨50, 50⟩) := by
  have h := C29_visible_rect_within_layer_bounds planarCollaborators ⟨0, 0, 100, 100⟩
    ⟨0, 0, 10, 10⟩ (WebTransformationMatrix.scaling 0 0)
    (scenarioConfig TreeKind.layerImpl) scenarioTree ⟨100, 100⟩ State.initial
    ((rootCall (scenarioConfig TreeKind.layerImpl) scenarioTree ⟨100, 100⟩
      State.initial).firstChild (scenarioConfig TreeKind.layerImpl) scenarioChild [])
    (walkVisits_firstChild _ _ _ _ _ _ _ (by decide!)) (Or.inr (by decide!))
  exact ⟨h.1, h.2.2.2.1⟩

/-! ## The claim on the removal of an empty surface -/

/-- The render-surface layer list and the surface of the layer when a call that
gives its layer a render surface leaves the loop over the children: the list of
the start of the visit, the layer, and entries of the subtrees of the
children. -/
theorem Call.afterChildren_of_takesSurface {cfg : Config} {v : Call} (h : v.takesSurface cfg) :
    ((v.afterChildren cfg).2.surface v.id).isSome = true
    ∧ ∃ appended, (v.afterChildren cfg).2.renderSurfaceLayerList
        = v.s.renderSurfaceLayerList ++ v.id :: appended
      ∧ ∀ q ∈ appended, InChildren v.id 0 q := by
  have hb := Call.branch_of_takesSurface h
  obtain ⟨_, _, rs0, hrs0, _⟩ := surfaceBranch_self cfg v.anc v.id v.layer v.args v.s
  obtain ⟨newc, hcs, hin⟩ := children_step v.children v.id cfg (v.layer :: v.anc) 0
    (v.locals cfg).childArgs IntRect.zero (v.atLoop cfg)
  constructor
  · have hf := (hcs.frame v.id (fun hq => hq.inChildren_ne rfl)).frame_surface_isSome
    simp only [State.surface, Call.afterChildren]
    rw [hf]
    simp only [Call.atLoop, hb]
    simp only [State.surface] at hrs0
    rw [hrs0]
    rfl
  · refine ⟨newc, ?_, hin⟩
    have h1 := hcs.rsll
    rw [Call.afterChildren, h1, Call.atLoop, hb,
      (childrenOf_step cfg v.anc v.id v.layer v.args _).rsll,
      (surfaceBranch_step cfg v.anc v.id v.layer v.args v.s).rsll]
    simp

/-- C27. For every visit of a layer other than the root that gives the layer a
render surface whose layer list is empty when the visit tests it: the
render-surface layer list at the test is the list of the start of the visit,
the layer, and the layers appended during the visits of its children; after the
visit the list is the list of the start of the visit, neither the layer nor any
of the layers that were popped owns a render surface, and the visit returns the
empty rect as `drawableContentRectOfSubtree`, so that the loop of the parent
does not append the layer to its `descendants`. -/
theorem C27_empty_surface_is_unwound (cfg : Config) (v : Call)
    (hid : v.id ≠ [])
    (hpass : v.takesSurface cfg)
    (hempty : (v.atListTest cfg).layerListOf v.id = []) :
    ∃ appended,
      (v.atListTest cfg).renderSurfaceLayerList
          = v.s.renderSurfaceLayerList ++ v.id :: appended
      ∧ (∀ q ∈ appended, InChildren v.id 0 q)
      ∧ (v.result cfg).2.renderSurfaceLayerList = v.s.renderSurfaceLayerList
      ∧ (v.result cfg).2.surface v.id = none
      ∧ (∀ q ∈ appended, (v.result cfg).2.surface q = none)
      ∧ (v.result cfg).1 = IntRect.zero
      ∧ (v.result cfg).1.isEmpty = true
      ∧ ∀ args : WalkArgs, appendChildSurface args v.id (v.result cfg) = (v.result cfg).2 := by
  obtain ⟨hsome, appended, hrsll, hin⟩ := Call.afterChildren_of_takesSurface hpass
  have hres := Call.result_eq (Or.inl hpass : v.takesSurface cfg ∨ v.takesNoSurface cfg)
  have htest : (v.atListTest cfg).renderSurfaceLayerList
      = v.s.renderSurfaceLayerList ++ v.id :: appended := by
    rw [Call.atListTest, finishSurface_rsll, setContentRects_rsll, hrsll]
  have hnot : v.id ∉ appended := fun hm => (hin v.id hm).inChildren_ne rfl
  obtain ⟨p1, p2⟩ := removeEmptySurface_spec v.id (v.atListTest cfg) _ appended htest hnot
  have hr : v.result cfg = (IntRect.zero, removeEmptySurface v.id (v.atListTest cfg)) := by
    rw [hres]
    rcases finishLayer_cases cfg v.anc v.id v.layer v.args (v.locals cfg)
      (v.afterChildren cfg).1 (v.afterChildren cfg).2 with
      ⟨_, _, _, hf⟩ | ⟨_, _, hne, _⟩ | ⟨hn, _⟩
    · exact hf
    · exact absurd hempty hne
    · rcases hn with hn | hn
      · rw [hsome] at hn
        cases hn
      · exact absurd hn hid
  refine ⟨appended, htest, hin, ?_, ?_, ?_, ?_, ?_, ?_⟩
  · rw [hr]
    exact p1
  · rw [hr]
    simp only [State.surface, p2 v.id, true_or, if_true]
    rfl
  · intro q hq
    rw [hr]
    simp only [State.surface, p2 q, hq, or_true, if_true]
    rfl
  · rw [hr]
  · rw [hr]
    exact IntRect.isEmpty_zero
  · intro args
    rw [hr]
    simp [appendChildSurface, IntRect.isEmpty_zero]

set_option maxRecDepth 100000 in
/-- C27, witness: the child of the root of `emptySurfaceTree`, which forces a
render surface and draws nothing. -/
theorem C27_empty_surface_is_unwound_witness :
    (((rootCall (scenarioConfig TreeKind.layerImpl) emptySurfaceTree ⟨100, 100⟩
        State.initial).firstChild (scenarioConfig TreeKind.layerImpl) emptySurfaceLayer
        []).result (scenarioConfig TreeKind.layerImpl)).2.renderSurfaceLayerList = [[]]
    ∧ (((rootCall (scenarioConfig TreeKind.layerImpl) emptySurfaceTree ⟨100, 100⟩
        State.initial).firstChild (scenarioConfig TreeKind.layerImpl) emptySurfaceLayer
        []).result (scenarioConfig TreeKind.layerImpl)).2.surface [0] = none := by
  obtain ⟨_, _, _, h3, h4, _⟩ := C27_empty_surface_is_unwound
    (scenarioConfig TreeKind.layerImpl)
    ((rootCall (scenarioConfig TreeKind.layerImpl) emptySurfaceTree ⟨100, 100⟩
      State.initial).firstChild (scenarioConfig TreeKind.layerImpl) emptySurfaceLayer [])
    (by simp [Call.firstChild]) (by decide!) (by decide!)
  exact ⟨h3.trans (by decide!), h4⟩

/-! ## The claim on the rect that a visit returns -/

/-- The two ways in which the visit of a call that passes the early returns
ends: with the removal of the empty surface of the layer, or with the
statements from the test of the size of `descendants` on. -/
theorem Call.result_cases {cfg : Config} {v : Call}
    (h : v.takesSurface cfg ∨ v.takesNoSurface cfg) :
    (v.removesSurface cfg →
      v.result cfg = (IntRect.zero, removeEmptySurface v.id (v.atListTest cfg)))
    ∧ (¬ v.removesSurface cfg →
      v.result cfg = finishDescendants cfg v.anc v.id v.layer (v.locals cfg) (v.localRect cfg)
        (v.atSizeTest cfg)) := by
  rw [Call.result_eq h]
  rcases finishLayer_cases cfg v.anc v.id v.layer v.args (v.locals cfg)
    (v.afterChildren cfg).1 (v.afterChildren cfg).2 with
    ⟨h1, h2, h3, hf⟩ | ⟨h1, h2, h3, hf⟩ | ⟨hn, hf⟩
  · exact ⟨fun _ => hf, fun hr => absurd ⟨h1, h2, h3⟩ hr⟩
  · refine ⟨fun hr => absurd hr.2.2 h3, fun _ => ?_⟩
    rw [hf, Call.atSizeTest, h1]
    simp only [h2, ne_eq, not_false_eq_true, decide_True, Bool.and_self, if_true]
    rfl
  · refine ⟨fun hr => ?_, fun _ => ?_⟩
    · rcases hn with hn | hn
      · rw [hr.1] at hn
        cases hn
      · exact absurd hn hr.2.1
    · rw [hf, Call.atSizeTest]
      rcases hn with hn | hn
      · rw [hn]
        simp only [Bool.false_and, Bool.false_eq_true, if_false]
        rfl
      · simp only [hn, ne_eq, not_true_eq_false, decide_False, Bool.and_false,
          Bool.false_eq_true, if_false]
        rfl

theorem addContributing_surface_isSome (layer : LayerAttrs) (id : LayerId) (s : State)
    (q : LayerId) :
    ((addContributingDelegatedRenderPassLayer layer id s).surface q).isSome
      = (s.surface q).isSome := by
  exact (addContributing_frame layer id s q).frame_surface_isSome

/-- The accumulated rect of the loop over the children is the union of the
rects that the visits of the children return and that are not empty. -/
theorem visitChildren_fst (cfg : Config) (anc : List LayerAttrs) (pid : LayerId) :
    ∀ (children : List LayerType) (i : Nat) (args : WalkArgs) (acc : IntRect) (s : State),
      (visitChildren cfg anc pid children i args acc s).1
        = ((childRects cfg anc pid children i args s).filter fun r => !r.isEmpty).foldl
            IntRect.unite acc := by
  intro children
  induction children with
  | nil =>
    intro i args acc s
    rw [visitChildren, childRects]
    rfl
  | cons child rest ih =>
    intro i args acc s
    rw [visitChildren, childRects, ih]
    by_cases h : (calculateDrawTransformsInternal cfg anc (i :: pid) child args s).1.isEmpty = true
    · simp [List.filter, h]
    · simp [List.filter, h]

/-- A call that gives its layer a render surface records 0 as
`sortingStartIndex`, for the layer list of the new surface. -/
theorem Call.locals_of_takesSurface {cfg : Config} {v : Call} (h : v.takesSurface cfg) :
    (v.locals cfg).descendants = v.id ∧ (v.locals cfg).sortingStartIndex = 0 := by
  have hb := Call.branch_of_takesSurface h
  obtain ⟨_, _, _, l4, l5⟩ := childrenOf_locals cfg v.anc v.id v.layer v.args (v.branch cfg)
  obtain ⟨_, _, _, rs, hrs, hl, _⟩ := enterSurface_layers_self v.layer v.id v.args
    (scaleLayerToContent v.layer (combinedTransformOf v.layer v.args))
    (cfg.ext.computeTransform2dScaleComponents (combinedTransformOf v.layer v.args))
    (accumulatedDrawOpacity v.anc.head? (v.s.layers v.id.tail) v.layer)
    (animatingTransforms v.anc.head? ((beginLayer cfg v.id v.layer v.args v.s).layers v.id.tail)
      v.layer)
    (beginLayer cfg v.id v.layer v.args v.s)
  have hs : (v.branch cfg).state.surface v.id = some rs := by
    rw [hb]; exact hrs
  constructor
  · rw [Call.locals, l4, hs]
    rfl
  · rw [Call.locals, l5, hs]
    simp [State.layerListOf, hs, hl]

set_option maxRecDepth 100000 in
/-- C28, counterexample. The child of the root of `backFacingTree` draws content,
is not transparent, is given no render surface and owns none after its visit.
It shows its back face and is not double-sided, so it is not appended to
`descendants`; it has no children. Its locally accumulated rect is its rect in
target space, (10, 10, 50, 50), but its visit returns the empty rect. -/
theorem C28_counterexample_back_facing_layer :
    WalkVisits (scenarioConfig TreeKind.layerImpl) backFacingTree ⟨100, 100⟩ State.initial
      ((rootCall (scenarioConfig TreeKind.layerImpl) backFacingTree ⟨100, 100⟩
        State.initial).firstChild (scenarioConfig TreeKind.layerImpl) backFacingChild [])
    ∧ ((rootCall (scenarioConfig TreeKind.layerImpl) backFacingTree ⟨100, 100⟩
        State.initial).firstChild (scenarioConfig TreeKind.layerImpl) backFacingChild
        []).takesNoSurface (scenarioConfig TreeKind.layerImpl)
    ∧ ((((rootCall (scenarioConfig TreeKind.layerImpl) backFacingTree ⟨100, 100⟩
        State.initial).firstChild (scenarioConfig TreeKind.layerImpl) backFacingChild
        []).result (scenarioConfig TreeKind.layerImpl)).2.surface [0]).isSome = false
    ∧ ((rootCall (scenarioConfig TreeKind.layerImpl) backFacingTree ⟨100, 100⟩
        State.initial).firstChild (scenarioConfig TreeKind.layerImpl) backFacingChild
        []).localRect (scenarioConfig TreeKind.layerImpl) = ⟨10, 10, 50, 50⟩
    ∧ (((rootCall (scenarioConfig TreeKind.layerImpl) backFacingTree ⟨100, 100⟩
        State.initial).firstChild (scenarioConfig TreeKind.layerImpl) backFacingChild
        []).result (scenarioConfig TreeKind.layerImpl)).1 = IntRect.zero :=
  ⟨walkVisits_firstChild _ _ _ _ _ _ _ (by decide!), by decide!, by decide!, by decide!,
    by decide!⟩

/-- The rect that a visit that passes the early returns gives back. -/
theorem Call.result_rect (cfg : Config) (v : Call)
    (hpass : v.takesSurface cfg ∨ v.takesNoSurface cfg) :
    (v.removesSurface cfg → (v.result cfg).1 = IntRect.zero)
    ∧ (¬ v.removesSurface cfg → v.appendsNothing cfg → (v.result cfg).1 = IntRect.zero)
    ∧ (¬ v.removesSurface cfg → ¬ v.appendsNothing cfg →
      ((v.result cfg).2.surface v.id = none → (v.result cfg).1 = v.localRect cfg)
      ∧ (∀ rs, (v.atAssign cfg).surface v.id = some rs →
        (v.result cfg).1 = enclosingIntRect (cfg.ext.surfaceDrawableContentRect rs v.layer))
      ∧ ((v.result cfg).2.surface v.id).isSome = ((v.atAssign cfg).surface v.id).isSome)
    ∧ (v.takesSurface cfg → v.id ≠ [] → ¬ v.removesSurface cfg → ¬ v.appendsNothing cfg)
    ∧ v.localRect cfg
      = (if (v.locals cfg).subtreeShouldBeClipped = true then
          (if v.layer.drawsContent = true then
            (((childRects cfg (v.layer :: v.anc) v.id v.children 0 (v.locals cfg).childArgs
              (v.atLoop cfg)).filter fun r => !r.isEmpty).foldl IntRect.unite
              IntRect.zero).unite (v.locals cfg).rectInTargetSpace
          else ((childRects cfg (v.layer :: v.anc) v.id v.children 0 (v.locals cfg).childArgs
              (v.atLoop cfg)).filter fun r => !r.isEmpty).foldl IntRect.unite
              IntRect.zero).intersect (v.locals cfg).clipRectForSubtree
        else if v.layer.drawsContent = true then
          (((childRects cfg (v.layer :: v.anc) v.id v.children 0 (v.locals cfg).childArgs
            (v.atLoop cfg)).filter fun r => !r.isEmpty).foldl IntRect.unite
            IntRect.zero).unite (v.locals cfg).rectInTargetSpace
        else ((childRects cfg (v.layer :: v.anc) v.id v.children 0 (v.locals cfg).childArgs
            (v.atLoop cfg)).filter fun r => !r.isEmpty).foldl IntRect.unite IntRect.zero) := by
  obtain ⟨c1, c2⟩ := Call.result_cases hpass
  refine ⟨fun hr => by rw [c1 hr], ?_, ?_, ?_, ?_⟩
  · intro hr hn
    have hn' : (v.locals cfg).sortingStartIndex
        = ((v.atSizeTest cfg).layerListOf (v.locals cfg).descendants).length := hn
    rw [c2 hr, finishDescendants, if_pos hn']
  · intro hr hn
    have hn' : ¬ (v.locals cfg).sortingStartIndex
        = ((v.atSizeTest cfg).layerListOf (v.locals cfg).descendants).length := hn
    have hres := c2 hr
    rw [finishDescendants, if_neg hn'] at hres
    simp only at hres
    have hsome : ((v.result cfg).2.surface v.id).isSome = ((v.atAssign cfg).surface v.id).isSome := by
      rw [hres]
      exact addContributing_surface_isSome _ _ _ _
    refine ⟨?_, ?_, hsome⟩
    · intro hnone
      rw [hnone] at hsome
      have h0 : (v.atAssign cfg).surface v.id = none := by
        cases h : (v.atAssign cfg).surface v.id with
        | none => rfl
        | some rs => rw [h] at hsome; cases hsome
      rw [hres]
      simp only [Call.atAssign] at h0
      simp only [h0]
    · intro rs hrs
      rw [hres]
      simp only [Call.atAssign] at hrs
      simp only [hrs]
  · intro hts hid hr hn
    obtain ⟨hsome, _⟩ := Call.afterChildren_of_takesSurface hts
    obtain ⟨d1, d2⟩ := Call.locals_of_takesSurface hts
    have hne : (v.atListTest cfg).layerListOf v.id ≠ [] := fun he => hr ⟨hsome, hid, he⟩
    unfold Call.appendsNothing at hn
    rw [d1, d2, Call.atSizeTest, hsome] at hn
    simp only [hid, ne_eq, not_false_eq_true, decide_True, Bool.and_self, if_true] at hn
    exact hne (List.length_eq_zero.mp hn.symm)
  · rw [Call.localRect, localDrawableContentRectOfSubtree, Call.afterChildren, visitChildren_fst]


/-- C28, amended. For every visit of a layer that is not skipped as transparent:
when the visit ends at the back-face test of the surface of the layer, when it
removes the empty render surface of the layer, or when neither the layer nor a
layer of its subtree was appended to `descendants`, it returns the empty rect.
Otherwise it returns, for a layer that owns no render surface at the end of the
visit, the locally accumulated rect, and for a layer that owns a render surface,
the enclosing integer rect of the drawable content rect of that surface; a layer
other than the root that keeps the surface that the visit gave it is always in
this last case. The locally accumulated rect is the union of the rects that the
visits of the children return and that are not empty, united with the rect of
the layer in target space when the layer draws content, and intersected with the
clip rect when the subtree is clipped. -/
theorem C28_rect_returned_by_visit (cfg : Config) (v : Call)
    (hskip : subtreeShouldBeSkipped cfg.kind v.layer = false) :
    (rendersToSeparateSurface v.anc v.layer (anyDrawsContent v.children) v.args = true →
      surfaceIsCulled cfg v.anc v.layer v.args = true → (v.result cfg).1 = IntRect.zero)
    ∧ (¬ (rendersToSeparateSurface v.anc v.layer (anyDrawsContent v.children) v.args = true
        ∧ surfaceIsCulled cfg v.anc v.layer v.args = true) →
      ((v.removesSurface cfg → (v.result cfg).1 = IntRect.zero)
      ∧ (¬ v.removesSurface cfg → v.appendsNothing cfg → (v.result cfg).1 = IntRect.zero)
      ∧ (¬ v.removesSurface cfg → ¬ v.appendsNothing cfg →
        ((v.result cfg).2.surface v.id = none → (v.result cfg).1 = v.localRect cfg)
        ∧ (∀ rs, (v.atAssign cfg).surface v.id = some rs →
          (v.result cfg).1 = enclosingIntRect (cfg.ext.surfaceDrawableContentRect rs v.layer))
        ∧ ((v.result cfg).2.surface v.id).isSome = ((v.atAssign cfg).surface v.id).isSome)
      ∧ (v.takesSurface cfg → v.id ≠ [] → ¬ v.removesSurface cfg → ¬ v.appendsNothing cfg)
      ∧ v.localRect cfg
        = (if (v.locals cfg).subtreeShouldBeClipped = true then
            (if v.layer.drawsContent = true then
              (((childRects cfg (v.layer :: v.anc) v.id v.children 0 (v.locals cfg).childArgs
                (v.atLoop cfg)).filter fun r => !r.isEmpty).foldl IntRect.unite
                IntRect.zero).unite (v.locals cfg).rectInTargetSpace
            else ((childRects cfg (v.layer :: v.anc) v.id v.children 0 (v.locals cfg).childArgs
                (v.atLoop cfg)).filter fun r => !r.isEmpty).foldl IntRect.unite
                IntRect.zero).intersect (v.locals cfg).clipRectForSubtree
          else if v.layer.drawsContent = true then
            (((childRects cfg (v.layer :: v.anc) v.id v.children 0 (v.locals cfg).childArgs
              (v.atLoop cfg)).filter fun r => !r.isEmpty).foldl IntRect.unite
              IntRect.zero).unite (v.locals cfg).rectInTargetSpace
          else ((childRects cfg (v.layer :: v.anc) v.id v.children 0 (v.locals cfg).childArgs
              (v.atLoop cfg)).filter fun r => !r.isEmpty).foldl IntRect.unite IntRect.zero))) := by
  constructor
  · intro h1 h2
    rcases enterLayer_cases cfg v.anc v.id v.layer (anyDrawsContent v.children) v.args v.s with
      ⟨g, _⟩ | ⟨_, _, _, he⟩ | ⟨_, _, g, _⟩ | ⟨_, g, _⟩
    · rw [hskip] at g; cases g
    · rw [Call.result, calculateDrawTransformsInternal, he]
    · rw [h2] at g; cases g
    · rw [h1] at g; cases g
  · intro hn
    refine Call.result_rect cfg v ?_
    cases h1 : rendersToSeparateSurface v.anc v.layer (anyDrawsContent v.children) v.args with
    | false => exact Or.inr ⟨hskip, h1⟩
    | true =>
      cases h2 : surfaceIsCulled cfg v.anc v.layer v.args with
      | false => exact Or.inl ⟨hskip, h1, h2⟩
      | true => exact absurd ⟨h1, h2⟩ hn

set_option maxRecDepth 100000 in
/-- C28, witness: the child of `scenarioTree`, which draws content and is given
no render surface: its visit returns its rect in target space. -/
theorem C28_rect_returned_by_visit_witness :
    (((rootCall (scenarioConfig TreeKind.layerImpl) scenarioTree ⟨100, 100⟩
        State.initial).firstChild (scenarioConfig TreeKind.layerImpl) scenarioChild
        []).result (scenarioConfig TreeKind.layerImpl)).1 = ⟨10, 10, 50, 50⟩ :=
  (((C28_rect_returned_by_visit (scenarioConfig TreeKind.layerImpl)
    ((rootCall (scenarioConfig TreeKind.layerImpl) scenarioTree ⟨100, 100⟩
      State.initial).firstChild (scenarioConfig TreeKind.layerImpl) scenarioChild [])
    (by decide!)).2 (by decide!)).2.2.1 (by decide!) (by decide!)).1
    (Option.isNone_iff_eq_none.mp (by decide!)) |>.trans (by decide!)

/-! ## The claim on the sort of the descendants -/

/-- The call of a walk on the root layer starts with an empty layer list of the
surface of the root layer. -/
theorem walkVisits_root_list {cfg : Config} {rootLayer : LayerType} {vp : IntSize} {s : State}
    {v : Call} (hv : WalkVisits cfg rootLayer vp s v) (hid : v.id = []) :
    v.s.layerListOf [] = [] := by
  refine walkVisits_induction (fun v => v.id = [] → v.s.layerListOf [] = []) ?_ ?_ v hv hid
  · intro _
    obtain ⟨⟨rs, hrs, _, hl⟩, _⟩ := setup_root vp s
    simp only [rootCall, State.layerListOf, hrs, hl]
  · rintro p c _ _ ⟨_, _, j, _, _, _, hcid, _⟩ _ hc
    rw [hcid] at hc
    cases hc

/-- What `sortDescendants` does: nothing unless the layer preserves 3D and has
no parent or a parent that does not preserve 3D; then it sorts the entries of
`descendants` from `sortingStartIndex` on and leaves the entries before as they
are. -/
theorem sortDescendants_spec (cfg : Config) (anc : List LayerAttrs) (layer : LayerAttrs)
    (loc : Locals) (u : State) :
    (¬ (layer.preserves3D = true
        ∧ (anc.head? = none ∨ ∃ p, anc.head? = some p ∧ p.preserves3D = false)) →
      sortDescendants cfg anc layer loc u = u)
    ∧ ((sortDescendants cfg anc layer loc u).layerListOf loc.descendants
        = u.layerListOf loc.descendants
      ∨ (sortDescendants cfg anc layer loc u).layerListOf loc.descendants
        = (u.layerListOf loc.descendants).take loc.sortingStartIndex
          ++ (cfg.ext.sortLayers u
              ((u.layerListOf loc.descendants).drop loc.sortingStartIndex)).val)
    ∧ ((sortDescendants cfg anc layer loc u).layerListOf loc.descendants).take
        loc.sortingStartIndex
      = (u.layerListOf loc.descendants).take loc.sortingStartIndex
    ∧ (∀ q, q ≠ loc.descendants → (sortDescendants cfg anc layer loc u).layers q = u.layers q)
    ∧ (sortDescendants cfg anc layer loc u).renderSurfaceLayerList = u.renderSurfaceLayerList := by
  have hlist : (sortDescendants cfg anc layer loc u).layerListOf loc.descendants
        = u.layerListOf loc.descendants
      ∨ (sortDescendants cfg anc layer loc u).layerListOf loc.descendants
        = (u.layerListOf loc.descendants).take loc.sortingStartIndex
          ++ (cfg.ext.sortLayers u
              ((u.layerListOf loc.descendants).drop loc.sortingStartIndex)).val := by
    unfold sortDescendants
    simp only
    split_ifs with h
    · rcases Option.eq_none_or_eq_some (u.surface loc.descendants) with hs | ⟨rs, hs⟩
      · left
        simp only [State.surface] at hs
        simp [State.layerListOf, State.surface, State.modifySurface, hs]
      · right
        simp only [State.surface] at hs
        simp [State.layerListOf, State.surface, State.modifySurface, hs]
    · exact Or.inl rfl
  refine ⟨?_, hlist, ?_, ?_, sortDescendants_rsll _ _ _ _ _⟩
  · intro hn
    unfold sortDescendants
    simp only
    rw [if_neg]
    intro hc
    apply hn
    simp only [Bool.and_eq_true, Bool.or_eq_true, Option.isNone_iff_eq_none,
      Bool.not_eq_true'] at hc
    refine ⟨hc.1.2, ?_⟩
    rcases hc.2 with h | h
    · exact Or.inl h
    · cases ha : anc.head? with
      | none => exact Or.inl rfl
      | some p =>
        right
        rw [ha] at h
        exact ⟨p, rfl, by simpa using h⟩
  · rcases hlist with h | h
    · rw [h]
    · rw [h]
      by_cases hk : loc.sortingStartIndex ≤ (u.layerListOf loc.descendants).length
      · rw [List.take_append_of_le_length (by simp [hk])]
        simp
      · have hk' : (u.layerListOf loc.descendants).length ≤ loc.sortingStartIndex := by omega
        have hd : (u.layerListOf loc.descendants).drop loc.sortingStartIndex = [] :=
          List.drop_eq_nil_of_le hk'
        have hsorted : (cfg.ext.sortLayers u
            ((u.layerListOf loc.descendants).drop loc.sortingStartIndex)).val = [] := by
          have hp := (cfg.ext.sortLayers u
            ((u.layerListOf loc.descendants).drop loc.sortingStartIndex)).property
          rw [hd] at hp ⊢
          exact List.Perm.eq_nil hp
        rw [hsorted]
        simp
  · intro q hq
    unfold sortDescendants
    simp only
    split_ifs
    · simp [State.modifySurface, hq]
    · rfl

/-- The layer list of `descendants` in the state that the branch of a call of a
walk leaves is the list that the visit was given, as it was at the start of the
visit, or the empty list of a new surface. -/
theorem walkVisits_branch_list {cfg : Config} {rootLayer : LayerType} {vp : IntSize} {s : State}
    {v : Call} (hv : WalkVisits cfg rootLayer vp s v)
    (hpass : v.takesSurface cfg ∨ v.takesNoSurface cfg) :
    (v.branch cfg).state.layerListOf (v.locals cfg).descendants = []
    ∨ ((v.locals cfg).descendants = v.args.layerList
      ∧ (v.branch cfg).state.layerListOf (v.locals cfg).descendants
        = v.s.layerListOf v.args.layerList) := by
  obtain ⟨_, hsuffix, _⟩ := walkVisits_args cfg rootLayer vp s v hv
  obtain ⟨_, _, _, l4, _⟩ := childrenOf_locals cfg v.anc v.id v.layer v.args (v.branch cfg)
  rcases hpass with ht | ht
  · left
    have hb := Call.branch_of_takesSurface ht
    obtain ⟨_, _, _, rs, hrs, hl, _⟩ := enterSurface_layers_self v.layer v.id v.args
      (scaleLayerToContent v.layer (combinedTransformOf v.layer v.args))
      (cfg.ext.computeTransform2dScaleComponents (combinedTransformOf v.layer v.args))
      (accumulatedDrawOpacity v.anc.head? (v.s.layers v.id.tail) v.layer)
      (animatingTransforms v.anc.head? ((beginLayer cfg v.id v.layer v.args v.s).layers
        v.id.tail) v.layer)
      (beginLayer cfg v.id v.layer v.args v.s)
    have hs : (v.branch cfg).state.surface v.id = some rs := by
      rw [hb]; exact hrs
    rw [(Call.locals_of_takesSurface ht).1]
    simp [State.layerListOf, hs, hl]
  · have hb := Call.branch_of_takesNoSurface ht
    by_cases hid : v.id = []
    · left
      have hnil : v.args.layerList = [] := by
        rw [hid] at hsuffix
        exact List.suffix_nil.mp hsuffix
      have hd : (v.locals cfg).descendants = [] := by
        rw [Call.locals, l4, hnil, hid]
        simp
      rw [hd, hb]
      have h0 := walkVisits_root_list hv hid
      have hsurf := enterNoSurface_root_surface v.args
        (scaleLayerToContent v.layer (combinedTransformOf v.layer v.args))
        (combinedTransformOf v.layer v.args)
        (accumulatedDrawOpacity v.anc.head? (v.s.layers v.id.tail) v.layer)
        (animatingTransforms v.anc.head? ((beginLayer cfg v.id v.layer v.args v.s).layers
          v.id.tail) v.layer)
        (beginLayer cfg [] v.layer v.args v.s)
      have hbl := (beginLayer_layers_self cfg [] v.layer v.args v.s).1
      simp only [State.layerListOf, State.surface] at h0 hsurf ⊢
      simp only [noSurfaceBranch, hid] at hsurf ⊢
      rw [hsurf, hbl]
      cases hrs : (v.s.layers []).renderSurface with
      | none => rfl
      | some rs =>
        rw [hrs] at h0
        simpa using h0
    · right
      obtain ⟨_, _, _, e4, _⟩ := enterNoSurface_layers_self v.id v.args
        (scaleLayerToContent v.layer (combinedTransformOf v.layer v.args))
        (combinedTransformOf v.layer v.args)
        (accumulatedDrawOpacity v.anc.head? (v.s.layers v.id.tail) v.layer)
        (animatingTransforms v.anc.head? ((beginLayer cfg v.id v.layer v.args v.s).layers
          v.id.tail) v.layer)
        (beginLayer cfg v.id v.layer v.args v.s)
      have hs : (v.branch cfg).state.surface v.id = none := by
        rw [hb]; exact (e4 hid).1
      have hd : (v.locals cfg).descendants = v.args.layerList := by
        rw [Call.locals, l4, hs]
        rfl
      have hne : v.args.layerList ≠ v.id := by
        intro e
        rw [e] at hsuffix
        exact InSubtree.inSubtree_not_tail hid hsuffix
      refine ⟨hd, ?_⟩
      rw [hd, hb]
      simp only [State.layerListOf, State.surface, noSurfaceBranch,
        enterNoSurface_layers_other _ _ _ _ _ _ _ _ hne, beginLayer_layers_other _ _ _ _ _ _ hne]

/-- C23. For every visit of a walk that passes the early returns and every
sorter (a sorter returns a permutation of the range that it is given): the
entries that the layer list given to the visit held at the start of the visit
are its first entries after the visit, and so are the entries that `descendants`
held when the visit recorded its size as `sortingStartIndex`. The sorter is
called only when the layer preserves 3D and has no parent or a parent that does
not preserve 3D, and then only on the entries of `descendants` from
`sortingStartIndex` on, the entries before staying as they are; a layer whose
parent preserves 3D never calls the sorter. -/
theorem C23_sort_leaves_earlier_descendants (cfg : Config) (rootLayer : LayerType)
    (deviceViewportSize : IntSize) (s : State) (v : Call)
    (hv : WalkVisits cfg rootLayer deviceViewportSize s v)
    (hpass : v.takesSurface cfg ∨ v.takesNoSurface cfg) :
    v.s.layerListOf v.args.layerList <+: (v.result cfg).2.layerListOf v.args.layerList
    ∧ (v.locals cfg).sortingStartIndex
      = ((v.branch cfg).state.layerListOf (v.locals cfg).descendants).length
    ∧ (v.branch cfg).state.layerListOf (v.locals cfg).descendants
      <+: (v.result cfg).2.layerListOf (v.locals cfg).descendants
    ∧ v.atAssign cfg = sortDescendants cfg v.anc v.layer (v.locals cfg) (v.atSizeTest cfg)
    ∧ (∀ u : State,
      (¬ (v.layer.preserves3D = true
          ∧ (v.anc.head? = none ∨ ∃ p, v.anc.head? = some p ∧ p.preserves3D = false)) →
        sortDescendants cfg v.anc v.layer (v.locals cfg) u = u)
      ∧ ((sortDescendants cfg v.anc v.layer (v.locals cfg) u).layerListOf
            (v.locals cfg).descendants = u.layerListOf (v.locals cfg).descendants
        ∨ (sortDescendants cfg v.anc v.layer (v.locals cfg) u).layerListOf
            (v.locals cfg).descendants
          = (u.layerListOf (v.locals cfg).descendants).take (v.locals cfg).sortingStartIndex
            ++ (cfg.ext.sortLayers u ((u.layerListOf (v.locals cfg).descendants).drop
                (v.locals cfg).sortingStartIndex)).val)
      ∧ ((sortDescendants cfg v.anc v.layer (v.locals cfg) u).layerListOf
          (v.locals cfg).descendants).take (v.locals cfg).sortingStartIndex
        = (u.layerListOf (v.locals cfg).descendants).take (v.locals cfg).sortingStartIndex
      ∧ (∀ q, q ≠ (v.locals cfg).descendants →
        (sortDescendants cfg v.anc v.layer (v.locals cfg) u).layers q = u.layers q)
      ∧ (sortDescendants cfg v.anc v.layer (v.locals cfg) u).renderSurfaceLayerList
        = u.renderSurfaceLayerList)
    ∧ (∀ p, v.anc.head? = some p → p.preserves3D = true →
      ∀ u : State, sortDescendants cfg v.anc v.layer (v.locals cfg) u = u) := by
  obtain ⟨_, hsuffix, _⟩ := walkVisits_args cfg rootLayer deviceViewportSize s v hv
  have h1 : v.s.layerListOf v.args.layerList
      <+: (v.result cfg).2.layerListOf v.args.layerList := by
    by_cases hid : v.id = []
    · have hnil : v.args.layerList = [] := by
        rw [hid] at hsuffix
        exact List.suffix_nil.mp hsuffix
      rw [hnil, walkVisits_root_list hv hid]
      exact List.nil_prefix
    · obtain ⟨new, st, _⟩ := walk_step (.mk v.layer v.children) cfg v.anc v.id v.args v.s
      have hnot : ¬ InSubtree v.id v.args.layerList := fun hin =>
        InSubtree.inSubtree_not_tail hid (hin.inSubtree_trans hsuffix)
      exact (st.frame v.args.layerList hnot).2
  refine ⟨h1, ?_, ?_, rfl, fun u => sortDescendants_spec cfg v.anc v.layer (v.locals cfg) u, ?_⟩
  · exact (childrenOf_locals cfg v.anc v.id v.layer v.args (v.branch cfg)).2.2.2.2
  · rcases walkVisits_branch_list hv hpass with h | ⟨hd, h⟩
    · rw [h]
      exact List.nil_prefix
    · rw [h, hd]
      exact h1
  · intro p hp h3 u
    refine (sortDescendants_spec cfg v.anc v.layer (v.locals cfg) u).1 ?_
    rintro ⟨_, hn | ⟨p', hp', h3'⟩⟩
    · rw [hp] at hn
      cases hn
    · rw [hp] at hp'
      cases hp'
      rw [h3] at h3'
      cases h3'

set_option maxRecDepth 100000 in
/-- C23, witness: the child of `scenarioTree`, which is appended to the layer
list of the surface of the root after the root itself. -/
theorem C23_sort_leaves_earlier_descendants_witness :
    ([[]] : List LayerId)
      <+: (((rootCall (scenarioConfig TreeKind.layerImpl) scenarioTree ⟨100, 100⟩
        State.initial).firstChild (scenarioConfig TreeKind.layerImpl) scenarioChild
        []).result (scenarioConfig TreeKind.layerImpl)).2.layerListOf [] := by
  have h := (C23_sort_leaves_earlier_descendants (scenarioConfig TreeKind.layerImpl)
    scenarioTree ⟨100, 100⟩ State.initial
    ((rootCall (scenarioConfig TreeKind.layerImpl) scenarioTree ⟨100, 100⟩
      State.initial).firstChild (scenarioConfig TreeKind.layerImpl) scenarioChild [])
    (walkVisits_firstChild _ _ _ _ _ _ _ (by decide!)) (Or.inr (by decide!))).1
  have e : ((rootCall (scenarioConfig TreeKind.layerImpl) scenarioTree ⟨100, 100⟩
      State.initial).firstChild (scenarioConfig TreeKind.layerImpl) scenarioChild
      []).s.layerListOf
      ((rootCall (scenarioConfig TreeKind.layerImpl) scenarioTree ⟨100, 100⟩
        State.initial).firstChild (scenarioConfig TreeKind.layerImpl) scenarioChild
        []).args.layerList = [[]] := by decide!
  rw [e] at h
  exact h

end cc
